import Mathlib

/-!
# synctv: room runtime, authentication, movie handlers, vendor caches

A shallow embedding, with explicit state passing, of

* the room runtime: `internal/op/current.go`, `internal/op/client.go`,
  `internal/op/hub.go`, `internal/op/users.go`;
* token validation and room IDs: `server/middlewares/auth.go`;
* the movie handlers: `server/handlers/movie.go`;
* the Bilibili caches: `internal/cache/bilibili.go`;
* the Emby proxy handlers: `server/handlers/vendors/vendoremby/emby.go`;
* the vendor backends: `internal/vendor/vendor.go`.

Conventions of the embedding

* A Go method with a pointer receiver becomes a function that takes the
  receiver's state and returns the new state next to the result.
* `error` results are `Option GoError`, `none` standing for `nil`.
* A call that can block on a channel operation returns an `Option` whose
  `none` means "the call does not return in this state".
* The wall clock is an explicit argument `now` (seconds). A `float64`
  quantity is the rational it denotes; the playback positions are computed
  exactly, the operations of `formatTime` round as `float64` operations do.
* Locks and wait groups guard against interleavings that a sequential
  execution does not have; they carry no state in the embedding (the lock of
  the vendor backends, taken with `TryLock`, is a flag of the memory).
* Where a function writes through pointers that other values share, the
  objects live in stores and a pointer is an index into its store.
* A loop without a bound of its own is run with fuel.
-/

set_option linter.dupNamespace false
set_option maxRecDepth 8192

/-! ## Errors -/

/-- Error values returned by the `op` package. -/
inductive GoError where
  | ErrAlreadyClosed : GoError
  | New (text : String) : GoError
  | ErrNoPermission : GoError
  deriving DecidableEq, Repr

/-! ## `model.Current` -/

namespace model

/-- Modelled from the spec: `model.Status` (its declaration is not among the
sources). "Status {is-playing, seek (seconds), playback-rate, updated-at
(server time)}"; the exported field names are the ones `Client.SetStatus`
reads. -/
structure Status where
  IsPlaying : Bool
  CurrentTime : ℚ
  PlaybackRate : ℚ
  updatedAt : ℚ
  deriving DecidableEq, Repr

/-- Modelled from the spec: `model.CurrentMovie`, the "movie reference"
held by the current state (its declaration is not among the sources). -/
structure CurrentMovie where
  ID : String
  deriving DecidableEq, Repr

/-- Modelled from the spec: `model.Current`, "Movie reference + Status"
(its declaration is not among the sources). -/
structure Current where
  Movie : CurrentMovie
  Status : Status
  deriving DecidableEq, Repr

/-- Modelled from the spec: `model.Current.UpdateStatus` (not among the
sources). "Any read first advances seek forward: if playing,
effective-seek = seek + (now − updated-at) × rate; else unchanged."  The
callers in `current.go` discard the result and return the receiver's state, so
the advance is stored in the receiver; the stored position is then the
position as of `now`, and is stamped with it. -/
def Current.UpdateStatus (c : model.Current) (now : ℚ) : model.Status × model.Current :=
  let s : model.Status :=
    if c.Status.IsPlaying then
      { c.Status with
        CurrentTime := c.Status.CurrentTime + (now - c.Status.updatedAt) * c.Status.PlaybackRate
        updatedAt := now }
    else
      { c.Status with updatedAt := now }
  (s, { c with Status := s })

/-- Modelled from the spec: `model.Current.SetStatus` (not among the
sources). "The server records updated-at = now,
seek = clamp(seek + clientTimeDiff, 0, ∞), rate = rate,
is-playing = playing." -/
def Current.SetStatus (c : model.Current) (now : ℚ) (playing : Bool) (seek rate timeDiff : ℚ) :
    model.Status × model.Current :=
  let s : model.Status :=
    { IsPlaying := playing
      CurrentTime := max (seek + timeDiff) 0
      PlaybackRate := rate
      updatedAt := now }
  (s, { c with Status := s })

/-- Modelled from the spec: `model.Current.SetSeek` (not among the sources).
The spec describes it only through `SetMovie` ("resets seek to 0"), whose
law `SetMovie(m, play); Current().Status.seek == 0` needs, for a playing
status, `updated-at` to be the time of the reset; a position is recorded the
way `SetStatus` records one: the clamped sum, stamped with the time of the
call. -/
def Current.SetSeek (c : model.Current) (now : ℚ) (seek timeDiff : ℚ) :
    model.Status × model.Current :=
  let s : model.Status :=
    { c.Status with
      CurrentTime := max (seek + timeDiff) 0
      updatedAt := now }
  (s, { c with Status := s })

end model

/-! ## `op.current` (current.go) -/

namespace op

/-- The `current` struct of `current.go`; the lock carries no state. -/
structure current where
  roomID : String
  current : model.Current
  deriving DecidableEq, Repr

/-- `func (c *current) Current() model.Current`. -/
def current.Current (c : op.current) (now : ℚ) : model.Current × op.current :=
  let c1 : op.current := { c with current := (c.current.UpdateStatus now).2 }
  (c1.current, c1)

/-- `func (c *current) CurrentMovie() model.CurrentMovie`. -/
def current.CurrentMovie (c : op.current) : model.CurrentMovie :=
  c.current.Movie

/-- `func (c *current) SetMovie(movie model.CurrentMovie, play bool)`.
The deferred `db.SetRoomCurrent` only logs its failure and is left out. -/
def current.SetMovie (c : op.current) (now : ℚ) (movie : model.CurrentMovie) (play : Bool) :
    op.current :=
  let cur1 : model.Current := { c.current with Movie := movie }
  let cur2 : model.Current := (cur1.SetSeek now 0 0).2
  let cur3 : model.Current := { cur2 with Status := { cur2.Status with IsPlaying := play } }
  { c with current := cur3 }

/-- `func (c *current) Status() model.Status`. -/
def current.Status (c : op.current) (now : ℚ) : model.Status × op.current :=
  let c1 : op.current := { c with current := (c.current.UpdateStatus now).2 }
  (c1.current.Status, c1)

/-- `func (c *current) SetStatus(playing bool, seek, rate, timeDiff float64) *model.Status`.
The deferred `db.SetRoomCurrent` only logs its failure and is left out. -/
def current.SetStatus (c : op.current) (now : ℚ) (playing : Bool) (seek rate timeDiff : ℚ) :
    model.Status × op.current :=
  let r := c.current.SetStatus now playing seek rate timeDiff
  (r.1, { c with current := r.2 })

/-- One `SetStatus` call together with the time at which it runs. -/
structure SetStatusCall where
  now : ℚ
  playing : Bool
  seek : ℚ
  rate : ℚ
  timeDiff : ℚ
  deriving DecidableEq, Repr

/-- The state after a `SetStatus` call. -/
def current.applySetStatus (c : op.current) (k : SetStatusCall) : op.current :=
  (c.SetStatus k.now k.playing k.seek k.rate k.timeDiff).2

/-- The state after a sequence of `SetStatus` calls, first call first. -/
def current.runSetStatus (c : op.current) (ks : List SetStatusCall) : op.current :=
  ks.foldl current.applySetStatus c

end op

/-! ## Messages -/

namespace pb

/-- Modelled from the spec: the message types of `proto/message` that the `op`
package emits (the generated code is not among the sources). -/
inductive MessageType where
  | CHAT : MessageType
  | STATUS : MessageType
  | VIEWER_COUNT : MessageType
  deriving DecidableEq, Repr

/-- Modelled from the spec: `pb.Sender`, "sender: {userId, username}". -/
structure Sender where
  Username : String
  UserId : String
  deriving DecidableEq, Repr

/-- Modelled from the spec: `pb.Status`, "Payload for STATUS:
{is-playing, current-time, playback-rate}". -/
structure Status where
  IsPlaying : Bool
  CurrentTime : ℚ
  PlaybackRate : ℚ
  deriving DecidableEq, Repr

/-- Modelled from the spec: the payload variants that the `op` package builds. -/
inductive Payload where
  | empty : Payload
  | ChatContent (text : String) : Payload
  | PlaybackStatus (status : pb.Status) : Payload
  | ViewerCount (count : Int) : Payload
  deriving DecidableEq, Repr

/-- Modelled from the spec: `pb.Message`, the typed envelope
"{type, timestamp, sender, payload-variant}". -/
structure Message where
  Type_ : MessageType
  Timestamp : Int
  Sender : Option pb.Sender
  Payload : pb.Payload
  deriving DecidableEq, Repr

end pb

namespace utils

/-- Modelled from the spec: `utils.In` (utils.go is not among the sources),
the membership test behind "user-ID ∉ ignore-user-IDs". -/
def In (items : List String) (item : String) : Bool :=
  items.contains item

end utils

/-! ## Channels and maps -/

/-- A buffered Go channel: the pending elements in FIFO order, the capacity
given to `make`, and the number of `close` operations performed on it (Go
admits one; a second one panics). -/
structure Chan (α : Type) where
  buf : List α
  cap : Nat
  closes : Nat
  deriving DecidableEq, Repr

/-- The channel built by `make(chan T, cap)`. -/
def Chan.make {α : Type} (cap : Nat) : Chan α :=
  { buf := [], cap := cap, closes := 0 }

/-- Whether a send on the channel proceeds without waiting. -/
def Chan.hasRoom {α : Type} (ch : Chan α) : Bool :=
  decide (ch.buf.length < ch.cap)

/-- The channel after a send that found room. -/
def Chan.push {α : Type} (ch : Chan α) (x : α) : Chan α :=
  { ch with buf := ch.buf ++ [x] }

/-- The channel after `close(ch)`. -/
def Chan.close {α : Type} (ch : Chan α) : Chan α :=
  { ch with closes := ch.closes + 1 }

namespace gomap

/-- A Go map (and the `rwmap.RWMap` wrapper of the hub) with string keys, as
an association list. Iteration visits the entries in list order; Go leaves
the order open, and every list order is a state of the embedding. Values the
source holds by pointer are stored in place, and a mutation through the
pointer is a `set` of the entry. -/
abbrev Map (V : Type) := List (String × V)

/-- Reading `m[k]` / `Load(k)`. -/
def Load {V : Type} (m : Map V) (k : String) : Option V :=
  m.lookup k

/-- Replacing the value of every entry with key `k`, the entries keeping their place. -/
def set {V : Type} (m : Map V) (k : String) (v : V) : Map V :=
  m.map (fun e => if e.1 == k then (k, v) else e)

/-- Writing `m[k] = v` / `Store(k, v)`. -/
def Store {V : Type} (m : Map V) (k : String) (v : V) : Map V :=
  match m.lookup k with
  | some _ => set m k v
  | none => m ++ [(k, v)]

/-- `LoadOrStore(k, v)`: the value now under `k`, whether it was there before,
and the map. -/
def LoadOrStore {V : Type} (m : Map V) (k : String) (v : V) : (V × Bool) × Map V :=
  match m.lookup k with
  | some x => ((x, true), m)
  | none => ((v, false), m ++ [(k, v)])

/-- `delete(m, k)`; also `CompareAndDelete(k, v)` when `v` is the value the
caller has just loaded from `k`. -/
def Delete {V : Type} (m : Map V) (k : String) : Map V :=
  m.filter (fun e => !(e.1 == k))

/-- `len(m)` / `Len()`. -/
def Len {V : Type} (m : Map V) : Int :=
  (m.length : Int)

end gomap

/-- Running a per-element step that may block over a list, left to right;
`none` as soon as one step blocks. -/
def mapBlocking {α β : Type} (f : α → Option β) : List α → Option (List β)
  | [] => some []
  | x :: xs =>
    match f x with
    | none => none
    | some y =>
      match mapBlocking f xs with
      | none => none
      | some ys => some (y :: ys)

/-! ## `model.User` -/

namespace model

/-- Modelled from the spec: `model.Role` (its declaration is not among the
sources), "role ∈ {banned, pending, user, admin, root, guest}", with the
constant names that `db/user.go` uses. -/
inductive Role where
  | RoleBanned : Role
  | RolePending : Role
  | RoleUser : Role
  | RoleAdmin : Role
  | RoleRoot : Role
  | RoleGuest : Role
  deriving DecidableEq, Repr

/-- Modelled from the spec: `model.User` (its declaration is not among the
sources), reduced to the fields that `op/users.go` and `db/user.go` read:
identity, role and the stored password hash (a byte slice). -/
structure User where
  ID : String
  Username : String
  Role : Role
  HashedPassword : List Nat
  deriving DecidableEq, Repr

end model

/-! ## `op.Client` (client.go) -/

namespace op

/-- Modelled from the spec: the `Message` interface of the `op` package (its
declaration is not among the sources), with the two implementations that
`client.go` and `hub.go` send: a `*pb.Message` or a `*PingMessage`. -/
inductive Message where
  | pb (m : pb.Message) : Message
  | PingMessage : Message
  deriving DecidableEq, Repr

/-- Modelled from the spec: `op.User` (user.go is not among the sources): the
embedded `model.User`, reduced to the fields that `client.go`, `hub.go`,
`users.go` and the middlewares read, and the `version` that `LoadOrInitUser`
sets. -/
structure User where
  ID : String
  Username : String
  Role : model.Role := model.Role.RoleUser
  HashedPassword : List Nat := []
  version : Nat := 0
  deriving DecidableEq, Repr

/-- The `Client` struct. `c` is the send channel, `closed` the atomic flag.
The room, hub and socket pointers are passed to the methods that use them;
the wait group carries no state. -/
structure Client where
  u : User
  c : Chan Message
  connID : String
  closed : Nat
  rtcJoined : Bool
  deriving DecidableEq, Repr

/-- `newClient`, with the fresh UUID as an argument. -/
def newClient (user : User) (uuid : String) : Client :=
  { u := user, c := Chan.make 128, connID := uuid, closed := 0, rtcJoined := false }

/-- `func (c *Client) ConnID() string`. -/
def Client.ConnID (c : Client) : String :=
  c.connID

/-- `func (c *Client) RTCJoined() bool`. -/
def Client.RTCJoined (c : Client) : Bool :=
  c.rtcJoined

/-- `func (c *Client) SetRTCJoined(joined bool)`. -/
def Client.SetRTCJoined (c : Client) (joined : Bool) : Client :=
  { c with rtcJoined := joined }

/-- `func (c *Client) Closed() bool`. -/
def Client.Closed (c : Client) : Bool :=
  c.closed == 1

/-- `func (c *Client) Send(msg Message) error`. The channel send `c.c <- msg`
waits while the buffer is full: `none`. -/
def Client.Send (c : Client) (msg : Message) : Option (Option GoError × Client) :=
  if c.Closed then
    some (some GoError.ErrAlreadyClosed, c)
  else if c.c.hasRoom then
    some (none, { c with c := c.c.push msg })
  else
    none

/-- `func (c *Client) Close() error`: compare-and-swap of the flag from 0 to
1, then `close(c.c)`. -/
def Client.Close (c : Client) : Option GoError × Client :=
  if c.closed == 0 then
    (none, { c with closed := 1, c := c.c.close })
  else
    (some GoError.ErrAlreadyClosed, c)

/-- `func (c *Client) GetReadChan() <-chan Message`. -/
def Client.GetReadChan (c : Client) : Chan Message :=
  c.c

end op

/-! ## `op.Hub` (hub.go) -/

namespace op

/-- The `clients` struct: the connections of one user by connection ID. A
nil Go map reads as the empty map, so `make` on first insertion changes
nothing in the embedding; the lock carries no state. -/
structure clients where
  m : gomap.Map Client
  deriving DecidableEq, Repr

/-- The `broadcastMessage` struct. -/
structure broadcastMessage where
  data : Message
  ignoreConnID : List String
  ignoreUserID : List String
  rtcJoined : Bool
  deriving DecidableEq, Repr

/-- `type BroadcastConf func(*broadcastMessage)`. -/
abbrev BroadcastConf := broadcastMessage → broadcastMessage

/-- `func WithRTCJoined() BroadcastConf`. -/
def WithRTCJoined : BroadcastConf :=
  fun bm => { bm with rtcJoined := true }

/-- `func WithIgnoreConnID(connID ...string) BroadcastConf`. -/
def WithIgnoreConnID (connID : List String) : BroadcastConf :=
  fun bm => { bm with ignoreConnID := connID }

/-- `func WithIgnoreID(id ...string) BroadcastConf`. -/
def WithIgnoreID (id : List String) : BroadcastConf :=
  fun bm => { bm with ignoreUserID := id }

/-- The `Hub` struct. `clients` is the registry: user ID to that user's
`clients`. `once` is the done flag of `utils.Once`; the wait group carries no
state. -/
structure Hub where
  broadcast : Chan broadcastMessage
  exit : Chan Unit
  id : String
  clients : gomap.Map op.clients
  once : Bool
  closed : Nat
  deriving DecidableEq, Repr

/-- `func newHub(id string) *Hub`. -/
def newHub (id : String) : Hub :=
  { broadcast := Chan.make 128, exit := Chan.make 0, id := id, clients := [],
    once := false, closed := 0 }

/-- `func (h *Hub) Start() error`: spawns the serve and ping loops once. The
loops are embedded by their iterations (`Hub.serveStep`), so only the flag of
the `Once` changes. -/
def Hub.Start (h : Hub) : Option GoError × Hub :=
  (none, { h with once := true })

/-- `func (h *Hub) Closed() bool`. -/
def Hub.Closed (h : Hub) : Bool :=
  h.closed == 1

/-- The body of the inner loop of `serve` for one client `c`: the two
`continue` filters, then `c.Send`, and `c.Close()` when the send fails.
`none` when the send waits on a full channel. -/
def Hub.serveClient (message : broadcastMessage) (c : Client) : Option Client :=
  if utils.In message.ignoreUserID c.u.ID || utils.In message.ignoreConnID c.ConnID then
    some c
  else if message.rtcJoined && !c.RTCJoined then
    some c
  else
    match c.Send message.data with
    | none => none
    | some (none, c1) => some c1
    | some (some _, c1) => some c1.Close.2

/-- The callback that `serve` passes to `h.clients.Range`: the loop over one
user's connections. -/
def Hub.serveBucket (message : broadcastMessage) (cs : op.clients) : Option op.clients :=
  match mapBlocking (fun e => (Hub.serveClient message e.2).map (fun c => (e.1, c))) cs.m with
  | none => none
  | some m1 => some { m := m1 }

/-- The `case message := <-h.broadcast` branch of `serve`, for the dequeued
`message`: `h.clients.Range` over the registry. (`devMessage` only logs.) -/
def Hub.serveMessage (h : Hub) (message : broadcastMessage) : Option Hub :=
  match mapBlocking (fun e => (Hub.serveBucket message e.2).map (fun b => (e.1, b)))
      h.clients with
  | none => none
  | some cl => some { h with clients := cl }

/-- One iteration of the `for`/`select` loop of `serve` that takes the
broadcast case: dequeue the oldest descriptor and dispatch it. `none` when
there is nothing to dequeue or the dispatch waits on a full client channel. -/
def Hub.serveStep (h : Hub) : Option Hub :=
  match h.broadcast.buf with
  | [] => none
  | message :: rest =>
    Hub.serveMessage { h with broadcast := { h.broadcast with buf := rest } } message

/-- The first `n` iterations of the serve loop. -/
def Hub.serveN : Nat → Hub → Option Hub
  | 0, h => some h
  | n + 1, h =>
    match Hub.serveStep h with
    | none => none
    | some h1 => Hub.serveN n h1

/-- The inner loop of `Close` over one user's connections:
`delete(clients.m, id); c.Close()`. Returns the emptied `clients` and the
client objects in their state after `Close`. -/
def Hub.closeBucket (cs : op.clients) : op.clients × List Client :=
  cs.m.foldl
    (fun acc e => ({ m := gomap.Delete acc.1.m e.1 }, acc.2 ++ [e.2.Close.2]))
    (cs, [])

/-- `func (h *Hub) Close() error`. The third component lists the client
objects that the call removed from the registry, in their state after the
call (their owners still hold them by pointer). -/
def Hub.Close (h : Hub) : Option GoError × Hub × List Client :=
  if h.closed == 0 then
    let h1 : Hub := { h with closed := 1, exit := h.exit.close }
    let r := h1.clients.foldl
      (fun acc e => (gomap.Delete acc.1 e.1, acc.2 ++ (Hub.closeBucket e.2).2))
      (h1.clients, [])
    (none, { h1 with clients := r.1, broadcast := h1.broadcast.close }, r.2)
  else
    (some GoError.ErrAlreadyClosed, h, [])

/-- `func (h *Hub) Broadcast(data Message, conf ...BroadcastConf) error`.
Past the `Closed()` check the `select` sends on `h.broadcast` when it has
room; it falls to `<-h.exit` when that channel is closed; it waits (`none`)
otherwise. `h.once.Done()` marks the `Once` as done. -/
def Hub.Broadcast (h : Hub) (data : Message) (conf : List BroadcastConf) :
    Option (Option GoError × Hub) :=
  if h.Closed then
    some (some GoError.ErrAlreadyClosed, h)
  else
    let h1 : Hub := { h with once := true }
    let msg : broadcastMessage :=
      conf.foldl (fun bm c => c bm)
        { data := data, ignoreConnID := [], ignoreUserID := [], rtcJoined := false }
    if h1.broadcast.hasRoom then
      some (none, { h1 with broadcast := h1.broadcast.push msg })
    else if h1.exit.closes != 0 then
      some (some GoError.ErrAlreadyClosed, h1)
    else
      none

/-- `func (h *Hub) GetClientByConnID(userID, connID string) (*Client, bool)`. -/
def Hub.GetClientByConnID (h : Hub) (userID connID : String) : Option Client :=
  match gomap.Load h.clients userID with
  | none => none
  | some c => gomap.Load c.m connID

/-- `func (h *Hub) RegClient(cli *Client) error`. The `Load` that follows
`LoadOrStore` returns the bucket just obtained unless another goroutine
replaced it in between (`gomap.Load_LoadOrStore`), so the retry branch has no
sequential execution and is left out. -/
def Hub.RegClient (h : Hub) (cli : Client) : Option GoError × Hub :=
  if h.Closed then
    (some GoError.ErrAlreadyClosed, h)
  else
    match h.Start with
    | (some err, h1) => (some err, h1)
    | (none, h1) =>
      let r := gomap.LoadOrStore h1.clients cli.u.ID { m := [] }
      let c : op.clients := r.1.1
      let h2 : Hub := { h1 with clients := r.2 }
      match gomap.Load c.m cli.ConnID with
      | some _ => (some (GoError.New "client already exists"), h2)
      | none =>
        (none, { h2 with
          clients := gomap.set h2.clients cli.u.ID { m := gomap.Store c.m cli.ConnID cli } })

/-- `func (h *Hub) UnRegClient(cli *Client) error`; a nil `cli` is `none`. -/
def Hub.UnRegClient (h : Hub) (cli : Option Client) : Option GoError × Hub :=
  if h.Closed then
    (some GoError.ErrAlreadyClosed, h)
  else
    match cli with
    | none => (some (GoError.New "user is nil"), h)
    | some cli =>
      match gomap.Load h.clients cli.u.ID with
      | none => (some (GoError.New "client not found"), h)
      | some c =>
        match gomap.Load c.m cli.ConnID with
        | none => (some (GoError.New "client not found"), h)
        | some _ =>
          let c1 : op.clients := { m := gomap.Delete c.m cli.ConnID }
          if c1.m.length == 0 then
            (none, { h with clients := gomap.Delete h.clients cli.u.ID })
          else
            (none, { h with clients := gomap.set h.clients cli.u.ID c1 })

/-- `func (h *Hub) ClientNum() int64`. -/
def Hub.ClientNum (h : Hub) : Int :=
  gomap.Len h.clients

/-- The loop of `SendToUser` over one user's connections; `err` is the
named result, overwritten by every `c.Send`. -/
def Hub.sendLoop (data : Message) :
    gomap.Map Client → Option GoError → Option (Option GoError × gomap.Map Client)
  | [], err => some (err, [])
  | (k, c) :: rest, _ =>
    match c.Send data with
    | none => none
    | some (none, c1) =>
      (Hub.sendLoop data rest none).map (fun r => (r.1, (k, c1) :: r.2))
    | some (some e, c1) =>
      (Hub.sendLoop data rest (some e)).map (fun r => (r.1, (k, c1.Close.2) :: r.2))

/-- `func (h *Hub) SendToUser(userID string, data Message) (err error)`. -/
def Hub.SendToUser (h : Hub) (userID : String) (data : Message) :
    Option (Option GoError × Hub) :=
  if h.Closed then
    some (some GoError.ErrAlreadyClosed, h)
  else
    match gomap.Load h.clients userID with
    | none => some (none, h)
    | some cli =>
      match Hub.sendLoop data cli.m none with
      | none => none
      | some (err, m1) => some (err, { h with clients := gomap.set h.clients userID { m := m1 } })

/-- `func (h *Hub) SendToConnID(userID, connID string, data Message) error`. -/
def Hub.SendToConnID (h : Hub) (userID connID : String) (data : Message) :
    Option (Option GoError × Hub) :=
  match h.GetClientByConnID userID connID with
  | none => some (none, h)
  | some cli =>
    match cli.Send data with
    | none => none
    | some (err, cli1) =>
      match gomap.Load h.clients userID with
      | none => some (err, h)
      | some c =>
        some (err, { h with
          clients := gomap.set h.clients userID { m := gomap.set c.m connID cli1 } })

/-- `func (h *Hub) IsOnline(userID string) bool`. -/
def Hub.IsOnline (h : Hub) (userID : String) : Bool :=
  (gomap.Load h.clients userID).isSome

/-- `func (h *Hub) OnlineCount(userID string) int`. -/
def Hub.OnlineCount (h : Hub) (userID : String) : Int × Hub :=
  match gomap.Load h.clients userID with
  | none => (0, h)
  | some c =>
    if c.m.length == 0 then
      ((c.m.length : Int), { h with clients := gomap.Delete h.clients userID })
    else
      ((c.m.length : Int), h)

/-- `func (h *Hub) KickUser(userID string) error`. -/
def Hub.KickUser (h : Hub) (userID : String) : Option GoError × Hub :=
  if h.Closed then
    (some GoError.ErrAlreadyClosed, h)
  else
    match gomap.Load h.clients userID with
    | none => (none, h)
    | some cli =>
      (none, { h with
        clients := gomap.set h.clients userID { m := cli.m.map (fun e => (e.1, e.2.Close.2)) } })

/-- `func (c *Client) Broadcast(msg Message, conf ...BroadcastConf) error`,
with the hub `c.h` as an argument. -/
def Client.Broadcast (_c : Client) (h : Hub) (msg : Message) (conf : List BroadcastConf) :
    Option (Option GoError × Hub) :=
  h.Broadcast msg conf

/-- Modelled from the spec: `User.SetRoomCurrentStatus` (user.go is not among
the sources). "SetStatus requires PermissionSetCurrentStatus. NoPermission is
returned to the caller and not broadcast"; with the permission the room's
current state is updated by `current.SetStatus`. The outcome of
`HasRoomPermission` is the argument `permitted`. -/
def User.SetRoomCurrentStatus (permitted : Bool) (r : op.current) (now : ℚ) (playing : Bool)
    (seek rate timeDiff : ℚ) : Except GoError model.Status × op.current :=
  if permitted then
    let s := r.SetStatus now playing seek rate timeDiff
    (Except.ok s.1, s.2)
  else
    (Except.error GoError.ErrNoPermission, r)

/-- `func (c *Client) SetStatus(playing bool, seek, rate, timeDiff float64) error`,
with the room's current state `c.r` and the hub `c.h` as arguments. -/
def Client.SetStatus (c : Client) (permitted : Bool) (r : op.current) (h : Hub) (now : ℚ)
    (playing : Bool) (seek rate timeDiff : ℚ) : Option (Option GoError × op.current × Hub) :=
  match User.SetRoomCurrentStatus permitted r now playing seek rate timeDiff with
  | (Except.error err, r1) => some (some err, r1, h)
  | (Except.ok status, r1) =>
    match c.Broadcast h
        (Message.pb
          { Type_ := pb.MessageType.STATUS
            Timestamp := 0
            Sender := some { Username := c.u.Username, UserId := c.u.ID }
            Payload := pb.Payload.PlaybackStatus
              { IsPlaying := status.IsPlaying
                CurrentTime := status.CurrentTime
                PlaybackRate := status.PlaybackRate } })
        [WithIgnoreConnID [c.ConnID]] with
    | none => none
    | some (err, h1) => some (err, r1, h1)

end op

/-! ## Specification-side definitions: dispatch, status broadcast, repeated close -/

namespace op

/-- Whether the serve loop hands the message of descriptor `d` to client `c`:
`c` is not closed, its user ID is not in the ignore-user list, its connection
ID is not in the ignore-connection list, and it has joined RTC when the
descriptor asks for RTC members only. -/
def specTargets (d : broadcastMessage) (c : Client) : Bool :=
  decide (c.closed ≠ 1) && decide (c.u.ID ∉ d.ignoreUserID) &&
    decide (c.connID ∉ d.ignoreConnID) && (!d.rtcJoined || c.rtcJoined)

/-- The client after the dispatch of `d`: the message at the tail of its send
queue when `d` targets it, the client as it was otherwise. -/
def specDeliver (d : broadcastMessage) (c : Client) : Client :=
  if specTargets d c then { c with c := { c.c with buf := c.c.buf ++ [d.data] } } else c

/-- The registry after the dispatch of `d`: every entry in its place, every
client replaced by `specDeliver d`. -/
def specDispatch (d : broadcastMessage) (reg : gomap.Map op.clients) : gomap.Map op.clients :=
  reg.map (fun e => (e.1, { m := e.2.m.map (fun x => (x.1, specDeliver d x.2)) }))

/-- Whether every client that `d` targets has room in its send queue. -/
def specReady (d : broadcastMessage) (reg : gomap.Map op.clients) : Bool :=
  reg.all (fun e => e.2.m.all (fun x => !specTargets d x.2 || x.2.c.hasRoom))

/-- The STATUS message that carries the status `s` with the user `u` as sender. -/
def statusMessage (u : User) (s : model.Status) : Message :=
  Message.pb
    { Type_ := pb.MessageType.STATUS
      Timestamp := 0
      Sender := some { Username := u.Username, UserId := u.ID }
      Payload := pb.Payload.PlaybackStatus
        { IsPlaying := s.IsPlaying, CurrentTime := s.CurrentTime,
          PlaybackRate := s.PlaybackRate } }

/-- The descriptor of a STATUS broadcast by the connection `a`: the status
message, with `a`'s own connection ID as the only ignored connection. -/
def statusDescriptor (a : Client) (s : model.Status) : broadcastMessage :=
  { data := statusMessage a.u s, ignoreConnID := [a.connID], ignoreUserID := [],
    rtcJoined := false }

/-- The client after the dispatches of the descriptors `ds`, oldest first. -/
def specDeliverAll (ds : List broadcastMessage) (c : Client) : Client :=
  ds.foldl (fun c1 d => specDeliver d c1) c

/-- The client objects in the registry, in iteration order. -/
def Hub.allClients (h : Hub) : List Client :=
  (h.clients.map (fun e => e.2.m.map (fun x => x.2))).flatten

/-- The hub state after `n` further calls of `Close`. -/
def Hub.closeAgain : Nat → Hub → Hub
  | 0, h => h
  | n + 1, h => Hub.closeAgain n h.Close.2.1

/-- The client state after `n` further calls of `Close`. -/
def Client.closeAgain : Nat → Client → Client
  | 0, c => c
  | n + 1, c => Client.closeAgain n c.Close.2

end op

/-! ## Concrete inputs used by the witnesses and counterexamples -/

namespace Scenario

/-- A room's current state: movie `M`, paused at 0, rate 1, stamped at 0. -/
def room : op.current :=
  { roomID := "R"
    current :=
      { Movie := { ID := "M" }
        Status := { IsPlaying := false, CurrentTime := 0, PlaybackRate := 1, updatedAt := 0 } } }

/-- The call of the spec's first scenario: playing at seek 30, rate 1, at time 100. -/
def play30 : op.SetStatusCall :=
  { now := 100, playing := true, seek := 30, rate := 1, timeDiff := 0 }

/-- Client A: user `ua`, connection `conn-a`. -/
def clientA : op.Client :=
  op.newClient { ID := "ua", Username := "alice" } "conn-a"

/-- Client B: user `ub`, connection `conn-b`. -/
def clientB : op.Client :=
  op.newClient { ID := "ub", Username := "bob" } "conn-b"

/-- Client C: user `uc`, connection `conn-c`. -/
def clientC : op.Client :=
  op.newClient { ID := "uc", Username := "carol" } "conn-c"

/-- A hub on which A, B and C have registered. -/
def hub : op.Hub :=
  ((((op.newHub "R").RegClient clientA).2.RegClient clientB).2.RegClient clientC).2

/-- The hub after `KickUser("ub")`: B is closed and still registered. -/
def hubKicked : op.Hub :=
  (hub.KickUser "ub").2

/-- Client B with 128 undelivered messages in its send queue. -/
def clientBFull : op.Client :=
  { clientB with c := { clientB.c with buf := List.replicate 128 op.Message.PingMessage } }

/-- A hub on which A, the stalled B and C have registered. -/
def hubFull : op.Hub :=
  ((((op.newHub "R").RegClient clientA).2.RegClient clientBFull).2.RegClient clientC).2

/-- A descriptor without filters. -/
def pingAll : op.broadcastMessage :=
  { data := op.Message.PingMessage, ignoreConnID := [], ignoreUserID := [], rtcJoined := false }

/-- A descriptor that ignores A's connection. -/
def pingOthers : op.broadcastMessage :=
  op.WithIgnoreConnID ["conn-a"] pingAll

/-- A chat message from A. -/
def chat : op.Message :=
  op.Message.pb
    { Type_ := pb.MessageType.CHAT
      Timestamp := 1
      Sender := some { Username := "alice", UserId := "ua" }
      Payload := pb.Payload.ChatContent "hello" }

/-- The hub of A, B and C after two broadcasts: a ping that ignores A's
connection, then a chat message for everyone. -/
def hubQueued : op.Hub :=
  (((((hub.Broadcast op.Message.PingMessage [op.WithIgnoreConnID ["conn-a"]]).map
    (fun x => x.2)).getD hub).Broadcast chat []).map (fun x => x.2)).getD hub

end Scenario

/-! ## The ping loop (hub.go) -/

namespace op

/-- One firing of the ticker in `func (h *Hub) ping()`: the body of the
`case <-ticker.C` branch, with the loop variable `pre` passed in and returned
(`current` is overwritten on every firing). `none` when `Broadcast` waits on a
full broadcast channel. -/
def Hub.pingTick (h : Hub) (pre : Int) : Option (Hub × Int) :=
  let current : Int := h.ClientNum
  if current != pre then
    match h.Broadcast
        (Message.pb
          { Type_ := pb.MessageType.VIEWER_COUNT
            Timestamp := 0
            Sender := none
            Payload := pb.Payload.ViewerCount current }) [] with
    | none => none
    | some (some _, h1) => some (h1, pre)
    | some (none, h1) => some (h1, current)
  else
    match h.Broadcast Message.PingMessage [] with
    | none => none
    | some (some _, h1) => some (h1, pre)
    | some (none, h1) => some (h1, pre)

/-- The descriptor of a VIEWER_COUNT broadcast that carries `count`. -/
def viewerCountDescriptor (count : Int) : broadcastMessage :=
  { data := Message.pb
      { Type_ := pb.MessageType.VIEWER_COUNT
        Timestamp := 0
        Sender := none
        Payload := pb.Payload.ViewerCount count }
    ignoreConnID := [], ignoreUserID := [], rtcJoined := false }

/-- The descriptor of a PING broadcast. -/
def pingDescriptor : broadcastMessage :=
  { data := Message.PingMessage, ignoreConnID := [], ignoreUserID := [], rtcJoined := false }

end op

/-! ## Registries reachable by registration and unregistration -/

namespace op

/-- A call of `RegClient` or of `UnRegClient`. -/
inductive RegOp where
  | reg (c : Client) : RegOp
  | unreg (c : Client) : RegOp
  deriving DecidableEq, Repr

/-- The hub after one such call. -/
def Hub.applyRegOp (h : Hub) : RegOp → Hub
  | RegOp.reg c => (h.RegClient c).2
  | RegOp.unreg c => (h.UnRegClient (some c)).2

/-- The hub after a sequence of such calls, first call first. -/
def Hub.runRegOps (h : Hub) (ops : List RegOp) : Hub :=
  ops.foldl Hub.applyRegOp h

/-- The number of registered client connections, over all users. -/
def Hub.connectionCount (h : Hub) : Int :=
  (h.allClients.length : Int)

/-- The users that have a set in the registry. -/
def Hub.onlineUsers (h : Hub) : List String :=
  h.clients.map (fun e => e.1)

end op

namespace op

/-- The shape of a registry as a map of maps: no user ID twice, and under
every user a set that is not empty and holds no connection ID twice. -/
def Hub.WellFormed (h : Hub) : Prop :=
  h.onlineUsers.Nodup ∧
    ∀ e ∈ h.clients, e.2.m ≠ [] ∧ (e.2.m.map (fun x => x.1)).Nodup

end op

namespace Scenario

/-- A second connection of A's user. -/
def clientA2 : op.Client :=
  op.newClient { ID := "ua", Username := "alice" } "conn-a2"

end Scenario

/-! ## User cache (op/users.go) -/

namespace crc32

/-- One bit of the reflected CRC-32 register: shift right, and xor the IEEE
polynomial 0xEDB88320 in when the bit shifted out is 1. (The case for 0 states
the same value; it makes evaluation strict in the argument.) -/
def shift : Nat → Nat
  | 0 => 0
  | c + 1 => if (c + 1) % 2 = 1 then ((c + 1) >>> 1) ^^^ 0xEDB88320 else (c + 1) >>> 1

/-- One byte of input: xor it into the low byte of the register, then eight
bit steps. -/
def update (crc : Nat) (b : Nat) : Nat :=
  shift (shift (shift (shift (shift (shift (shift (shift (crc ^^^ (b % 256)))))))))

/-- `crc32.ChecksumIEEE` of the Go standard library `hash/crc32`: the CRC-32
checksum of `data` with the IEEE polynomial, register initialised to
0xFFFFFFFF and complemented at the end. -/
def ChecksumIEEE (data : List Nat) : Nat :=
  (data.foldl update 0xFFFFFFFF) ^^^ 0xFFFFFFFF

end crc32

namespace op

/-- Modelled from the spec: `User.IsGuest` (user.go is not among the sources);
guest is one of the roles of the data model. -/
def User.IsGuest (u : User) : Bool :=
  u.Role == model.Role.RoleGuest

/-- Modelled from the spec: `User.IsBanned` (user.go is not among the sources). -/
def User.IsBanned (u : User) : Bool :=
  u.Role == model.Role.RoleBanned

/-- Modelled from the spec: `User.IsPending` (user.go is not among the sources). -/
def User.IsPending (u : User) : Bool :=
  u.Role == model.Role.RolePending

/-- Modelled from the spec: `User.Version` (user.go is not among the sources),
the version that tokens are minted against. -/
def User.Version (u : User) : Nat :=
  u.version

/-- Modelled from the spec: `User.CheckVersion` (user.go is not among the
sources), "token ∈ invalid iff token.version ≠ user.version". -/
def User.CheckVersion (u : User) (version : Nat) : Bool :=
  u.version == version

/-- `func LoadOrInitUser(u *model.User) (*UserEntry, error)`, with the user
cache as state: the entry cached under `u.ID` when there is one, else a new
entry whose version is the CRC-32 of the stored password hash. The expiry of
cache entries is left out. -/
def LoadOrInitUser (userCache : gomap.Map User) (u : model.User) : User × gomap.Map User :=
  let r := gomap.LoadOrStore userCache u.ID
    { ID := u.ID, Username := u.Username, Role := u.Role, HashedPassword := u.HashedPassword,
      version := crc32.ChecksumIEEE u.HashedPassword }
  (r.1.1, r.2)

end op

/-! ## Authentication (server/middlewares/auth.go) -/

namespace middlewares

/-- The error values of `auth.go`; `other` is an error handed up from a
collaborator. -/
inductive AuthError where
  | ErrAuthFailed : AuthError
  | ErrAuthExpired : AuthError
  | ErrUserBanned : AuthError
  | ErrUserPending : AuthError
  | ErrUserGuest : AuthError
  | ErrRoomBanned : AuthError
  | ErrRoomPending : AuthError
  | ErrUserBannedFromRoom : AuthError
  | ErrInvalidRoomID : AuthError
  | ErrEmptyToken : AuthError
  | ErrNotRoomAdmin : AuthError
  | ErrNotRoomCreator : AuthError
  | ErrNotAdmin : AuthError
  | ErrNotRoot : AuthError
  | other (text : String) : AuthError
  deriving DecidableEq, Repr

/-- The `AuthClaims` struct: user ID, user version, and of the registered
claims the two that `NewAuthUserToken` sets. -/
structure AuthClaims where
  UserID : String
  UserVersion : Nat
  NotBefore : Int
  ExpiresAt : Int
  deriving DecidableEq, Repr

/-- `func validateUser(user *op.User, userVersion uint32) error`. -/
def validateUser (user : op.User) (userVersion : Nat) : Option AuthError :=
  if user.IsGuest then
    some AuthError.ErrUserGuest
  else if !user.CheckVersion userVersion then
    some AuthError.ErrAuthExpired
  else if user.IsBanned then
    some AuthError.ErrUserBanned
  else if user.IsPending then
    some AuthError.ErrUserPending
  else
    none

/-- `func validateAuthUser(user *op.User, userVersion uint32) error`. -/
def validateAuthUser (user : op.User) (userVersion : Nat) : Option AuthError :=
  if user.IsGuest then
    some AuthError.ErrUserGuest
  else if !user.CheckVersion userVersion then
    some AuthError.ErrAuthExpired
  else if user.IsBanned then
    some AuthError.ErrUserBanned
  else if user.IsPending then
    some AuthError.ErrUserPending
  else
    none

/-- `func validateNewAuthUserToken(user *op.User) error`. -/
def validateNewAuthUserToken (user : op.User) : Option AuthError :=
  if user.IsBanned then
    some AuthError.ErrUserBanned
  else if user.IsPending then
    some AuthError.ErrUserPending
  else if user.IsGuest then
    some AuthError.ErrUserGuest
  else
    none

/-- `func NewAuthUserToken(user *op.User) (string, error)`. The token is
represented by the claims it carries (signing is the JWT library's);
`expire` is the outcome of `time.ParseDuration(conf.Conf.Jwt.Expire)` and
`now` the clock. -/
def NewAuthUserToken (user : op.User) (expire : Except String Int) (now : Int) :
    Except AuthError AuthClaims :=
  match validateNewAuthUserToken user with
  | some err => Except.error err
  | none =>
    match expire with
    | Except.error text => Except.error (AuthError.other text)
    | Except.ok t =>
      Except.ok
        { UserID := user.ID, UserVersion := user.Version, NotBefore := now,
          ExpiresAt := now + t }

/-- `func authenticateUser(authorization string) (*op.UserEntry, error)`, with
the JWT parser `authUser` and the cache loader `op.LoadOrInitUserByID` as
arguments. `len` of a Go string is its length in bytes. -/
def authenticateUser (authUser : String → Except AuthError AuthClaims)
    (LoadOrInitUserByID : String → Except AuthError op.User) (authorization : String) :
    Except AuthError op.User :=
  match authUser authorization with
  | Except.error err => Except.error err
  | Except.ok claims =>
    if claims.UserID.utf8ByteSize != 32 then
      Except.error AuthError.ErrAuthFailed
    else
      match LoadOrInitUserByID claims.UserID with
      | Except.error err => Except.error err
      | Except.ok user =>
        match validateUser user claims.UserVersion with
        | some err => Except.error err
        | none => Except.ok user

/-- `func AuthUser(authorization string) (*op.UserEntry, error)`, with the
same two collaborators as arguments. -/
def AuthUser (authUser : String → Except AuthError AuthClaims)
    (LoadOrInitUserByID : String → Except AuthError op.User) (authorization : String) :
    Except AuthError op.User :=
  match authUser authorization with
  | Except.error err => Except.error err
  | Except.ok claims =>
    if claims.UserID.utf8ByteSize != 32 then
      Except.error AuthError.ErrAuthFailed
    else
      match LoadOrInitUserByID claims.UserID with
      | Except.error err => Except.error err
      | Except.ok user =>
        match validateAuthUser user claims.UserVersion with
        | some err => Except.error err
        | none => Except.ok user

/-- `func authenticateGuest() (*op.UserEntry, error)`, with the setting
`EnableGuest` and the outcome of `op.LoadOrInitGuestUser()` as arguments. -/
def authenticateGuest (enableGuest : Bool) (LoadOrInitGuestUser : Except AuthError op.User) :
    Except AuthError op.User :=
  if !enableGuest then Except.error AuthError.ErrUserGuest else LoadOrInitGuestUser

/-- `func authenticateUserOrGuest(authorization string) (*op.UserEntry, error)`. -/
def authenticateUserOrGuest (authUser : String → Except AuthError AuthClaims)
    (LoadOrInitUserByID : String → Except AuthError op.User) (enableGuest : Bool)
    (LoadOrInitGuestUser : Except AuthError op.User) (authorization : String) :
    Except AuthError op.User :=
  if authorization != "" then
    authenticateUser authUser LoadOrInitUserByID authorization
  else
    authenticateGuest enableGuest LoadOrInitGuestUser

/-- `func AuthRoom(authorization, roomID string) (*op.UserEntry, *op.RoomEntry, error)`,
with `authenticateUserOrGuest` already applied to its collaborators and
`authenticateRoomAccess` (room cache, membership) as arguments; `R` is the type
of room entries. -/
def AuthRoom {R : Type} (authenticateUserOrGuest : String → Except AuthError op.User)
    (authenticateRoomAccess : String → op.User → Except AuthError R)
    (authorization roomID : String) : Except AuthError (op.User × R) :=
  if roomID.utf8ByteSize != 32 then
    Except.error AuthError.ErrInvalidRoomID
  else
    match authenticateUserOrGuest authorization with
    | Except.error err => Except.error err
    | Except.ok user =>
      match authenticateRoomAccess roomID user with
      | Except.error err => Except.error err
      | Except.ok roomE => Except.ok (user, roomE)

/-- The three places `GetRoomIDFromContext` reads, in its order: the header
`X-Room-Id`, the query parameter `roomId` and the path parameter `roomId`
(each empty when absent). -/
structure RoomIDSources where
  header : String
  query : String
  param : String
  deriving DecidableEq, Repr

/-- The loop of `GetRoomIDFromContext` over the sources: the returned room ID,
the error, and the value stored with `ctx.Set("roomId", _)`. -/
def roomIDLoop : List String → String × Option AuthError × String
  | [] => ("", some AuthError.ErrInvalidRoomID, "")
  | roomID :: rest =>
    if roomID == "" then
      roomIDLoop rest
    else if roomID.utf8ByteSize == 32 then
      (roomID, none, roomID)
    else
      ("", some AuthError.ErrInvalidRoomID, "")

/-- `func GetRoomIDFromContext(ctx *gin.Context) (string, error)`. -/
def GetRoomIDFromContext (ctx : RoomIDSources) : String × Option AuthError × String :=
  roomIDLoop [ctx.header, ctx.query, ctx.param]

/-- A hexadecimal character. -/
def isHexChar (c : Char) : Bool :=
  (48 ≤ c.toNat && c.toNat ≤ 57) || (97 ≤ c.toNat && c.toNat ≤ 102) ||
    (65 ≤ c.toNat && c.toNat ≤ 70)

/-- A string of exactly 32 hexadecimal characters. -/
def isHex32 (s : String) : Bool :=
  s.length == 32 && s.toList.all isHexChar

end middlewares

namespace Scenario

/-- The bytes of a string of ASCII characters. -/
def ascii (s : String) : List Nat :=
  s.toList.map Char.toNat

/-- A stored password hash in bcrypt format. -/
def hashOld : List Nat :=
  ascii "$2a$10$koaLrpYrlqNO9K1mvWLlIOO4VMII.MvDt.BR0r4BwR8qKr5eIsNn6"

/-- Another hash in bcrypt format, with the same CRC-32 as `hashOld`. -/
def hashNew : List Nat :=
  ascii "$2a$10$IKQ9FzJrRwLCiNSSDDbtDeHVX7jCHj721Fmgz9.SvlgppQnzIrV6K"

/-- A third hash in bcrypt format, with another CRC-32. -/
def hashOther : List Nat :=
  ascii "$2a$10$N9qo8uLOickgx2ZMRZoMyeIjZAgcfl7p92ldGxad68LJZdL17lhWy"

/-- The stored user record of Dave with the password hash `hash`. -/
def dave (hash : List Nat) : model.User :=
  { ID := "0123456789abcdef0123456789abcdef", Username := "dave",
    Role := model.Role.RoleUser, HashedPassword := hash }

/-- The guest user, at version 7. -/
def guest : op.User :=
  { ID := "00000000000000000000000000000001", Username := "guest",
    Role := model.Role.RoleGuest, version := 7 }

/-- Thirty-two characters, none of them hexadecimal. -/
def notHex : String :=
  "zzzzzzzzzzzzzzzzzzzzzzzzzzzzzzzz"

end Scenario

/-! ## Movie handlers (server/handlers/movie.go) -/

namespace model

/-- Modelled from the spec: `model.Movie` with its embedded `MovieBase` (the
declarations are not among the sources), reduced to the fields that the
handlers of `movie.go` read: "ID, room ID, creator ID, parent ID, base: {URL,
headers, is-live, is-RTMP-source, proxy}". -/
structure Movie where
  ID : String
  RoomID : String
  CreatorID : String
  Name : String
  ParentID : String
  CreatedAt : Int
  URL : String
  Headers : List (String × String)
  Proxy : Bool
  Live : Bool
  RtmpSource : Bool
  deriving DecidableEq, Repr

end model

namespace handlers

/-- The claims of a target token, as `ServeM3u8` reads them from
`proxy.GetM3u8Target`. -/
structure M3u8TargetClaims where
  RoomID : String
  MovieID : String
  TargetURL : String
  IsM3u8File : Bool
  deriving DecidableEq, Repr

/-- What `ServeM3u8` does with a request: abort with a status and a message,
or call `proxy.M3u8` with the listed arguments. -/
inductive ServeM3u8Result where
  | abort (status : Nat) (message : String) : ServeM3u8Result
  | proxied (targetURL : String) (headers : List (String × String)) (isM3u8File : Bool)
      (token roomID movieID : String) : ServeM3u8Result
  deriving DecidableEq, Repr

/-- `func ServeM3u8(ctx *gin.Context)`. The arguments are what the handler
reads: the setting `MovieProxy`, the ID of the room of the request, the room's
`GetMovieByID`, `proxy.GetM3u8Target` (token validation), the path parameters
`movieId` and `targetToken`, and the context value `token`. 400 is
`http.StatusBadRequest`. -/
def ServeM3u8 (movieProxy : Bool) (roomID : String)
    (GetMovieByID : String → Except String model.Movie)
    (GetM3u8Target : String → Except String M3u8TargetClaims)
    (movieIdParam targetToken token : String) : ServeM3u8Result :=
  if !movieProxy then
    ServeM3u8Result.abort 400 "movie proxy is not enabled"
  else
    match GetMovieByID movieIdParam with
    | Except.error err => ServeM3u8Result.abort 400 err
    | Except.ok m =>
      if m.RtmpSource then
        ServeM3u8Result.abort 400 "this movie is rtmp source, not support use this method proxy"
      else if !m.Proxy then
        ServeM3u8Result.abort 400 "movie is not proxy"
      else
        match GetM3u8Target targetToken with
        | Except.error err => ServeM3u8Result.abort 400 err
        | Except.ok claims =>
          if claims.RoomID != roomID || claims.MovieID != m.ID then
            ServeM3u8Result.abort 400 "invalid token"
          else
            ServeM3u8Result.proxied claims.TargetURL m.Headers claims.IsM3u8File token roomID
              m.ID

/-- What `NewPublishKey` answers: abort with a status and a message, or 200
with host, app and token. -/
inductive NewPublishKeyResult where
  | abort (status : Nat) (message : String) : NewPublishKeyResult
  | ok (host app token : String) : NewPublishKeyResult
  deriving DecidableEq, Repr

/-- `func NewPublishKey(ctx *gin.Context)`. The arguments are what the handler
reads: the configuration flag `RTMP.Enable`, the ID of the room and of the user
of the request, the outcome of decoding the request body into an `IDReq`, the
room's `GetMovieByID`, `rtmp.NewRtmpAuthorization`, the settings
`CustomPublishHost` and `HOST`, `url.Parse` reduced to the host it yields, and
the host of the request. 400, 403 and 500 are the `http` status constants. -/
def NewPublishKey (rtmpEnable : Bool) (roomID userID : String) (decoded : Except String String)
    (GetMovieByID : String → Except String model.Movie)
    (NewRtmpAuthorization : String → Except String String)
    (customPublishHost hostSetting : String) (urlParseHost : String → Except String String)
    (requestHost : String) : NewPublishKeyResult :=
  if !rtmpEnable then
    NewPublishKeyResult.abort 400 "rtmp is not enabled"
  else
    match decoded with
    | Except.error err => NewPublishKeyResult.abort 400 err
    | Except.ok reqID =>
      match GetMovieByID reqID with
      | Except.error err => NewPublishKeyResult.abort 400 err
      | Except.ok movie =>
        if movie.CreatorID != userID then
          NewPublishKeyResult.abort 403 "new publish key error: no permission"
        else if !movie.RtmpSource then
          NewPublishKeyResult.abort 400 "only live movie can get publish key"
        else
          match NewRtmpAuthorization movie.ID with
          | Except.error err => NewPublishKeyResult.abort 500 err
          | Except.ok token =>
            if customPublishHost == "" then
              match urlParseHost hostSetting with
              | Except.error err => NewPublishKeyResult.abort 500 err
              | Except.ok host =>
                if host == "" then
                  NewPublishKeyResult.ok requestHost roomID token
                else
                  NewPublishKeyResult.ok host roomID token
            else
              NewPublishKeyResult.ok customPublishHost roomID token

end handlers

namespace Scenario

/-- A proxied movie of room `R`, created by user `ua`. -/
def movieProxied : model.Movie :=
  { ID := "M", RoomID := "R", CreatorID := "ua", Name := "clip", ParentID := "",
    CreatedAt := 0, URL := "https://cdn.example/clip.m3u8", Headers := [], Proxy := true,
    Live := false, RtmpSource := false }

/-- An RTMP source movie of room `R`, created by user `ua`. -/
def movieRtmp : model.Movie :=
  { ID := "L", RoomID := "R", CreatorID := "ua", Name := "live", ParentID := "",
    CreatedAt := 0, URL := "", Headers := [], Proxy := false, Live := true,
    RtmpSource := true }

/-- The movies of room `R`. -/
def getMovie (id : String) : Except String model.Movie :=
  if id == "M" then Except.ok movieProxied
  else if id == "L" then Except.ok movieRtmp
  else Except.error "movie not found"

/-- A token validator that knows one token for room `R` and movie `M` and one
for room `R2` and movie `M`. -/
def getTarget (token : String) : Except String handlers.M3u8TargetClaims :=
  if token == "tok-R-M" then
    Except.ok
      { RoomID := "R", MovieID := "M", TargetURL := "https://cdn.example/seg1.ts",
        IsM3u8File := false }
  else if token == "tok-R2-M" then
    Except.ok
      { RoomID := "R2", MovieID := "M", TargetURL := "https://cdn.example/seg1.ts",
        IsM3u8File := false }
  else
    Except.error "invalid token"

/-- A minting function for RTMP publish tokens. -/
def mintRtmp (movieID : String) : Except String String :=
  Except.ok ("rtmp-" ++ movieID)

end Scenario

/-! ## Bilibili manifests (internal/cache/bilibili.go) -/

namespace mpd

/-- The go-dash `mpd.Representation`, reduced to the field the cache reads and
writes: its list of base-URLs. -/
structure Representation where
  BaseURL : List String
  deriving DecidableEq, Repr

/-- The go-dash `mpd.AdaptationSet`: its representations, in document order. -/
structure AdaptationSet where
  Representations : List Representation
  deriving DecidableEq, Repr

/-- The go-dash `mpd.Period`: its adaptation sets, in document order. -/
structure Period where
  AdaptationSets : List AdaptationSet
  deriving DecidableEq, Repr

/-- The go-dash `mpd.MPD` as a tree (every node is referred to once, as in the
result of `mpd.ReadFromString`): the manifest's own base-URLs and its
periods. -/
structure MPD where
  BaseURL : List String
  Periods : List Period
  deriving DecidableEq, Repr

/-- Base-URLs of the representations of a period, in document order. -/
def Period.baseURLs (p : Period) : List String :=
  (p.AdaptationSets.map fun a =>
    (a.Representations.map fun r => r.BaseURL).flatten).flatten

/-- Base-URLs of the representations of a manifest, in document order. -/
def MPD.baseURLs (m : MPD) : List String :=
  (m.Periods.map Period.baseURLs).flatten

/-- The shape of a manifest: for every period, adaptation set and
representation, the number of its base-URLs. -/
def MPD.shape (m : MPD) : List (List (List Nat)) :=
  m.Periods.map fun p => p.AdaptationSets.map fun a =>
    a.Representations.map fun r => r.BaseURL.length

end mpd

namespace cache

/-- The variables the loops of `processMpdUrls` carry: the harvested list
`movies` and the counter `id`. -/
structure Harvest where
  movies : List String
  id : Nat
  deriving DecidableEq, Repr

/-- A `for ... range` loop over a slice whose elements the body updates in
place, threading the variables `s` of the enclosing function. -/
def forRange {α σ : Type} (body : α → σ → α × σ) : List α → σ → List α × σ
  | [], s => ([], s)
  | a :: l, s =>
    let r := body a s
    let rs := forRange body l r.2
    (r.1 :: rs.1, rs.2)

/-- Body of `for i := range r.BaseURL`: append the URL to `movies`, replace
it by the formatted one, increment `id`. -/
def harvestURL (format : Nat → String) (u : String) (s : Harvest) : String × Harvest :=
  (format s.id, { movies := s.movies ++ [u], id := s.id + 1 })

/-- Body of `for _, r := range as.Representations`. -/
def harvestRepresentation (format : Nat → String) (r : mpd.Representation) (s : Harvest) :
    mpd.Representation × Harvest :=
  let b := forRange (harvestURL format) r.BaseURL s
  ({ r with BaseURL := b.1 }, b.2)

/-- Body of `for _, as := range p.AdaptationSets`. -/
def harvestAdaptationSet (format : Nat → String) (a : mpd.AdaptationSet) (s : Harvest) :
    mpd.AdaptationSet × Harvest :=
  let b := forRange (harvestRepresentation format) a.Representations s
  ({ a with Representations := b.1 }, b.2)

/-- Body of `for _, p := range m.Periods`. -/
def harvestPeriod (format : Nat → String) (p : mpd.Period) (s : Harvest) :
    mpd.Period × Harvest :=
  let b := forRange (harvestAdaptationSet format) p.AdaptationSets s
  ({ p with AdaptationSets := b.1 }, b.2)

/-- One of the two loop nests of `processMpdUrls`, over the periods of one
manifest. -/
def harvestMPD (format : Nat → String) (m : mpd.MPD) (s : Harvest) : mpd.MPD × Harvest :=
  let b := forRange (harvestPeriod format) m.Periods s
  ({ m with Periods := b.1 }, b.2)

/-- The format `"%s?id=%d&roomId=%s"` of the regular manifest. -/
def proxyURL (movieID roomID : String) (id : Nat) : String :=
  movieID ++ "?id=" ++ toString id ++ "&roomId=" ++ roomID

/-- The format `"%s?id=%d&roomId=%s&t=hevc"` of the HEVC manifest. -/
def proxyURLHevc (movieID roomID : String) (id : Nat) : String :=
  movieID ++ "?id=" ++ toString id ++ "&roomId=" ++ roomID ++ "&t=hevc"

/-- `processMpdUrls`: returns `movies` and the two manifests as the call
leaves them (the Go function rewrites them in place). -/
def processMpdUrls (m hevcM : mpd.MPD) (movieID roomID : String) :
    List String × mpd.MPD × mpd.MPD :=
  let r := harvestMPD (proxyURL movieID roomID) m { movies := [], id := 0 }
  let h := harvestMPD (proxyURLHevc movieID roomID) hevcM r.2
  (h.2.movies, r.1, h.1)

end cache

namespace Scenario

/-- A regular manifest: one period, two adaptation sets, three base-URLs. -/
def dash : mpd.MPD :=
  { BaseURL := ["/api/room/movie/proxy/"],
    Periods := [{ AdaptationSets :=
      [{ Representations := [{ BaseURL := ["https://v/1.m4s", "https://bk/1.m4s"] }] },
       { Representations := [{ BaseURL := ["https://a/1.m4s"] }] }] }] }

/-- An HEVC manifest with two base-URLs. -/
def dashHevc : mpd.MPD :=
  { BaseURL := [],
    Periods := [{ AdaptationSets :=
      [{ Representations := [{ BaseURL := ["https://hv/1.m4s"] },
                             { BaseURL := ["https://ha/1.m4s"] }] }] }] }

end Scenario

/-! ## Tokenizing a cached manifest (internal/cache/bilibili.go)

`BilibiliMpdToString` works on the pointers of the cached manifest, so here the
nodes of a manifest live in a heap: an address is an index into the store of
its kind, a new object is appended to its store, and a write through a pointer
replaces the object at its address. -/

namespace mpd

/-- The representation with `&token=<token>` appended to every base-URL. -/
def Representation.withToken (token : String) (r : Representation) : Representation :=
  { BaseURL := r.BaseURL.map fun u => u ++ "&token=" ++ token }

/-- The adaptation set whose representations carry the token. -/
def AdaptationSet.withToken (token : String) (a : AdaptationSet) : AdaptationSet :=
  { Representations := a.Representations.map (Representation.withToken token) }

/-- The period whose representations carry the token. -/
def Period.withToken (token : String) (p : Period) : Period :=
  { AdaptationSets := p.AdaptationSets.map (AdaptationSet.withToken token) }

/-- The manifest in which every representation base-URL is the original one
followed by `&token=<token>`; the manifest's own base-URLs are as they were. -/
def MPD.withToken (token : String) (m : MPD) : MPD :=
  { m with Periods := m.Periods.map (Period.withToken token) }

end mpd

namespace cache

/-- An address of a heap object: its index in the store of its kind. -/
abbrev Addr := Nat

/-- A `mpd.Representation` struct in memory; `BaseURL` is the address of the
backing array of its `[]string` slice. -/
structure RepresentationObj where
  BaseURL : Addr
  deriving DecidableEq, Repr

/-- A `mpd.AdaptationSet` struct in memory; `Representations` is its slice of
pointers. -/
structure AdaptationSetObj where
  Representations : List Addr
  deriving DecidableEq, Repr

/-- A `mpd.Period` struct in memory; `AdaptationSets` is its slice of
pointers. -/
structure PeriodObj where
  AdaptationSets : List Addr
  deriving DecidableEq, Repr

/-- A `mpd.MPD` struct in memory (or on the stack, for `newMpdRaw`). -/
structure MPDObj where
  BaseURL : List String
  Periods : List Addr
  deriving DecidableEq, Repr

/-- The memory `BilibiliMpdToString` reads and writes. -/
structure Heap where
  mpds : List MPDObj
  periods : List PeriodObj
  adaptationSets : List AdaptationSetObj
  representations : List RepresentationObj
  strings : List (List String)
  deriving DecidableEq, Repr

/-- Reads every pointer of a slice with `f`; `none` when one of them cannot be
read. -/
def resolve {β : Type} (f : Addr → Option β) : List Addr → Option (List β)
  | [] => some []
  | x :: xs =>
    match f x, resolve f xs with
    | some b, some bs => some (b :: bs)
    | _, _ => none

/-- The representation at address `r`, with its base-URLs read from their
backing array. -/
def viewRepresentation (h : Heap) (r : Addr) : Option mpd.Representation :=
  match h.representations[r]? with
  | none => none
  | some obj =>
    match h.strings[obj.BaseURL]? with
    | none => none
    | some urls => some { BaseURL := urls }

/-- The adaptation set at address `a` as a tree. -/
def viewAdaptationSet (h : Heap) (a : Addr) : Option mpd.AdaptationSet :=
  match h.adaptationSets[a]? with
  | none => none
  | some obj =>
    match resolve (viewRepresentation h) obj.Representations with
    | none => none
    | some rs => some { Representations := rs }

/-- The period at address `p` as a tree. -/
def viewPeriod (h : Heap) (p : Addr) : Option mpd.Period :=
  match h.periods[p]? with
  | none => none
  | some obj =>
    match resolve (viewAdaptationSet h) obj.AdaptationSets with
    | none => none
    | some as => some { AdaptationSets := as }

/-- The tree a `mpd.MPD` struct stands for in heap `h`. -/
def viewMPDObj (h : Heap) (m : MPDObj) : Option mpd.MPD :=
  match resolve (viewPeriod h) m.Periods with
  | none => none
  | some ps => some { BaseURL := m.BaseURL, Periods := ps }

/-- The tree the pointer `root` stands for in heap `h`; `none` when a pointer
on the way is nil or dangling. -/
def view (h : Heap) (root : Addr) : Option mpd.MPD :=
  match h.mpds[root]? with
  | none => none
  | some m => viewMPDObj h m

/-- The copy loops `for i, p := range ps { n := *p; new[i] = &n }`: every
object is read, its copy appended to the store, and the copy's address stored
in the new slice. `none`: a nil pointer is dereferenced. -/
def cloneAll {α : Type} : List Addr → List α → Option (List Addr × List α)
  | [], st => some ([], st)
  | p :: ps, st =>
    match st[p]? with
    | none => none
    | some n =>
      match cloneAll ps (st ++ [n]) with
      | none => none
      | some r => some (st.length :: r.1, r.2)

/-- A `for _, x := range xs` loop whose body works on the heap through the
pointer `x`. -/
def forEach (body : Addr → Heap → Option Heap) : List Addr → Heap → Option Heap
  | [], h => some h
  | x :: xs, h =>
    match body x h with
    | none => none
    | some h1 => forEach body xs h1

/-- The assignment `r.BaseURL[i] = fmt.Sprintf("%s&token=%s", r.BaseURL[i], token)`. -/
def tokenizeAt (token : String) (r : Addr) (i : Nat) (h : Heap) : Option Heap :=
  match h.representations[r]? with
  | none => none
  | some obj =>
    match h.strings[obj.BaseURL]? with
    | none => none
    | some arr =>
      match arr[i]? with
      | none => none
      | some u =>
        some { h with
          strings := h.strings.set obj.BaseURL (arr.set i (u ++ "&token=" ++ token)) }

/-- The loop `for i := range r.BaseURL` over the indices `is`. -/
def tokenizeLoop (token : String) (r : Addr) : List Nat → Heap → Option Heap
  | [], h => some h
  | i :: is, h =>
    match tokenizeAt token r i h with
    | none => none
    | some h1 => tokenizeLoop token r is h1

/-- Body of `for _, r := range as.Representations`: a new backing array with
the copied base-URLs is made the representation's `BaseURL`, then every element
gets the token. -/
def tokenizeRepresentation (token : String) (r : Addr) (h : Heap) : Option Heap :=
  match h.representations[r]? with
  | none => none
  | some obj =>
    match h.strings[obj.BaseURL]? with
    | none => none
    | some src =>
      let newBaseURL := h.strings.length
      tokenizeLoop token r (List.range src.length)
        { h with
          strings := h.strings ++ [src]
          representations := h.representations.set r { obj with BaseURL := newBaseURL } }

/-- Body of `for _, as := range p.AdaptationSets`: the representations are
copied, the copies made the set's `Representations`, and each copy is
tokenized. -/
def tokenizeAdaptationSet (token : String) (a : Addr) (h : Heap) : Option Heap :=
  match h.adaptationSets[a]? with
  | none => none
  | some obj =>
    match cloneAll obj.Representations h.representations with
    | none => none
    | some r =>
      forEach (tokenizeRepresentation token) r.1
        { h with
          representations := r.2
          adaptationSets := h.adaptationSets.set a { obj with Representations := r.1 } }

/-- Body of `for _, p := range newMpdRaw.Periods`: the adaptation sets are
copied, the copies made the period's `AdaptationSets`, and each copy is
processed. -/
def tokenizePeriod (token : String) (p : Addr) (h : Heap) : Option Heap :=
  match h.periods[p]? with
  | none => none
  | some obj =>
    match cloneAll obj.AdaptationSets h.adaptationSets with
    | none => none
    | some r =>
      forEach (tokenizeAdaptationSet token) r.1
        { h with
          adaptationSets := r.2
          periods := h.periods.set p { obj with AdaptationSets := r.1 } }

/-- `BilibiliMpdToString`: the result of `newMpdRaw.WriteToString()` (the
go-dash serializer, an argument here, applied to the tree `newMpdRaw` stands
for) and the memory as the call leaves it. `none`: the call panics on a nil
pointer. -/
def BilibiliMpdToString (WriteToString : mpd.MPD → Except GoError String)
    (mpdRaw : Addr) (token : String) (h : Heap) : Option (Except GoError String × Heap) :=
  match h.mpds[mpdRaw]? with
  | none => none
  | some obj =>
    match cloneAll obj.Periods h.periods with
    | none => none
    | some r =>
      let newMpdRaw : MPDObj := { obj with Periods := r.1 }
      match forEach (tokenizePeriod token) r.1 { h with periods := r.2 } with
      | none => none
      | some h1 =>
        match viewMPDObj h1 newMpdRaw with
        | none => none
        | some t => some (WriteToString t, h1)

/-- Every object of store `s` other than those at the addresses `w` is at the
same address of `s1`, unchanged. -/
def Kept {α : Type} (w : List Addr) (s s1 : List α) : Prop :=
  ∀ i o, i ∉ w → s[i]? = some o → s1[i]? = some o

/-- Heap `h1` holds every object of `h` unchanged, apart from the periods at
`wp`, the adaptation sets at `wa` and the representations at `wr`. -/
structure Heap.Step (wp wa wr : List Addr) (h h1 : Heap) : Prop where
  mpds : Kept [] h.mpds h1.mpds
  periods : Kept wp h.periods h1.periods
  adaptationSets : Kept wa h.adaptationSets h1.adaptationSets
  representations : Kept wr h.representations h1.representations
  strings : Kept [] h.strings h1.strings

/-- Heap `h1` extends `h`: every object of `h` is in `h1` at the same address,
unchanged. -/
def Heap.Extends (h h1 : Heap) : Prop := Heap.Step [] [] [] h h1

end cache

namespace Scenario

/-- The manifest `Scenario.dash` in memory. -/
def dashHeap : cache.Heap :=
  { mpds := [{ BaseURL := ["/api/room/movie/proxy/"], Periods := [0] }]
    periods := [{ AdaptationSets := [0, 1] }]
    adaptationSets := [{ Representations := [0] }, { Representations := [1] }]
    representations := [{ BaseURL := 0 }, { BaseURL := 1 }]
    strings := [["https://v/1.m4s", "https://bk/1.m4s"], ["https://a/1.m4s"]] }

/-- A serializer for the examples: the base-URLs, one per line. -/
def writeURLs (m : mpd.MPD) : Except GoError String :=
  .ok (String.intercalate "\n" m.baseURLs)

end Scenario

/-! ## Live playlists and subtitles (internal/cache/bilibili.go) -/

/-- A fixed-width integer type of Go: its width in bits and whether it is
signed. -/
structure IntType where
  bits : Nat
  signed : Bool
  deriving DecidableEq, Repr

namespace IntType

/-- The type `uint32`. -/
def uint32 : IntType := { bits := 32, signed := false }

/-- The type `int32`. -/
def int32 : IntType := { bits := 32, signed := true }

/-- The type `uint64`. -/
def uint64 : IntType := { bits := 64, signed := false }

/-- The type `int64`. -/
def int64 : IntType := { bits := 64, signed := true }

/-- The value of type `t` an arithmetic result `n` is stored as: Go integer
arithmetic wraps around. -/
def wrap (t : IntType) (n : Int) : Int :=
  if t.signed then (n + 2 ^ (t.bits - 1)) % 2 ^ t.bits - 2 ^ (t.bits - 1)
  else n % 2 ^ t.bits

/-- The values of type `t`. -/
def holds (t : IntType) (n : Int) : Prop :=
  if t.signed then -(2 ^ (t.bits - 1)) ≤ n ∧ n < 2 ^ (t.bits - 1)
  else 0 ≤ n ∧ n < 2 ^ t.bits

instance (t : IntType) (n : Int) : Decidable (t.holds n) := by
  unfold holds
  exact inferInstance

end IntType

namespace bilibili

/-- The message `bilibili.LiveStream` of the vendors API (generated code of
another module): the fields the cache reads through `GetQuality`, `GetUrls`
and `GetDesc`. -/
structure LiveStream where
  Quality : Int
  Urls : List String
  Desc : String
  deriving DecidableEq, Repr

end bilibili

namespace cache

/-- Body of the loop of `genBilibiliLiveM3U8ListFile`; `t` is the integer type
of the `Quality` field, in which `1920*1080*v.GetQuality()` is computed. -/
def writeLiveStream (t : IntType) (buf : String) (v : bilibili.LiveStream) : String :=
  match v.Urls with
  | [] => buf
  | u :: _ =>
    buf ++ ("#EXT-X-STREAM-INF:BANDWIDTH=" ++ toString (t.wrap (1920 * 1080 * v.Quality)) ++
      ",NAME=\"" ++ v.Desc ++ "\"\n") ++ (u ++ "\n")

/-- `genBilibiliLiveM3U8ListFile`, the bytes of the buffer as a string. -/
def genBilibiliLiveM3U8ListFile (t : IntType) (urls : List bilibili.LiveStream) : String :=
  urls.foldl (writeLiveStream t) ("" ++ "#EXTM3U\n" ++ "#EXT-X-VERSION:3\n")

/-- The strings of a list one after the other. -/
def joinAll : List String → String
  | [] => ""
  | s :: l => s ++ joinAll l

/-- The entry of one stream as the specification words it: the bandwidth is
the integer product `1920 * 1080 * quality`; a stream with no URL has no
entry. -/
def specLiveEntry (v : bilibili.LiveStream) : String :=
  match v.Urls with
  | [] => ""
  | u :: _ =>
    "#EXT-X-STREAM-INF:BANDWIDTH=" ++ toString (1920 * 1080 * v.Quality) ++
      ",NAME=\"" ++ v.Desc ++ "\"\n" ++ u ++ "\n"

/-- The playlist as the specification words it. -/
def specLiveM3U8 (urls : List bilibili.LiveStream) : String :=
  "#EXTM3U\n#EXT-X-VERSION:3\n" ++ joinAll (urls.map specLiveEntry)

/-- The entry of one stream as the code writes it for a `Quality` of type
`t`. -/
def liveEntry (t : IntType) (v : bilibili.LiveStream) : String :=
  match v.Urls with
  | [] => ""
  | u :: _ =>
    "#EXT-X-STREAM-INF:BANDWIDTH=" ++ toString (t.wrap (1920 * 1080 * v.Quality)) ++
      ",NAME=\"" ++ v.Desc ++ "\"\n" ++ u ++ "\n"

end cache

namespace Scenario

/-- Live streams as the vendor lists them: quality 10000 with two URLs, a
stream with no URL, quality 400. -/
def liveStreams : List bilibili.LiveStream :=
  [{ Quality := 10000, Urls := ["https://l/10000.m3u8", "https://l2/10000.m3u8"],
     Desc := "原画" },
   { Quality := 250, Urls := [], Desc := "超清" },
   { Quality := 400, Urls := ["https://l/400.m3u8"], Desc := "蓝光" }]

/-- Live streams of low quality numbers. -/
def liveStreamsLow : List bilibili.LiveStream :=
  [{ Quality := 400, Urls := ["https://l/400.m3u8"], Desc := "蓝光" },
   { Quality := 250, Urls := [], Desc := "超清" },
   { Quality := 80, Urls := ["https://l/80.m3u8"], Desc := "流畅" }]

end Scenario

/-! ## float64 arithmetic

A finite `float64` value is the rational it denotes. An operation of the
source on such values is the exact operation followed by `float64.round`,
the rounding of IEEE 754 to the nearest value of the format, with ties to the
even mantissa; the results that occur here are far from the overflow
threshold. -/

namespace float64

/-- The integer nearest to `q`, the even one of the two when `q` is halfway
between two integers. -/
def roundEven (q : ℚ) : Int :=
  if q - (⌊q⌋ : ℚ) < 1 / 2 then ⌊q⌋
  else if 1 / 2 < q - (⌊q⌋ : ℚ) then ⌊q⌋ + 1
  else if ⌊q⌋ % 2 = 0 then ⌊q⌋ else ⌊q⌋ + 1

/-- The exponent of the last bit of the mantissa of the `float64` values of
the size of `x`: 52 below the binary exponent of `x` for the normal numbers,
and -1074 for the subnormal ones. -/
def ulpExp (x : ℚ) : Int :=
  max (Int.log 2 |x| - 52) (-1074)

/-- The rounding of `x` to `float64`: the multiple of `2 ^ ulpExp x` nearest
to `x`, ties to the even multiple (for `|x| < 2 ^ 1024`). -/
def round (x : ℚ) : ℚ :=
  (roundEven (x / (2 : ℚ) ^ ulpExp x) : ℚ) * (2 : ℚ) ^ ulpExp x

/-- The rational `x` is a finite `float64` value: a mantissa of at most 53
bits times a power of two with an exponent from -1074 to 971. -/
def IsFloat64 (x : ℚ) : Prop :=
  ∃ m e : Int, |m| < 2 ^ 53 ∧ -1074 ≤ e ∧ e ≤ 971 ∧ x = (m : ℚ) * (2 : ℚ) ^ e

end float64

namespace cache

/-- An element of `bilibiliSubtitleResp.Body`; a `float64` time is the
rational it denotes. -/
structure bilibiliSubtitleCue where
  Content : String
  From : ℚ
  To : ℚ
  Sid : Int
  Location : Int

/-- The struct `bilibiliSubtitleResp`: the cues of the subtitle. -/
structure bilibiliSubtitleResp where
  Body : List bilibiliSubtitleCue

/-- Truncation toward zero. -/
def trunc (x : ℚ) : Int :=
  if 0 ≤ x then ⌊x⌋ else -⌊-x⌋

/-- The Go conversion `int(x)` of a `float64`, with an `int` of 64 bits:
truncation toward zero. When the truncated value is not an `int64` the result
is left to the implementation by the language; it is the smallest `int64`
here, as on amd64. -/
def truncate (x : ℚ) : Int :=
  if -2 ^ 63 ≤ trunc x ∧ trunc x < 2 ^ 63 then trunc x else -2 ^ 63

/-- The function `math.Mod(x, y)`: the remainder of `x / y` with the sign of
`x`, which is a `float64` value and is computed without rounding. -/
def mathMod (x y : ℚ) : ℚ :=
  x - y * (trunc (x / y) : ℚ)

/-- The verbs `%02d` and `%03d` of `fmt`: the decimal digits, padded with
zeros on the left to `width` characters, the sign included. -/
def padZero (width : Nat) (n : Int) : String :=
  if n < 0 then
    "-" ++ String.mk (List.replicate (width - 1 - (toString n.natAbs).length) '0') ++
      toString n.natAbs
  else
    String.mk (List.replicate (width - (toString n.toNat).length) '0') ++ toString n.toNat

/-- `formatTime`. The conversion `float64(int(seconds))`, the subtraction
and the product with 1000 are `float64` operations and round. -/
def formatTime (seconds : ℚ) : String :=
  let hours := Int.tdiv (truncate seconds) 3600
  let seconds1 := mathMod seconds 3600
  let minutes := Int.tdiv (truncate seconds1) 60
  let seconds2 := mathMod seconds1 60
  let milliseconds := truncate (float64.round
    (float64.round (seconds2 - float64.round (truncate seconds2 : ℚ)) * 1000))
  padZero 2 hours ++ ":" ++ padZero 2 minutes ++ ":" ++ padZero 2 (truncate seconds2) ++ "," ++
    padZero 3 milliseconds

/-- Body of the loop of `convertToSRT`: the block of one cue is written to
the buffer with the current `counter`, which is then incremented. -/
def writeCue (st : String × Nat) (subtitle : bilibiliSubtitleCue) : String × Nat :=
  (st.1 ++ (toString st.2 ++ "\n" ++ formatTime subtitle.From ++ " --> " ++
      formatTime subtitle.To ++ "\n" ++ subtitle.Content ++ "\n\n"),
    st.2 + 1)

/-- `convertToSRT`: the buffer after the loop, which starts with an empty
buffer and `counter := 0`. -/
def convertToSRT (subtitles : bilibiliSubtitleResp) : String :=
  (subtitles.Body.foldl writeCue ("", 0)).1

/-- The block of a cue with sequence number `i`. -/
def srtBlock (i : Nat) (subtitle : bilibiliSubtitleCue) : String :=
  toString i ++ "\n" ++ formatTime subtitle.From ++ " --> " ++ formatTime subtitle.To ++
    "\n" ++ subtitle.Content ++ "\n\n"

/-- The blocks of the cues `body`, numbered from `start`. -/
def srtBlocks : Nat → List bilibiliSubtitleCue → List String
  | _, [] => []
  | start, c :: body => srtBlock start c :: srtBlocks (start + 1) body

/-- SRT as the specification words it: the i-th block (i = 1..n) has the
sequence number i. -/
def specSRT (subtitles : bilibiliSubtitleResp) : String :=
  joinAll (srtBlocks 1 subtitles.Body)

end cache

namespace Scenario

/-- A subtitle of two cues. -/
def subtitle : cache.bilibiliSubtitleResp :=
  { Body := [{ Content := "你好", From := 0, To := 3 / 2, Sid := 1, Location := 2 },
             { Content := "再见", From := 7325 / 2, To := 3723, Sid := 2, Location := 2 }] }

end Scenario

namespace cache

/-- The two decimal digits of `k`. -/
def twoDigits (k : Int) : String :=
  String.mk [Nat.digitChar (k / 10).toNat, Nat.digitChar (k % 10).toNat]

/-- The three decimal digits of `k`. -/
def threeDigits (k : Int) : String :=
  String.mk [Nat.digitChar (k / 100).toNat, Nat.digitChar (k / 10 % 10).toNat,
    Nat.digitChar (k % 10).toNat]

/-- The milliseconds `formatTime` prints for a time of `seconds`: the
fraction of the second times 1000, rounded to `float64`, and of that the
integer part. -/
def srtMillis (seconds : ℚ) : Int :=
  ⌊float64.round ((seconds - (⌊seconds⌋ : ℚ)) * 1000)⌋

/-- A time of `seconds` in the form `HH:MM:SS,mmm`: hours with at least two
digits, then two digits of minutes, two of seconds and three of
milliseconds. -/
def srtTime (seconds : ℚ) : String :=
  padZero 2 (⌊seconds⌋ / 3600) ++ ":" ++ twoDigits (⌊seconds⌋ % 3600 / 60) ++ ":" ++
    twoDigits (⌊seconds⌋ % 60) ++ "," ++ threeDigits (srtMillis seconds)

/-- A time that `formatTime` prints in the form `HH:MM:SS,mmm`: a `float64`
value that is not negative and is below `2 ^ 63` seconds, so that
`int(seconds)` is its integer part. -/
def SrtTimeOk (seconds : ℚ) : Prop :=
  float64.IsFloat64 seconds ∧ 0 ≤ seconds ∧ seconds < 2 ^ 63

end cache

/-! ## Emby proxy handlers (server/handlers/vendors/vendoremby/emby.go) -/

namespace strconv

/-- The value of a string of decimal digits. -/
def digitsValue (ds : List Char) : Nat :=
  ds.foldl (fun n ch => n * 10 + (ch.toNat - '0'.toNat)) 0

/-- `strconv.Atoi` on a 64-bit platform: an optional sign followed by one or
more decimal digits, within the range of `int`; the quoting of the input in
the error text is not modelled. -/
def Atoi (s : String) : Except GoError Int :=
  let ds := match s.data with
    | '-' :: r => r
    | '+' :: r => r
    | r => r
  if ds.isEmpty || !ds.all Char.isDigit then
    .error (GoError.New ("strconv.Atoi: parsing \"" ++ s ++ "\": invalid syntax"))
  else
    let n : Int := match s.data with
      | '-' :: _ => -(digitsValue ds : Int)
      | _ => (digitsValue ds : Int)
    if n < -(2 ^ 63) || 2 ^ 63 ≤ n then
      .error (GoError.New ("strconv.Atoi: parsing \"" ++ s ++ "\": value out of range"))
    else .ok n

end strconv

namespace vendoremby

/-- An element of `EmbySource.Subtitles` (internal/cache/emby.go, not among
the sources): the fields the handler reads; `Cache` is what `Cache.Get`
returns. -/
structure EmbySubtitleCache where
  Name : String
  Cache : Except GoError String

/-- An element of `EmbyMovieCacheData.Sources`: the fields the handlers
read. -/
structure EmbySource where
  URL : String
  IsTranscode : Bool
  Subtitles : List EmbySubtitleCache

/-- The value of the movie's Emby cache: its list of sources. -/
structure EmbyMovieCacheData where
  Sources : List EmbySource

/-- The index expression `l[i]` of Go with an `int` index: `none` stands for
the run-time panic "index out of range", which Go raises for a negative index
and for an index not below the length. -/
def index {α : Type} (l : List α) (i : Int) : Option α :=
  if i < 0 then none else l[i.toNat]?

/-- What `handleProxyMovie` does with a request. -/
inductive ProxyOutcome where
  | abort (status : Nat) (message : String)
  | redirect (status : Nat) (location : String)
  | proxied (url : String) (cacheKey : String)
  | panic
  deriving DecidableEq, Repr

/-- The text of an error, `err.Error()`. -/
def errorText : GoError → String
  | GoError.New text => text
  | GoError.ErrAlreadyClosed => "already closed"
  | GoError.ErrNoPermission => "no permission"

/-- `EmbyVendorService.handleProxyMovie`. Arguments: `s.movie.Proxy`, the
error of `op.LoadOrInitUserByID`, the result of `s.movie.EmbyCache().Get`, the
query parameter `source`, and `cacheKey` for `url.Parse` followed by the
removal of `DeviceId` and `PlaySessionId` from the query. -/
def handleProxyMovie (movieProxy : Bool) (loadUser : Option GoError)
    (embyCache : Except GoError EmbyMovieCacheData) (sourceQuery : String)
    (cacheKey : String → Except GoError String) : ProxyOutcome :=
  if !movieProxy then .abort 400 "proxy is not enabled"
  else
    match loadUser with
    | some err => .abort 400 (errorText err)
    | none =>
      match embyCache with
      | .error err => .abort 400 (errorText err)
      | .ok embyC =>
        if embyC.Sources.length = 0 then .abort 400 "no source"
        else
          match strconv.Atoi sourceQuery with
          | .error err => .abort 400 (errorText err)
          | .ok source =>
            if source ≥ embyC.Sources.length then .abort 400 "source out of range"
            else
              match index embyC.Sources source with
              | none => .panic
              | some src =>
                if src.IsTranscode then .redirect 302 src.URL
                else
                  match cacheKey src.URL with
                  | .error err => .abort 400 (errorText err)
                  | .ok key => .proxied src.URL key

/-- What `handleSubtitle` does with a request: it returns an error (which its
caller `ProxyMovie` discards), serves the subtitle, or panics. -/
inductive SubtitleOutcome where
  | error (err : GoError)
  | served (name : String) (data : String)
  | panic
  deriving DecidableEq, Repr

/-- `EmbyVendorService.handleSubtitle`. Arguments: the error of
`op.LoadOrInitUserByID`, the result of `s.movie.EmbyCache().Get`, and the
query parameters `source` and `id`. -/
def handleSubtitle (loadUser : Option GoError)
    (embyCache : Except GoError EmbyMovieCacheData) (sourceQuery idQuery : String) :
    SubtitleOutcome :=
  match loadUser with
  | some err => .error err
  | none =>
    match embyCache with
    | .error err => .error err
    | .ok embyC =>
      match strconv.Atoi sourceQuery with
      | .error err => .error err
      | .ok source =>
        if source ≥ embyC.Sources.length then .error (GoError.New "source out of range")
        else
          match strconv.Atoi idQuery with
          | .error err => .error err
          | .ok id =>
            match index embyC.Sources source with
            | none => .panic
            | some src =>
              if id ≥ src.Subtitles.length then .error (GoError.New "id out of range")
              else
                match index src.Subtitles id with
                | none => .panic
                | some sub =>
                  match sub.Cache with
                  | .error err => .error err
                  | .ok data => .served sub.Name data

end vendoremby

namespace Scenario

/-- An Emby movie with one source, which has one subtitle. -/
def embyData : vendoremby.EmbyMovieCacheData :=
  { Sources := [{ URL := "https://emby/Videos/1/stream.mp4?DeviceId=d", IsTranscode := false,
                  Subtitles := [{ Name := "chi.srt", Cache := .ok "1\n" }] }] }

/-- A cache key function for the examples. -/
def embyCacheKey (u : String) : Except GoError String := .ok u

end Scenario

/-! ## Paging (utils.GetPageItems, server/handlers/movie.go) -/

namespace utils

/-- Modelled from the spec: `utils.GetPageItems` (utils/utils.go is not among
the sources; its test `TestGetPageItems` is). The page `page` of size
`pageSize` is the slice `items[start:end]` with `start = (page-1)*pageSize`
and `end = page*pageSize`, both cut down to `len(items)`; for a page or a
size below 1, which the specification does not speak of, it is empty. The
products are taken in the integers. -/
def GetPageItems {T : Type} (items : List T) (page pageSize : Int) : List T :=
  if pageSize ≤ 0 ∨ page ≤ 0 then []
  else
    let start := min ((page - 1) * pageSize) items.length
    let stop := min (page * pageSize) items.length
    (items.drop start.toNat).take (stop - start).toNat

end utils

namespace handlers

/-- `handlers.GetPageItems`: the page and size come from the request through
`utils.GetPageAndMax`, whose result is the argument `pageAndMax`. -/
def GetPageItems {T : Type} (pageAndMax : Except GoError (Int × Int)) (items : List T) :
    Except GoError (List T) :=
  match pageAndMax with
  | .error err => .error err
  | .ok (page, _max) => .ok (utils.GetPageItems items page _max)

end handlers

/-! ## Movie listing (server/handlers/movie.go) -/

namespace model

/-- The response struct `model.MoviePath` of the server: name and ID of a
folder on the path. -/
structure MoviePath where
  Name : String
  ID : String
  deriving DecidableEq, Repr

end model

namespace handlers

/-- The loop `for id != ""` of `getParentMoviePath`, run for at most `fuel`
iterations with the variables `id` and `paths`; `none` when the loop has not
ended by then. `GetMovieByID` stands for `room.GetMovieByID`. -/
def getParentMoviePathLoop (GetMovieByID : String → Except GoError model.Movie) :
    Nat → String → List model.MoviePath → Option (Except GoError (List model.MoviePath))
  | 0, _, _ => none
  | fuel + 1, id, paths =>
    if id = "" then some (.ok paths)
    else
      match GetMovieByID id with
      | .error err =>
        some (.error (GoError.New ("get movie by id error: " ++ vendoremby.errorText err)))
      | .ok p =>
        getParentMoviePathLoop GetMovieByID fuel p.ParentID
          (paths ++ [{ Name := p.Name, ID := p.ID }])

/-- `getParentMoviePath`, with the loop run for at most `fuel` iterations:
`none` when the call has not returned by then. -/
def getParentMoviePath (GetMovieByID : String → Except GoError model.Movie) (fuel : Nat)
    (id : String) : Option (Except GoError (List model.MoviePath)) :=
  match getParentMoviePathLoop GetMovieByID fuel id [] with
  | none => none
  | some (.error err) => some (.error err)
  | some (.ok paths) => some (.ok (paths ++ [({ Name := "Home", ID := "" } : model.MoviePath)]).reverse)

/-- The folder `id` has the finite parent chain `chain`: the folder itself,
then its parent, up to the top-level ancestor, whose parent ID is empty; every
one of them is found in the room. In a room of finitely many movies this is
what an acyclic parent chain with all ancestors present comes to. -/
inductive ParentChain (GetMovieByID : String → Except GoError model.Movie) :
    String → List model.Movie → Prop where
  | home : ParentChain GetMovieByID "" []
  | folder {id : String} {p : model.Movie} {chain : List model.Movie} :
      id ≠ "" → GetMovieByID id = .ok p → ParentChain GetMovieByID p.ParentID chain →
      ParentChain GetMovieByID id (p :: chain)

/-- The lookup of `id` or of one of its ancestors fails with `err`, after
`n` lookups that succeed. -/
inductive LookupFails (GetMovieByID : String → Except GoError model.Movie) (err : GoError) :
    String → Nat → Prop where
  | here {id : String} : id ≠ "" → GetMovieByID id = .error err →
      LookupFails GetMovieByID err id 0
  | above {id : String} {p : model.Movie} {n : Nat} :
      id ≠ "" → GetMovieByID id = .ok p → LookupFails GetMovieByID err p.ParentID n →
      LookupFails GetMovieByID err id (n + 1)

/-- The path entry of a movie. -/
def pathOf (p : model.Movie) : model.MoviePath := { Name := p.Name, ID := p.ID }

end handlers

namespace Scenario

/-- A folder with the given ID, name and parent. -/
def folder (id name parent : String) : model.Movie :=
  { ID := id, RoomID := "R", CreatorID := "ua", Name := name, ParentID := parent,
    CreatedAt := 0, URL := "", Headers := [], Proxy := false, Live := false,
    RtmpSource := false }

/-- A room with the folder `f1` at the top, `f2` in `f1`, `f3` in `f2`, and the
folders `c1` and `c2`, each the parent of the other. -/
def getFolder (id : String) : Except GoError model.Movie :=
  if id = "f1" then .ok (folder "f1" "Series" "")
  else if id = "f2" then .ok (folder "f2" "Season 1" "f1")
  else if id = "f3" then .ok (folder "f3" "Extras" "f2")
  else if id = "c1" then .ok (folder "c1" "A" "c2")
  else if id = "c2" then .ok (folder "c2" "B" "c1")
  else if id = "f5" then .ok (folder "f5" "Orphan" "f4")
  else .error (GoError.New "movie not found")

end Scenario

namespace model

/-- Modelled from the spec: the struct `MovieBase` embedded in `model.Movie`
(its declaration is not among the sources), with the base fields of
`model.Movie` above; a nil and an empty header map are not told apart. -/
structure MovieBase where
  URL : String
  Headers : List (String × String)
  Name : String
  ParentID : String
  Proxy : Bool
  Live : Bool
  RtmpSource : Bool
  deriving DecidableEq, Repr

/-- The embedded struct `v.MovieBase` of a movie, copied. -/
def Movie.MovieBase (v : Movie) : MovieBase :=
  { URL := v.URL, Headers := v.Headers, Name := v.Name, ParentID := v.ParentID,
    Proxy := v.Proxy, Live := v.Live, RtmpSource := v.RtmpSource }

end model

namespace servermodel

/-- The response struct `model.Movie` of the server (server/model), as the
handler `Movies` fills it. -/
structure Movie where
  ID : String
  CreatedAt : Int
  Base : model.MovieBase
  Creator : String
  CreatorID : String
  deriving DecidableEq, Repr

end servermodel

namespace handlers

/-- Body of the loop `for i, v := range m` of `Movies`: the entry
`resp.Movies[i]` for the stored movie `v`, and `v` as the body leaves it (the
body only reads it). `userID` is the ID of the requesting user, `GetUserName`
stands for `op.GetUserName`. -/
def listEntry (userID : String) (GetUserName : String → String) (v : model.Movie) :
    servermodel.Movie × model.Movie :=
  let entry : servermodel.Movie :=
    { ID := v.ID, CreatedAt := v.CreatedAt, Base := v.MovieBase,
      Creator := GetUserName v.CreatorID, CreatorID := v.CreatorID }
  -- hide url and headers when proxy
  if userID ≠ v.CreatorID ∧ v.Proxy = true then
    ({ entry with Base := { entry.Base with URL := "", Headers := [] } }, v)
  else (entry, v)

/-- What `Movies` answers: an abort with a status, the listing of a dynamic
vendor folder (of a type `R` left open), or the listing of the room's
movies. -/
inductive MoviesResult (R : Type) where
  | abort (status : Nat) (message : String)
  | dynamic (resp : R)
  | ok (total : Int) (movies : List servermodel.Movie) (paths : List model.MoviePath)

/-- The part `if id != ""` of `Movies`: the answer when the handler returns
from it, `none` when it goes on to list the room's movies. -/
def moviesFolder {R : Type} (id : String) (page _max : Int)
    (GetMovieByID : String → Except GoError model.Movie)
    (IsFolder IsDynamicFolder : model.Movie → Bool)
    (listVendorDynamicMovie : model.Movie → Int → Int → Except GoError R) :
    Option (MoviesResult R) :=
  if id ≠ "" then
    match GetMovieByID id with
    | .error err => some (.abort 400 (vendoremby.errorText err))
    | .ok mv =>
      if !IsFolder mv then some (.abort 400 "parent id is not folder")
      else if IsDynamicFolder mv then
        match listVendorDynamicMovie mv page _max with
        | .error err => some (.abort 500 (vendoremby.errorText err))
        | .ok resp => some (.dynamic resp)
      else none
  else none

/-- The handler `Movies`. Arguments: `user.HasRoomPermission`, the user's ID,
the query parameter `id`, the result of `utils.GetPageAndMax`, and the
collaborators `room.GetMovieByID`, `IsFolder`, `IsDynamicFolder`,
`listVendorDynamicMovie`, `user.GetRoomMoviesWithPage` and `op.GetUserName`.
The answer comes with the stored movies of the page as the handler leaves
them; `none` when the parent path loop has not ended within `fuel`
iterations. -/
def Movies {R : Type} (hasPermission : Bool) (userID id : String)
    (pageAndMax : Except GoError (Int × Int))
    (GetMovieByID : String → Except GoError model.Movie)
    (IsFolder IsDynamicFolder : model.Movie → Bool)
    (listVendorDynamicMovie : model.Movie → Int → Int → Except GoError R)
    (GetRoomMoviesWithPage : Int → Int → String → Except GoError (List model.Movie × Int))
    (GetUserName : String → String) (fuel : Nat) :
    Option (MoviesResult R × Option (List model.Movie)) :=
  if !hasPermission then some (.abort 403 (vendoremby.errorText GoError.ErrNoPermission), none)
  else if id.utf8ByteSize ≠ 0 ∧ id.utf8ByteSize ≠ 32 then
    some (.abort 400 "id length must be 0 or 32", none)
  else
    match pageAndMax with
    | .error err => some (.abort 400 (vendoremby.errorText err), none)
    | .ok (page, _max) =>
      match moviesFolder id page _max GetMovieByID IsFolder IsDynamicFolder
          listVendorDynamicMovie with
      | some res => some (res, none)
      | none =>
        match GetRoomMoviesWithPage page _max id with
        | .error err => some (.abort 500 (vendoremby.errorText err), none)
        | .ok (m, total) =>
          match getParentMoviePath GetMovieByID fuel id with
          | none => none
          | some (.error err) => some (.abort 500 (vendoremby.errorText err), some m)
          | some (.ok paths) =>
            some (.ok total (m.map fun v => (listEntry userID GetUserName v).1) paths,
              some (m.map fun v => (listEntry userID GetUserName v).2))

end handlers

namespace Scenario

/-- The proxied movie `M` as another user would have stored it: another URL
and headers, everything else the same. -/
def movieProxiedOther : model.Movie :=
  { movieProxied with URL := "https://other.example/secret.mp4",
                      Headers := [("Authorization", "Bearer s3cr3t")] }

/-- A movie of user `ua` that is not proxied. -/
def movieDirect : model.Movie :=
  { movieProxied with ID := "D", Proxy := false, Headers := [("Referer", "https://ref")] }

/-- The page of room movies in the examples. -/
def roomMovies (_page _max : Int) (_id : String) : Except GoError (List model.Movie × Int) :=
  .ok ([movieProxied, movieDirect], 2)

end Scenario

/-! ## Vendor backends (internal/vendor/vendor.go)

The published `Backends` value refers to a map object, whose entries refer to
`model.VendorBackend` objects. Both kinds of object live in a memory: an
address is an index into the store of its kind, a new object is appended, and
a write through a pointer replaces the object at its address. -/

namespace model

/-- The struct `model.BackendUsedBy` (its declaration is not among the
sources): the fields `vendor.go` reads and writes. -/
structure BackendUsedBy where
  Enabled : Bool
  Bilibili : Bool
  BilibiliBackendName : String
  Alist : Bool
  AlistBackendName : String
  Emby : Bool
  EmbyBackendName : String
  deriving DecidableEq, Repr

/-- The struct `model.Backend`: the endpoint; the connection settings are
read by `NewGrpcConn` only. -/
structure Backend where
  Endpoint : String
  deriving DecidableEq, Repr

/-- The struct `model.VendorBackend`. -/
structure VendorBackend where
  Backend : Backend
  UsedBy : BackendUsedBy
  deriving DecidableEq, Repr

end model

namespace vendor

/-- The struct `BackendConn`: the gRPC connection (a number names it) and the
pointer `Info`, an address in the store of backend infos. Neither field is
assigned after the struct is made. -/
structure BackendConn where
  Conn : Nat
  Info : Nat
  deriving DecidableEq, Repr

/-- The struct `Clients`: the clients by backend name; a client is named by
a number. -/
structure Clients where
  bilibili : gomap.Map Nat
  alist : gomap.Map Nat
  emby : gomap.Map Nat
  deriving DecidableEq, Repr

/-- The struct `Backends`: `conns` is the address of the map object. -/
structure Backends where
  conns : Nat
  clients : Clients
  deriving DecidableEq, Repr

/-- The memory of the package: the `model.VendorBackend` objects, the map
objects, the connections that have been closed, the value the atomic pointer
`backends` refers to, and whether `lock` is held. -/
structure Memory where
  infos : List model.VendorBackend
  maps : List (gomap.Map BackendConn)
  closed : List Nat
  backends : Backends
  locked : Bool
  deriving DecidableEq, Repr

/-- The collaborators: `NewGrpcConn` returns the connection and the backend
settings as it leaves them (it may append a port to the endpoint); the three
client constructors get the connection. -/
structure Env where
  NewGrpcConn : model.Backend → Except GoError (Nat × model.Backend)
  NewBilibiliGrpcClient : Nat → Except GoError Nat
  NewAlistGrpcClient : Nat → Except GoError Nat
  NewEmbyGrpcClient : Nat → Except GoError Nat

/-- How a call ends: it returns nil, returns an error, or panics on a nil
pointer. -/
inductive Outcome where
  | ok
  | error (err : GoError)
  | panic
  deriving DecidableEq, Repr

/-- One of the three blocks of the loop of `newVendorClients`: a duplicate
name is an error, else the client is made and stored under the name. -/
def addClient (kind : String) (newClient : Nat → Except GoError Nat) (m : gomap.Map Nat)
    (name : String) (conn : Nat) : Except GoError (gomap.Map Nat) :=
  match gomap.Load m name with
  | some _ => .error (GoError.New ("duplicate " ++ kind ++ " backend name: " ++ name))
  | none =>
    match newClient conn with
    | .error err => .error err
    | .ok cli => .ok (gomap.Store m name cli)

/-- Body of the loop of `newVendorClients` for a connection whose info is
`info`. -/
def addClients (env : Env) (conn : Nat) (info : model.VendorBackend) (c : Clients) :
    Except GoError Clients :=
  if !info.UsedBy.Enabled then .ok c
  else
    match (if info.UsedBy.Bilibili then
        addClient "bilibili" env.NewBilibiliGrpcClient c.bilibili
          info.UsedBy.BilibiliBackendName conn
      else .ok c.bilibili) with
    | .error err => .error err
    | .ok b =>
      match (if info.UsedBy.Alist then
          addClient "alist" env.NewAlistGrpcClient c.alist info.UsedBy.AlistBackendName conn
        else .ok c.alist) with
      | .error err => .error err
      | .ok a =>
        match (if info.UsedBy.Emby then
            addClient "emby" env.NewEmbyGrpcClient c.emby info.UsedBy.EmbyBackendName conn
          else .ok c.emby) with
        | .error err => .error err
        | .ok e => .ok { bilibili := b, alist := a, emby := e }

/-- The loop of `newVendorClients` over the entries of the map; `none` stands
for the panic on a nil `Info`. -/
def newVendorClientsLoop (env : Env) (infos : List model.VendorBackend) :
    List (String × BackendConn) → Clients → Option (Except GoError Clients)
  | [], c => some (.ok c)
  | (_, conn) :: rest, c =>
    match infos[conn.Info]? with
    | none => none
    | some info =>
      match addClients env conn.Conn info c with
      | .error err => some (.error err)
      | .ok c1 => newVendorClientsLoop env infos rest c1

/-- `newVendorClients(conns)` in memory `s`. -/
def newVendorClients (env : Env) (s : Memory) (conns : gomap.Map BackendConn) :
    Option (Except GoError Clients) :=
  newVendorClientsLoop env s.infos conns { bilibili := [], alist := [], emby := [] }

/-- The assignment `p.UsedBy.Enabled = b` through the pointer `p`. -/
def Memory.setEnabled (s : Memory) (p : Nat) (b : Bool) : Memory :=
  match s.infos[p]? with
  | none => s
  | some info =>
    { s with infos := s.infos.set p { info with UsedBy := { info.UsedBy with Enabled := b } } }

/-- `storeBackends(conns, clients)`. -/
def Memory.storeBackends (s : Memory) (conns : Nat) (clients : Clients) : Memory :=
  { s with backends := { conns := conns, clients := clients } }

/-- `EnableVendorBackend` for `enable = true` and `DisableVendorBackend` for
`enable = false`: the two functions have the same text with the values of the
flag exchanged. `dbErr` is the result of `db.EnableVendorBackend` or
`db.DisableVendorBackend`. The deferred function restores the flag when the
call returns an error. -/
def switchVendorBackend (enable : Bool) (env : Env) (dbErr : Option GoError)
    (endpoint : String) (s : Memory) : Outcome × Memory :=
  if s.locked then (.error (GoError.New "vendor backend is updating"), s)
  else
    match s.maps[s.backends.conns]? with
    | none => (.panic, s)
    | some raw =>
      match gomap.Load raw endpoint with
      | none => (.error (GoError.New ("endpoint not found: " ++ endpoint)), s)
      | some v =>
        match s.infos[v.Info]? with
        | none => (.panic, s)
        | some info =>
          if info.UsedBy.Enabled = enable then (.ok, s)
          else
            let s1 := s.setEnabled v.Info enable
            match newVendorClients env s1 raw with
            | none => (.panic, s1)
            | some (.error err) => (.error err, s1.setEnabled v.Info (!enable))
            | some (.ok vc) =>
              match dbErr with
              | some err => (.error err, s1.setEnabled v.Info (!enable))
              | none => (.ok, s1.storeBackends s.backends.conns vc)

/-- `EnableVendorBackend`. -/
def EnableVendorBackend (env : Env) (dbErr : Option GoError) (endpoint : String)
    (s : Memory) : Outcome × Memory :=
  switchVendorBackend true env dbErr endpoint s

/-- `DisableVendorBackend`. -/
def DisableVendorBackend (env : Env) (dbErr : Option GoError) (endpoint : String)
    (s : Memory) : Outcome × Memory :=
  switchVendorBackend false env dbErr endpoint s

/-- The first loop of `EnableVendorBackends` / `DisableVendorBackends`: the
endpoints whose flag is not yet `enable` are collected in `need`; an endpoint
that is not in the map ends the call with an error. -/
def needChangeEndpoints (enable : Bool) (infos : List model.VendorBackend)
    (raw : gomap.Map BackendConn) : List String → List String → Except Outcome (List String)
  | [], need => .ok need
  | endpoint :: rest, need =>
    match gomap.Load raw endpoint with
    | none => .error (.error (GoError.New ("endpoint not found: " ++ endpoint)))
    | some v =>
      match infos[v.Info]? with
      | none => .error .panic
      | some info =>
        if info.UsedBy.Enabled = enable then needChangeEndpoints enable infos raw rest need
        else needChangeEndpoints enable infos raw rest (need ++ [endpoint])

/-- The loops `for _, endpoint := range needChangeEndpoints` that assign
`raw[endpoint].Info.UsedBy.Enabled = b` (every such endpoint is in the map). -/
def setEnabledAll (raw : gomap.Map BackendConn) (b : Bool) : List String → Memory → Memory
  | [], s => s
  | endpoint :: rest, s =>
    match gomap.Load raw endpoint with
    | none => setEnabledAll raw b rest s
    | some v => setEnabledAll raw b rest (s.setEnabled v.Info b)

/-- `EnableVendorBackends` for `enable = true` and `DisableVendorBackends` for
`enable = false`. -/
def switchVendorBackends (enable : Bool) (env : Env) (dbErr : Option GoError)
    (endpoints : List String) (s : Memory) : Outcome × Memory :=
  if s.locked then (.error (GoError.New "vendor backend is updating"), s)
  else
    match s.maps[s.backends.conns]? with
    | none => (.panic, s)
    | some raw =>
      match needChangeEndpoints enable s.infos raw endpoints [] with
      | .error out => (out, s)
      | .ok need =>
        let s1 := setEnabledAll raw enable need s
        match newVendorClients env s1 raw with
        | none => (.panic, s1)
        | some (.error err) => (.error err, setEnabledAll raw (!enable) need s1)
        | some (.ok vc) =>
          match dbErr with
          | some err => (.error err, setEnabledAll raw (!enable) need s1)
          | none => (.ok, s1.storeBackends s.backends.conns vc)

/-- `EnableVendorBackends`. -/
def EnableVendorBackends (env : Env) (dbErr : Option GoError) (endpoints : List String)
    (s : Memory) : Outcome × Memory :=
  switchVendorBackends true env dbErr endpoints s

/-- `DisableVendorBackends`. -/
def DisableVendorBackends (env : Env) (dbErr : Option GoError) (endpoints : List String)
    (s : Memory) : Outcome × Memory :=
  switchVendorBackends false env dbErr endpoints s

/-- `conn.Close()`. -/
def Memory.close (s : Memory) (conn : Nat) : Memory :=
  { s with closed := s.closed ++ [conn] }

/-- `AddVendorBackend`. The object `backend` points to is the caller's, made
for the call: it is put into memory at a new address. `dbErr` is the result
of `db.CreateVendorBackend`. -/
def AddVendorBackend (env : Env) (dbErr : Option GoError) (backend : model.VendorBackend)
    (s : Memory) : Outcome × Memory :=
  if s.locked then (.error (GoError.New "vendor backend is updating"), s)
  else
    match s.maps[s.backends.conns]? with
    | none => (.panic, s)
    | some raw =>
      match gomap.Load raw backend.Backend.Endpoint with
      | some _ =>
        (.error (GoError.New ("duplicate endpoint: " ++ backend.Backend.Endpoint)), s)
      | none =>
        match env.NewGrpcConn backend.Backend with
        | .error err => (.error err, s)
        | .ok (cc, conf) =>
          let info := s.infos.length
          let s1 : Memory := { s with infos := s.infos ++ [{ backend with Backend := conf }] }
          let bc : BackendConn := { Conn := cc, Info := info }
          let m := s1.maps.length
          let s2 : Memory := { s1 with maps := s1.maps ++ [gomap.Store raw conf.Endpoint bc] }
          match newVendorClients env s2 (gomap.Store raw conf.Endpoint bc) with
          | none => (.panic, s2)
          | some (.error err) => (.error err, s2.close cc)
          | some (.ok vc) =>
            match dbErr with
            | some err => (.error err, s2.close cc)
            | none => (.ok, s2.storeBackends m vc)

/-- `DeleteVendorBackend`; `dbErr` is the result of `db.DeleteVendorBackend`. -/
def DeleteVendorBackend (env : Env) (dbErr : Option GoError) (endpoint : String)
    (s : Memory) : Outcome × Memory :=
  if s.locked then (.error (GoError.New "vendor backend is updating"), s)
  else
    match s.maps[s.backends.conns]? with
    | none => (.panic, s)
    | some raw =>
      match gomap.Load raw endpoint with
      | none => (.error (GoError.New ("endpoint not found: " ++ endpoint)), s)
      | some before =>
        let m := s.maps.length
        let s1 : Memory := { s with maps := s.maps ++ [gomap.Delete raw endpoint] }
        match newVendorClients env s1 (gomap.Delete raw endpoint) with
        | none => (.panic, s1)
        | some (.error err) => (.error err, s1)
        | some (.ok vc) =>
          match dbErr with
          | some err => (.error err, s1)
          | none => (.ok, (s1.storeBackends m vc).close before.Conn)

/-- The first loop of `DeleteVendorBackends` on the clone `m`: the connections
of the endpoints are collected and the endpoints deleted; an endpoint that is
not in the clone ends the call with an error, the clone being left as it is
by then. -/
def deleteAll : List String → gomap.Map BackendConn → List Nat →
    Except (GoError × gomap.Map BackendConn) (gomap.Map BackendConn × List Nat)
  | [], m, before => .ok (m, before)
  | endpoint :: rest, m, before =>
    match gomap.Load m endpoint with
    | none => .error (GoError.New ("endpoint not found: " ++ endpoint), m)
    | some conn => deleteAll rest (gomap.Delete m endpoint) (before ++ [conn.Conn])

/-- `DeleteVendorBackends`; `dbErr` is the result of `db.DeleteVendorBackends`.
The clone is made before the endpoints are looked up, and is in memory
whichever way the call ends. -/
def DeleteVendorBackends (env : Env) (dbErr : Option GoError) (endpoints : List String)
    (s : Memory) : Outcome × Memory :=
  if s.locked then (.error (GoError.New "vendor backend is updating"), s)
  else
    match s.maps[s.backends.conns]? with
    | none => (.panic, s)
    | some raw =>
      let m := s.maps.length
      match deleteAll endpoints raw [] with
      | .error (err, m1) => (.error err, { s with maps := s.maps ++ [m1] })
      | .ok (m1, before) =>
        let s1 : Memory := { s with maps := s.maps ++ [m1] }
        match newVendorClients env s1 m1 with
        | none => (.panic, s1)
        | some (.error err) => (.error err, s1)
        | some (.ok vc) =>
          match dbErr with
          | some err => (.error err, s1)
          | none => (.ok, before.foldl Memory.close (s1.storeBackends m vc))

/-- `UpdateVendorBackend`; `dbErr` is the result of `db.SaveVendorBackend`.
The endpoint is looked up in the clone after `NewGrpcConn` has had the
settings: when it has changed the endpoint to one that is not in the map, the
read of `.Conn` panics. -/
def UpdateVendorBackend (env : Env) (dbErr : Option GoError) (backend : model.VendorBackend)
    (s : Memory) : Outcome × Memory :=
  if s.locked then (.error (GoError.New "vendor backend is updating"), s)
  else
    match s.maps[s.backends.conns]? with
    | none => (.panic, s)
    | some raw =>
      match gomap.Load raw backend.Backend.Endpoint with
      | none =>
        (.error (GoError.New ("endpoint not found: " ++ backend.Backend.Endpoint)), s)
      | some _ =>
        match env.NewGrpcConn backend.Backend with
        | .error err => (.error err, s)
        | .ok (cc, conf) =>
          let info := s.infos.length
          let s1 : Memory := { s with infos := s.infos ++ [{ backend with Backend := conf }] }
          let bc : BackendConn := { Conn := cc, Info := info }
          let m := s1.maps.length
          match gomap.Load raw conf.Endpoint with
          | none => (.panic, { s1 with maps := s1.maps ++ [raw] })
          | some before =>
            let s2 : Memory :=
              { s1 with maps := s1.maps ++ [gomap.Store raw conf.Endpoint bc] }
            match newVendorClients env s2 (gomap.Store raw conf.Endpoint bc) with
            | none => (.panic, s2)
            | some (.error err) => (.error err, s2.close cc)
            | some (.ok vc) =>
              match dbErr with
              | some err => (.error err, s2.close cc)
              | none => (.ok, (s2.storeBackends m vc).close before.Conn)

/-- The connections of the map at address `conns`, each with the backend info
it points to, as memory `s` holds them: the contents of a published
snapshot. `none` where a pointer does not resolve. -/
def Memory.snapshot (s : Memory) (conns : Nat) :
    Option (List (String × Nat × Option model.VendorBackend)) :=
  match s.maps[conns]? with
  | none => none
  | some m => some (m.map fun e => (e.1, e.2.Conn, s.infos[e.2.Info]?))

/-- Every map object and every backend info of `s` is in `s1` at the same
address, unchanged. -/
def Memory.Preserved (s s1 : Memory) : Prop :=
  (∀ (a : Nat) (m : gomap.Map BackendConn), s.maps[a]? = some m → s1.maps[a]? = some m) ∧
  (∀ (a : Nat) (info : model.VendorBackend), s.infos[a]? = some info →
    s1.infos[a]? = some info)

end vendor

namespace Scenario

/-- Collaborators that always succeed; the connection of an endpoint is 7. -/
def vendorEnv : vendor.Env :=
  { NewGrpcConn := fun conf => .ok (7, conf)
    NewBilibiliGrpcClient := fun conn => .ok conn
    NewAlistGrpcClient := fun conn => .ok conn
    NewEmbyGrpcClient := fun conn => .ok conn }

/-- A backend info for the Bilibili backend `name` at `endpoint`. -/
def bilibiliBackend (endpoint name : String) (enabled : Bool) : model.VendorBackend :=
  { Backend := { Endpoint := endpoint },
    UsedBy := { Enabled := enabled, Bilibili := true, BilibiliBackendName := name,
                Alist := false, AlistBackendName := "", Emby := false,
                EmbyBackendName := "" } }

/-- A memory with the enabled backend `b1:80` and the disabled backend
`b2:80`, both published; the clients are those of `b1:80`. -/
def vendorMemory : vendor.Memory :=
  { infos := [bilibiliBackend "b1:80" "main" true, bilibiliBackend "b2:80" "spare" false]
    maps := [[("b1:80", { Conn := 1, Info := 0 }), ("b2:80", { Conn := 2, Info := 1 })]]
    closed := []
    backends := { conns := 0, clients := { bilibili := [("main", 1)], alist := [], emby := [] } }
    locked := false }

/-- The same with both backends named `main`: enabling `b2:80` makes the
rebuilding of the clients fail on the duplicate name. -/
def vendorMemoryClash : vendor.Memory :=
  { vendorMemory with
    infos := [bilibiliBackend "b1:80" "main" true, bilibiliBackend "b2:80" "main" false] }

end Scenario

namespace vendor

/-- The backend info with the flag `Enabled` set to `b`, everything else the
same. -/
def withEnabled (b : Bool) (info : model.VendorBackend) : model.VendorBackend :=
  { info with UsedBy := { info.UsedBy with Enabled := b } }

/-- The addresses of the backend infos of the endpoints `need` in the map
`raw`. -/
def infoAddrs (raw : gomap.Map BackendConn) (need : List String) : List Nat :=
  need.filterMap fun endpoint => (gomap.Load raw endpoint).map fun v => v.Info

end vendor

namespace vendor

/-- What a call that clones the map leaves: every object of the old memory
unchanged; on success the published map is an object the old memory did not
have; otherwise the published value is the old one. -/
def ClonesAndPublishes (s : Memory) (r : Outcome × Memory) : Prop :=
  Memory.Preserved s r.2 ∧
  (r.1 = Outcome.ok →
    s.maps[r.2.backends.conns]? = none ∧ ∃ m, r.2.maps[r.2.backends.conns]? = some m) ∧
  (r.1 ≠ Outcome.ok → r.2.backends = s.backends)

/-- What a call that switches flags leaves: the map objects are the old ones
and the published map is the map object published before; a backend info
differs from the old one at most in its flag `Enabled`; after an error the
memory is the old one. -/
def SwitchesInPlace (s : Memory) (r : Outcome × Memory) : Prop :=
  r.2.maps = s.maps ∧ r.2.backends.conns = s.backends.conns ∧
  (∀ i : Nat, r.2.infos[i]? = s.infos[i]? ∨
    ∃ b, r.2.infos[i]? = (s.infos[i]?).map (withEnabled b)) ∧
  (∀ err, r.1 = Outcome.error err → r.2 = s)

end vendor

namespace vendor

/-- The published clients of `s` are the ones `newVendorClients` builds from
the published map of `s`, with the backend infos as `s` holds them. -/
def Memory.ClientsBuilt (env : Env) (s : Memory) : Prop :=
  ∃ m, s.maps[s.backends.conns]? = some m ∧
    newVendorClients env s m = some (.ok s.backends.clients)

/-- What a successful `AddVendorBackend` or `UpdateVendorBackend` has left in
`r`: the
backend info of the call is a new object; the map published before, with the
new connection stored under the endpoint, is a new map object, and it is the
published one; the published clients are built from it. -/
def StoredAndPublished (env : Env) (backend : model.VendorBackend) (s : Memory)
    (r : Outcome × Memory) : Prop :=
  ∃ raw cc conf,
    s.maps[s.backends.conns]? = some raw ∧
    env.NewGrpcConn backend.Backend = .ok (cc, conf) ∧
    r.2.infos = s.infos ++ [{ backend with Backend := conf }] ∧
    r.2.maps = s.maps ++ [gomap.Store raw conf.Endpoint { Conn := cc, Info := s.infos.length }] ∧
    r.2.backends.conns = s.maps.length ∧
    Memory.ClientsBuilt env r.2

/-- What a successful `DeleteVendorBackend` (with `endpoints` the one
endpoint) or `DeleteVendorBackends` has left in `r`: the map published before, with
the endpoints deleted, is a new map object, and it is the published one; the
published clients are built from it; the backend infos are the old ones. -/
def DeletedAndPublished (env : Env) (endpoints : List String) (s : Memory)
    (r : Outcome × Memory) : Prop :=
  ∃ raw,
    s.maps[s.backends.conns]? = some raw ∧
    r.2.infos = s.infos ∧
    r.2.maps = s.maps ++ [endpoints.foldl gomap.Delete raw] ∧
    r.2.backends.conns = s.maps.length ∧
    Memory.ClientsBuilt env r.2

/-- What a successful `EnableVendorBackend` (`enable = true`) or
`DisableVendorBackend` (`enable = false`) has left in `r`: when the backend info of the
endpoint has the flag already, the memory as it was; otherwise that backend
info with the flag written, at its address, every other object as it was, and
the map published before published again with the clients built from it. -/
def SwitchedAndPublished (env : Env) (enable : Bool) (endpoint : String) (s : Memory)
    (r : Outcome × Memory) : Prop :=
  ∃ raw v info,
    s.maps[s.backends.conns]? = some raw ∧
    gomap.Load raw endpoint = some v ∧
    s.infos[v.Info]? = some info ∧
    (info.UsedBy.Enabled = enable → r.2 = s) ∧
    (info.UsedBy.Enabled ≠ enable →
      r.2.infos = s.infos.set v.Info (withEnabled enable info) ∧
      r.2.maps = s.maps ∧ r.2.closed = s.closed ∧
      r.2.backends.conns = s.backends.conns ∧
      Memory.ClientsBuilt env r.2)

/-- What a successful `EnableVendorBackends` (`enable = true`) or
`DisableVendorBackends` (`enable = false`) has left in `r`: the backend info of every
listed endpoint with the flag as wanted, at its address; every backend info
that is not the one of a listed endpoint, and every other object, as it was;
the map published before published again with the clients built from it. -/
def SwitchedAllAndPublished (env : Env) (enable : Bool) (endpoints : List String)
    (s : Memory) (r : Outcome × Memory) : Prop :=
  ∃ raw,
    s.maps[s.backends.conns]? = some raw ∧
    (∀ e, e ∈ endpoints → ∃ v info, gomap.Load raw e = some v ∧
      s.infos[v.Info]? = some info ∧
      r.2.infos[v.Info]? = some (withEnabled enable info)) ∧
    (∀ i : Nat, i ∉ infoAddrs raw endpoints → r.2.infos[i]? = s.infos[i]?) ∧
    r.2.infos.length = s.infos.length ∧
    r.2.maps = s.maps ∧ r.2.closed = s.closed ∧
    r.2.backends.conns = s.backends.conns ∧
    Memory.ClientsBuilt env r.2

/-- The rest of `EnableVendorBackends` / `DisableVendorBackends` after the
loops (vendor.go:139-160, 217-238) when `needChangeEndpoints` is empty, which
is what these functions do when every listed endpoint has the flag already:
they do not return early; the clients are rebuilt and the persistence layer is
called, an error of either is returned, and otherwise the map published
before is published again with the rebuilt clients. No flag is written. -/
def republish (env : Env) (dbErr : Option GoError) (raw : gomap.Map BackendConn)
    (s : Memory) : Outcome × Memory :=
  match newVendorClients env s raw with
  | none => (.panic, s)
  | some (.error err) => (.error err, s)
  | some (.ok vc) =>
    match dbErr with
    | some err => (.error err, s)
    | none => (.ok, s.storeBackends s.backends.conns vc)

end vendor

/-! # Theorems -/

/-! ## Playback state -/

/-- The state after a sequence of calls that ends with `k` holds the status
recorded by `k`. -/
theorem op.current.runSetStatus_append_status (c : op.current) (ks : List op.SetStatusCall)
    (k : op.SetStatusCall) :
    (c.runSetStatus (ks ++ [k])).current.Status =
      { IsPlaying := k.playing, CurrentTime := max (k.seek + k.timeDiff) 0,
        PlaybackRate := k.rate, updatedAt := k.now } := by
  simp [op.current.runSetStatus, List.foldl_append, op.current.applySetStatus,
    op.current.SetStatus, model.Current.SetStatus]

/-- C1: after any sequence of SetStatus calls whose last call `k` records
seek_last = max (seek + timeDiff) 0, rate_last = rate and updated_at_last = now,
a read at time `t` through `Current()` or `Status()` returns
seek_last + (t - updated_at_last) * rate_last when the recorded status is
playing and seek_last otherwise. For a read that follows the calls (`t` not
before updated_at_last) and a rate within the invariant of the status
(rate > 0; rate 0 is covered too) the returned seek is not below 0. -/
theorem op.current.read_after_SetStatus (c : op.current) (ks : List op.SetStatusCall)
    (k : op.SetStatusCall) (t : ℚ) :
    ((c.runSetStatus (ks ++ [k])).Current t).1.Status.CurrentTime =
        (if k.playing then max (k.seek + k.timeDiff) 0 + (t - k.now) * k.rate
         else max (k.seek + k.timeDiff) 0) ∧
      ((c.runSetStatus (ks ++ [k])).Status t).1.CurrentTime =
        (if k.playing then max (k.seek + k.timeDiff) 0 + (t - k.now) * k.rate
         else max (k.seek + k.timeDiff) 0) ∧
      (k.now ≤ t → 0 ≤ k.rate →
        0 ≤ ((c.runSetStatus (ks ++ [k])).Current t).1.Status.CurrentTime ∧
        0 ≤ ((c.runSetStatus (ks ++ [k])).Status t).1.CurrentTime) := by
  have hs := op.current.runSetStatus_append_status c ks k
  have hread : ((c.runSetStatus (ks ++ [k])).Current t).1.Status.CurrentTime =
      (if k.playing then max (k.seek + k.timeDiff) 0 + (t - k.now) * k.rate
       else max (k.seek + k.timeDiff) 0) := by
    simp only [op.current.Current, model.Current.UpdateStatus, hs]
    cases k.playing <;> simp
  have hstat : ((c.runSetStatus (ks ++ [k])).Status t).1.CurrentTime =
      (if k.playing then max (k.seek + k.timeDiff) 0 + (t - k.now) * k.rate
       else max (k.seek + k.timeDiff) 0) := by
    simp only [op.current.Status, model.Current.UpdateStatus, hs]
    cases k.playing <;> simp
  refine ⟨hread, hstat, ?_⟩
  intro ht hr
  rw [hread, hstat]
  have h0 : (0 : ℚ) ≤ max (k.seek + k.timeDiff) 0 := le_max_right _ _
  have h1 : (0 : ℚ) ≤ (t - k.now) * k.rate := mul_nonneg (sub_nonneg.mpr ht) hr
  cases k.playing
  · simp
  · simpa using add_nonneg h0 h1

/-- Witness for C1: playing at seek 30, rate 1, recorded at time 100; a read at
time 105 returns 35. -/
theorem op.current.read_after_SetStatus_witness :
    ((Scenario.room.runSetStatus ([] ++ [Scenario.play30])).Current 105).1.Status.CurrentTime = 35 ∧
      0 ≤ ((Scenario.room.runSetStatus ([] ++ [Scenario.play30])).Current 105).1.Status.CurrentTime := by
  have h := op.current.read_after_SetStatus Scenario.room [] Scenario.play30 105
  refine ⟨?_, (h.2.2 (by norm_num [Scenario.play30]) (by norm_num [Scenario.play30])).1⟩
  rw [h.1]
  norm_num [Scenario.play30]

/-- C2: SetStatus records and returns the status with seek = max (seek +
clientTimeDiff) 0, rate = rate, is-playing = playing and updated-at = the time
of the call; the movie and the room ID are kept. -/
theorem op.current.SetStatus_records (c : op.current) (now : ℚ) (playing : Bool)
    (seek rate timeDiff : ℚ) :
    (c.SetStatus now playing seek rate timeDiff).1 =
        { IsPlaying := playing, CurrentTime := max (seek + timeDiff) 0,
          PlaybackRate := rate, updatedAt := now } ∧
      (c.SetStatus now playing seek rate timeDiff).2.current.Status =
        (c.SetStatus now playing seek rate timeDiff).1 ∧
      (c.SetStatus now playing seek rate timeDiff).2.current.Movie = c.current.Movie ∧
      (c.SetStatus now playing seek rate timeDiff).2.roomID = c.roomID ∧
      0 ≤ (c.SetStatus now playing seek rate timeDiff).1.CurrentTime := by
  refine ⟨rfl, rfl, rfl, rfl, ?_⟩
  exact le_max_right _ _

/-- C3: after SetMovie(m, play) at time `t0`, a Current() read returns
Movie = m and is-playing = play whenever it is taken, and seek 0 when it is
taken at the time of the call, for either value of play; with play = false the
seek is 0 at every later read as well. -/
theorem op.current.Current_after_SetMovie (c : op.current) (t0 t : ℚ)
    (m : model.CurrentMovie) (play : Bool) :
    (((c.SetMovie t0 m play).Current t).1.Movie = m) ∧
      (((c.SetMovie t0 m play).Current t).1.Status.IsPlaying = play) ∧
      (((c.SetMovie t0 m play).Current t0).1.Status.CurrentTime = 0) ∧
      (((c.SetMovie t0 m false).Current t).1.Status.CurrentTime = 0) ∧
      ((c.SetMovie t0 m play).current.Movie = m ∧
        (c.SetMovie t0 m play).current.Status.CurrentTime = 0 ∧
        (c.SetMovie t0 m play).current.Status.IsPlaying = play) := by
  cases play <;>
    simp [op.current.SetMovie, op.current.Current, model.Current.SetSeek,
      model.Current.UpdateStatus]

/-! ## Blocking loops -/

theorem mapBlocking_eq_ite {α β : Type} (f : α → Option β) (g : α → β) (p : α → Bool)
    (hf : ∀ x, f x = if p x then some (g x) else none) (l : List α) :
    mapBlocking f l = if l.all p then some (l.map g) else none := by
  induction l with
  | nil => rfl
  | cons x xs ih =>
    cases hp : p x <;> cases hq : xs.all p <;> simp [mapBlocking, hf x, hp, ih, hq]

/-! ## The serve loop -/

/-- The body of the serve loop for one client: it waits exactly when the
descriptor targets an open client whose queue is full, and otherwise leaves
the client as `specDeliver` describes. -/
theorem op.Hub.serveClient_eq (d : op.broadcastMessage) (c : op.Client) :
    op.Hub.serveClient d c =
      if op.specTargets d c && !c.c.hasRoom then none else some (op.specDeliver d c) := by
  unfold op.Hub.serveClient op.specDeliver op.specTargets op.Client.Send op.Client.Close
    op.Client.Closed op.Client.ConnID op.Client.RTCJoined utils.In Chan.push
  by_cases h1 : c.u.ID ∈ d.ignoreUserID <;> by_cases h2 : c.connID ∈ d.ignoreConnID <;>
    by_cases h3 : c.closed = 1 <;> cases h4 : d.rtcJoined <;> cases h5 : c.rtcJoined <;>
    cases h6 : c.c.hasRoom <;> simp [h1, h2, h3, h4, h5, h6]

/-- The loop over one user's connections completes exactly when every
targeted client has room, and then delivers as `specDeliver` describes. -/
theorem op.Hub.serveBucket_eq (d : op.broadcastMessage) (cs : op.clients) :
    op.Hub.serveBucket d cs =
      if cs.m.all (fun x => !op.specTargets d x.2 || x.2.c.hasRoom) then
        some { m := cs.m.map (fun x => (x.1, op.specDeliver d x.2)) }
      else none := by
  unfold op.Hub.serveBucket
  rw [mapBlocking_eq_ite _ (fun x => (x.1, op.specDeliver d x.2))
    (fun x => !op.specTargets d x.2 || x.2.c.hasRoom)]
  · cases cs.m.all (fun x => !op.specTargets d x.2 || x.2.c.hasRoom) <;> rfl
  · intro x
    rw [op.Hub.serveClient_eq]
    cases op.specTargets d x.2 <;> cases x.2.c.hasRoom <;> simp

/-- The dispatch of a dequeued descriptor completes exactly when every
targeted client has room, and then the registry is `specDispatch`. -/
theorem op.Hub.serveMessage_eq (h : op.Hub) (d : op.broadcastMessage) :
    h.serveMessage d =
      if op.specReady d h.clients then some { h with clients := op.specDispatch d h.clients }
      else none := by
  unfold op.Hub.serveMessage op.specReady op.specDispatch
  rw [mapBlocking_eq_ite _
    (fun e => (e.1, ({ m := e.2.m.map (fun x => (x.1, op.specDeliver d x.2)) } : op.clients)))
    (fun e => e.2.m.all (fun x => !op.specTargets d x.2 || x.2.c.hasRoom))]
  · cases h.clients.all
      (fun e => e.2.m.all (fun x => !op.specTargets d x.2 || x.2.c.hasRoom)) <;> rfl
  · intro e
    rw [op.Hub.serveBucket_eq]
    cases e.2.m.all (fun x => !op.specTargets d x.2 || x.2.c.hasRoom) <;> rfl

/-! ## Maps -/

theorem gomap.Load_map_val {V W : Type} (m : gomap.Map V) (f : V → W) (k : String) :
    gomap.Load (m.map (fun e => (e.1, f e.2))) k = (gomap.Load m k).map f := by
  unfold gomap.Load
  induction m with
  | nil => rfl
  | cons e es ih =>
    obtain ⟨a, b⟩ := e
    simp only [List.map_cons, List.lookup_cons]
    cases k == a <;> simp [ih]

theorem gomap.Load_set_self {V : Type} (m : gomap.Map V) (k : String) (v : V) :
    gomap.Load (gomap.set m k v) k = (gomap.Load m k).map (fun _ => v) := by
  unfold gomap.Load gomap.set
  induction m with
  | nil => rfl
  | cons e es ih =>
    obtain ⟨a, b⟩ := e
    by_cases hk : a = k
    · subst hk
      simp
    · have hk1 : (k == a) = false := by simpa using fun h => hk h.symm
      simp only [beq_iff_eq] at ih
      simp [List.lookup_cons, hk, hk1, ih]

theorem gomap.Load_set_of_ne {V : Type} (m : gomap.Map V) (k k1 : String) (v : V)
    (hne : k1 ≠ k) : gomap.Load (gomap.set m k v) k1 = gomap.Load m k1 := by
  unfold gomap.Load gomap.set
  induction m with
  | nil => rfl
  | cons e es ih =>
    obtain ⟨a, b⟩ := e
    by_cases hk : a = k
    · subst hk
      have h1 : (k1 == a) = false := by simpa using hne
      simp only [beq_iff_eq] at ih
      simp [List.lookup_cons, h1, ih]
    · simp only [beq_iff_eq] at ih
      simp only [List.map_cons, beq_iff_eq, hk, if_false, List.lookup_cons]
      cases k1 == a <;> simp [ih]

theorem gomap.Load_Store_self {V : Type} (m : gomap.Map V) (k : String) (v : V) :
    gomap.Load (gomap.Store m k v) k = some v := by
  unfold gomap.Store
  cases hl : m.lookup k with
  | none =>
    simp only
    unfold gomap.Load
    rw [List.lookup_append, hl]
    simp
  | some x =>
    simp only
    rw [gomap.Load_set_self]
    unfold gomap.Load
    rw [hl]
    rfl

theorem gomap.Load_Store_of_ne {V : Type} (m : gomap.Map V) (k k1 : String) (v : V)
    (hne : k1 ≠ k) : gomap.Load (gomap.Store m k v) k1 = gomap.Load m k1 := by
  unfold gomap.Store
  cases hl : m.lookup k with
  | none =>
    simp only
    unfold gomap.Load
    rw [List.lookup_append]
    have h1 : (k1 == k) = false := by simpa using hne
    simp [List.lookup_cons, h1]
  | some x =>
    simp only
    exact gomap.Load_set_of_ne m k k1 v hne

/-- The `Load` that follows `LoadOrStore` on the same key returns the value
that `LoadOrStore` returned. -/
theorem gomap.Load_LoadOrStore {V : Type} (m : gomap.Map V) (k : String) (v : V) :
    gomap.Load (gomap.LoadOrStore m k v).2 k = some (gomap.LoadOrStore m k v).1.1 := by
  unfold gomap.LoadOrStore
  cases hl : m.lookup k with
  | none =>
    simp only
    unfold gomap.Load
    rw [List.lookup_append, hl]
    simp
  | some x =>
    simp only
    exact hl

theorem gomap.Load_LoadOrStore_of_ne {V : Type} (m : gomap.Map V) (k k1 : String) (v : V)
    (hne : k1 ≠ k) : gomap.Load (gomap.LoadOrStore m k v).2 k1 = gomap.Load m k1 := by
  unfold gomap.LoadOrStore
  cases hl : m.lookup k with
  | none =>
    simp only
    unfold gomap.Load
    rw [List.lookup_append]
    have h1 : (k1 == k) = false := by simpa using hne
    simp [List.lookup_cons, h1]
  | some x => rfl

/-- Looking a connection up after a dispatch: the entry found before, with
`specDeliver` applied. -/
theorem op.Hub.GetClientByConnID_specDispatch (h : op.Hub) (d : op.broadcastMessage)
    (u k : String) :
    ({ h with clients := op.specDispatch d h.clients } : op.Hub).GetClientByConnID u k =
      (h.GetClientByConnID u k).map (op.specDeliver d) := by
  unfold op.Hub.GetClientByConnID op.specDispatch
  simp only
  rw [gomap.Load_map_val h.clients
    (fun b => ({ m := b.m.map (fun x => (x.1, op.specDeliver d x.2)) } : op.clients)) u]
  cases gomap.Load h.clients u with
  | none => rfl
  | some b => exact gomap.Load_map_val b.m (op.specDeliver d) k

/-- What a completed dispatch leaves: the hub with `specDispatch` as registry. -/
theorem op.Hub.serveMessage_some (h h1 : op.Hub) (d : op.broadcastMessage)
    (hs : h.serveMessage d = some h1) :
    h1 = { h with clients := op.specDispatch d h.clients } ∧
      ∀ u k, h1.GetClientByConnID u k = (h.GetClientByConnID u k).map (op.specDeliver d) := by
  rw [op.Hub.serveMessage_eq] at hs
  by_cases hr : op.specReady d h.clients = true
  · rw [if_pos hr] at hs
    have e : h1 = { h with clients := op.specDispatch d h.clients } := (Option.some.inj hs).symm
    refine ⟨e, fun u k => ?_⟩
    rw [e]
    exact op.Hub.GetClientByConnID_specDispatch h d u k
  · rw [if_neg hr] at hs
    cases hs

/-- A client that is open and passes the filters of `d` gets the message at the
tail of its queue. -/
theorem op.specDeliver_targeted (d : op.broadcastMessage) (c : op.Client) (h1 : c.closed ≠ 1)
    (h2 : c.u.ID ∉ d.ignoreUserID) (h3 : c.connID ∉ d.ignoreConnID)
    (h4 : d.rtcJoined = true → c.rtcJoined = true) :
    op.specDeliver d c = { c with c := { c.c with buf := c.c.buf ++ [d.data] } } := by
  have ht : op.specTargets d c = true := by
    cases hj : d.rtcJoined
    · simp [op.specTargets, h1, h2, h3, hj]
    · simp [op.specTargets, h1, h2, h3, hj, h4 hj]
  simp [op.specDeliver, ht]

/-- A client that is closed or fails a filter of `d` is left as it was. -/
theorem op.specDeliver_untargeted (d : op.broadcastMessage) (c : op.Client)
    (hc : c.closed = 1 ∨ c.u.ID ∈ d.ignoreUserID ∨ c.connID ∈ d.ignoreConnID ∨
      (d.rtcJoined = true ∧ c.rtcJoined = false)) :
    op.specDeliver d c = c := by
  have ht : op.specTargets d c = false := by
    rcases hc with h1 | h1 | h1 | ⟨h1, h2⟩ <;> simp [op.specTargets, h1, *]
  simp [op.specDeliver, ht]

/-- C4 (as amended): the dispatch of a dequeued descriptor completes when every
targeted client has room in its send queue, and whenever it completes the
message is at the tail of the send queue of exactly those registered clients
that are not closed, whose user ID is not in the ignore-user list, whose
connection ID is not in the ignore-connection list and, when the RTC-only flag
is set, whose RTC-joined flag is true; every other client, a closed one
included, is unchanged, as is the rest of the hub. -/
theorem op.Hub.serveMessage_dispatch (h : op.Hub) (d : op.broadcastMessage) :
    (op.specReady d h.clients = true →
        h.serveMessage d = some { h with clients := op.specDispatch d h.clients }) ∧
      (∀ h1, h.serveMessage d = some h1 →
        h1 = { h with clients := op.specDispatch d h.clients } ∧
        ∀ u k, h1.GetClientByConnID u k = (h.GetClientByConnID u k).map (op.specDeliver d)) ∧
      (∀ c : op.Client, c.closed ≠ 1 → c.u.ID ∉ d.ignoreUserID → c.connID ∉ d.ignoreConnID →
        (d.rtcJoined = true → c.rtcJoined = true) →
        op.specDeliver d c = { c with c := { c.c with buf := c.c.buf ++ [d.data] } }) ∧
      (∀ c : op.Client,
        (c.closed = 1 ∨ c.u.ID ∈ d.ignoreUserID ∨ c.connID ∈ d.ignoreConnID ∨
          (d.rtcJoined = true ∧ c.rtcJoined = false)) →
        op.specDeliver d c = c) := by
  refine ⟨?_, ?_, ?_, ?_⟩
  · intro hr
    rw [op.Hub.serveMessage_eq, if_pos hr]
  · intro h1 hs
    exact op.Hub.serveMessage_some h h1 d hs
  · intro c h1 h2 h3 h4
    exact op.specDeliver_targeted d c h1 h2 h3 h4
  · intro c hc
    exact op.specDeliver_untargeted d c hc

/-- Witness for C4: on the hub of A, B and C the descriptor that ignores A's
connection is dispatched; B has the message and A is unchanged. -/
theorem op.Hub.serveMessage_dispatch_witness :
    Scenario.hub.serveMessage Scenario.pingOthers =
        some { Scenario.hub with
          clients := op.specDispatch Scenario.pingOthers Scenario.hub.clients } ∧
      op.specDeliver Scenario.pingOthers Scenario.clientB =
        { Scenario.clientB with
          c := { Scenario.clientB.c with
            buf := Scenario.clientB.c.buf ++ [Scenario.pingOthers.data] } } ∧
      op.specDeliver Scenario.pingOthers Scenario.clientA = Scenario.clientA :=
  ⟨(op.Hub.serveMessage_dispatch Scenario.hub Scenario.pingOthers).1 (by decide),
    (op.Hub.serveMessage_dispatch Scenario.hub Scenario.pingOthers).2.2.1 Scenario.clientB
      (by decide) (by decide) (by decide) (by decide),
    (op.Hub.serveMessage_dispatch Scenario.hub Scenario.pingOthers).2.2.2 Scenario.clientA
      (by decide)⟩

/-- Counterexample to C4 as stated: B is registered and closed, the descriptor
has no ignore list and no RTC filter, the dispatch completes, and B's send
queue is still empty while A's holds the message. -/
theorem op.Hub.serveMessage_skips_closed :
    Scenario.pingAll.ignoreUserID = [] ∧ Scenario.pingAll.ignoreConnID = [] ∧
      Scenario.pingAll.rtcJoined = false ∧
      (Scenario.hubKicked.GetClientByConnID "ub" "conn-b").map (fun c => c.c.buf) = some [] ∧
      (Scenario.hubKicked.serveMessage Scenario.pingAll).map
          (fun h => (h.GetClientByConnID "ub" "conn-b").map (fun c => c.c.buf)) =
        some (some []) ∧
      (Scenario.hubKicked.serveMessage Scenario.pingAll).map
          (fun h => (h.GetClientByConnID "ua" "conn-a").map (fun c => c.c.buf)) =
        some (some [op.Message.PingMessage]) := by
  decide

/-! ## Status broadcast -/

/-- One iteration of the serve loop on a hub whose oldest queued descriptor is
`d`: the dispatch of `d` on the hub with `d` dequeued. -/
theorem op.Hub.serveStep_cons (h : op.Hub) (d : op.broadcastMessage)
    (rest : List op.broadcastMessage) (hq : h.broadcast.buf = d :: rest) :
    h.serveStep =
      ({ h with broadcast := { h.broadcast with buf := rest } } : op.Hub).serveMessage d := by
  unfold op.Hub.serveStep
  rw [hq]

/-- `Client.SetStatus` returns nil when the user has the permission, the hub
is not closed and its broadcast queue has room. -/
theorem op.Client.SetStatus_returns (a : op.Client) (r : op.current) (h : op.Hub) (now : ℚ)
    (playing : Bool) (seek rate timeDiff : ℚ) (hopen : h.closed ≠ 1)
    (hroom : h.broadcast.hasRoom = true) :
    a.SetStatus true r h now playing seek rate timeDiff =
      some (none, (r.SetStatus now playing seek rate timeDiff).2,
        { h with
          once := true
          broadcast := h.broadcast.push
            (op.statusDescriptor a (r.SetStatus now playing seek rate timeDiff).1) }) := by
  simp [op.Client.SetStatus, op.User.SetRoomCurrentStatus, op.Client.Broadcast,
    op.Hub.Broadcast, op.Hub.Closed, hopen, hroom, op.statusDescriptor, op.statusMessage,
    op.WithIgnoreConnID, op.Client.ConnID]

/-- C5 (as amended): when `Client.SetStatus` succeeds on connection A, the room
state holds the status returned by the state update, the descriptor queued on
the hub carries a STATUS message with exactly that status (is-playing,
current-time, playback-rate) and ignores A's connection ID; when the serve loop
dispatches it, the message is put at the tail of the send queue of every
registered connection with another connection ID that is not closed, and the
queues of A's own connection and of closed connections are unchanged. -/
theorem op.Client.SetStatus_broadcast (a : op.Client) (permitted : Bool) (r : op.current)
    (h : op.Hub) (now : ℚ) (playing : Bool) (seek rate timeDiff : ℚ) (r1 : op.current)
    (h1 : op.Hub)
    (hok : a.SetStatus permitted r h now playing seek rate timeDiff = some (none, r1, h1)) :
    r1 = (r.SetStatus now playing seek rate timeDiff).2 ∧
      r1.current.Status = (r.SetStatus now playing seek rate timeDiff).1 ∧
      h1.broadcast.buf = h.broadcast.buf ++
        [op.statusDescriptor a (r.SetStatus now playing seek rate timeDiff).1] ∧
      h1.clients = h.clients ∧
      (∀ (h2 h3 : op.Hub) (rest : List op.broadcastMessage),
        h2.broadcast.buf =
          op.statusDescriptor a (r.SetStatus now playing seek rate timeDiff).1 :: rest →
        h2.serveStep = some h3 →
        h3.broadcast.buf = rest ∧
        ∀ u k, h3.GetClientByConnID u k =
          (h2.GetClientByConnID u k).map
            (op.specDeliver
              (op.statusDescriptor a (r.SetStatus now playing seek rate timeDiff).1))) ∧
      (∀ c : op.Client, c.connID ≠ a.connID → c.closed ≠ 1 →
        op.specDeliver (op.statusDescriptor a (r.SetStatus now playing seek rate timeDiff).1) c =
          { c with c := { c.c with buf := c.c.buf ++
            [op.statusMessage a.u (r.SetStatus now playing seek rate timeDiff).1] } }) ∧
      (∀ c : op.Client, c.connID = a.connID ∨ c.closed = 1 →
        op.specDeliver (op.statusDescriptor a (r.SetStatus now playing seek rate timeDiff).1) c
          = c) := by
  have hperm : permitted = true := by
    cases permitted
    · simp [op.Client.SetStatus, op.User.SetRoomCurrentStatus] at hok
    · rfl
  subst hperm
  have hopen : h.closed ≠ 1 := by
    intro hc
    simp [op.Client.SetStatus, op.User.SetRoomCurrentStatus, op.Client.Broadcast,
      op.Hub.Broadcast, op.Hub.Closed, hc] at hok
  have hroom : h.broadcast.hasRoom = true := by
    cases hr : h.broadcast.hasRoom
    · exfalso
      by_cases he : h.exit.closes = 0 <;>
        simp [op.Client.SetStatus, op.User.SetRoomCurrentStatus, op.Client.Broadcast,
          op.Hub.Broadcast, op.Hub.Closed, hopen, hr, he] at hok
    · rfl
  rw [op.Client.SetStatus_returns a r h now playing seek rate timeDiff hopen hroom] at hok
  simp only [Option.some.injEq, Prod.mk.injEq, true_and] at hok
  obtain ⟨e1, e2⟩ := hok
  subst e1 e2
  refine ⟨rfl, rfl, rfl, rfl, ?_, ?_, ?_⟩
  · intro h2 h3 rest hq hs
    rw [op.Hub.serveStep_cons h2 _ rest hq] at hs
    obtain ⟨e, hl⟩ := op.Hub.serveMessage_some _ h3 _ hs
    refine ⟨by rw [e], fun u k => ?_⟩
    rw [hl u k]
    rfl
  · intro c hc hcl
    exact op.specDeliver_targeted _ c hcl (by simp [op.statusDescriptor])
      (by simpa [op.statusDescriptor] using hc) (by simp [op.statusDescriptor])
  · intro c hc
    apply op.specDeliver_untargeted _ c
    rcases hc with hc | hc
    · exact Or.inr (Or.inr (Or.inl (by simp [op.statusDescriptor, hc])))
    · exact Or.inl hc

/-- Witness for C5 (the spec's second scenario): A sends playing=false,
seek=42, rate=1, td=0 at time 100 on the hub of A, B and C; the call returns
nil, and when the serve loop dispatches the descriptor B and C hold the STATUS
message with current-time 42 and is-playing false while A's queue is empty. -/
theorem op.Client.SetStatus_broadcast_witness :
    (Scenario.clientA.SetStatus true Scenario.room Scenario.hub 100 false 42 1 0).map
        (fun x => x.1) = some none ∧
      ((Scenario.clientA.SetStatus true Scenario.room Scenario.hub 100 false 42 1 0).bind
          (fun x => x.2.2.serveStep)).map
          (fun h3 => (h3.GetClientByConnID "ub" "conn-b").map (fun c => c.c.buf)) =
        some (some [op.statusMessage Scenario.clientA.u
          { IsPlaying := false, CurrentTime := 42, PlaybackRate := 1, updatedAt := 100 }]) ∧
      ((Scenario.clientA.SetStatus true Scenario.room Scenario.hub 100 false 42 1 0).bind
          (fun x => x.2.2.serveStep)).map
          (fun h3 => (h3.GetClientByConnID "uc" "conn-c").map (fun c => c.c.buf)) =
        some (some [op.statusMessage Scenario.clientA.u
          { IsPlaying := false, CurrentTime := 42, PlaybackRate := 1, updatedAt := 100 }]) ∧
      ((Scenario.clientA.SetStatus true Scenario.room Scenario.hub 100 false 42 1 0).bind
          (fun x => x.2.2.serveStep)).map
          (fun h3 => (h3.GetClientByConnID "ua" "conn-a").map (fun c => c.c.buf)) =
        some (some []) := by
  have hok := op.Client.SetStatus_returns Scenario.clientA Scenario.room Scenario.hub
    100 false 42 1 0 (by decide) (by decide)
  have hs : (Scenario.room.SetStatus 100 false 42 1 0).1 =
      { IsPlaying := false, CurrentTime := 42, PlaybackRate := 1, updatedAt := 100 } := by
    norm_num [op.current.SetStatus, model.Current.SetStatus]
  obtain ⟨-, -, -, -, hserve, hother, hself⟩ :=
    op.Client.SetStatus_broadcast Scenario.clientA true Scenario.room Scenario.hub
      100 false 42 1 0 _ _ hok
  rw [hs] at hserve hother hself hok
  have hstep : ∀ h3, ({ Scenario.hub with
        once := true
        broadcast := Scenario.hub.broadcast.push
          (op.statusDescriptor Scenario.clientA
            { IsPlaying := false, CurrentTime := 42, PlaybackRate := 1, updatedAt := 100 }) }
        : op.Hub).serveStep = some h3 → _ :=
    fun h3 => hserve _ h3 [] rfl
  have hready : op.specReady (op.statusDescriptor Scenario.clientA
      { IsPlaying := false, CurrentTime := 42, PlaybackRate := 1, updatedAt := 100 })
      Scenario.hub.clients = true := by decide
  have hrun := op.Hub.serveStep_cons
    ({ Scenario.hub with
        once := true
        broadcast := Scenario.hub.broadcast.push
          (op.statusDescriptor Scenario.clientA
            { IsPlaying := false, CurrentTime := 42, PlaybackRate := 1, updatedAt := 100 }) }
      : op.Hub) _ [] rfl
  rw [op.Hub.serveMessage_eq, if_pos hready] at hrun
  have hlook := (hstep _ hrun).2
  have hB : Scenario.hub.GetClientByConnID "ub" "conn-b" = some Scenario.clientB := by decide
  have hC : Scenario.hub.GetClientByConnID "uc" "conn-c" = some Scenario.clientC := by decide
  have hA : Scenario.hub.GetClientByConnID "ua" "conn-a" = some Scenario.clientA := by decide
  have eB := hother Scenario.clientB (by decide) (by decide)
  have eC := hother Scenario.clientC (by decide) (by decide)
  have eA := hself Scenario.clientA (Or.inl rfl)
  have gB := hlook "ub" "conn-b"
  have gC := hlook "uc" "conn-c"
  have gA := hlook "ua" "conn-a"
  simp only [op.Hub.GetClientByConnID] at gB gC gA hB hC hA
  rw [hB, Option.map_some', eB] at gB
  rw [hC, Option.map_some', eC] at gC
  rw [hA, Option.map_some', eA] at gA
  rw [hok]
  simp only [Option.map_some', Option.some_bind, hrun, op.Hub.GetClientByConnID, gB, gC, gA]
  refine ⟨trivial, ?_, ?_, ?_⟩ <;> rfl

/-- Counterexample to C5 as stated: B is registered and closed; A's SetStatus
returns nil and the descriptor is dispatched; C holds one message, B, another
registered connection, holds none. -/
theorem op.Client.SetStatus_broadcast_skips_closed :
    (Scenario.hubKicked.GetClientByConnID "ub" "conn-b").isSome = true ∧
      (Scenario.clientA.SetStatus true Scenario.room Scenario.hubKicked 100 false 42 1 0).map
        (fun x => x.1) = some none ∧
      ((Scenario.clientA.SetStatus true Scenario.room Scenario.hubKicked 100 false 42 1 0).bind
          (fun x => x.2.2.serveStep)).map
          (fun h3 =>
            ((h3.GetClientByConnID "ub" "conn-b").map (fun c => c.c.buf.length),
              (h3.GetClientByConnID "uc" "conn-c").map (fun c => c.c.buf.length))) =
        some (some 0, some 1) := by
  decide

/-! ## Closed and stalled clients -/

theorem op.Client.Send_closed (c : op.Client) (msg : op.Message) (hc : c.closed = 1) :
    c.Send msg = some (some GoError.ErrAlreadyClosed, c) := by
  simp [op.Client.Send, op.Client.Closed, hc]

theorem op.Client.Send_full (c : op.Client) (msg : op.Message) (hc : c.closed ≠ 1)
    (hfull : c.c.hasRoom = false) : c.Send msg = none := by
  simp [op.Client.Send, op.Client.Closed, hc, hfull]

theorem op.Client.Send_room (c : op.Client) (msg : op.Message) (hc : c.closed ≠ 1)
    (hroom : c.c.hasRoom = true) : c.Send msg = some (none, { c with c := c.c.push msg }) := by
  simp [op.Client.Send, op.Client.Closed, hc, hroom]

theorem op.Client.Close_closed (c : op.Client) (hc : c.closed = 1) :
    c.Close = (some GoError.ErrAlreadyClosed, c) := by
  simp [op.Client.Close, hc]

/-- The dispatch waits as soon as one registered client is targeted and full. -/
theorem op.Hub.serveMessage_none_of_full (h : op.Hub) (d : op.broadcastMessage)
    (e : String × op.clients) (x : String × op.Client) (he : e ∈ h.clients) (hx : x ∈ e.2.m)
    (ht : op.specTargets d x.2 = true) (hfull : x.2.c.hasRoom = false) :
    h.serveMessage d = none := by
  rw [op.Hub.serveMessage_eq]
  have hr : op.specReady d h.clients = false := by
    unfold op.specReady
    rw [List.all_eq_false]
    refine ⟨e, he, ?_⟩
    rw [Bool.not_eq_true, List.all_eq_false]
    exact ⟨x, hx, by simp [ht, hfull]⟩
  simp [hr]

/-- A dispatch keeps every registry entry in place: the same user keys, and
under each the same connection keys. -/
theorem op.specDispatch_keys (d : op.broadcastMessage) (reg : gomap.Map op.clients) :
    (op.specDispatch d reg).map (fun e => (e.1, e.2.m.map (fun x => x.1))) =
      reg.map (fun e => (e.1, e.2.m.map (fun x => x.1))) := by
  simp [op.specDispatch, List.map_map, Function.comp_def]

/-- C6 (as amended): for a registered client that passes the filters of the
dispatched descriptor: if it is already closed, `Send` returns ErrAlreadyClosed
without waiting and without enqueuing, the `Close` that the hub then calls
changes nothing, the loop goes on, and when the dispatch completes every entry
of the registry, this client's included, is still in place with the other
clients served; if it is open and its send queue is full, `Send` does not
return and the dispatch waits, so the client is neither closed nor removed. -/
theorem op.Hub.serve_closed_or_full (h : op.Hub) (d : op.broadcastMessage)
    (e : String × op.clients) (x : String × op.Client) (he : e ∈ h.clients) (hx : x ∈ e.2.m)
    (hu : x.2.u.ID ∉ d.ignoreUserID) (hk : x.2.connID ∉ d.ignoreConnID)
    (hj : d.rtcJoined = true → x.2.rtcJoined = true) :
    (x.2.closed = 1 →
        x.2.Send d.data = some (some GoError.ErrAlreadyClosed, x.2) ∧
        x.2.Close = (some GoError.ErrAlreadyClosed, x.2) ∧
        op.Hub.serveClient d x.2 = some x.2 ∧
        (op.specReady d h.clients = true →
          h.serveMessage d = some { h with clients := op.specDispatch d h.clients }) ∧
        ∀ h1, h.serveMessage d = some h1 →
          h1.clients.map (fun e => (e.1, e.2.m.map (fun x => x.1))) =
            h.clients.map (fun e => (e.1, e.2.m.map (fun x => x.1))) ∧
          h1.ClientNum = h.ClientNum ∧
          ∀ u k, h1.GetClientByConnID u k =
            (h.GetClientByConnID u k).map (op.specDeliver d)) ∧
      (x.2.closed ≠ 1 → x.2.c.hasRoom = false →
        x.2.Send d.data = none ∧ op.Hub.serveClient d x.2 = none ∧
        h.serveMessage d = none) := by
  constructor
  · intro hc
    refine ⟨op.Client.Send_closed _ _ hc, op.Client.Close_closed _ hc, ?_, ?_, ?_⟩
    · rw [op.Hub.serveClient_eq, op.specDeliver_untargeted d x.2 (Or.inl hc)]
      simp [op.specTargets, hc]
    · intro hr
      rw [op.Hub.serveMessage_eq, if_pos hr]
    · intro h1 hs
      obtain ⟨e1, hl⟩ := op.Hub.serveMessage_some h h1 d hs
      refine ⟨?_, ?_, hl⟩
      · rw [e1]
        exact op.specDispatch_keys d h.clients
      · rw [e1]
        simp [op.Hub.ClientNum, gomap.Len, op.specDispatch]
  · intro hc hfull
    have ht : op.specTargets d x.2 = true := by
      cases hr : d.rtcJoined
      · simp [op.specTargets, hc, hu, hk, hr]
      · simp [op.specTargets, hc, hu, hk, hr, hj hr]
    refine ⟨op.Client.Send_full _ _ hc hfull, ?_, ?_⟩
    · rw [op.Hub.serveClient_eq]
      simp [ht, hfull]
    · exact op.Hub.serveMessage_none_of_full h d e x he hx ht hfull

/-- Witness for C6: on the hub where B is closed the dispatch completes with B
in place; on the hub where B's queue is full the dispatch waits. -/
theorem op.Hub.serve_closed_or_full_witness :
    (Scenario.hubKicked.serveMessage Scenario.pingAll =
        some { Scenario.hubKicked with
          clients := op.specDispatch Scenario.pingAll Scenario.hubKicked.clients }) ∧
      Scenario.hubFull.serveMessage Scenario.pingAll = none :=
  ⟨((op.Hub.serve_closed_or_full Scenario.hubKicked Scenario.pingAll
      ("ub", { m := [("conn-b", (Scenario.clientB.Close).2)] })
      ("conn-b", (Scenario.clientB.Close).2)
      (by decide) (by decide) (by decide) (by decide) (by decide)).1 (by decide)).2.2.2.1
      (by decide),
    ((op.Hub.serve_closed_or_full Scenario.hubFull Scenario.pingAll
      ("ub", { m := [("conn-b", Scenario.clientBFull)] }) ("conn-b", Scenario.clientBFull)
      (by decide) (by decide) (by decide) (by decide) (by decide)).2
      (by decide) (by decide)).2.2⟩

/-- Counterexample to C6 as stated: with 128 undelivered messages in B's queue
the send to B does not return and the dispatch waits, B staying open; and a
closed B is still in the registry after the dispatch that reached it. -/
theorem op.Hub.serve_no_eviction :
    (Scenario.hubFull.GetClientByConnID "ub" "conn-b").map
        (fun c => (c.c.buf.length, c.closed)) = some (128, 0) ∧
      Scenario.clientBFull.Send Scenario.pingAll.data = none ∧
      op.Hub.serveClient Scenario.pingAll Scenario.clientBFull = none ∧
      Scenario.hubFull.serveMessage Scenario.pingAll = none ∧
      (Scenario.hubKicked.GetClientByConnID "ub" "conn-b").map (fun c => c.closed) = some 1 ∧
      (Scenario.hubKicked.serveMessage Scenario.pingAll).map
          (fun h => (h.GetClientByConnID "ub" "conn-b").isSome) = some true ∧
      (Scenario.hubKicked.serveMessage Scenario.pingAll).map (fun h => h.ClientNum) =
        some 3 := by
  decide

/-! ## Order of delivery -/

theorem op.specTargets_specDeliver (d d1 : op.broadcastMessage) (c : op.Client) :
    op.specTargets d (op.specDeliver d1 c) = op.specTargets d c := by
  unfold op.specDeliver
  split <;> rfl

theorem op.specDeliverAll_targets (ds : List op.broadcastMessage) (d : op.broadcastMessage)
    (c : op.Client) : op.specTargets d (op.specDeliverAll ds c) = op.specTargets d c := by
  induction ds generalizing c with
  | nil => rfl
  | cons d1 ds ih =>
    show op.specTargets d (op.specDeliverAll ds (op.specDeliver d1 c)) = _
    rw [ih, op.specTargets_specDeliver]

/-- The queue after a run of dispatches: the queue before, followed by the
messages of the descriptors that target the client, in the order of the
descriptors. -/
theorem op.specDeliverAll_buf (ds : List op.broadcastMessage) (c : op.Client) :
    (op.specDeliverAll ds c).c.buf =
      c.c.buf ++ (ds.filter (fun d => op.specTargets d c)).map (fun d => d.data) := by
  induction ds generalizing c with
  | nil => simp [op.specDeliverAll]
  | cons d1 ds ih =>
    show (op.specDeliverAll ds (op.specDeliver d1 c)).c.buf = _
    rw [ih]
    have hf : (ds.filter (fun d => op.specTargets d (op.specDeliver d1 c))) =
        ds.filter (fun d => op.specTargets d c) := by
      congr 1
      funext d
      exact op.specTargets_specDeliver d d1 c
    rw [hf]
    cases ht : op.specTargets d1 c <;> simp [op.specDeliver, ht, List.filter_cons]

/-- What `n` completed iterations of the serve loop leave: the `n` oldest
descriptors are dequeued and every registered client has been served each of
them in turn. -/
theorem op.Hub.serveN_some (n : Nat) (h h1 : op.Hub) (hrun : op.Hub.serveN n h = some h1) :
    n ≤ h.broadcast.buf.length ∧ h1.broadcast.buf = h.broadcast.buf.drop n ∧
      ∀ u k, h1.GetClientByConnID u k =
        (h.GetClientByConnID u k).map (op.specDeliverAll (h.broadcast.buf.take n)) := by
  induction n generalizing h with
  | zero =>
    simp only [op.Hub.serveN, Option.some.injEq] at hrun
    subst hrun
    refine ⟨Nat.zero_le _, by simp, fun u k => ?_⟩
    cases h.GetClientByConnID u k <;> simp [op.specDeliverAll]
  | succ n ih =>
    unfold op.Hub.serveN at hrun
    cases hs : h.serveStep with
    | none => simp [hs] at hrun
    | some h2 =>
      simp only [hs] at hrun
      cases hq : h.broadcast.buf with
      | nil => simp [op.Hub.serveStep, hq] at hs
      | cons d rest =>
        rw [op.Hub.serveStep_cons h d rest hq] at hs
        obtain ⟨e2, hl2⟩ := op.Hub.serveMessage_some _ h2 d hs
        obtain ⟨hn, hb, hl⟩ := ih h2 hrun
        have hbuf2 : h2.broadcast.buf = rest := by rw [e2]
        rw [hbuf2] at hn hb hl
        refine ⟨by simpa using hn, by simpa using hb, fun u k => ?_⟩
        rw [hl u k, hl2 u k]
        have hg : ({ h with broadcast := { h.broadcast with buf := rest } } : op.Hub).GetClientByConnID
            u k = h.GetClientByConnID u k := rfl
        rw [hg]
        cases h.GetClientByConnID u k <;> simp [op.specDeliverAll]

/-- C7: after any number `n` of completed iterations of the serve loop, a
registered client's send queue is its queue before followed by the messages of
the dequeued descriptors that it received, in the order of dequeue: the received
messages form a subsequence of the dequeued ones, and for two descriptors `d1`
and `d2` dequeued in that order that the client both receives, the message of
`d1` precedes the message of `d2` in the queue. -/
theorem op.Hub.serveN_order (n : Nat) (h h1 : op.Hub) (hrun : op.Hub.serveN n h = some h1)
    (u k : String) (c : op.Client) (hc : h.GetClientByConnID u k = some c) :
    ∃ c1, h1.GetClientByConnID u k = some c1 ∧
      c1.c.buf = c.c.buf ++
        ((h.broadcast.buf.take n).filter (fun d => op.specTargets d c)).map (fun d => d.data) ∧
      List.Sublist
        (((h.broadcast.buf.take n).filter (fun d => op.specTargets d c)).map (fun d => d.data))
        ((h.broadcast.buf.take n).map (fun d => d.data)) ∧
      ∀ (pre mid post : List op.broadcastMessage) (d1 d2 : op.broadcastMessage),
        h.broadcast.buf.take n = pre ++ d1 :: mid ++ d2 :: post →
        op.specTargets d1 c = true → op.specTargets d2 c = true →
        ∃ l1 l2 l3, c1.c.buf = c.c.buf ++ l1 ++ d1.data :: l2 ++ d2.data :: l3 := by
  obtain ⟨-, -, hl⟩ := op.Hub.serveN_some n h h1 hrun
  refine ⟨op.specDeliverAll (h.broadcast.buf.take n) c, ?_, op.specDeliverAll_buf _ c, ?_, ?_⟩
  · rw [hl u k, hc]
    rfl
  · exact (List.filter_sublist _).map _
  · intro pre mid post d1 d2 hsplit ht1 ht2
    refine ⟨(pre.filter (fun d => op.specTargets d c)).map (fun d => d.data),
      (mid.filter (fun d => op.specTargets d c)).map (fun d => d.data),
      (post.filter (fun d => op.specTargets d c)).map (fun d => d.data), ?_⟩
    rw [op.specDeliverAll_buf, hsplit]
    simp [List.filter_append, List.filter_cons, ht1, ht2]

/-- Witness for C7: a ping that ignores A and then a chat message are queued
on the hub of A, B and C; after two iterations of the serve loop B holds the
ping before the chat message. -/
theorem op.Hub.serveN_order_witness :
    ((op.Hub.serveN 2 Scenario.hubQueued).bind
        (fun h1 => h1.GetClientByConnID "ub" "conn-b")).map (fun c => c.c.buf) =
      some [op.Message.PingMessage, Scenario.chat] := by
  have hsome : (op.Hub.serveN 2 Scenario.hubQueued).isSome = true := by decide
  have hrun : op.Hub.serveN 2 Scenario.hubQueued =
      some ((op.Hub.serveN 2 Scenario.hubQueued).get hsome) := (Option.some_get hsome).symm
  obtain ⟨c1, hc1, hbuf, -, -⟩ :=
    op.Hub.serveN_order 2 Scenario.hubQueued _ hrun "ub" "conn-b" Scenario.clientB
      (by decide)
  rw [hrun, Option.some_bind, hc1, Option.map_some', hbuf]
  decide

/-! ## Closing -/

theorem op.Hub.closeBucket_snd (cs : op.clients) :
    (op.Hub.closeBucket cs).2 = cs.m.map (fun x => x.2.Close.2) := by
  unfold op.Hub.closeBucket
  have key : ∀ (l : List (String × op.Client)) (a : op.clients) (out : List op.Client),
      (l.foldl (fun acc e =>
        (({ m := gomap.Delete acc.1.m e.1 } : op.clients), acc.2 ++ [e.2.Close.2])) (a, out)).2 =
        out ++ l.map (fun x => x.2.Close.2) := by
    intro l
    induction l with
    | nil => intro a out; simp
    | cons e es ih => intro a out; simp [List.foldl_cons, ih]
  simpa using key cs.m cs []

theorem op.Hub.closeFold (G : String × op.clients → List op.Client)
    (l m : gomap.Map op.clients) (out : List op.Client) :
    (l.foldl (fun acc e => (gomap.Delete acc.1 e.1, acc.2 ++ G e)) (m, out)).1 =
        m.filter (fun x => !(l.any (fun e => x.1 == e.1))) ∧
      (l.foldl (fun acc e => (gomap.Delete acc.1 e.1, acc.2 ++ G e)) (m, out)).2 =
        out ++ (l.map G).flatten := by
  induction l generalizing m out with
  | nil => simp
  | cons e es ih =>
    obtain ⟨h1, h2⟩ := ih (gomap.Delete m e.1) (out ++ G e)
    refine ⟨?_, ?_⟩
    · rw [List.foldl_cons, h1]
      unfold gomap.Delete
      rw [List.filter_filter]
      congr 1
      funext x
      rw [List.any_cons]
      generalize (x.1 == e.1) = a
      generalize (es.any fun e1 => x.1 == e1.1) = b
      cases a <;> cases b <;> rfl
    · rw [List.foldl_cons, h2]
      simp

/-- The first `Close` of a hub: nil, the flag set, both channels closed once
more, the registry emptied and every registered client closed. -/
theorem op.Hub.Close_open (h : op.Hub) (hopen : h.closed = 0) :
    h.Close = (none,
      { h with
        closed := 1
        exit := h.exit.close
        clients := []
        broadcast := h.broadcast.close },
      h.allClients.map (fun c => c.Close.2)) := by
  unfold op.Hub.Close
  simp only [hopen, beq_self_eq_true, if_true]
  obtain ⟨h1, h2⟩ := op.Hub.closeFold (fun e => (op.Hub.closeBucket e.2).2) h.clients h.clients []
  have e1 : h.clients.filter (fun x => !(h.clients.any (fun e => x.1 == e.1))) = [] := by
    rw [List.filter_eq_nil_iff]
    intro a ha
    simp only [Bool.not_eq_true', Bool.not_eq_false, List.any_eq_true]
    exact ⟨a, ha, by simp⟩
  rw [e1] at h1
  simp only [h1, h2, List.nil_append]
  refine Prod.ext rfl (Prod.ext rfl ?_)
  simp only [op.Hub.allClients]
  rw [List.map_flatten, List.map_map]
  congr 1
  apply List.map_congr_left
  intro e _
  simp [op.Hub.closeBucket_snd, List.map_map, Function.comp_def]

/-- A `Close` of a hub whose flag is set: ErrAlreadyClosed, nothing changes. -/
theorem op.Hub.Close_again (h : op.Hub) (hc : h.closed = 1) :
    h.Close = (some GoError.ErrAlreadyClosed, h, []) := by
  simp [op.Hub.Close, hc]

theorem op.Hub.closeAgain_fixed (n : Nat) (h : op.Hub) (hc : h.closed = 1) :
    op.Hub.closeAgain n h = h := by
  induction n with
  | zero => rfl
  | succ n ih =>
    show op.Hub.closeAgain n h.Close.2.1 = h
    rw [op.Hub.Close_again h hc]
    exact ih

theorem op.Client.closeAgain_closed (n : Nat) (c : op.Client) (hc : c.closed = 1) :
    op.Client.closeAgain n c = c := by
  induction n with
  | zero => rfl
  | succ n ih =>
    show op.Client.closeAgain n c.Close.2 = c
    rw [op.Client.Close_closed c hc]
    exact ih

/-- C8 (evaluation of the code): after a `Close()` that returned nil the hub is
closed with an empty registry; every later `Broadcast`, `RegClient` and
`SendToUser` returns ErrAlreadyClosed and leaves the hub as it is; `SendToConnID`
also leaves the hub as it is but returns nil, not ErrAlreadyClosed. -/
theorem op.Hub.SendToConnID_after_Close (h : op.Hub) (hopen : h.closed = 0) :
    h.Close.1 = none ∧ h.Close.2.1.Closed = true ∧ h.Close.2.1.clients = [] ∧
      (∀ data conf, h.Close.2.1.Broadcast data conf =
        some (some GoError.ErrAlreadyClosed, h.Close.2.1)) ∧
      (∀ cli, h.Close.2.1.RegClient cli = (some GoError.ErrAlreadyClosed, h.Close.2.1)) ∧
      (∀ u data, h.Close.2.1.SendToUser u data =
        some (some GoError.ErrAlreadyClosed, h.Close.2.1)) ∧
      (∀ u k data, h.Close.2.1.SendToConnID u k data = some (none, h.Close.2.1)) := by
  rw [op.Hub.Close_open h hopen]
  refine ⟨rfl, rfl, rfl, ?_, ?_, ?_, ?_⟩
  · intro data conf
    simp [op.Hub.Broadcast, op.Hub.Closed]
  · intro cli
    simp [op.Hub.RegClient, op.Hub.Closed]
  · intro u data
    simp [op.Hub.SendToUser, op.Hub.Closed]
  · intro u k data
    simp [op.Hub.SendToConnID, op.Hub.GetClientByConnID, gomap.Load]

/-- Witness for C8: on the hub of A, B and C after `Close()`, `SendToConnID` to
B's connection returns nil while `SendToUser` to B returns ErrAlreadyClosed. -/
theorem op.Hub.SendToConnID_after_Close_witness :
    Scenario.hub.Close.2.1.SendToConnID "ub" "conn-b" op.Message.PingMessage =
        some (none, Scenario.hub.Close.2.1) ∧
      Scenario.hub.Close.2.1.SendToUser "ub" op.Message.PingMessage =
        some (some GoError.ErrAlreadyClosed, Scenario.hub.Close.2.1) :=
  ⟨(op.Hub.SendToConnID_after_Close Scenario.hub (by decide)).2.2.2.2.2.2
      "ub" "conn-b" op.Message.PingMessage,
    (op.Hub.SendToConnID_after_Close Scenario.hub (by decide)).2.2.2.2.2.1
      "ub" op.Message.PingMessage⟩

/-- C9: `Close` is idempotent on Client and on Hub. The first call on an open
client returns nil, sets the flag and closes the send channel once; the first
call on an open hub returns nil, sets the flag, closes the exit and broadcast
channels once each, empties the registry and calls `Close` on every registered
client. Each of any number `n` of later calls returns ErrAlreadyClosed, closes
no channel and no client, and leaves the state as the first call left it. -/
theorem op.Close_idempotent (c : op.Client) (h : op.Hub) (n : Nat) :
    (c.closed = 0 →
        c.Close = (none, { c with closed := 1, c := { c.c with closes := c.c.closes + 1 } }) ∧
        op.Client.closeAgain n c.Close.2 = c.Close.2 ∧
        (op.Client.closeAgain n c.Close.2).Close =
          (some GoError.ErrAlreadyClosed, c.Close.2) ∧
        (op.Client.closeAgain (n + 1) c.Close.2).c.closes = c.c.closes + 1) ∧
      (h.closed = 0 →
        h.Close.1 = none ∧
        h.Close.2.1 =
          { h with
            closed := 1
            exit := { h.exit with closes := h.exit.closes + 1 }
            clients := []
            broadcast := { h.broadcast with closes := h.broadcast.closes + 1 } } ∧
        h.Close.2.2 = h.allClients.map (fun c => c.Close.2) ∧
        op.Hub.closeAgain n h.Close.2.1 = h.Close.2.1 ∧
        (op.Hub.closeAgain n h.Close.2.1).Close =
          (some GoError.ErrAlreadyClosed, h.Close.2.1, []) ∧
        (op.Hub.closeAgain (n + 1) h.Close.2.1).exit.closes = h.exit.closes + 1 ∧
        (op.Hub.closeAgain (n + 1) h.Close.2.1).broadcast.closes = h.broadcast.closes + 1) := by
  constructor
  · intro hc
    have e : c.Close =
        (none, { c with closed := 1, c := { c.c with closes := c.c.closes + 1 } }) := by
      simp [op.Client.Close, hc, Chan.close]
    have hcl : c.Close.2.closed = 1 := by rw [e]
    have hfix := fun m => op.Client.closeAgain_closed m c.Close.2 hcl
    refine ⟨e, hfix n, ?_, ?_⟩
    · rw [hfix n]
      exact op.Client.Close_closed _ hcl
    · rw [hfix (n + 1), e]
  · intro hopen
    have e := op.Hub.Close_open h hopen
    have hcl : h.Close.2.1.closed = 1 := by rw [e]
    have hfix := fun m => op.Hub.closeAgain_fixed m h.Close.2.1 hcl
    refine ⟨by rw [e], by rw [e]; rfl, by rw [e], hfix n, ?_, ?_, ?_⟩
    · rw [hfix n]
      exact op.Hub.Close_again _ hcl
    · rw [hfix (n + 1), e]
      rfl
    · rw [hfix (n + 1), e]
      rfl

/-- Witness for C9: client A and the hub of A, B and C, closed and then closed
three more times. -/
theorem op.Close_idempotent_witness :
    (op.Client.closeAgain 3 Scenario.clientA.Close.2).Close =
        (some GoError.ErrAlreadyClosed, Scenario.clientA.Close.2) ∧
      (op.Client.closeAgain 4 Scenario.clientA.Close.2).c.closes = 1 ∧
      (op.Hub.closeAgain 3 Scenario.hub.Close.2.1).Close =
        (some GoError.ErrAlreadyClosed, Scenario.hub.Close.2.1, []) ∧
      (op.Hub.closeAgain 4 Scenario.hub.Close.2.1).exit.closes = 1 ∧
      (op.Hub.closeAgain 4 Scenario.hub.Close.2.1).broadcast.closes = 1 :=
  ⟨((op.Close_idempotent Scenario.clientA Scenario.hub 3).1 (by decide)).2.2.1,
    ((op.Close_idempotent Scenario.clientA Scenario.hub 3).1 (by decide)).2.2.2,
    ((op.Close_idempotent Scenario.clientA Scenario.hub 3).2 (by decide)).2.2.2.2.1,
    ((op.Close_idempotent Scenario.clientA Scenario.hub 3).2 (by decide)).2.2.2.2.2.1,
    ((op.Close_idempotent Scenario.clientA Scenario.hub 3).2 (by decide)).2.2.2.2.2.2⟩

/-! ## Registration -/

/-- The bucket that `RegClient` obtains from `LoadOrStore` holds under each
connection ID what `GetClientByConnID` finds for the user. -/
theorem op.Hub.Load_bucket (h : op.Hub) (u k : String) :
    gomap.Load (gomap.LoadOrStore h.clients u ({ m := [] } : op.clients)).1.1.m k =
      h.GetClientByConnID u k := by
  unfold op.Hub.GetClientByConnID gomap.LoadOrStore gomap.Load
  cases h.clients.lookup u <;> rfl

/-- `RegClient` on an open hub, unfolded: the error when the connection ID is
taken, the bucket with the client stored otherwise. -/
theorem op.Hub.RegClient_open (h : op.Hub) (cli : op.Client) (hopen : h.closed ≠ 1) :
    h.RegClient cli =
      match h.GetClientByConnID cli.u.ID cli.connID with
      | some _ =>
        (some (GoError.New "client already exists"),
          { h with
            once := true
            clients := (gomap.LoadOrStore h.clients cli.u.ID ({ m := [] } : op.clients)).2 })
      | none =>
        (none,
          { h with
            once := true
            clients := gomap.set
              (gomap.LoadOrStore h.clients cli.u.ID ({ m := [] } : op.clients)).2 cli.u.ID
              { m := gomap.Store
                  (gomap.LoadOrStore h.clients cli.u.ID ({ m := [] } : op.clients)).1.1.m
                  cli.connID cli } }) := by
  have hl := op.Hub.Load_bucket h cli.u.ID cli.connID
  unfold op.Hub.RegClient
  simp only [op.Hub.Closed, op.Hub.Start, op.Client.ConnID, beq_iff_eq, hopen, if_false]
  rw [hl]

/-- C10: on an open hub, when no client is registered under the user ID and
connection ID of `cli`, `RegClient(cli)` returns nil, afterwards `cli` is the
client found under that pair and every other pair finds what it found before;
when a client is registered under that pair, `RegClient(cli)` returns an error
and the registry is unchanged. -/
theorem op.Hub.RegClient_spec (h : op.Hub) (cli : op.Client) (hopen : h.closed ≠ 1) :
    (h.GetClientByConnID cli.u.ID cli.connID = none →
        (h.RegClient cli).1 = none ∧
        (h.RegClient cli).2.GetClientByConnID cli.u.ID cli.connID = some cli ∧
        ∀ u k, (u ≠ cli.u.ID ∨ k ≠ cli.connID) →
          (h.RegClient cli).2.GetClientByConnID u k = h.GetClientByConnID u k) ∧
      (∀ c0, h.GetClientByConnID cli.u.ID cli.connID = some c0 →
        (h.RegClient cli).1 = some (GoError.New "client already exists") ∧
        (h.RegClient cli).2.clients = h.clients) := by
  have hr := op.Hub.RegClient_open h cli hopen
  have f1 := gomap.Load_LoadOrStore h.clients cli.u.ID ({ m := [] } : op.clients)
  have f2 := fun u hu =>
    gomap.Load_LoadOrStore_of_ne h.clients cli.u.ID u ({ m := [] } : op.clients) hu
  have f3 := fun k => op.Hub.Load_bucket h cli.u.ID k
  have f4 : (h.GetClientByConnID cli.u.ID cli.connID).isSome = true →
      (gomap.LoadOrStore h.clients cli.u.ID ({ m := [] } : op.clients)).2 = h.clients := by
    intro hsome
    unfold op.Hub.GetClientByConnID gomap.Load at hsome
    unfold gomap.LoadOrStore
    cases hl : h.clients.lookup cli.u.ID with
    | none => simp [hl] at hsome
    | some b => rfl
  generalize gomap.LoadOrStore h.clients cli.u.ID ({ m := [] } : op.clients) = r at hr f1 f2 f3 f4
  constructor
  · intro hnone
    rw [hnone] at hr
    simp only at hr
    rw [hr]
    have hself : gomap.Load (gomap.set r.2 cli.u.ID
        ({ m := gomap.Store r.1.1.m cli.connID cli } : op.clients)) cli.u.ID =
        some ({ m := gomap.Store r.1.1.m cli.connID cli } : op.clients) := by
      rw [gomap.Load_set_self, f1]
      rfl
    refine ⟨rfl, ?_, ?_⟩
    · unfold op.Hub.GetClientByConnID
      simp only [hself]
      exact gomap.Load_Store_self _ _ _
    · intro u k hne
      by_cases hu : u = cli.u.ID
      · subst hu
        have hk : k ≠ cli.connID := by
          rcases hne with h1 | h1
          · exact absurd rfl h1
          · exact h1
        rw [← f3 k]
        unfold op.Hub.GetClientByConnID
        simp only [hself]
        exact gomap.Load_Store_of_ne _ _ _ _ hk
      · unfold op.Hub.GetClientByConnID
        simp only
        rw [gomap.Load_set_of_ne _ _ _ _ hu, f2 u hu]
  · intro c0 hsome
    rw [hsome] at hr f4
    simp only at hr
    rw [hr]
    exact ⟨rfl, f4 rfl⟩

/-- Witness for C10: on the hub of A and B, client C registers; on the hub of
A, B and C a second registration of B's connection is refused. -/
theorem op.Hub.RegClient_spec_witness :
    (((((op.newHub "R").RegClient Scenario.clientA).2.RegClient Scenario.clientB).2.RegClient
        Scenario.clientC).2.GetClientByConnID "uc" "conn-c" = some Scenario.clientC) ∧
      (Scenario.hub.RegClient Scenario.clientB).1 =
        some (GoError.New "client already exists") ∧
      (Scenario.hub.RegClient Scenario.clientB).2.clients = Scenario.hub.clients :=
  ⟨((op.Hub.RegClient_spec
      (((op.newHub "R").RegClient Scenario.clientA).2.RegClient Scenario.clientB).2
      Scenario.clientC (by decide)).1 (by decide)).2.1,
    ((op.Hub.RegClient_spec Scenario.hub Scenario.clientB (by decide)).2 Scenario.clientB
      (by decide)).1,
    ((op.Hub.RegClient_spec Scenario.hub Scenario.clientB (by decide)).2 Scenario.clientB
      (by decide)).2⟩

/-! ## Unregistration -/

theorem gomap.Load_Delete_self {V : Type} (m : gomap.Map V) (k : String) :
    gomap.Load (gomap.Delete m k) k = none := by
  unfold gomap.Load gomap.Delete
  rw [List.lookup_eq_none_iff]
  intro p hp
  have h2 := (List.mem_filter.mp hp).2
  simp only [Bool.not_eq_true', beq_eq_false_iff_ne, ne_eq] at h2
  simpa using fun h => h2 h.symm

theorem gomap.Load_Delete_of_ne {V : Type} (m : gomap.Map V) (k k1 : String) (hne : k1 ≠ k) :
    gomap.Load (gomap.Delete m k) k1 = gomap.Load m k1 := by
  unfold gomap.Load gomap.Delete
  induction m with
  | nil => rfl
  | cons e es ih =>
    obtain ⟨a, b⟩ := e
    by_cases hk : a = k
    · subst hk
      have h1 : (k1 == a) = false := by simpa using hne
      simp [List.filter_cons, List.lookup_cons, h1, ih]
    · have hf : (!(a == k)) = true := by simpa using hk
      rw [List.filter_cons]
      simp only [hf, if_true, List.lookup_cons]
      cases k1 == a <;> simp [ih]

/-- A bucket in which only `k` is taken is empty once `k` is deleted. -/
theorem gomap.Delete_eq_nil {V : Type} (m : gomap.Map V) (k : String)
    (hlast : ∀ k1, k1 ≠ k → gomap.Load m k1 = none) : gomap.Delete m k = [] := by
  cases hd : gomap.Delete m k with
  | nil => rfl
  | cons e es =>
    exfalso
    have hmem : e ∈ gomap.Delete m k := by rw [hd]; exact List.mem_cons_self _ _
    have hne : e.1 ≠ k := by
      have h2 := (List.mem_filter.mp hmem).2
      simpa using h2
    have h1 := gomap.Load_Delete_of_ne m k e.1 hne
    rw [hlast e.1 hne, hd] at h1
    obtain ⟨a, b⟩ := e
    simp [gomap.Load] at h1

/-- `UnRegClient` on an open hub for a client whose user has the bucket `b`
that holds its connection ID. -/
theorem op.Hub.UnRegClient_found (h : op.Hub) (cli : op.Client) (hopen : h.closed ≠ 1)
    (b : op.clients) (c0 : op.Client) (hb : gomap.Load h.clients cli.u.ID = some b)
    (hc : gomap.Load b.m cli.connID = some c0) :
    h.UnRegClient (some cli) =
      if (gomap.Delete b.m cli.connID).length == 0 then
        (none, { h with clients := gomap.Delete h.clients cli.u.ID })
      else
        (none, { h with
          clients := gomap.set h.clients cli.u.ID { m := gomap.Delete b.m cli.connID } }) := by
  simp [op.Hub.UnRegClient, op.Hub.Closed, hopen, hb, hc, op.Client.ConnID]

/-- `UnRegClient` on an open hub for a client that is not in the registry. -/
theorem op.Hub.UnRegClient_missing (h : op.Hub) (cli : op.Client) (hopen : h.closed ≠ 1)
    (hnone : h.GetClientByConnID cli.u.ID cli.connID = none) :
    h.UnRegClient (some cli) = (some (GoError.New "client not found"), h) := by
  unfold op.Hub.GetClientByConnID at hnone
  unfold op.Hub.UnRegClient
  simp only [op.Hub.Closed, beq_iff_eq, hopen, if_false, op.Client.ConnID]
  cases hb : gomap.Load h.clients cli.u.ID with
  | none => rfl
  | some b =>
    rw [hb] at hnone
    simp only at hnone
    simp [hnone]

/-- `IsOnline` and the count of `OnlineCount` read only the user's bucket. -/
theorem op.Hub.online_of_Load (h1 h2 : op.Hub) (u : String)
    (e : gomap.Load h1.clients u = gomap.Load h2.clients u) :
    h1.IsOnline u = h2.IsOnline u ∧ (h1.OnlineCount u).1 = (h2.OnlineCount u).1 := by
  unfold op.Hub.IsOnline op.Hub.OnlineCount
  rw [e]
  cases gomap.Load h2.clients u with
  | none => exact ⟨rfl, rfl⟩
  | some b =>
    refine ⟨rfl, ?_⟩
    simp only
    cases b.m.length == 0 <;> rfl

/-- C11: on an open hub, `UnRegClient(c)` for a client registered under
(c.userID, c.connID) returns nil, after which that pair finds nothing and every
other pair finds what it found before, and other users are online with the same
count as before; when no other connection of that user was registered, the
user's set is deleted, so `IsOnline(userID)` is false and `OnlineCount(userID)`
is 0; for a client that is not registered the call returns an error and the hub
is unchanged. -/
theorem op.Hub.UnRegClient_spec (h : op.Hub) (cli : op.Client) (hopen : h.closed ≠ 1) :
    (∀ c0, h.GetClientByConnID cli.u.ID cli.connID = some c0 →
        (h.UnRegClient (some cli)).1 = none ∧
        (h.UnRegClient (some cli)).2.GetClientByConnID cli.u.ID cli.connID = none ∧
        (∀ u k, (u ≠ cli.u.ID ∨ k ≠ cli.connID) →
          (h.UnRegClient (some cli)).2.GetClientByConnID u k = h.GetClientByConnID u k) ∧
        (∀ u, u ≠ cli.u.ID →
          (h.UnRegClient (some cli)).2.IsOnline u = h.IsOnline u ∧
          ((h.UnRegClient (some cli)).2.OnlineCount u).1 = (h.OnlineCount u).1) ∧
        ((∀ k, k ≠ cli.connID → h.GetClientByConnID cli.u.ID k = none) →
          (h.UnRegClient (some cli)).2.IsOnline cli.u.ID = false ∧
          (h.UnRegClient (some cli)).2.OnlineCount cli.u.ID =
            (0, (h.UnRegClient (some cli)).2))) ∧
      (h.GetClientByConnID cli.u.ID cli.connID = none →
        (h.UnRegClient (some cli)).1 = some (GoError.New "client not found") ∧
        (h.UnRegClient (some cli)).2 = h) := by
  constructor
  · intro c0 hreg
    have hreg0 := hreg
    unfold op.Hub.GetClientByConnID at hreg
    cases hb : gomap.Load h.clients cli.u.ID with
    | none => simp [hb] at hreg
    | some b =>
      rw [hb] at hreg
      simp only at hreg
      have hun := op.Hub.UnRegClient_found h cli hopen b c0 hb hreg
      have hget : ∀ k, h.GetClientByConnID cli.u.ID k = gomap.Load b.m k := by
        intro k
        unfold op.Hub.GetClientByConnID
        rw [hb]
      by_cases hlen : (gomap.Delete b.m cli.connID).length = 0
      · have hnil : gomap.Delete b.m cli.connID = [] := List.length_eq_zero.mp hlen
        have hlast : ∀ k, k ≠ cli.connID → gomap.Load b.m k = none := by
          intro k hk
          rw [← gomap.Load_Delete_of_ne b.m cli.connID k hk, hnil]
          rfl
        rw [hun]
        simp only [hlen, beq_self_eq_true, if_true]
        have hself : gomap.Load (gomap.Delete h.clients cli.u.ID) cli.u.ID = none :=
          gomap.Load_Delete_self _ _
        refine ⟨trivial, ?_, ?_, ?_, ?_⟩
        · simp [op.Hub.GetClientByConnID, hself]
        · intro u k hne
          by_cases hu : u = cli.u.ID
          · subst hu
            have hk : k ≠ cli.connID := by
              rcases hne with h1 | h1
              · exact absurd rfl h1
              · exact h1
            rw [hget k, hlast k hk]
            simp [op.Hub.GetClientByConnID, hself]
          · unfold op.Hub.GetClientByConnID
            simp only
            rw [gomap.Load_Delete_of_ne _ _ _ hu]
        · intro u hu
          exact op.Hub.online_of_Load _ h u (gomap.Load_Delete_of_ne _ _ _ hu)
        · intro _
          simp [op.Hub.IsOnline, op.Hub.OnlineCount, hself]
      · have hne0 : ((gomap.Delete b.m cli.connID).length == 0) = false := by simpa using hlen
        rw [hun]
        simp only [hne0, Bool.false_eq_true, if_false]
        have hself : gomap.Load
            (gomap.set h.clients cli.u.ID ({ m := gomap.Delete b.m cli.connID } : op.clients))
            cli.u.ID = some ({ m := gomap.Delete b.m cli.connID } : op.clients) := by
          rw [gomap.Load_set_self, hb]
          rfl
        refine ⟨trivial, ?_, ?_, ?_, ?_⟩
        · unfold op.Hub.GetClientByConnID
          simp only [hself]
          exact gomap.Load_Delete_self _ _
        · intro u k hne
          by_cases hu : u = cli.u.ID
          · subst hu
            have hk : k ≠ cli.connID := by
              rcases hne with h1 | h1
              · exact absurd rfl h1
              · exact h1
            rw [hget k]
            unfold op.Hub.GetClientByConnID
            simp only [hself]
            exact gomap.Load_Delete_of_ne _ _ _ hk
          · unfold op.Hub.GetClientByConnID
            simp only
            rw [gomap.Load_set_of_ne _ _ _ _ hu]
        · intro u hu
          exact op.Hub.online_of_Load _ h u (gomap.Load_set_of_ne _ _ _ _ hu)
        · intro hlast
          exfalso
          apply hlen
          have := gomap.Delete_eq_nil b.m cli.connID (fun k hk => by rw [← hget k]; exact hlast k hk)
          rw [this]
          rfl
  · intro hnone
    rw [op.Hub.UnRegClient_missing h cli hopen hnone]
    exact ⟨rfl, rfl⟩

/-- Witness for C11: on the hub of A, B and C, client B unregisters and user
`ub` is offline afterwards; on the hub of A and B, client C is not registered
and its unregistration is refused. -/
theorem op.Hub.UnRegClient_spec_witness :
    (Scenario.hub.UnRegClient (some Scenario.clientB)).1 = none ∧
      (Scenario.hub.UnRegClient (some Scenario.clientB)).2.IsOnline "ub" = false ∧
      ((op.newHub "R").RegClient Scenario.clientA).2.UnRegClient (some Scenario.clientC) =
        (some (GoError.New "client not found"), ((op.newHub "R").RegClient Scenario.clientA).2) := by
  have hlast : ∀ k, k ≠ Scenario.clientB.connID →
      Scenario.hub.GetClientByConnID Scenario.clientB.u.ID k = none := by
    intro k hk
    have hb : gomap.Load Scenario.hub.clients Scenario.clientB.u.ID =
        some { m := [("conn-b", Scenario.clientB)] } := by decide
    have hk1 : (k == "conn-b") = false := by simpa using hk
    unfold op.Hub.GetClientByConnID
    rw [hb]
    simp [gomap.Load, List.lookup, hk1]
  exact ⟨((op.Hub.UnRegClient_spec Scenario.hub Scenario.clientB (by decide)).1 Scenario.clientB
      (by decide)).1,
    (((op.Hub.UnRegClient_spec Scenario.hub Scenario.clientB (by decide)).1 Scenario.clientB
      (by decide)).2.2.2.2 hlast).1,
    Prod.ext
      ((op.Hub.UnRegClient_spec ((op.newHub "R").RegClient Scenario.clientA).2 Scenario.clientC
        (by decide)).2 (by decide)).1
      ((op.Hub.UnRegClient_spec ((op.newHub "R").RegClient Scenario.clientA).2 Scenario.clientC
        (by decide)).2 (by decide)).2⟩

/-! ## Kicking a user -/

/-- `Close` leaves a client whose flag is 0 or 1 with the flag at 1. -/
theorem op.Client.Close_flag (c : op.Client) (hflag : c.closed ≤ 1) : c.Close.2.closed = 1 := by
  unfold op.Client.Close
  by_cases h0 : c.closed = 0
  · simp [h0]
  · have h1 : c.closed = 1 := by omega
    simp [h1]

/-- The registry after `KickUser` on an open hub: the user's clients each
after `Close`, every other user's clients as they were. -/
theorem op.Hub.KickUser_lookup (h : op.Hub) (userID : String) (hopen : h.closed ≠ 1) :
    (h.KickUser userID).1 = none ∧
      (∀ k, (h.KickUser userID).2.GetClientByConnID userID k =
        (h.GetClientByConnID userID k).map (fun c => c.Close.2)) ∧
      (∀ u k, u ≠ userID →
        (h.KickUser userID).2.GetClientByConnID u k = h.GetClientByConnID u k) := by
  unfold op.Hub.KickUser
  simp only [op.Hub.Closed, beq_iff_eq, hopen, if_false]
  cases hb : gomap.Load h.clients userID with
  | none =>
    refine ⟨rfl, fun k => ?_, fun u k _ => rfl⟩
    simp [op.Hub.GetClientByConnID, hb]
  | some cli =>
    refine ⟨rfl, fun k => ?_, fun u k hu => ?_⟩
    · unfold op.Hub.GetClientByConnID
      simp only
      rw [gomap.Load_set_self, hb]
      simp only [Option.map_some']
      exact gomap.Load_map_val cli.m (fun c => c.Close.2) k
    · unfold op.Hub.GetClientByConnID
      simp only
      rw [gomap.Load_set_of_ne _ _ _ _ hu]

/-- C12: after `KickUser(u)` on an open hub every client registered for `u` is
still registered and has been closed (its closed flag, 0 or 1 before, is 1), so
every `Send` on it returns ErrAlreadyClosed and leaves its queue and state as
they are, which makes every later `Send` fail the same way; the clients of
every other user are as they were before the call, hence not closed by it. -/
theorem op.Hub.KickUser_spec (h : op.Hub) (userID : String) (hopen : h.closed ≠ 1) :
    (h.KickUser userID).1 = none ∧
      (∀ k c0, h.GetClientByConnID userID k = some c0 →
        (h.KickUser userID).2.GetClientByConnID userID k = some c0.Close.2 ∧
        (c0.closed ≤ 1 →
          c0.Close.2.Closed = true ∧
          c0.Close.2.c.buf = c0.c.buf ∧
          ∀ msg, c0.Close.2.Send msg = some (some GoError.ErrAlreadyClosed, c0.Close.2))) ∧
      (∀ k, h.GetClientByConnID userID k = none →
        (h.KickUser userID).2.GetClientByConnID userID k = none) ∧
      (∀ u k, u ≠ userID →
        (h.KickUser userID).2.GetClientByConnID u k = h.GetClientByConnID u k) := by
  obtain ⟨h1, h2, h3⟩ := op.Hub.KickUser_lookup h userID hopen
  refine ⟨h1, ?_, ?_, h3⟩
  · intro k c0 hc
    refine ⟨by rw [h2 k, hc]; rfl, ?_⟩
    intro hflag
    have hcl := op.Client.Close_flag c0 hflag
    refine ⟨by simp [op.Client.Closed, hcl], ?_, fun msg => op.Client.Send_closed _ msg hcl⟩
    unfold op.Client.Close
    split <;> rfl
  · intro k hk
    rw [h2 k, hk]
    rfl

/-- Witness for C12: on the hub of A, B and C, `KickUser("ub")` closes B, whose
next `Send` fails, and leaves A as it was. -/
theorem op.Hub.KickUser_spec_witness :
    (Scenario.hub.KickUser "ub").2.GetClientByConnID "ub" "conn-b" =
        some Scenario.clientB.Close.2 ∧
      Scenario.clientB.Close.2.Send op.Message.PingMessage =
        some (some GoError.ErrAlreadyClosed, Scenario.clientB.Close.2) ∧
      (Scenario.hub.KickUser "ub").2.GetClientByConnID "ua" "conn-a" =
        Scenario.hub.GetClientByConnID "ua" "conn-a" :=
  ⟨((op.Hub.KickUser_spec Scenario.hub "ub" (by decide)).2.1 "conn-b" Scenario.clientB
      (by decide)).1,
    (((op.Hub.KickUser_spec Scenario.hub "ub" (by decide)).2.1 "conn-b" Scenario.clientB
      (by decide)).2 (by decide)).2.2 op.Message.PingMessage,
    (op.Hub.KickUser_spec Scenario.hub "ub" (by decide)).2.2.2 "ua" "conn-a" (by decide)⟩

/-! ## The ping loop -/

/-- A broadcast without options on an open hub whose queue has room. -/
theorem op.Hub.Broadcast_room (h : op.Hub) (data : op.Message) (hopen : h.closed ≠ 1)
    (hroom : h.broadcast.hasRoom = true) :
    h.Broadcast data [] =
      some (none, { h with
        once := true
        broadcast := h.broadcast.push
          { data := data, ignoreConnID := [], ignoreUserID := [], rtcJoined := false } }) := by
  simp [op.Hub.Broadcast, op.Hub.Closed, hopen, hroom]

/-- A broadcast on a closed hub. -/
theorem op.Hub.Broadcast_closed (h : op.Hub) (data : op.Message) (conf : List op.BroadcastConf)
    (hc : h.closed = 1) : h.Broadcast data conf = some (some GoError.ErrAlreadyClosed, h) := by
  simp [op.Hub.Broadcast, op.Hub.Closed, hc]

/-- What a broadcast without options can leave in the queue: nothing new, or
its descriptor at the tail. -/
theorem op.Hub.Broadcast_buf (h h1 : op.Hub) (data : op.Message) (err : Option GoError)
    (hb : h.Broadcast data [] = some (err, h1)) :
    (err ≠ none ∧ h1.broadcast.buf = h.broadcast.buf) ∨
      (err = none ∧ h1.broadcast.buf = h.broadcast.buf ++
        [{ data := data, ignoreConnID := [], ignoreUserID := [], rtcJoined := false }]) := by
  unfold op.Hub.Broadcast at hb
  by_cases hc : h.Closed = true
  · simp only [hc, if_true, Option.some.injEq, Prod.mk.injEq] at hb
    left
    rw [← hb.1, ← hb.2]
    exact ⟨by simp, rfl⟩
  · simp only [hc, Bool.false_eq_true, if_false, List.foldl_nil] at hb
    by_cases hr : h.broadcast.hasRoom = true
    · simp only [hr, if_true, Option.some.injEq, Prod.mk.injEq] at hb
      right
      rw [← hb.1, ← hb.2]
      exact ⟨rfl, rfl⟩
    · simp only [hr, Bool.false_eq_true, if_false] at hb
      by_cases he : (h.exit.closes != 0) = true
      · simp only [he, if_true, Option.some.injEq, Prod.mk.injEq] at hb
        left
        rw [← hb.1, ← hb.2]
        exact ⟨by simp, rfl⟩
      · simp [he] at hb

/-- A tick of the ping loop, case by case. -/
theorem op.Hub.pingTick_cases (h h1 : op.Hub) (pre pre1 : Int)
    (ht : h.pingTick pre = some (h1, pre1)) :
    (h1.broadcast.buf = h.broadcast.buf ∧ pre1 = pre) ∨
      (h.ClientNum ≠ pre ∧ pre1 = h.ClientNum ∧
        h1.broadcast.buf = h.broadcast.buf ++ [op.viewerCountDescriptor h.ClientNum]) ∨
      (h.ClientNum = pre ∧ pre1 = pre ∧
        h1.broadcast.buf = h.broadcast.buf ++ [op.pingDescriptor]) := by
  unfold op.Hub.pingTick at ht
  by_cases hne : h.ClientNum = pre
  · simp only [hne, bne_self_eq_false, Bool.false_eq_true, if_false] at ht
    cases hb : h.Broadcast op.Message.PingMessage [] with
    | none => simp [hb] at ht
    | some r =>
      obtain ⟨err, h2⟩ := r
      have hbuf := op.Hub.Broadcast_buf h h2 _ err hb
      cases err with
      | none =>
        simp only [hb, Option.some.injEq, Prod.mk.injEq] at ht
        rcases hbuf with ⟨h0, _⟩ | ⟨_, hq⟩
        · exact absurd rfl h0
        · right; right
          rw [← ht.1, ← ht.2]
          exact ⟨hne, rfl, hq⟩
      | some e =>
        simp only [hb, Option.some.injEq, Prod.mk.injEq] at ht
        rcases hbuf with ⟨_, hq⟩ | ⟨h0, _⟩
        · left
          rw [← ht.1, ← ht.2]
          exact ⟨hq, rfl⟩
        · cases h0
  · have hb1 : (h.ClientNum != pre) = true := by simpa using hne
    simp only [hb1, if_true] at ht
    cases hb : h.Broadcast (op.viewerCountDescriptor h.ClientNum).data [] with
    | none =>
      simp only [op.viewerCountDescriptor] at hb
      simp [hb] at ht
    | some r =>
      obtain ⟨err, h2⟩ := r
      have hbuf := op.Hub.Broadcast_buf h h2 _ err hb
      simp only [op.viewerCountDescriptor] at hb
      cases err with
      | none =>
        simp only [hb, Option.some.injEq, Prod.mk.injEq] at ht
        rcases hbuf with ⟨h0, _⟩ | ⟨_, hq⟩
        · exact absurd rfl h0
        · right; left
          rw [← ht.1, ← ht.2]
          exact ⟨hne, rfl, hq⟩
      | some e =>
        simp only [hb, Option.some.injEq, Prod.mk.injEq] at ht
        rcases hbuf with ⟨_, hq⟩ | ⟨h0, _⟩
        · left
          rw [← ht.1, ← ht.2]
          exact ⟨hq, rfl⟩
        · cases h0

/-- C13 (as amended): at a ping tick on an open hub whose broadcast queue has
room: if the current client count differs from the count last announced (0
before any announcement), a VIEWER_COUNT message carrying the current count is
queued for broadcast and that count becomes the last announced; otherwise a PING
is queued and the last announced count is unchanged. At a tick on a closed hub
`Broadcast` fails, nothing is queued and the last announced count is unchanged.
In every case, after a tick that queued VIEWER_COUNT, a next tick with the same
count queues no VIEWER_COUNT (a PING, or nothing when the broadcast fails). -/
theorem op.Hub.pingTick_spec (h : op.Hub) (pre : Int) :
    (h.closed ≠ 1 → h.broadcast.hasRoom = true →
        (h.ClientNum ≠ pre →
          h.pingTick pre =
            some ({ h with
              once := true
              broadcast := h.broadcast.push (op.viewerCountDescriptor h.ClientNum) },
              h.ClientNum)) ∧
        (h.ClientNum = pre →
          h.pingTick pre =
            some ({ h with once := true, broadcast := h.broadcast.push op.pingDescriptor },
              pre))) ∧
      (h.closed = 1 → h.pingTick pre = some (h, pre)) ∧
      (∀ (h1 h2 h3 : op.Hub) (pre1 pre3 : Int), h.pingTick pre = some (h1, pre1) →
        h1.broadcast.buf = h.broadcast.buf ++ [op.viewerCountDescriptor h.ClientNum] →
        h2.ClientNum = h.ClientNum → h2.pingTick pre1 = some (h3, pre3) →
        pre3 = pre1 ∧
        (h3.broadcast.buf = h2.broadcast.buf ∨
          h3.broadcast.buf = h2.broadcast.buf ++ [op.pingDescriptor])) := by
  refine ⟨?_, ?_, ?_⟩
  · intro hopen hroom
    constructor
    · intro hne
      have hb1 : (h.ClientNum != pre) = true := by simpa using hne
      unfold op.Hub.pingTick
      simp only [hb1, if_true]
      rw [op.Hub.Broadcast_room h _ hopen hroom]
      rfl
    · intro heq
      unfold op.Hub.pingTick
      simp only [heq, bne_self_eq_false, Bool.false_eq_true, if_false]
      rw [op.Hub.Broadcast_room h _ hopen hroom]
      rfl
  · intro hc
    unfold op.Hub.pingTick
    by_cases hne : h.ClientNum = pre
    · simp only [hne, bne_self_eq_false, Bool.false_eq_true, if_false]
      rw [op.Hub.Broadcast_closed h _ _ hc]
    · have hb1 : (h.ClientNum != pre) = true := by simpa using hne
      simp only [hb1, if_true]
      rw [op.Hub.Broadcast_closed h _ _ hc]
  · intro h1 h2 h3 pre1 pre3 ht1 hemit hsame ht2
    have hpre1 : pre1 = h.ClientNum := by
      rcases op.Hub.pingTick_cases h h1 pre pre1 ht1 with ⟨hq, _⟩ | ⟨_, hp, _⟩ | ⟨_, _, hq⟩
      · rw [hq] at hemit
        have := congrArg List.length hemit
        simp at this
      · exact hp
      · rw [hq] at hemit
        have := List.append_cancel_left hemit
        simp [op.pingDescriptor, op.viewerCountDescriptor] at this
    rcases op.Hub.pingTick_cases h2 h3 pre1 pre3 ht2 with ⟨hq, hp⟩ | ⟨hne, _, _⟩ | ⟨_, hp, hq⟩
    · exact ⟨hp, Or.inl hq⟩
    · exact absurd (by rw [hsame, hpre1]) hne
    · exact ⟨hp, Or.inr hq⟩

/-- Witness for C13: on the hub of A, B and C the first tick (last announced 0)
queues VIEWER_COUNT 3 and the next tick on that hub (last announced 3) queues a
PING; a tick on the closed hub changes nothing. -/
theorem op.Hub.pingTick_spec_witness :
    Scenario.hub.pingTick 0 =
        some ({ Scenario.hub with
          once := true
          broadcast := Scenario.hub.broadcast.push
            (op.viewerCountDescriptor Scenario.hub.ClientNum) }, Scenario.hub.ClientNum) ∧
      Scenario.hub.pingTick 3 =
        some ({ Scenario.hub with
          once := true
          broadcast := Scenario.hub.broadcast.push op.pingDescriptor }, 3) ∧
      Scenario.hub.Close.2.1.pingTick 3 = some (Scenario.hub.Close.2.1, 3) :=
  ⟨((op.Hub.pingTick_spec Scenario.hub 0).1 (by decide) (by decide)).1 (by decide),
    ((op.Hub.pingTick_spec Scenario.hub 3).1 (by decide) (by decide)).2 (by decide),
    (op.Hub.pingTick_spec Scenario.hub.Close.2.1 3).2.1 (by decide)⟩

/-- Counterexample to C13 as stated: the hub of A, B and C has announced 3 and
is then closed; at the next tick the count is 0, which differs from 3, yet no
VIEWER_COUNT is queued and the last announced count stays 3. -/
theorem op.Hub.pingTick_closed_silent :
    Scenario.hub.Close.2.1.ClientNum = 0 ∧
      (Scenario.hub.Close.2.1.pingTick 3).map (fun r => (r.1.broadcast.buf, r.2)) =
        some ([], 3) := by
  decide

/-! ## Counting clients -/

theorem gomap.keys_set {V : Type} (m : gomap.Map V) (k : String) (v : V) :
    (gomap.set m k v).map (fun e => e.1) = m.map (fun e => e.1) := by
  unfold gomap.set
  rw [List.map_map]
  apply List.map_congr_left
  intro e _
  by_cases hk : e.1 = k <;> simp [hk]

theorem gomap.mem_set {V : Type} (m : gomap.Map V) (k : String) (v : V) (e : String × V)
    (he : e ∈ gomap.set m k v) : e ∈ m ∨ e = (k, v) := by
  unfold gomap.set at he
  obtain ⟨a, ha, rfl⟩ := List.mem_map.mp he
  by_cases hk : a.1 = k
  · right; simp [hk]
  · left; simpa [hk] using ha

theorem gomap.mem_of_Load {V : Type} (m : gomap.Map V) (k : String) (v : V)
    (h : gomap.Load m k = some v) : (k, v) ∈ m := by
  unfold gomap.Load at h
  obtain ⟨l1, l2, e, _⟩ := List.lookup_eq_some_iff.mp h
  rw [e]
  simp

theorem gomap.not_mem_keys_of_Load {V : Type} (m : gomap.Map V) (k : String)
    (h : gomap.Load m k = none) : k ∉ m.map (fun e => e.1) := by
  unfold gomap.Load at h
  rw [List.lookup_eq_none_iff] at h
  intro hk
  obtain ⟨e, he, rfl⟩ := List.mem_map.mp hk
  have := h e he
  simp at this

theorem gomap.Store_ne_nil {V : Type} (m : gomap.Map V) (k : String) (v : V) :
    gomap.Store m k v ≠ [] := by
  unfold gomap.Store
  cases hl : m.lookup k with
  | none => simp
  | some x =>
    simp only
    have hmem := gomap.mem_of_Load m k x hl
    intro hnil
    have hlen := congrArg List.length hnil
    unfold gomap.set at hlen
    rw [List.length_map] at hlen
    cases m with
    | nil => cases hmem
    | cons a as => simp at hlen

theorem gomap.Store_keys_nodup {V : Type} (m : gomap.Map V) (k : String) (v : V)
    (hnd : (m.map (fun e => e.1)).Nodup) : ((gomap.Store m k v).map (fun e => e.1)).Nodup := by
  unfold gomap.Store
  cases hl : m.lookup k with
  | none =>
    simp only
    rw [List.map_append, List.nodup_append]
    refine ⟨hnd, by simp, ?_⟩
    intro a ha hb
    simp only [List.map_cons, List.map_nil, List.mem_singleton] at hb
    subst hb
    exact gomap.not_mem_keys_of_Load m a hl ha
  | some x =>
    simp only
    rw [gomap.keys_set]
    exact hnd

theorem gomap.Delete_keys_nodup {V : Type} (m : gomap.Map V) (k : String)
    (hnd : (m.map (fun e => e.1)).Nodup) : ((gomap.Delete m k).map (fun e => e.1)).Nodup :=
  hnd.sublist ((List.filter_sublist m).map _)

theorem gomap.mem_Delete {V : Type} (m : gomap.Map V) (k : String) (e : String × V)
    (he : e ∈ gomap.Delete m k) : e ∈ m :=
  (List.mem_filter.mp he).1

theorem gomap.LoadOrStore_keys_nodup {V : Type} (m : gomap.Map V) (k : String) (v : V)
    (hnd : (m.map (fun e => e.1)).Nodup) :
    ((gomap.LoadOrStore m k v).2.map (fun e => e.1)).Nodup := by
  unfold gomap.LoadOrStore
  cases hl : m.lookup k with
  | some x => exact hnd
  | none =>
    simp only
    rw [List.map_append, List.nodup_append]
    refine ⟨hnd, by simp, ?_⟩
    intro a ha hb
    simp only [List.map_cons, List.map_nil, List.mem_singleton] at hb
    subst hb
    exact gomap.not_mem_keys_of_Load m a hl ha

/-- What `LoadOrStore` returns and leaves: a value of the map with the map
unchanged, or the offered value with one entry added under the key. -/
theorem gomap.LoadOrStore_cases {V : Type} (m : gomap.Map V) (k : String) (v : V) :
    ((k, (gomap.LoadOrStore m k v).1.1) ∈ m ∧ (gomap.LoadOrStore m k v).2 = m) ∨
      ((gomap.LoadOrStore m k v).1.1 = v ∧ (gomap.LoadOrStore m k v).2 = m ++ [(k, v)]) := by
  unfold gomap.LoadOrStore
  cases hl : m.lookup k with
  | some x => exact Or.inl ⟨gomap.mem_of_Load m k x hl, rfl⟩
  | none => exact Or.inr ⟨rfl, rfl⟩

/-- `RegClient` on an open hub keeps the registry well formed. -/
theorem op.Hub.RegClient_wf (h : op.Hub) (cli : op.Client) (hopen : h.closed ≠ 1)
    (hw : h.WellFormed) :
    (h.RegClient cli).2.WellFormed ∧ (h.RegClient cli).2.closed = h.closed := by
  have hr := op.Hub.RegClient_open h cli hopen
  obtain ⟨hnd, hall⟩ := hw
  unfold op.Hub.onlineUsers at hnd
  have hcases := gomap.LoadOrStore_cases h.clients cli.u.ID ({ m := [] } : op.clients)
  have hknd := gomap.LoadOrStore_keys_nodup h.clients cli.u.ID ({ m := [] } : op.clients) hnd
  have hget := op.Hub.Load_bucket h cli.u.ID cli.connID
  generalize gomap.LoadOrStore h.clients cli.u.ID ({ m := [] } : op.clients) = r
    at hr hcases hknd hget
  cases hg : h.GetClientByConnID cli.u.ID cli.connID with
  | some c0 =>
    rw [hg] at hr hget
    simp only at hr
    rw [hr]
    have hsame : r.2 = h.clients := by
      rcases hcases with ⟨_, e⟩ | ⟨e1, _⟩
      · exact e
      · rw [e1] at hget
        simp [gomap.Load] at hget
    refine ⟨⟨?_, ?_⟩, rfl⟩
    · simp only [op.Hub.onlineUsers, hsame]
      exact hnd
    · simp only [hsame]
      exact hall
  | none =>
    rw [hg] at hr
    simp only at hr
    rw [hr]
    have hbnd : (r.1.1.m.map (fun x => x.1)).Nodup := by
      rcases hcases with ⟨hm, _⟩ | ⟨e1, _⟩
      · exact (hall _ hm).2
      · rw [e1]
        exact List.nodup_nil
    refine ⟨⟨?_, ?_⟩, rfl⟩
    · simp only [op.Hub.onlineUsers]
      rw [gomap.keys_set]
      exact hknd
    · intro e he
      simp only at he
      rcases gomap.mem_set _ _ _ e he with hm | rfl
      · rcases hcases with ⟨_, e2⟩ | ⟨_, e2⟩
        · rw [e2] at hm
          exact hall e hm
        · rw [e2] at hm
          rcases List.mem_append.mp hm with h1 | h1
          · exact hall e h1
          · simp only [List.mem_singleton] at h1
            have hk : e.1 = cli.u.ID := by rw [h1]
            have hne : e ≠ (cli.u.ID, ({ m := [] } : op.clients)) := by
              intro heq
              have hmem := he
              rw [heq] at hmem
              unfold gomap.set at hmem
              obtain ⟨a, _, ha⟩ := List.mem_map.mp hmem
              by_cases hak : a.1 = cli.u.ID
              · simp only [hak, beq_self_eq_true, if_true, Prod.mk.injEq, true_and] at ha
                have hnil := congrArg op.clients.m ha
                exact gomap.Store_ne_nil _ _ _ hnil
              · simp only [beq_iff_eq, hak, if_false] at ha
                rw [ha] at hak
                exact hak rfl
            exact absurd h1 hne
      · exact ⟨gomap.Store_ne_nil _ _ _, gomap.Store_keys_nodup _ _ _ hbnd⟩

/-- `UnRegClient` on an open hub keeps the registry well formed. -/
theorem op.Hub.UnRegClient_wf (h : op.Hub) (cli : op.Client) (hopen : h.closed ≠ 1)
    (hw : h.WellFormed) :
    (h.UnRegClient (some cli)).2.WellFormed ∧ (h.UnRegClient (some cli)).2.closed = h.closed := by
  obtain ⟨hnd, hall⟩ := hw
  unfold op.Hub.onlineUsers at hnd
  cases hg : h.GetClientByConnID cli.u.ID cli.connID with
  | none =>
    rw [op.Hub.UnRegClient_missing h cli hopen hg]
    exact ⟨⟨hnd, hall⟩, rfl⟩
  | some c0 =>
    unfold op.Hub.GetClientByConnID at hg
    cases hb : gomap.Load h.clients cli.u.ID with
    | none => simp [hb] at hg
    | some b =>
      rw [hb] at hg
      simp only at hg
      rw [op.Hub.UnRegClient_found h cli hopen b c0 hb hg]
      by_cases hlen : (gomap.Delete b.m cli.connID).length = 0
      · simp only [hlen, beq_self_eq_true, if_true]
        refine ⟨⟨gomap.Delete_keys_nodup _ _ hnd, ?_⟩, trivial⟩
        intro e he
        exact hall e (gomap.mem_Delete _ _ e he)
      · have hne0 : ((gomap.Delete b.m cli.connID).length == 0) = false := by simpa using hlen
        simp only [hne0, Bool.false_eq_true, if_false]
        refine ⟨⟨?_, ?_⟩, trivial⟩
        · simp only [op.Hub.onlineUsers]
          rw [gomap.keys_set]
          exact hnd
        · intro e he
          simp only at he
          rcases gomap.mem_set _ _ _ e he with hm | rfl
          · exact hall e hm
          · refine ⟨?_, gomap.Delete_keys_nodup _ _ (hall _ (gomap.mem_of_Load _ _ _ hb)).2⟩
            intro hnil
            simp only at hnil
            exact hlen (by rw [hnil]; rfl)

/-- Every registry reached from a new hub by `RegClient` and `UnRegClient` is
well formed, and the hub is still open. -/
theorem op.Hub.runRegOps_wf (id : String) (ops : List op.RegOp) :
    ((op.newHub id).runRegOps ops).WellFormed ∧ ((op.newHub id).runRegOps ops).closed = 0 := by
  have key : ∀ (l : List op.RegOp) (h : op.Hub), h.WellFormed → h.closed = 0 →
      (h.runRegOps l).WellFormed ∧ (h.runRegOps l).closed = 0 := by
    intro l
    induction l with
    | nil => intro h hw hc; exact ⟨hw, hc⟩
    | cons o os ih =>
      intro h hw hc
      have hopen : h.closed ≠ 1 := by rw [hc]; decide
      cases o with
      | reg c =>
        obtain ⟨w1, c1⟩ := op.Hub.RegClient_wf h c hopen hw
        exact ih _ w1 (c1.trans hc)
      | unreg c =>
        obtain ⟨w1, c1⟩ := op.Hub.UnRegClient_wf h c hopen hw
        exact ih _ w1 (c1.trans hc)
  exact key ops (op.newHub id) ⟨List.nodup_nil, fun e he => by cases he⟩ rfl

theorem gomap.length_le_flatten_map {α β : Type} (l : List α) (f : α → List β)
    (hne : ∀ e ∈ l, f e ≠ []) :
    l.length ≤ (l.map f).flatten.length ∧
      (l.length = (l.map f).flatten.length ↔ ∀ e ∈ l, (f e).length = 1) := by
  induction l with
  | nil => simp
  | cons a as ih =>
    obtain ⟨h1, h2⟩ := ih (fun e he => hne e (List.mem_cons_of_mem _ he))
    have ha : 1 ≤ (f a).length := by
      have := hne a (List.mem_cons_self _ _)
      cases hfa : f a with
      | nil => exact absurd hfa this
      | cons x xs => simp
    simp only [List.map_cons, List.flatten_cons, List.length_append, List.length_cons,
      List.mem_cons, forall_eq_or_imp]
    refine ⟨by omega, ?_⟩
    constructor
    · intro heq
      have e1 : (f a).length = 1 := by omega
      exact ⟨e1, h2.mp (by omega)⟩
    · rintro ⟨e1, e2⟩
      have := h2.mpr e2
      omega

/-- A user has a set in a well-formed registry exactly when one of its
connections is registered. -/
theorem op.Hub.mem_onlineUsers (h : op.Hub) (hw : h.WellFormed) (u : String) :
    u ∈ h.onlineUsers ↔ ∃ k c, h.GetClientByConnID u k = some c := by
  constructor
  · intro hu
    unfold op.Hub.onlineUsers at hu
    obtain ⟨e, he, rfl⟩ := List.mem_map.mp hu
    have hsome : (gomap.Load h.clients e.1).isSome = true := by
      unfold gomap.Load
      rw [List.lookup_isSome_iff]
      exact ⟨e, he, by simp⟩
    obtain ⟨b, hb⟩ := Option.isSome_iff_exists.mp hsome
    have hmem := gomap.mem_of_Load _ _ _ hb
    have hbne := (hw.2 _ hmem).1
    simp only at hbne
    cases hm : b.m with
    | nil => exact absurd hm hbne
    | cons x xs =>
      refine ⟨x.1, x.2, ?_⟩
      unfold op.Hub.GetClientByConnID
      rw [hb]
      simp only [gomap.Load, hm]
      obtain ⟨k, c⟩ := x
      simp
  · rintro ⟨k, c, hg⟩
    unfold op.Hub.GetClientByConnID at hg
    cases hb : gomap.Load h.clients u with
    | none => simp [hb] at hg
    | some b =>
      have hmem := gomap.mem_of_Load _ _ _ hb
      exact List.mem_map.mpr ⟨(u, b), hmem, rfl⟩

/-- C14 (as amended): for every registry reached from a new hub by RegClient
and UnRegClient calls, the value that the ping loop announces, `ClientNum`, is
the number of distinct users that have at least one registered connection (the
number of per-user sets); it is at most the number of registered connections,
and equal to it exactly when no user has more than one connection. -/
theorem op.Hub.ClientNum_counts_users (id : String) (ops : List op.RegOp) :
    ((op.newHub id).runRegOps ops).ClientNum =
        (((op.newHub id).runRegOps ops).onlineUsers.length : Int) ∧
      ((op.newHub id).runRegOps ops).onlineUsers.Nodup ∧
      (∀ u, u ∈ ((op.newHub id).runRegOps ops).onlineUsers ↔
        ∃ k c, ((op.newHub id).runRegOps ops).GetClientByConnID u k = some c) ∧
      ((op.newHub id).runRegOps ops).ClientNum ≤
        ((op.newHub id).runRegOps ops).connectionCount ∧
      (((op.newHub id).runRegOps ops).ClientNum =
          ((op.newHub id).runRegOps ops).connectionCount ↔
        ∀ e ∈ ((op.newHub id).runRegOps ops).clients, e.2.m.length = 1) := by
  obtain ⟨hw, -⟩ := op.Hub.runRegOps_wf id ops
  generalize (op.newHub id).runRegOps ops = h at hw
  have hcount := gomap.length_le_flatten_map h.clients (fun e => e.2.m.map (fun x => x.2))
    (fun e he => by
      have := (hw.2 e he).1
      simpa using this)
  refine ⟨?_, hw.1, op.Hub.mem_onlineUsers h hw, ?_, ?_⟩
  · simp [op.Hub.ClientNum, gomap.Len, op.Hub.onlineUsers]
  · simp only [op.Hub.ClientNum, gomap.Len, op.Hub.connectionCount, op.Hub.allClients]
    exact_mod_cast hcount.1
  · simp only [op.Hub.ClientNum, gomap.Len, op.Hub.connectionCount, op.Hub.allClients]
    rw [Nat.cast_inj, hcount.2]
    simp

/-- Counterexample to C14 as stated: after A's user registers two connections
on a new hub, two clients are registered and `ClientNum` is 1. -/
theorem op.Hub.ClientNum_two_connections :
    ((op.newHub "R").runRegOps
        [op.RegOp.reg Scenario.clientA, op.RegOp.reg Scenario.clientA2]).ClientNum = 1 ∧
      ((op.newHub "R").runRegOps
        [op.RegOp.reg Scenario.clientA, op.RegOp.reg Scenario.clientA2]).connectionCount = 2 ∧
      ((op.newHub "R").runRegOps
        [op.RegOp.reg Scenario.clientA, op.RegOp.reg Scenario.clientA2]).allClients =
        [Scenario.clientA, Scenario.clientA2] := by
  decide

/-! ## Token validation -/

/-- The two validators are the same function. -/
theorem middlewares.validateAuthUser_eq (user : op.User) (uv : Nat) :
    middlewares.validateAuthUser user uv = middlewares.validateUser user uv := rfl

/-- The validator on a user that is not the guest and a version that differs
from the user's. -/
theorem middlewares.validateUser_mismatch (user : op.User) (uv : Nat)
    (hne : uv ≠ user.version) (hg : user.IsGuest = false) :
    middlewares.validateUser user uv = some middlewares.AuthError.ErrAuthExpired := by
  have hv : user.CheckVersion uv = false := by
    simpa [op.User.CheckVersion] using fun h => hne h.symm
  simp [middlewares.validateUser, hg, hv]

/-- The validator on the guest user. -/
theorem middlewares.validateUser_guest (user : op.User) (uv : Nat) (hg : user.IsGuest = true) :
    middlewares.validateUser user uv = some middlewares.AuthError.ErrUserGuest := by
  simp [middlewares.validateUser, hg]

/-- The validator on a matching version never answers ErrAuthExpired. -/
theorem middlewares.validateUser_match (user : op.User) :
    middlewares.validateUser user user.version ≠ some middlewares.AuthError.ErrAuthExpired := by
  unfold middlewares.validateUser
  have hv : user.CheckVersion user.version = true := by simp [op.User.CheckVersion]
  cases user.IsGuest <;> cases user.IsBanned <;> cases user.IsPending <;> simp [hv]

/-- C16 (as amended): for every user and every token user-version uv that
differs from the user's current version, token validation fails in the room
path (validateUser) and in the user path (validateAuthUser): with
ErrAuthExpired when the user is not the guest user, and with ErrUserGuest, the
check that comes first, when it is. -/
theorem middlewares.validate_version_mismatch (user : op.User) (uv : Nat)
    (hne : uv ≠ user.version) :
    middlewares.validateUser user uv ≠ none ∧ middlewares.validateAuthUser user uv ≠ none ∧
      (user.IsGuest = false →
        middlewares.validateUser user uv = some middlewares.AuthError.ErrAuthExpired ∧
        middlewares.validateAuthUser user uv = some middlewares.AuthError.ErrAuthExpired) ∧
      (user.IsGuest = true →
        middlewares.validateUser user uv = some middlewares.AuthError.ErrUserGuest ∧
        middlewares.validateAuthUser user uv = some middlewares.AuthError.ErrUserGuest) := by
  rw [middlewares.validateAuthUser_eq]
  cases hg : user.IsGuest with
  | false =>
    have h := middlewares.validateUser_mismatch user uv hne hg
    rw [h]
    simp
  | true =>
    have h := middlewares.validateUser_guest user uv hg
    rw [h]
    simp

/-- Witness for C16: Dave at version 5 and a token minted at version 4. -/
theorem middlewares.validate_version_mismatch_witness :
    middlewares.validateUser
        { ID := "0123456789abcdef0123456789abcdef", Username := "dave", version := 5 } 4 =
        some middlewares.AuthError.ErrAuthExpired ∧
      middlewares.validateAuthUser
        { ID := "0123456789abcdef0123456789abcdef", Username := "dave", version := 5 } 4 =
        some middlewares.AuthError.ErrAuthExpired :=
  (middlewares.validate_version_mismatch
    { ID := "0123456789abcdef0123456789abcdef", Username := "dave", version := 5 } 4
    (by decide)).2.2.1 (by decide)

/-- Counterexample to C16 as stated: the guest user is at version 7; a token
user-version 8 differs from it, and both validators answer ErrUserGuest, not
ErrAuthExpired. -/
theorem middlewares.validate_guest_not_expired :
    (8 : Nat) ≠ Scenario.guest.version ∧
      middlewares.validateUser Scenario.guest 8 = some middlewares.AuthError.ErrUserGuest ∧
      middlewares.validateAuthUser Scenario.guest 8 = some middlewares.AuthError.ErrUserGuest ∧
      middlewares.validateUser Scenario.guest 8 ≠ some middlewares.AuthError.ErrAuthExpired := by
  decide

/-! ## User version -/

/-- The CRC-32 embedding on the standard check input "123456789". -/
theorem crc32.ChecksumIEEE_check :
    crc32.ChecksumIEEE (Scenario.ascii "123456789") = 0xCBF43926 := by
  decide

/-- `shift` is the one formula for every register value. -/
theorem crc32.shift_eq (c : Nat) :
    crc32.shift c = if c % 2 = 1 then (c >>> 1) ^^^ 0xEDB88320 else c >>> 1 := by
  cases c with
  | zero => rfl
  | succ n => rfl

/-- The entry that `LoadOrInitUser` makes for a user that is not cached: the
stored record with the CRC-32 of its password hash as version. -/
theorem op.LoadOrInitUser_fresh (userCache : gomap.Map op.User) (u : model.User)
    (hfresh : gomap.Load userCache u.ID = none) :
    (op.LoadOrInitUser userCache u).1 =
      { ID := u.ID, Username := u.Username, Role := u.Role, HashedPassword := u.HashedPassword,
        version := crc32.ChecksumIEEE u.HashedPassword } := by
  unfold gomap.Load at hfresh
  simp [op.LoadOrInitUser, gomap.LoadOrStore, hfresh]

/-- The claims of a minted token carry the version of the user. -/
theorem middlewares.NewAuthUserToken_version (user : op.User) (expire : Except String Int)
    (now : Int) (claims : middlewares.AuthClaims)
    (hmint : middlewares.NewAuthUserToken user expire now = Except.ok claims) :
    claims.UserVersion = user.version ∧ claims.UserID = user.ID := by
  unfold middlewares.NewAuthUserToken at hmint
  cases hv : middlewares.validateNewAuthUserToken user with
  | some err => simp [hv] at hmint
  | none =>
    cases expire with
    | error text => simp [hv] at hmint
    | ok t =>
      simp only [hv, Except.ok.injEq] at hmint
      rw [← hmint]
      exact ⟨rfl, rfl⟩

/-- C17 (as amended): a user entry made by `LoadOrInitUser` for a stored record
that is not cached has the CRC-32 of the stored password hash as version, and a
token minted for the entry of the old record (hash h) is rejected with
ErrAuthExpired by the entry of the changed record (hash h', not the guest)
exactly when the CRC-32 of h differs from the CRC-32 of h'. -/
theorem op.LoadOrInitUser_version (cacheOld cacheNew : gomap.Map op.User)
    (uOld uNew : model.User) (expire : Except String Int) (now : Int)
    (claims : middlewares.AuthClaims)
    (hOld : gomap.Load cacheOld uOld.ID = none) (hNew : gomap.Load cacheNew uNew.ID = none)
    (hrole : uNew.Role ≠ model.Role.RoleGuest)
    (hmint : middlewares.NewAuthUserToken (op.LoadOrInitUser cacheOld uOld).1 expire now =
      Except.ok claims) :
    (op.LoadOrInitUser cacheOld uOld).1.version = crc32.ChecksumIEEE uOld.HashedPassword ∧
      (op.LoadOrInitUser cacheNew uNew).1.version = crc32.ChecksumIEEE uNew.HashedPassword ∧
      claims.UserVersion = crc32.ChecksumIEEE uOld.HashedPassword ∧
      (middlewares.validateAuthUser (op.LoadOrInitUser cacheNew uNew).1 claims.UserVersion =
          some middlewares.AuthError.ErrAuthExpired ↔
        crc32.ChecksumIEEE uOld.HashedPassword ≠ crc32.ChecksumIEEE uNew.HashedPassword) ∧
      (middlewares.validateUser (op.LoadOrInitUser cacheNew uNew).1 claims.UserVersion =
          some middlewares.AuthError.ErrAuthExpired ↔
        crc32.ChecksumIEEE uOld.HashedPassword ≠ crc32.ChecksumIEEE uNew.HashedPassword) := by
  have e1 := op.LoadOrInitUser_fresh cacheOld uOld hOld
  have e2 := op.LoadOrInitUser_fresh cacheNew uNew hNew
  have hc := (middlewares.NewAuthUserToken_version _ expire now claims hmint).1
  rw [e1] at hc
  simp only at hc
  have hg : (op.LoadOrInitUser cacheNew uNew).1.IsGuest = false := by
    rw [e2]
    simpa [op.User.IsGuest] using hrole
  have hver : (op.LoadOrInitUser cacheNew uNew).1.version =
      crc32.ChecksumIEEE uNew.HashedPassword := by rw [e2]
  have key : middlewares.validateUser (op.LoadOrInitUser cacheNew uNew).1 claims.UserVersion =
      some middlewares.AuthError.ErrAuthExpired ↔
      crc32.ChecksumIEEE uOld.HashedPassword ≠ crc32.ChecksumIEEE uNew.HashedPassword := by
    constructor
    · intro hexp heq
      have hsame : claims.UserVersion = (op.LoadOrInitUser cacheNew uNew).1.version := by
        rw [hc, hver, heq]
      rw [hsame] at hexp
      exact middlewares.validateUser_match _ hexp
    · intro hne
      apply middlewares.validateUser_mismatch _ _ _ hg
      rw [hc, hver]
      exact hne
  refine ⟨by rw [e1], hver, hc, ?_, key⟩
  rw [middlewares.validateAuthUser_eq]
  exact key

/-- Witness for C17: Dave's password hash changes from `hashOld` to
`hashOther`, whose CRC-32 differs; the token minted before the change is
rejected with ErrAuthExpired. -/
theorem op.LoadOrInitUser_version_witness :
    middlewares.validateAuthUser (op.LoadOrInitUser [] (Scenario.dave Scenario.hashOther)).1
        (crc32.ChecksumIEEE Scenario.hashOld) =
      some middlewares.AuthError.ErrAuthExpired := by
  have h := op.LoadOrInitUser_version [] [] (Scenario.dave Scenario.hashOld)
    (Scenario.dave Scenario.hashOther) (Except.ok 172800) 0
    { UserID := "0123456789abcdef0123456789abcdef"
      UserVersion := crc32.ChecksumIEEE Scenario.hashOld
      NotBefore := 0, ExpiresAt := 172800 }
    rfl rfl (by decide) rfl
  exact h.2.2.2.1.mpr (by decide)

/-- Counterexample to C17 as stated: `hashOld` and `hashNew` are different
stored hashes with the same CRC-32, so the versions derived from them are
equal, and the token minted before the change from one to the other is still
accepted after it. -/
theorem op.LoadOrInitUser_version_collision :
    Scenario.hashOld ≠ Scenario.hashNew ∧
      crc32.ChecksumIEEE Scenario.hashOld = 1780557219 ∧
      crc32.ChecksumIEEE Scenario.hashNew = 1780557219 ∧
      (op.LoadOrInitUser [] (Scenario.dave Scenario.hashOld)).1.version =
        (op.LoadOrInitUser [] (Scenario.dave Scenario.hashNew)).1.version ∧
      (middlewares.NewAuthUserToken (op.LoadOrInitUser [] (Scenario.dave Scenario.hashOld)).1
          (Except.ok 172800) 0).toOption.map
          (fun claims =>
            middlewares.validateAuthUser
              (op.LoadOrInitUser [] (Scenario.dave Scenario.hashNew)).1 claims.UserVersion) =
        some none := by
  decide

/-! ## Room ID -/

/-- The loop of `GetRoomIDFromContext` at a first source that is not empty. -/
theorem middlewares.roomIDLoop_cons (roomID : String) (rest : List String)
    (hne : roomID ≠ "") :
    middlewares.roomIDLoop (roomID :: rest) =
      if roomID.utf8ByteSize = 32 then (roomID, none, roomID)
      else ("", some middlewares.AuthError.ErrInvalidRoomID, "") := by
  simp [middlewares.roomIDLoop, hne]

/-- The loop of `GetRoomIDFromContext` skips an empty source. -/
theorem middlewares.roomIDLoop_skip (rest : List String) :
    middlewares.roomIDLoop ("" :: rest) = middlewares.roomIDLoop rest := by
  simp [middlewares.roomIDLoop]

/-- What the loop can answer: a room ID of 32 bytes taken from the sources, or
ErrInvalidRoomID with the empty string. -/
theorem middlewares.roomIDLoop_result (l : List String) :
    ((middlewares.roomIDLoop l).2.1 = none ∧ (middlewares.roomIDLoop l).1 ∈ l ∧
        (middlewares.roomIDLoop l).1.utf8ByteSize = 32 ∧
        (middlewares.roomIDLoop l).2.2 = (middlewares.roomIDLoop l).1) ∨
      middlewares.roomIDLoop l = ("", some middlewares.AuthError.ErrInvalidRoomID, "") := by
  induction l with
  | nil => right; rfl
  | cons a as ih =>
    by_cases ha : a = ""
    · subst ha
      rw [middlewares.roomIDLoop_skip]
      rcases ih with ⟨h1, h2, h3, h4⟩ | h
      · left; exact ⟨h1, List.mem_cons_of_mem _ h2, h3, h4⟩
      · right; exact h
    · rw [middlewares.roomIDLoop_cons a as ha]
      by_cases h32 : a.utf8ByteSize = 32
      · left
        simp [h32]
      · right
        simp [h32]

/-- C18 (as amended): `GetRoomIDFromContext` looks at the first non-empty value
among the X-Room-Id header, the roomId query parameter and the path parameter,
and accepts it exactly when its length is 32 bytes, whatever the characters;
a first non-empty value of another length, and three empty values, are rejected
with ErrInvalidRoomID. `AuthRoom` rejects with ErrInvalidRoomID every room ID
whose length is not 32 bytes, and hands every room ID of 32 bytes on to the
authentication of user and room. -/
theorem middlewares.roomID_length_check {R : Type} (ctx : middlewares.RoomIDSources)
    (authUserOrGuest : String → Except middlewares.AuthError op.User)
    (authRoomAccess : String → op.User → Except middlewares.AuthError R)
    (authorization roomID : String) :
    (ctx.header ≠ "" →
        middlewares.GetRoomIDFromContext ctx =
          if ctx.header.utf8ByteSize = 32 then (ctx.header, none, ctx.header)
          else ("", some middlewares.AuthError.ErrInvalidRoomID, "")) ∧
      (ctx.header = "" → ctx.query ≠ "" →
        middlewares.GetRoomIDFromContext ctx =
          if ctx.query.utf8ByteSize = 32 then (ctx.query, none, ctx.query)
          else ("", some middlewares.AuthError.ErrInvalidRoomID, "")) ∧
      (ctx.header = "" → ctx.query = "" → ctx.param ≠ "" →
        middlewares.GetRoomIDFromContext ctx =
          if ctx.param.utf8ByteSize = 32 then (ctx.param, none, ctx.param)
          else ("", some middlewares.AuthError.ErrInvalidRoomID, "")) ∧
      (ctx.header = "" → ctx.query = "" → ctx.param = "" →
        middlewares.GetRoomIDFromContext ctx =
          ("", some middlewares.AuthError.ErrInvalidRoomID, "")) ∧
      (((middlewares.GetRoomIDFromContext ctx).2.1 = none ∧
          (middlewares.GetRoomIDFromContext ctx).1.utf8ByteSize = 32) ∨
        middlewares.GetRoomIDFromContext ctx =
          ("", some middlewares.AuthError.ErrInvalidRoomID, "")) ∧
      (roomID.utf8ByteSize ≠ 32 →
        middlewares.AuthRoom authUserOrGuest authRoomAccess authorization roomID =
          Except.error middlewares.AuthError.ErrInvalidRoomID) ∧
      (roomID.utf8ByteSize = 32 →
        ∀ user roomE, authUserOrGuest authorization = Except.ok user →
          authRoomAccess roomID user = Except.ok roomE →
          middlewares.AuthRoom authUserOrGuest authRoomAccess authorization roomID =
            Except.ok (user, roomE)) := by
  refine ⟨?_, ?_, ?_, ?_, ?_, ?_, ?_⟩
  · intro h1
    exact middlewares.roomIDLoop_cons _ _ h1
  · intro h1 h2
    unfold middlewares.GetRoomIDFromContext
    rw [h1, middlewares.roomIDLoop_skip]
    exact middlewares.roomIDLoop_cons _ _ h2
  · intro h1 h2 h3
    unfold middlewares.GetRoomIDFromContext
    rw [h1, h2, middlewares.roomIDLoop_skip, middlewares.roomIDLoop_skip]
    exact middlewares.roomIDLoop_cons _ _ h3
  · intro h1 h2 h3
    unfold middlewares.GetRoomIDFromContext
    rw [h1, h2, h3, middlewares.roomIDLoop_skip, middlewares.roomIDLoop_skip,
      middlewares.roomIDLoop_skip]
    rfl
  · rcases middlewares.roomIDLoop_result [ctx.header, ctx.query, ctx.param] with
      ⟨h1, _, h3, _⟩ | h
    · exact Or.inl ⟨h1, h3⟩
    · exact Or.inr h
  · intro hlen
    simp [middlewares.AuthRoom, hlen]
  · intro hlen user roomE hu hr
    simp [middlewares.AuthRoom, hlen, hu, hr]

/-- Witness for C18: a header of 32 hexadecimal characters is accepted, a
query value of 6 characters is rejected, and `AuthRoom` rejects the latter. -/
theorem middlewares.roomID_length_check_witness :
    middlewares.GetRoomIDFromContext
        { header := "0123456789abcdef0123456789abcdef", query := "", param := "" } =
        ("0123456789abcdef0123456789abcdef", none, "0123456789abcdef0123456789abcdef") ∧
      middlewares.GetRoomIDFromContext { header := "", query := "room-1", param := "" } =
        ("", some middlewares.AuthError.ErrInvalidRoomID, "") ∧
      middlewares.AuthRoom (fun _ => Except.ok Scenario.guest)
          (fun _ _ => (Except.ok () : Except middlewares.AuthError Unit)) "" "room-1" =
        Except.error middlewares.AuthError.ErrInvalidRoomID :=
  ⟨((middlewares.roomID_length_check
      { header := "0123456789abcdef0123456789abcdef", query := "", param := "" }
      (fun _ => Except.ok Scenario.guest)
      (fun _ _ => (Except.ok () : Except middlewares.AuthError Unit)) "" "room-1").1
      (by decide)).trans (if_pos (by decide)),
    ((middlewares.roomID_length_check { header := "", query := "room-1", param := "" }
      (fun _ => Except.ok Scenario.guest)
      (fun _ _ => (Except.ok () : Except middlewares.AuthError Unit)) "" "room-1").2.1
      rfl (by decide)).trans (if_neg (by decide)),
    (middlewares.roomID_length_check { header := "", query := "room-1", param := "" }
      (fun _ => Except.ok Scenario.guest)
      (fun _ _ => (Except.ok () : Except middlewares.AuthError Unit)) "" "room-1").2.2.2.2.2.1
      (by decide)⟩

/-- Counterexample to C18 as stated: thirty-two letters `z` are not a string
of 32 hexadecimal characters, yet `GetRoomIDFromContext` accepts them from the
header and `AuthRoom` does not reject them with ErrInvalidRoomID. -/
theorem middlewares.roomID_accepts_non_hex :
    middlewares.isHex32 Scenario.notHex = false ∧
      middlewares.GetRoomIDFromContext { header := Scenario.notHex, query := "", param := "" } =
        (Scenario.notHex, none, Scenario.notHex) ∧
      middlewares.AuthRoom (fun _ => Except.ok Scenario.guest)
          (fun _ _ => (Except.ok () : Except middlewares.AuthError Unit)) "" Scenario.notHex =
        Except.ok (Scenario.guest, ()) :=
  ⟨by decide, by decide,
    by simp [middlewares.AuthRoom, show Scenario.notHex.utf8ByteSize = 32 by decide]⟩

/-! ## Serving M3U8 children -/

/-- `ServeM3u8`, outcome by outcome: it proxies exactly when the proxy setting
is on, the movie of the request exists, is proxied and is not an RTMP source,
the target token validates and its claims name the room and the movie of the
request; every other request is aborted with status 400. -/
theorem handlers.ServeM3u8_cases (movieProxy : Bool) (roomID : String)
    (GetMovieByID : String → Except String model.Movie)
    (GetM3u8Target : String → Except String handlers.M3u8TargetClaims)
    (movieIdParam targetToken token : String) :
    (∃ m claims, movieProxy = true ∧ GetMovieByID movieIdParam = Except.ok m ∧
        m.RtmpSource = false ∧ m.Proxy = true ∧ GetM3u8Target targetToken = Except.ok claims ∧
        claims.RoomID = roomID ∧ claims.MovieID = m.ID ∧
        handlers.ServeM3u8 movieProxy roomID GetMovieByID GetM3u8Target movieIdParam
            targetToken token =
          handlers.ServeM3u8Result.proxied claims.TargetURL m.Headers claims.IsM3u8File token
            roomID m.ID) ∨
      (∃ message,
        handlers.ServeM3u8 movieProxy roomID GetMovieByID GetM3u8Target movieIdParam
            targetToken token =
          handlers.ServeM3u8Result.abort 400 message) := by
  unfold handlers.ServeM3u8
  cases movieProxy with
  | false => exact Or.inr ⟨_, rfl⟩
  | true =>
    simp only [Bool.not_true, Bool.false_eq_true, if_false]
    cases hm : GetMovieByID movieIdParam with
    | error err => exact Or.inr ⟨_, rfl⟩
    | ok m =>
      simp only
      cases hr : m.RtmpSource with
      | true =>
        exact Or.inr
          ⟨"this movie is rtmp source, not support use this method proxy", by simp⟩
      | false =>
        cases hp : m.Proxy with
        | false => exact Or.inr ⟨"movie is not proxy", by simp⟩
        | true =>
          simp only [Bool.false_eq_true, if_false, Bool.not_true]
          cases hc : GetM3u8Target targetToken with
          | error err => exact Or.inr ⟨_, rfl⟩
          | ok claims =>
            simp only
            by_cases h1 : claims.RoomID = roomID
            · by_cases h2 : claims.MovieID = m.ID
              · left
                exact ⟨m, claims, trivial, rfl, hr, hp, rfl, h1, h2, by simp [h1, h2]⟩
              · exact Or.inr ⟨"invalid token", by simp [h2]⟩
            · exact Or.inr ⟨"invalid token", by simp [h1]⟩

/-- C19: `ServeM3u8` proxies the child URL only when the target token validates
and its claims satisfy claims.roomID = room.ID and claims.movieID = movie.ID for
the room and the movie of the request (and then proxies the claims' target
URL); for a token that does not validate, or that is bound to another room or
to another movie, it responds 400 and proxies nothing. A request that meets
all conditions of the handler is proxied. -/
theorem handlers.ServeM3u8_token_bound (movieProxy : Bool) (roomID : String)
    (GetMovieByID : String → Except String model.Movie)
    (GetM3u8Target : String → Except String handlers.M3u8TargetClaims)
    (movieIdParam targetToken token : String) :
    (∀ url headers isFile tok rid mid,
        handlers.ServeM3u8 movieProxy roomID GetMovieByID GetM3u8Target movieIdParam
            targetToken token =
          handlers.ServeM3u8Result.proxied url headers isFile tok rid mid →
        ∃ m claims, GetMovieByID movieIdParam = Except.ok m ∧
          GetM3u8Target targetToken = Except.ok claims ∧
          claims.RoomID = roomID ∧ claims.MovieID = m.ID ∧
          url = claims.TargetURL ∧ rid = roomID ∧ mid = m.ID) ∧
      (∀ claims, GetM3u8Target targetToken = Except.ok claims →
        (claims.RoomID ≠ roomID ∨
          ∀ m, GetMovieByID movieIdParam = Except.ok m → claims.MovieID ≠ m.ID) →
        ∃ message,
          handlers.ServeM3u8 movieProxy roomID GetMovieByID GetM3u8Target movieIdParam
              targetToken token =
            handlers.ServeM3u8Result.abort 400 message) ∧
      (∀ err, GetM3u8Target targetToken = Except.error err →
        ∃ message,
          handlers.ServeM3u8 movieProxy roomID GetMovieByID GetM3u8Target movieIdParam
              targetToken token =
            handlers.ServeM3u8Result.abort 400 message) ∧
      (∀ m claims, movieProxy = true → GetMovieByID movieIdParam = Except.ok m →
        m.RtmpSource = false → m.Proxy = true → GetM3u8Target targetToken = Except.ok claims →
        claims.RoomID = roomID → claims.MovieID = m.ID →
        handlers.ServeM3u8 movieProxy roomID GetMovieByID GetM3u8Target movieIdParam
            targetToken token =
          handlers.ServeM3u8Result.proxied claims.TargetURL m.Headers claims.IsM3u8File token
            roomID m.ID) := by
  have hcases := handlers.ServeM3u8_cases movieProxy roomID GetMovieByID GetM3u8Target
    movieIdParam targetToken token
  refine ⟨?_, ?_, ?_, ?_⟩
  · intro url headers isFile tok rid mid hres
    rcases hcases with ⟨m, claims, _, hm, _, _, hc, h1, h2, he⟩ | ⟨msg, he⟩
    · rw [he] at hres
      simp only [handlers.ServeM3u8Result.proxied.injEq] at hres
      exact ⟨m, claims, hm, hc, h1, h2, hres.1.symm, hres.2.2.2.2.1.symm, hres.2.2.2.2.2.symm⟩
    · rw [he] at hres
      cases hres
  · intro claims hc hbad
    rcases hcases with ⟨m, claims1, _, hm, _, _, hc1, h1, h2, _⟩ | hab
    · rw [hc] at hc1
      have e : claims = claims1 := Except.ok.inj hc1
      subst e
      rcases hbad with hb | hb
      · exact absurd h1 hb
      · exact absurd h2 (hb m hm)
    · exact hab
  · intro err hc
    rcases hcases with ⟨m, claims1, _, _, _, _, hc1, _⟩ | hab
    · rw [hc] at hc1
      cases hc1
    · exact hab
  · intro m claims hp hm hr hpr hc h1 h2
    rcases hcases with ⟨m1, claims1, _, hm1, _, _, hc1, _, _, he⟩ | ⟨msg, he⟩
    · rw [hm] at hm1
      rw [hc] at hc1
      have e1 : m = m1 := Except.ok.inj hm1
      have e2 : claims = claims1 := Except.ok.inj hc1
      subst e1 e2
      exact he
    · exfalso
      subst hp
      simp [handlers.ServeM3u8, hm, hr, hpr, hc, h1, h2] at he

/-- Witness for C19: in room `R` the token bound to room `R` and movie `M` is
proxied for movie `M`; the token bound to room `R2` gets 400. -/
theorem handlers.ServeM3u8_token_bound_witness :
    handlers.ServeM3u8 true "R" Scenario.getMovie Scenario.getTarget "M" "tok-R-M" "t" =
        handlers.ServeM3u8Result.proxied "https://cdn.example/seg1.ts" [] false "t" "R" "M" ∧
      handlers.ServeM3u8 true "R" Scenario.getMovie Scenario.getTarget "M" "tok-R2-M" "t" =
        handlers.ServeM3u8Result.abort 400 "invalid token" := by
  refine ⟨(handlers.ServeM3u8_token_bound true "R" Scenario.getMovie Scenario.getTarget "M"
    "tok-R-M" "t").2.2.2 Scenario.movieProxied
      { RoomID := "R", MovieID := "M", TargetURL := "https://cdn.example/seg1.ts",
        IsM3u8File := false } rfl rfl rfl rfl rfl rfl rfl, ?_⟩
  obtain ⟨msg, hmsg⟩ := (handlers.ServeM3u8_token_bound true "R" Scenario.getMovie
    Scenario.getTarget "M" "tok-R2-M" "t").2.1
      { RoomID := "R2", MovieID := "M", TargetURL := "https://cdn.example/seg1.ts",
        IsM3u8File := false } rfl (Or.inl (by decide))
  rw [hmsg]
  have : handlers.ServeM3u8 true "R" Scenario.getMovie Scenario.getTarget "M" "tok-R2-M" "t" =
      handlers.ServeM3u8Result.abort 400 "invalid token" := by decide
  rw [this] at hmsg
  exact hmsg.symm

/-! ## Publish keys -/

/-- `NewPublishKey`, outcome by outcome: it answers 200 with a token exactly
when RTMP is enabled, the request decodes, the movie exists, the user created
it, it is an RTMP source, the token is minted and the host is found, and the
token is then the one minted for the movie; otherwise it aborts with 400, 403
or 500. -/
theorem handlers.NewPublishKey_cases (rtmpEnable : Bool) (roomID userID : String)
    (decoded : Except String String) (GetMovieByID : String → Except String model.Movie)
    (NewRtmpAuthorization : String → Except String String)
    (customPublishHost hostSetting : String) (urlParseHost : String → Except String String)
    (requestHost : String) :
    (∃ reqID movie token host, rtmpEnable = true ∧ decoded = Except.ok reqID ∧
        GetMovieByID reqID = Except.ok movie ∧ movie.CreatorID = userID ∧
        movie.RtmpSource = true ∧ NewRtmpAuthorization movie.ID = Except.ok token ∧
        handlers.NewPublishKey rtmpEnable roomID userID decoded GetMovieByID
            NewRtmpAuthorization customPublishHost hostSetting urlParseHost requestHost =
          handlers.NewPublishKeyResult.ok host roomID token) ∨
      (∃ status message, (status = 400 ∨ status = 403 ∨ status = 500) ∧
        handlers.NewPublishKey rtmpEnable roomID userID decoded GetMovieByID
            NewRtmpAuthorization customPublishHost hostSetting urlParseHost requestHost =
          handlers.NewPublishKeyResult.abort status message) := by
  unfold handlers.NewPublishKey
  cases rtmpEnable with
  | false => exact Or.inr ⟨400, "rtmp is not enabled", Or.inl rfl, rfl⟩
  | true =>
    simp only [Bool.not_true, Bool.false_eq_true, if_false]
    cases decoded with
    | error err => exact Or.inr ⟨400, err, Or.inl rfl, rfl⟩
    | ok reqID =>
      simp only
      cases hm : GetMovieByID reqID with
      | error err => exact Or.inr ⟨400, err, Or.inl rfl, rfl⟩
      | ok movie =>
        simp only
        by_cases hcr : movie.CreatorID = userID
        · cases hr : movie.RtmpSource with
          | false =>
            exact Or.inr ⟨400, "only live movie can get publish key", Or.inl rfl,
              by simp [hcr, hr]⟩
          | true =>
            cases ht : NewRtmpAuthorization movie.ID with
            | error err =>
              exact Or.inr ⟨500, err, Or.inr (Or.inr rfl), by simp [hcr, hr, ht]⟩
            | ok token =>
              by_cases hcust : customPublishHost = ""
              · cases hu : urlParseHost hostSetting with
                | error err =>
                  exact Or.inr ⟨500, err, Or.inr (Or.inr rfl), by simp [hcr, hcust, hr, ht, hu]⟩
                | ok host =>
                  by_cases hh : host = ""
                  · exact Or.inl ⟨reqID, movie, token, requestHost, trivial, rfl, hm, hcr,
                      hr, ht, by simp [hcr, hcust, hh, hr, ht, hu]⟩
                  · exact Or.inl ⟨reqID, movie, token, host, trivial, rfl, hm, hcr,
                      hr, ht, by simp [hcr, hcust, hh, hr, ht, hu]⟩
              · exact Or.inl ⟨reqID, movie, token, customPublishHost, trivial, rfl, hm, hcr,
                  hr, ht, by simp [hcr, hcust, hr, ht]⟩
        · exact Or.inr ⟨403, "new publish key error: no permission", Or.inr (Or.inl rfl),
            by simp [hcr]⟩

/-- C20: `NewPublishKey` answers with an RTMP publish token only if RTMP is
enabled, the movie of the request exists, the requesting user is its creator
and it has RtmpSource = true, and the token is then the one minted for that
movie; when RTMP is disabled, the movie is unknown, the user is not the
creator, or the movie is not an RTMP source, it responds with an error status
(400 or 403) and no token. -/
theorem handlers.NewPublishKey_creator_rtmp (rtmpEnable : Bool) (roomID userID : String)
    (decoded : Except String String) (GetMovieByID : String → Except String model.Movie)
    (NewRtmpAuthorization : String → Except String String)
    (customPublishHost hostSetting : String) (urlParseHost : String → Except String String)
    (requestHost : String) :
    (∀ host app token,
        handlers.NewPublishKey rtmpEnable roomID userID decoded GetMovieByID
            NewRtmpAuthorization customPublishHost hostSetting urlParseHost requestHost =
          handlers.NewPublishKeyResult.ok host app token →
        rtmpEnable = true ∧ app = roomID ∧
        ∃ reqID movie, decoded = Except.ok reqID ∧ GetMovieByID reqID = Except.ok movie ∧
          movie.CreatorID = userID ∧ movie.RtmpSource = true ∧
          NewRtmpAuthorization movie.ID = Except.ok token) ∧
      ((rtmpEnable = false ∨
          (∀ reqID, decoded = Except.ok reqID →
            (∃ err, GetMovieByID reqID = Except.error err) ∨
            ∃ movie, GetMovieByID reqID = Except.ok movie ∧
              (movie.CreatorID ≠ userID ∨ movie.RtmpSource = false))) →
        ∃ status message, (status = 400 ∨ status = 403 ∨ status = 500) ∧
          handlers.NewPublishKey rtmpEnable roomID userID decoded GetMovieByID
              NewRtmpAuthorization customPublishHost hostSetting urlParseHost requestHost =
            handlers.NewPublishKeyResult.abort status message) := by
  have hcases := handlers.NewPublishKey_cases rtmpEnable roomID userID decoded GetMovieByID
    NewRtmpAuthorization customPublishHost hostSetting urlParseHost requestHost
  constructor
  · intro host app token hres
    rcases hcases with ⟨reqID, movie, token1, host1, he, hd, hm, hcr, hr, ht, hres1⟩ |
      ⟨status, message, _, hres1⟩
    · rw [hres1] at hres
      simp only [handlers.NewPublishKeyResult.ok.injEq] at hres
      refine ⟨he, hres.2.1.symm, reqID, movie, hd, hm, hcr, hr, ?_⟩
      rw [← hres.2.2]
      exact ht
    · rw [hres1] at hres
      cases hres
  · intro hbad
    rcases hcases with ⟨reqID, movie, token1, host1, he, hd, hm, hcr, hr, ht, hres1⟩ | hab
    · exfalso
      rcases hbad with hb | hb
      · rw [he] at hb
        cases hb
      · rcases hb reqID hd with ⟨err, h1⟩ | ⟨movie1, h1, h2⟩
        · rw [hm] at h1
          cases h1
        · rw [hm] at h1
          have e : movie = movie1 := Except.ok.inj h1
          subst e
          rcases h2 with h3 | h3
          · exact h3 hcr
          · rw [hr] at h3
            cases h3
    · exact hab

/-- Witness for C20: for the RTMP source movie `L` of user `ua`, the creator
gets the token minted for `L`; user `ub` gets an error. -/
theorem handlers.NewPublishKey_creator_rtmp_witness :
    (∃ reqID movie, (Except.ok "L" : Except String String) = Except.ok reqID ∧
        Scenario.getMovie reqID = Except.ok movie ∧ movie.CreatorID = "ua" ∧
        movie.RtmpSource = true ∧ Scenario.mintRtmp movie.ID = Except.ok "rtmp-L") ∧
      ∃ status message,
        handlers.NewPublishKey true "R" "ub" (Except.ok "L") Scenario.getMovie Scenario.mintRtmp
          "live.example" "" (fun _ => Except.ok "") "req.example" =
          handlers.NewPublishKeyResult.abort status message := by
  constructor
  · exact ((handlers.NewPublishKey_creator_rtmp true "R" "ua" (Except.ok "L")
      Scenario.getMovie Scenario.mintRtmp "live.example" "" (fun _ => Except.ok "")
      "req.example").1 "live.example" "R" "rtmp-L" (by decide)).2.2
  · obtain ⟨status, message, _, h⟩ := (handlers.NewPublishKey_creator_rtmp true "R" "ub"
      (Except.ok "L") Scenario.getMovie Scenario.mintRtmp "live.example" ""
      (fun _ => Except.ok "") "req.example").2
      (Or.inr (fun reqID hd =>
        Or.inr ⟨Scenario.movieRtmp, by
          have e : reqID = "L" := (Except.ok.inj hd).symm
          subst e
          rfl, Or.inl (by decide)⟩))
    exact ⟨status, message, h⟩

/-! ## Harvesting base-URLs -/

theorem cache.forRange_harvest {α : Type} (urls : α → List String)
    (body : α → cache.Harvest → α × cache.Harvest) (format : Nat → String)
    (hb : ∀ a s, (body a s).2 = { movies := s.movies ++ urls a, id := s.id + (urls a).length } ∧
      urls (body a s).1 = (List.range' s.id (urls a).length).map format) :
    ∀ l s, (cache.forRange body l s).2 =
        { movies := s.movies ++ (l.map urls).flatten, id := s.id + (l.map urls).flatten.length } ∧
      ((cache.forRange body l s).1.map urls).flatten =
        (List.range' s.id (l.map urls).flatten.length).map format := by
  intro l
  induction l with
  | nil => intro s; simp [cache.forRange]
  | cons a l ih =>
    intro s
    obtain ⟨h1, h2⟩ := hb a s
    obtain ⟨i1, i2⟩ := ih (body a s).2
    simp only [cache.forRange, List.map_cons, List.flatten_cons, List.length_append]
    refine ⟨?_, ?_⟩
    · rw [i1, h1]; simp [Nat.add_assoc]
    · rw [i2, h2, h1]
      simp only
      rw [← List.map_append, List.range'_append_1, Nat.add_comm]

theorem cache.forRange_length {α σ : Type} (body : α → σ → α × σ) :
    ∀ l s, (cache.forRange body l s).1.length = l.length := by
  intro l
  induction l with
  | nil => intro s; rfl
  | cons a l ih => intro s; simp [cache.forRange, ih]

theorem cache.forRange_map {α σ β : Type} (body : α → σ → α × σ) (g : α → β)
    (hg : ∀ a s, g (body a s).1 = g a) :
    ∀ l s, (cache.forRange body l s).1.map g = l.map g := by
  intro l
  induction l with
  | nil => intro s; rfl
  | cons a l ih => intro s; simp [cache.forRange, ih, hg]

theorem cache.forRange_harvestURL (format : Nat → String) :
    ∀ (l : List String) (s : cache.Harvest),
      (cache.forRange (cache.harvestURL format) l s).2 =
          { movies := s.movies ++ l, id := s.id + l.length } ∧
        (cache.forRange (cache.harvestURL format) l s).1 =
          (List.range' s.id l.length).map format := by
  intro l
  induction l with
  | nil => intro s; simp [cache.forRange]
  | cons u l ih =>
    intro s
    obtain ⟨i1, i2⟩ := ih (cache.harvestURL format u s).2
    simp only [cache.forRange, List.length_cons]
    refine ⟨?_, ?_⟩
    · rw [i1]; simp [cache.harvestURL, Nat.add_assoc, Nat.add_comm 1]
    · rw [i2]; simp [cache.harvestURL, List.range'_succ]

theorem cache.harvestRepresentation_spec (format : Nat → String) (r : mpd.Representation)
    (s : cache.Harvest) :
    (cache.harvestRepresentation format r s).2 =
        { movies := s.movies ++ r.BaseURL, id := s.id + r.BaseURL.length } ∧
      (cache.harvestRepresentation format r s).1.BaseURL =
        (List.range' s.id r.BaseURL.length).map format :=
  cache.forRange_harvestURL format r.BaseURL s

theorem cache.harvestAdaptationSet_spec (format : Nat → String) (a : mpd.AdaptationSet)
    (s : cache.Harvest) :
    (cache.harvestAdaptationSet format a s).2 =
        { movies := s.movies ++ (a.Representations.map fun r => r.BaseURL).flatten,
          id := s.id + (a.Representations.map fun r => r.BaseURL).flatten.length } ∧
      ((cache.harvestAdaptationSet format a s).1.Representations.map fun r => r.BaseURL).flatten =
        (List.range' s.id (a.Representations.map fun r => r.BaseURL).flatten.length).map
          format := by
  have h := cache.forRange_harvest (fun r : mpd.Representation => r.BaseURL)
    (cache.harvestRepresentation format) format
    (cache.harvestRepresentation_spec format) a.Representations s
  simpa [cache.harvestAdaptationSet] using h

theorem cache.harvestPeriod_spec (format : Nat → String) (p : mpd.Period)
    (s : cache.Harvest) :
    (cache.harvestPeriod format p s).2 =
        { movies := s.movies ++ p.baseURLs, id := s.id + p.baseURLs.length } ∧
      (cache.harvestPeriod format p s).1.baseURLs =
        (List.range' s.id p.baseURLs.length).map format := by
  have h := cache.forRange_harvest
    (fun a : mpd.AdaptationSet => (a.Representations.map fun r => r.BaseURL).flatten)
    (cache.harvestAdaptationSet format) format
    (cache.harvestAdaptationSet_spec format) p.AdaptationSets s
  simpa [cache.harvestPeriod, mpd.Period.baseURLs] using h

theorem cache.harvestMPD_spec (format : Nat → String) (m : mpd.MPD) (s : cache.Harvest) :
    (cache.harvestMPD format m s).2 =
        { movies := s.movies ++ m.baseURLs, id := s.id + m.baseURLs.length } ∧
      (cache.harvestMPD format m s).1.baseURLs =
        (List.range' s.id m.baseURLs.length).map format := by
  have h := cache.forRange_harvest mpd.Period.baseURLs
    (cache.harvestPeriod format) format (cache.harvestPeriod_spec format) m.Periods s
  simpa [cache.harvestMPD, mpd.MPD.baseURLs] using h

theorem cache.harvestMPD_shape (format : Nat → String) (m : mpd.MPD) (s : cache.Harvest) :
    (cache.harvestMPD format m s).1.shape = m.shape ∧
      (cache.harvestMPD format m s).1.BaseURL = m.BaseURL := by
  refine ⟨?_, rfl⟩
  simp only [cache.harvestMPD, mpd.MPD.shape]
  apply cache.forRange_map
  intro p s
  simp only [cache.harvestPeriod]
  apply cache.forRange_map
  intro a s
  simp only [cache.harvestAdaptationSet]
  apply cache.forRange_map
  intro r s
  simp only [cache.harvestRepresentation]
  exact cache.forRange_length _ _ _

/-- C21: `processMpdUrls` returns the original base-URLs of the regular
manifest followed by those of the HEVC manifest, in document order; both
manifests keep their shape and their own base-URLs; the base-URLs of the
regular manifest become `<movieID>?id=<n>&roomId=<roomID>` for n = 0..k1-1 and
those of the HEVC manifest the same with `&t=hevc` appended for
n = k1..k1+k2-1; hence the URL rewritten with id n replaces element n of the
returned list. -/
theorem cache.processMpdUrls_spec (m hevcM : mpd.MPD) (movieID roomID : String) :
    (cache.processMpdUrls m hevcM movieID roomID).1 = m.baseURLs ++ hevcM.baseURLs ∧
    (cache.processMpdUrls m hevcM movieID roomID).2.1.shape = m.shape ∧
    (cache.processMpdUrls m hevcM movieID roomID).2.2.shape = hevcM.shape ∧
    (cache.processMpdUrls m hevcM movieID roomID).2.1.BaseURL = m.BaseURL ∧
    (cache.processMpdUrls m hevcM movieID roomID).2.2.BaseURL = hevcM.BaseURL ∧
    (cache.processMpdUrls m hevcM movieID roomID).2.1.baseURLs =
      (List.range m.baseURLs.length).map
        (fun n => movieID ++ "?id=" ++ toString n ++ "&roomId=" ++ roomID) ∧
    (cache.processMpdUrls m hevcM movieID roomID).2.2.baseURLs =
      (List.range' m.baseURLs.length hevcM.baseURLs.length).map
        (fun n => movieID ++ "?id=" ++ toString n ++ "&roomId=" ++ roomID ++ "&t=hevc") ∧
    ∀ n, n < m.baseURLs.length + hevcM.baseURLs.length →
      ((cache.processMpdUrls m hevcM movieID roomID).2.1.baseURLs ++
          (cache.processMpdUrls m hevcM movieID roomID).2.2.baseURLs)[n]? =
        some (movieID ++ "?id=" ++ toString n ++ "&roomId=" ++ roomID ++
          (if n < m.baseURLs.length then "" else "&t=hevc")) ∧
      (cache.processMpdUrls m hevcM movieID roomID).1[n]? =
        (m.baseURLs ++ hevcM.baseURLs)[n]? := by
  obtain ⟨a1, a2⟩ := cache.harvestMPD_spec (cache.proxyURL movieID roomID) m
    { movies := [], id := 0 }
  obtain ⟨b1, b2⟩ := cache.harvestMPD_spec (cache.proxyURLHevc movieID roomID) hevcM
    (cache.harvestMPD (cache.proxyURL movieID roomID) m { movies := [], id := 0 }).2
  obtain ⟨c1, c2⟩ := cache.harvestMPD_shape (cache.proxyURL movieID roomID) m
    { movies := [], id := 0 }
  obtain ⟨d1, d2⟩ := cache.harvestMPD_shape (cache.proxyURLHevc movieID roomID) hevcM
    (cache.harvestMPD (cache.proxyURL movieID roomID) m { movies := [], id := 0 }).2
  simp only [List.nil_append, Nat.zero_add] at a1 a2
  rw [a1] at b1 b2
  simp only at b1 b2
  have e1 : (cache.processMpdUrls m hevcM movieID roomID).1 = m.baseURLs ++ hevcM.baseURLs := by
    simp only [cache.processMpdUrls, a1, b1]
  have e6 : (cache.processMpdUrls m hevcM movieID roomID).2.1.baseURLs =
      (List.range m.baseURLs.length).map
        (fun n => movieID ++ "?id=" ++ toString n ++ "&roomId=" ++ roomID) := by
    simp only [cache.processMpdUrls, a2, List.range_eq_range']
    rfl
  have e7 : (cache.processMpdUrls m hevcM movieID roomID).2.2.baseURLs =
      (List.range' m.baseURLs.length hevcM.baseURLs.length).map
        (fun n => movieID ++ "?id=" ++ toString n ++ "&roomId=" ++ roomID ++ "&t=hevc") := by
    simp only [cache.processMpdUrls, a1, b2]
    rfl
  refine ⟨e1, c1, d1, c2, d2, e6, e7, ?_⟩
  intro n hn
  refine ⟨?_, by rw [e1]⟩
  rw [e6, e7]
  by_cases h : n < m.baseURLs.length
  · rw [List.getElem?_append_left (by simpa using h)]
    simp [h]
  · have h2 : m.baseURLs.length ≤ n := Nat.le_of_not_lt h
    rw [List.getElem?_append_right (by simpa using h2)]
    have h3 : n - m.baseURLs.length < hevcM.baseURLs.length := by omega
    simp [h, h3, List.getElem?_range', Nat.add_sub_cancel' h2]

/-- Witness for C21 on a regular manifest with three base-URLs and an HEVC
manifest with two: id 3 is the first HEVC base-URL, and element 3 of the
returned list is its original. -/
theorem cache.processMpdUrls_spec_witness :
    3 < Scenario.dash.baseURLs.length + Scenario.dashHevc.baseURLs.length ∧
    ((cache.processMpdUrls Scenario.dash Scenario.dashHevc "M" "R").2.1.baseURLs ++
        (cache.processMpdUrls Scenario.dash Scenario.dashHevc "M" "R").2.2.baseURLs)[3]? =
      some "M?id=3&roomId=R&t=hevc" ∧
    (cache.processMpdUrls Scenario.dash Scenario.dashHevc "M" "R").1[3]? =
      some "https://hv/1.m4s" :=
  ⟨by decide,
   ((cache.processMpdUrls_spec Scenario.dash Scenario.dashHevc "M" "R").2.2.2.2.2.2.2 3
      (by decide)).1.trans (by decide),
   ((cache.processMpdUrls_spec Scenario.dash Scenario.dashHevc "M" "R").2.2.2.2.2.2.2 3
      (by decide)).2.trans (by decide)⟩

/-! ## Tokenizing a cached manifest -/

theorem cache.Kept.kept_refl {α : Type} (w : List Nat) (s : List α) : cache.Kept w s s :=
  fun _ _ _ h => h

theorem cache.Kept.append {α : Type} (w : List Nat) (s t : List α) :
    cache.Kept w s (s ++ t) := by
  intro i o _ h
  have hi : i < s.length := by
    by_contra hc
    rw [List.getElem?_eq_none (Nat.le_of_not_lt hc)] at h
    cases h
  rw [List.getElem?_append_left hi]
  exact h

theorem cache.Kept.set {α : Type} (x : Nat) (s : List α) (a : α) :
    cache.Kept [x] s (s.set x a) := by
  intro i o hi h
  have hne : x ≠ i := fun e => hi (by simp [e])
  rw [List.getElem?_set_ne hne]
  exact h

theorem cache.Kept.kept_trans {α : Type} {w w1 : List Nat} {s s1 s2 : List α}
    (h1 : cache.Kept w s s1) (h2 : cache.Kept w1 s1 s2) : cache.Kept (w ++ w1) s s2 := by
  intro i o hi h
  have hi1 : i ∉ w := fun e => hi (List.mem_append_left _ e)
  have hi2 : i ∉ w1 := fun e => hi (List.mem_append_right _ e)
  exact h2 i o hi2 (h1 i o hi1 h)

theorem cache.Kept.mono {α : Type} {w w1 : List Nat} {s s1 : List α}
    (h : cache.Kept w s s1) (hw : ∀ i, i ∈ w → i ∈ w1) : cache.Kept w1 s s1 :=
  fun i o hi hs => h i o (fun e => hi (hw i e)) hs

theorem cache.Kept.fresh {α : Type} {w : List Nat} {s s1 : List α}
    (h : cache.Kept w s s1) (hw : ∀ i, i ∈ w → s.length ≤ i) : cache.Kept [] s s1 := by
  intro i o _ hs
  refine h i o (fun e => ?_) hs
  have := hw i e
  rw [List.getElem?_eq_none this] at hs
  cases hs

theorem cache.Heap.Step.step_refl (h : cache.Heap) : cache.Heap.Step [] [] [] h h :=
  ⟨cache.Kept.kept_refl _ _, cache.Kept.kept_refl _ _, cache.Kept.kept_refl _ _, cache.Kept.kept_refl _ _,
    cache.Kept.kept_refl _ _⟩

theorem cache.Heap.Step.step_trans {wp wa wr wp1 wa1 wr1 : List Nat} {h h1 h2 : cache.Heap}
    (s1 : cache.Heap.Step wp wa wr h h1) (s2 : cache.Heap.Step wp1 wa1 wr1 h1 h2) :
    cache.Heap.Step (wp ++ wp1) (wa ++ wa1) (wr ++ wr1) h h2 :=
  ⟨s1.mpds.kept_trans s2.mpds, s1.periods.kept_trans s2.periods,
    s1.adaptationSets.kept_trans s2.adaptationSets, s1.representations.kept_trans s2.representations,
    s1.strings.kept_trans s2.strings⟩

theorem cache.resolve_eq_some {β : Type} (f : Nat → Option β) :
    ∀ (xs : List Nat) (ts : List β),
      cache.resolve f xs = some ts ↔ List.Forall₂ (fun x t => f x = some t) xs ts := by
  intro xs
  induction xs with
  | nil =>
    intro ts
    cases ts <;> simp [cache.resolve]
  | cons x xs ih =>
    intro ts
    cases hx : f x with
    | none =>
      simp only [cache.resolve, hx]
      constructor
      · intro h; cases h
      · intro h
        cases h with
        | cons h1 _ => rw [hx] at h1; cases h1
    | some b =>
      cases hr : cache.resolve f xs with
      | none =>
        simp only [cache.resolve, hx, hr]
        constructor
        · intro h; cases h
        · intro h
          cases h with
          | cons _ h2 => rw [← ih] at h2; rw [hr] at h2; cases h2
      | some bs =>
        simp only [cache.resolve, hx, hr]
        constructor
        · intro h
          cases h
          exact List.Forall₂.cons hx ((ih bs).1 hr)
        · intro h
          cases h with
          | cons h1 h2 =>
            rw [hx] at h1
            cases h1
            rw [← ih, hr] at h2
            cases h2
            rfl

theorem cache.viewRepresentation_eq_some (h : cache.Heap) (r : Nat)
    (t : mpd.Representation) :
    cache.viewRepresentation h r = some t ↔
      ∃ obj, h.representations[r]? = some obj ∧ h.strings[obj.BaseURL]? = some t.BaseURL := by
  unfold cache.viewRepresentation
  cases h1 : h.representations[r]? with
  | none => simp
  | some obj =>
    cases h2 : h.strings[obj.BaseURL]? with
    | none => simp [h2]
    | some urls =>
      cases t with
      | mk b => simp [h2]

theorem cache.viewAdaptationSet_eq_some (h : cache.Heap) (a : Nat)
    (t : mpd.AdaptationSet) :
    cache.viewAdaptationSet h a = some t ↔
      ∃ obj, h.adaptationSets[a]? = some obj ∧
        List.Forall₂ (fun x t => cache.viewRepresentation h x = some t)
          obj.Representations t.Representations := by
  unfold cache.viewAdaptationSet
  cases h1 : h.adaptationSets[a]? with
  | none => simp
  | some obj =>
    cases h2 : cache.resolve (cache.viewRepresentation h) obj.Representations with
    | none =>
      simp only [Option.some.injEq, exists_eq_left', h2]
      constructor
      · intro hc; cases hc
      · intro hc
        rw [← cache.resolve_eq_some, h2] at hc
        cases hc
    | some rs =>
      cases t with
      | mk b =>
        simp only [Option.some.injEq, exists_eq_left', h2, mpd.AdaptationSet.mk.injEq]
        rw [← cache.resolve_eq_some, h2]
        simp

theorem cache.viewPeriod_eq_some (h : cache.Heap) (p : Nat) (t : mpd.Period) :
    cache.viewPeriod h p = some t ↔
      ∃ obj, h.periods[p]? = some obj ∧
        List.Forall₂ (fun x t => cache.viewAdaptationSet h x = some t)
          obj.AdaptationSets t.AdaptationSets := by
  unfold cache.viewPeriod
  cases h1 : h.periods[p]? with
  | none => simp
  | some obj =>
    cases h2 : cache.resolve (cache.viewAdaptationSet h) obj.AdaptationSets with
    | none =>
      simp only [Option.some.injEq, exists_eq_left', h2]
      constructor
      · intro hc; cases hc
      · intro hc
        rw [← cache.resolve_eq_some, h2] at hc
        cases hc
    | some rs =>
      cases t with
      | mk b =>
        simp only [Option.some.injEq, exists_eq_left', h2, mpd.Period.mk.injEq]
        rw [← cache.resolve_eq_some, h2]
        simp

theorem cache.viewMPDObj_eq_some (h : cache.Heap) (m : cache.MPDObj) (t : mpd.MPD) :
    cache.viewMPDObj h m = some t ↔
      m.BaseURL = t.BaseURL ∧
        List.Forall₂ (fun x t => cache.viewPeriod h x = some t) m.Periods t.Periods := by
  unfold cache.viewMPDObj
  cases h2 : cache.resolve (cache.viewPeriod h) m.Periods with
  | none =>
    constructor
    · intro hc; cases hc
    · intro hc
      rw [← cache.resolve_eq_some, h2] at hc
      cases hc.2
  | some rs =>
    cases t with
    | mk b ps =>
      simp only [Option.some.injEq, mpd.MPD.mk.injEq]
      rw [← cache.resolve_eq_some, h2]
      simp

theorem cache.viewRepresentation_kept {wp wa wr : List Nat} {h h1 : cache.Heap}
    (s : cache.Heap.Step wp wa wr h h1) {r : Nat} (hr : r ∉ wr)
    {t : mpd.Representation} (hv : cache.viewRepresentation h r = some t) :
    cache.viewRepresentation h1 r = some t := by
  rw [cache.viewRepresentation_eq_some] at hv ⊢
  obtain ⟨obj, h1, h2⟩ := hv
  exact ⟨obj, s.representations r obj hr h1, s.strings _ _ (by simp) h2⟩

theorem cache.viewAdaptationSet_kept {wp wa : List Nat} {h h1 : cache.Heap}
    (s : cache.Heap.Step wp wa [] h h1) {a : Nat} (ha : a ∉ wa)
    {t : mpd.AdaptationSet} (hv : cache.viewAdaptationSet h a = some t) :
    cache.viewAdaptationSet h1 a = some t := by
  rw [cache.viewAdaptationSet_eq_some] at hv ⊢
  obtain ⟨obj, h1, h2⟩ := hv
  refine ⟨obj, s.adaptationSets a obj ha h1, h2.imp ?_⟩
  intro x t hx
  exact cache.viewRepresentation_kept s (by simp) hx

theorem cache.viewPeriod_kept {wp : List Nat} {h h1 : cache.Heap}
    (s : cache.Heap.Step wp [] [] h h1) {p : Nat} (hp : p ∉ wp)
    {t : mpd.Period} (hv : cache.viewPeriod h p = some t) :
    cache.viewPeriod h1 p = some t := by
  rw [cache.viewPeriod_eq_some] at hv ⊢
  obtain ⟨obj, h1, h2⟩ := hv
  refine ⟨obj, s.periods p obj hp h1, h2.imp ?_⟩
  intro x t hx
  exact cache.viewAdaptationSet_kept s (by simp) hx

theorem cache.view_kept {h h1 : cache.Heap} (s : cache.Heap.Extends h h1) {root : Nat}
    {t : mpd.MPD} (hv : cache.view h root = some t) : cache.view h1 root = some t := by
  unfold cache.view at hv ⊢
  cases hm : h.mpds[root]? with
  | none => rw [hm] at hv; cases hv
  | some m =>
    rw [hm] at hv
    rw [s.mpds root m (by simp) hm]
    simp only at hv ⊢
    rw [cache.viewMPDObj_eq_some] at hv ⊢
    refine ⟨hv.1, hv.2.imp ?_⟩
    intro x t hx
    exact cache.viewPeriod_kept s (by simp) hx

theorem cache.cloneAll_spec {α : Type} :
    ∀ (ps : List Nat) (st : List α), (∀ p, p ∈ ps → p < st.length) →
      ∃ fresh st1, cache.cloneAll ps st = some (fresh, st1) ∧ cache.Kept [] st st1 ∧
        fresh.Nodup ∧ (∀ x, x ∈ fresh → st.length ≤ x) ∧
        List.Forall₂ (fun x p => ∀ o, st[p]? = some o → st1[x]? = some o) fresh ps := by
  intro ps
  induction ps with
  | nil =>
    intro st _
    exact ⟨[], st, rfl, cache.Kept.kept_refl _ _, List.nodup_nil, by simp, List.Forall₂.nil⟩
  | cons p ps ih =>
    intro st hp
    have hlt : p < st.length := hp p (List.mem_cons_self _ _)
    obtain ⟨n, hget⟩ : ∃ n, st[p]? = some n := ⟨st[p], List.getElem?_eq_getElem hlt⟩
    have hlen : (st ++ [n]).length = st.length + 1 := by simp
    obtain ⟨fresh, st1, hc, hk, hn, hf, hall⟩ := ih (st ++ [n]) (by
      intro q hq
      have := hp q (List.mem_cons_of_mem _ hq)
      omega)
    refine ⟨st.length :: fresh, st1, ?_, ?_, ?_, ?_, ?_⟩
    · simp only [cache.cloneAll, hget, hc]
    · exact (cache.Kept.kept_trans (cache.Kept.append [] st [n]) hk)
    · refine List.nodup_cons.2 ⟨fun hm => ?_, hn⟩
      have := hf _ hm
      omega
    · intro x hx
      rcases List.mem_cons.1 hx with rfl | hx
      · exact Nat.le_refl _
      · have := hf x hx
        omega
    · refine List.Forall₂.cons ?_ ?_
      · intro o ho
        have h1 : (st ++ [n])[st.length]? = some n := by simp
        rw [hget] at ho
        cases ho
        exact hk _ _ (by simp) h1
      · exact hall.imp (fun x q h o ho => h o (cache.Kept.append [] st [n] q o (by simp) ho))

theorem cache.set_eq_self {α : Type} (l : List α) (i : Nat) (a : α) (h : l[i]? = some a) :
    l.set i a = l := by
  apply List.ext_getElem?
  intro j
  by_cases hj : i = j
  · subst hj
    have hi : i < l.length := by
      by_contra hc
      rw [List.getElem?_eq_none (Nat.le_of_not_lt hc)] at h
      cases h
    rw [List.getElem?_set_self hi, h]
  · rw [List.getElem?_set_ne hj]

theorem cache.lt_of_getElem? {α : Type} {l : List α} {i : Nat} {a : α} (h : l[i]? = some a) :
    i < l.length := by
  by_contra hc
  rw [List.getElem?_eq_none (Nat.le_of_not_lt hc)] at h
  cases h

theorem cache.tokenizeLoop_spec (token : String) (r b : Nat) :
    ∀ (rest done : List String) (h : cache.Heap),
      h.representations[r]? = some { BaseURL := b } → h.strings[b]? = some (done ++ rest) →
      cache.tokenizeLoop token r (List.range' done.length rest.length) h =
        some { h with strings :=
          h.strings.set b (done ++ rest.map fun u => u ++ "&token=" ++ token) } := by
  intro rest
  induction rest with
  | nil =>
    intro done h _ hs
    simp only [List.length_nil, List.range'_zero, cache.tokenizeLoop, List.map_nil]
    rw [cache.set_eq_self _ _ _ hs]
  | cons u rest ih =>
    intro done h hr hs
    have hb : b < h.strings.length := cache.lt_of_getElem? hs
    have hu : (done ++ u :: rest)[done.length]? = some u := by
      rw [List.getElem?_append_right (Nat.le_refl _)]
      simp
    have hset : (done ++ u :: rest).set done.length (u ++ "&token=" ++ token) =
        (done ++ [u ++ "&token=" ++ token]) ++ rest := by simp
    have h1 : cache.tokenizeAt token r done.length h =
        some { h with strings :=
          h.strings.set b ((done ++ [u ++ "&token=" ++ token]) ++ rest) } := by
      simp only [cache.tokenizeAt, hr, hs, hu, hset]
    have h2 := ih (done ++ [u ++ "&token=" ++ token])
      { h with strings := h.strings.set b ((done ++ [u ++ "&token=" ++ token]) ++ rest) }
      hr (by simp only; rw [List.getElem?_set_self hb])
    simp only [List.length_append, List.length_singleton] at h2
    simp only [List.length_cons, List.range'_succ, cache.tokenizeLoop, h1, h2]
    simp

theorem cache.tokenizeRepresentation_spec (token : String) (r : Nat) (h : cache.Heap)
    (obj : cache.RepresentationObj) (src : List String)
    (hr : h.representations[r]? = some obj) (hs : h.strings[obj.BaseURL]? = some src) :
    cache.tokenizeRepresentation token r h =
      some { h with
        strings := h.strings ++ [src.map fun u => u ++ "&token=" ++ token]
        representations := h.representations.set r { BaseURL := h.strings.length } } := by
  have hlt : r < h.representations.length := cache.lt_of_getElem? hr
  have h1 := cache.tokenizeLoop_spec token r h.strings.length src []
    { h with
      strings := h.strings ++ [src]
      representations := h.representations.set r { BaseURL := h.strings.length } }
    (by simp only; rw [List.getElem?_set_self hlt]) (by simp)
  simp only [cache.tokenizeRepresentation, hr, hs, List.range_eq_range']
  simp only [List.length_nil, List.nil_append] at h1
  rw [h1]
  simp

theorem cache.forEach_spec {τ : Type} (view : cache.Heap → Nat → Option τ)
    (body : Nat → cache.Heap → Option cache.Heap) (g : τ → τ)
    (P : List Nat → cache.Heap → cache.Heap → Prop) (hrefl : ∀ h, P [] h h)
    (htrans : ∀ x xs h h1 h2, P [x] h h1 → P xs h1 h2 → P (x :: xs) h h2)
    (hkept : ∀ w h h1 x t, P w h h1 → x ∉ w → view h x = some t → view h1 x = some t)
    (hbody : ∀ x h t, view h x = some t →
      ∃ h1, body x h = some h1 ∧ P [x] h h1 ∧ view h1 x = some (g t)) :
    ∀ (xs : List Nat) (ts : List τ) (h : cache.Heap), xs.Nodup →
      List.Forall₂ (fun x t => view h x = some t) xs ts →
      ∃ h1, cache.forEach body xs h = some h1 ∧ P xs h h1 ∧
        List.Forall₂ (fun x t => view h1 x = some t) xs (ts.map g) := by
  intro xs
  induction xs with
  | nil =>
    intro ts h _ hv
    cases hv
    exact ⟨h, rfl, hrefl h, List.Forall₂.nil⟩
  | cons x xs ih =>
    intro ts h hn hv
    cases hv with
    | @cons _ t _ ts hx hrest =>
      obtain ⟨hxn, hn⟩ := List.nodup_cons.1 hn
      obtain ⟨h1, e1, s1, v1⟩ := hbody x h t hx
      have hrest1 : List.Forall₂ (fun x t => view h1 x = some t) xs ts := by
        refine List.forall₂_iff_zip.2 ⟨List.Forall₂.length_eq hrest, ?_⟩
        intro y ty hm
        have hy : y ∈ xs := (List.of_mem_zip hm).1
        refine hkept [x] h h1 y ty s1 ?_ ((List.forall₂_iff_zip.1 hrest).2 hm)
        intro hc
        rw [List.mem_singleton] at hc
        exact hxn (hc ▸ hy)
      obtain ⟨h2, e2, s2, v2⟩ := ih ts h1 hn hrest1
      refine ⟨h2, ?_, htrans x xs h h1 h2 s1 s2, ?_⟩
      · simp only [cache.forEach, e1, e2]
      · exact List.Forall₂.cons (hkept xs h1 h2 x _ s2 hxn v1) v2

theorem cache.tokenizeRepresentation_view (token : String) (x : Nat) (h : cache.Heap)
    (t : mpd.Representation) (hx : cache.viewRepresentation h x = some t) :
    ∃ h1, cache.tokenizeRepresentation token x h = some h1 ∧ cache.Heap.Step [] [] [x] h h1 ∧
      cache.viewRepresentation h1 x = some (t.withToken token) := by
  obtain ⟨obj, ho, hs⟩ := (cache.viewRepresentation_eq_some h x t).1 hx
  have hlt : x < h.representations.length := cache.lt_of_getElem? ho
  refine ⟨_, cache.tokenizeRepresentation_spec token x h obj t.BaseURL ho hs, ?_, ?_⟩
  · exact ⟨cache.Kept.kept_refl _ _, cache.Kept.kept_refl _ _, cache.Kept.kept_refl _ _,
      cache.Kept.set _ _ _, cache.Kept.append _ _ _⟩
  · rw [cache.viewRepresentation_eq_some]
    refine ⟨{ BaseURL := h.strings.length }, ?_, ?_⟩
    · simp only
      rw [List.getElem?_set_self hlt]
    · simp [mpd.Representation.withToken]

theorem cache.forEach_tokenizeRepresentation (token : String) (xs : List Nat)
    (ts : List mpd.Representation) (h : cache.Heap) (hn : xs.Nodup)
    (hv : List.Forall₂ (fun x t => cache.viewRepresentation h x = some t) xs ts) :
    ∃ h1, cache.forEach (cache.tokenizeRepresentation token) xs h = some h1 ∧
      cache.Heap.Step [] [] xs h h1 ∧
      List.Forall₂ (fun x t => cache.viewRepresentation h1 x = some t) xs
        (ts.map (mpd.Representation.withToken token)) :=
  cache.forEach_spec cache.viewRepresentation (cache.tokenizeRepresentation token)
    (mpd.Representation.withToken token) (fun w h h1 => cache.Heap.Step [] [] w h h1)
    cache.Heap.Step.step_refl (fun _ _ _ _ _ s1 s2 => s1.step_trans s2)
    (fun _ _ _ _ _ s hx hv => cache.viewRepresentation_kept s hx hv)
    (cache.tokenizeRepresentation_view token) xs ts h hn hv

theorem cache.forall₂_valid {β : Type} {f : Nat → Option β} :
    ∀ {xs : List Nat} {ts : List β}, List.Forall₂ (fun x t => f x = some t) xs ts →
      ∀ x, x ∈ xs → ∃ t, f x = some t := by
  intro xs ts h
  induction h with
  | nil => intro x hx; cases hx
  | cons h1 _ ih =>
    intro x hx
    rcases List.mem_cons.1 hx with rfl | hx
    · exact ⟨_, h1⟩
    · exact ih x hx

theorem cache.forall₂_comp {α β γ : Type} {R : α → β → Prop} {S : β → γ → Prop}
    {T : α → γ → Prop} (hT : ∀ x p t, R x p → S p t → T x t) :
    ∀ {xs : List α} {ps : List β} {ts : List γ}, List.Forall₂ R xs ps → List.Forall₂ S ps ts →
      List.Forall₂ T xs ts := by
  intro xs ps ts h
  induction h generalizing ts with
  | nil => intro h2; cases h2; exact List.Forall₂.nil
  | cons h1 _ ih =>
    intro h2
    cases h2 with
    | cons g1 g2 => exact List.Forall₂.cons (hT _ _ _ h1 g1) (ih g2)

theorem cache.tokenizeAdaptationSet_view (token : String) (a : Nat) (h : cache.Heap)
    (t : mpd.AdaptationSet) (hv : cache.viewAdaptationSet h a = some t) :
    ∃ h1, cache.tokenizeAdaptationSet token a h = some h1 ∧ cache.Heap.Step [] [a] [] h h1 ∧
      cache.viewAdaptationSet h1 a = some (t.withToken token) := by
  obtain ⟨obj, ho, hch⟩ := (cache.viewAdaptationSet_eq_some h a t).1 hv
  have hlt : a < h.adaptationSets.length := cache.lt_of_getElem? ho
  have hvalid : ∀ p, p ∈ obj.Representations → p < h.representations.length := by
    intro p hp
    obtain ⟨tp, htp⟩ := cache.forall₂_valid hch p hp
    obtain ⟨o, h1, _⟩ := (cache.viewRepresentation_eq_some h p tp).1 htp
    exact cache.lt_of_getElem? h1
  obtain ⟨fresh, st1, hc, hk, hn, hf, hall⟩ :=
    cache.cloneAll_spec obj.Representations h.representations hvalid
  generalize hh0 : ({ h with
    representations := st1
    adaptationSets := h.adaptationSets.set a { obj with Representations := fresh } } :
      cache.Heap) = h0
  have hv0 : List.Forall₂ (fun x t => cache.viewRepresentation h0 x = some t) fresh
      t.Representations := by
    refine cache.forall₂_comp ?_ hall hch
    intro x p tp hR hS
    obtain ⟨o, h1, h2⟩ := (cache.viewRepresentation_eq_some h p tp).1 hS
    rw [cache.viewRepresentation_eq_some]
    subst hh0
    exact ⟨o, hR o h1, h2⟩
  obtain ⟨h1, e1, s1, v1⟩ := cache.forEach_tokenizeRepresentation token fresh
    t.Representations h0 hn hv0
  refine ⟨h1, ?_, ?_, ?_⟩
  · simp only [cache.tokenizeAdaptationSet, ho, hc]
    rw [hh0]
    exact e1
  · subst hh0
    exact ⟨s1.mpds, s1.periods, (cache.Kept.set a _ _).kept_trans s1.adaptationSets,
      (hk.kept_trans s1.representations).fresh hf, s1.strings⟩
  · rw [cache.viewAdaptationSet_eq_some]
    refine ⟨{ Representations := fresh }, ?_, v1⟩
    refine s1.adaptationSets a _ (by simp) ?_
    subst hh0
    simp only
    rw [List.getElem?_set_self hlt]

theorem cache.forEach_tokenizeAdaptationSet (token : String) (xs : List Nat)
    (ts : List mpd.AdaptationSet) (h : cache.Heap) (hn : xs.Nodup)
    (hv : List.Forall₂ (fun x t => cache.viewAdaptationSet h x = some t) xs ts) :
    ∃ h1, cache.forEach (cache.tokenizeAdaptationSet token) xs h = some h1 ∧
      cache.Heap.Step [] xs [] h h1 ∧
      List.Forall₂ (fun x t => cache.viewAdaptationSet h1 x = some t) xs
        (ts.map (mpd.AdaptationSet.withToken token)) :=
  cache.forEach_spec cache.viewAdaptationSet (cache.tokenizeAdaptationSet token)
    (mpd.AdaptationSet.withToken token) (fun w h h1 => cache.Heap.Step [] w [] h h1)
    cache.Heap.Step.step_refl (fun _ _ _ _ _ s1 s2 => s1.step_trans s2)
    (fun _ _ _ _ _ s hx hv => cache.viewAdaptationSet_kept s hx hv)
    (cache.tokenizeAdaptationSet_view token) xs ts h hn hv

theorem cache.tokenizePeriod_view (token : String) (p : Nat) (h : cache.Heap)
    (t : mpd.Period) (hv : cache.viewPeriod h p = some t) :
    ∃ h1, cache.tokenizePeriod token p h = some h1 ∧ cache.Heap.Step [p] [] [] h h1 ∧
      cache.viewPeriod h1 p = some (t.withToken token) := by
  obtain ⟨obj, ho, hch⟩ := (cache.viewPeriod_eq_some h p t).1 hv
  have hlt : p < h.periods.length := cache.lt_of_getElem? ho
  have hvalid : ∀ a, a ∈ obj.AdaptationSets → a < h.adaptationSets.length := by
    intro a ha
    obtain ⟨ta, hta⟩ := cache.forall₂_valid hch a ha
    obtain ⟨o, h1, _⟩ := (cache.viewAdaptationSet_eq_some h a ta).1 hta
    exact cache.lt_of_getElem? h1
  obtain ⟨fresh, st1, hc, hk, hn, hf, hall⟩ :=
    cache.cloneAll_spec obj.AdaptationSets h.adaptationSets hvalid
  generalize hh0 : ({ h with
    adaptationSets := st1
    periods := h.periods.set p { obj with AdaptationSets := fresh } } : cache.Heap) = h0
  have hv0 : List.Forall₂ (fun x t => cache.viewAdaptationSet h0 x = some t) fresh
      t.AdaptationSets := by
    refine cache.forall₂_comp ?_ hall hch
    intro x a ta hR hS
    obtain ⟨o, h1, h2⟩ := (cache.viewAdaptationSet_eq_some h a ta).1 hS
    rw [cache.viewAdaptationSet_eq_some]
    subst hh0
    exact ⟨o, hR o h1, h2⟩
  obtain ⟨h1, e1, s1, v1⟩ := cache.forEach_tokenizeAdaptationSet token fresh
    t.AdaptationSets h0 hn hv0
  refine ⟨h1, ?_, ?_, ?_⟩
  · simp only [cache.tokenizePeriod, ho, hc]
    rw [hh0]
    exact e1
  · subst hh0
    exact ⟨s1.mpds, (cache.Kept.set p _ _).kept_trans s1.periods,
      (hk.kept_trans s1.adaptationSets).fresh hf, s1.representations, s1.strings⟩
  · rw [cache.viewPeriod_eq_some]
    refine ⟨{ AdaptationSets := fresh }, ?_, v1⟩
    refine s1.periods p _ (by simp) ?_
    subst hh0
    simp only
    rw [List.getElem?_set_self hlt]

theorem cache.forEach_tokenizePeriod (token : String) (xs : List Nat)
    (ts : List mpd.Period) (h : cache.Heap) (hn : xs.Nodup)
    (hv : List.Forall₂ (fun x t => cache.viewPeriod h x = some t) xs ts) :
    ∃ h1, cache.forEach (cache.tokenizePeriod token) xs h = some h1 ∧
      cache.Heap.Step xs [] [] h h1 ∧
      List.Forall₂ (fun x t => cache.viewPeriod h1 x = some t) xs
        (ts.map (mpd.Period.withToken token)) :=
  cache.forEach_spec cache.viewPeriod (cache.tokenizePeriod token)
    (mpd.Period.withToken token) (fun w h h1 => cache.Heap.Step w [] [] h h1)
    cache.Heap.Step.step_refl (fun _ _ _ _ _ s1 s2 => s1.step_trans s2)
    (fun _ _ _ _ _ s hx hv => cache.viewPeriod_kept s hx hv)
    (cache.tokenizePeriod_view token) xs ts h hn hv

theorem cache.BilibiliMpdToString_view (WriteToString : mpd.MPD → Except GoError String)
    (root : Nat) (token : String) (h : cache.Heap) (t : mpd.MPD)
    (hv : cache.view h root = some t) :
    ∃ h1, cache.BilibiliMpdToString WriteToString root token h =
        some (WriteToString (t.withToken token), h1) ∧
      cache.Heap.Extends h h1 := by
  unfold cache.view at hv
  cases hm : h.mpds[root]? with
  | none => rw [hm] at hv; cases hv
  | some obj =>
    rw [hm] at hv
    simp only at hv
    obtain ⟨hb, hch⟩ := (cache.viewMPDObj_eq_some h obj t).1 hv
    have hvalid : ∀ p, p ∈ obj.Periods → p < h.periods.length := by
      intro p hp
      obtain ⟨tp, htp⟩ := cache.forall₂_valid hch p hp
      obtain ⟨o, h1, _⟩ := (cache.viewPeriod_eq_some h p tp).1 htp
      exact cache.lt_of_getElem? h1
    obtain ⟨fresh, st1, hc, hk, hn, hf, hall⟩ :=
      cache.cloneAll_spec obj.Periods h.periods hvalid
    generalize hh0 : ({ h with periods := st1 } : cache.Heap) = h0
    have hv0 : List.Forall₂ (fun x t => cache.viewPeriod h0 x = some t) fresh t.Periods := by
      refine cache.forall₂_comp ?_ hall hch
      intro x p tp hR hS
      obtain ⟨o, h1, h2⟩ := (cache.viewPeriod_eq_some h p tp).1 hS
      rw [cache.viewPeriod_eq_some]
      subst hh0
      exact ⟨o, hR o h1, h2⟩
    obtain ⟨h1, e1, s1, v1⟩ := cache.forEach_tokenizePeriod token fresh t.Periods h0 hn hv0
    have hnew : cache.viewMPDObj h1 { obj with Periods := fresh } =
        some (t.withToken token) := by
      rw [cache.viewMPDObj_eq_some]
      exact ⟨hb, v1⟩
    refine ⟨h1, ?_, ?_⟩
    · simp only [cache.BilibiliMpdToString, hm, hc]
      rw [hh0]
      simp only [e1, hnew]
    · subst hh0
      exact ⟨s1.mpds, (hk.kept_trans s1.periods).fresh hf, s1.adaptationSets, s1.representations,
        s1.strings⟩

/-- C22: for a manifest `root` that stands for the tree `t` in memory `h` and
every token, `BilibiliMpdToString` returns the serialization of the tree in
which every representation base-URL is the original one followed by
`&token=<token>`; every object of `h` (manifest, periods, adaptation sets,
representations, base-URL arrays) is unchanged in the memory the call leaves,
so `root` still stands for `t`, and a second call with another token
serializes `t` with that token only. -/
theorem cache.BilibiliMpdToString_spec (WriteToString : mpd.MPD → Except GoError String)
    (root : Nat) (token : String) (h : cache.Heap) (t : mpd.MPD)
    (hv : cache.view h root = some t) :
    ∃ h1, cache.BilibiliMpdToString WriteToString root token h =
        some (WriteToString (t.withToken token), h1) ∧
      cache.Heap.Extends h h1 ∧
      cache.view h1 root = some t ∧
      (t.withToken token).shape = t.shape ∧
      (t.withToken token).baseURLs = t.baseURLs.map (fun u => u ++ "&token=" ++ token) ∧
      ∀ token2, ∃ h2, cache.BilibiliMpdToString WriteToString root token2 h1 =
        some (WriteToString (t.withToken token2), h2) := by
  obtain ⟨h1, e1, s1⟩ := cache.BilibiliMpdToString_view WriteToString root token h t hv
  have hv1 := cache.view_kept s1 hv
  refine ⟨h1, e1, s1, hv1, ?_, ?_, ?_⟩
  · simp [mpd.MPD.withToken, mpd.MPD.shape, mpd.Period.withToken, mpd.AdaptationSet.withToken,
      mpd.Representation.withToken, Function.comp_def]
  · simp [mpd.MPD.withToken, mpd.MPD.baseURLs, mpd.Period.baseURLs, mpd.Period.withToken,
      mpd.AdaptationSet.withToken, mpd.Representation.withToken, Function.comp_def,
      List.map_flatten]
  · intro token2
    obtain ⟨h2, e2, _⟩ := cache.BilibiliMpdToString_view WriteToString root token2 h1 t hv1
    exact ⟨h2, e2⟩

/-- Witness for C22 on the manifest `Scenario.dash` in memory, token `T1`. -/
theorem cache.BilibiliMpdToString_spec_witness :
    cache.view Scenario.dashHeap 0 = some Scenario.dash ∧
    ∃ h1, cache.BilibiliMpdToString Scenario.writeURLs 0 "T1" Scenario.dashHeap =
        some (Scenario.writeURLs (Scenario.dash.withToken "T1"), h1) ∧
      cache.Heap.Extends Scenario.dashHeap h1 ∧
      cache.view h1 0 = some Scenario.dash ∧
      (Scenario.dash.withToken "T1").shape = Scenario.dash.shape ∧
      (Scenario.dash.withToken "T1").baseURLs =
        Scenario.dash.baseURLs.map (fun u => u ++ "&token=" ++ "T1") ∧
      ∀ token2, ∃ h2, cache.BilibiliMpdToString Scenario.writeURLs 0 token2 h1 =
        some (Scenario.writeURLs (Scenario.dash.withToken token2), h2) :=
  ⟨by decide,
   cache.BilibiliMpdToString_spec Scenario.writeURLs 0 "T1" Scenario.dashHeap Scenario.dash
     (by decide)⟩

/-- Two users are served the same cached manifest one after the other: the
second receives the base-URLs with the second token only. -/
theorem cache.BilibiliMpdToString_two_users :
    ((cache.BilibiliMpdToString Scenario.writeURLs 0 "T1" Scenario.dashHeap).bind
      fun r => (cache.BilibiliMpdToString Scenario.writeURLs 0 "T2" r.2).map
        fun r2 => (r.1.toOption, r2.1.toOption, cache.view r2.2 0)) =
    some (some "https://v/1.m4s&token=T1\nhttps://bk/1.m4s&token=T1\nhttps://a/1.m4s&token=T1",
      some "https://v/1.m4s&token=T2\nhttps://bk/1.m4s&token=T2\nhttps://a/1.m4s&token=T2",
      some Scenario.dash) := by
  decide

/-! ## Live playlists -/

theorem cache.foldl_writeLiveStream (t : IntType) :
    ∀ (urls : List bilibili.LiveStream) (buf : String),
      urls.foldl (cache.writeLiveStream t) buf =
        buf ++ cache.joinAll (urls.map (cache.liveEntry t)) := by
  intro urls
  induction urls with
  | nil => intro buf; simp [cache.joinAll]
  | cons v urls ih =>
    intro buf
    rw [List.foldl_cons, ih]
    cases hu : v.Urls with
    | nil => simp [cache.writeLiveStream, cache.liveEntry, hu, cache.joinAll]
    | cons u us =>
      simp [cache.writeLiveStream, cache.liveEntry, hu, cache.joinAll, String.append_assoc]

theorem IntType.wrap_of_holds (t : IntType) (n : Int) (hb : 0 < t.bits) (h : t.holds n) :
    t.wrap n = n := by
  unfold IntType.wrap
  unfold IntType.holds at h
  have hp : (0 : Int) < 2 ^ (t.bits - 1) := by positivity
  have h2 : (2 : Int) ^ t.bits = 2 * 2 ^ (t.bits - 1) := by
    rw [← pow_succ']
    congr 1
    omega
  split
  · rename_i hs
    rw [if_pos hs] at h
    rw [Int.emod_eq_of_lt (by omega) (by omega)]
    omega
  · rename_i hs
    rw [if_neg hs] at h
    exact Int.emod_eq_of_lt h.1 h.2

/-- C23 (amended): for every integer type `t` of the quality field and every
list of live streams, `genBilibiliLiveM3U8ListFile` returns the two header
lines followed, for each stream in input order that has at least one URL, by
the `#EXT-X-STREAM-INF` line and the first URL, where the bandwidth is
`1920 * 1080 * quality` as computed in `t` (wrapped to its width); streams with
no URL contribute nothing. When every product is a value of the type, this is
the playlist with the integer products. -/
theorem cache.genBilibiliLiveM3U8ListFile_spec (t : IntType)
    (urls : List bilibili.LiveStream) :
    cache.genBilibiliLiveM3U8ListFile t urls =
      "#EXTM3U\n#EXT-X-VERSION:3\n" ++ cache.joinAll (urls.map (cache.liveEntry t)) ∧
    (∀ v, cache.liveEntry t v =
      match v.Urls with
      | [] => ""
      | u :: _ =>
        "#EXT-X-STREAM-INF:BANDWIDTH=" ++ toString (t.wrap (1920 * 1080 * v.Quality)) ++
          ",NAME=\"" ++ v.Desc ++ "\"\n" ++ u ++ "\n") ∧
    (0 < t.bits → (∀ v, v ∈ urls → t.holds (1920 * 1080 * v.Quality)) →
      cache.genBilibiliLiveM3U8ListFile t urls = cache.specLiveM3U8 urls) := by
  have e : cache.genBilibiliLiveM3U8ListFile t urls =
      "#EXTM3U\n#EXT-X-VERSION:3\n" ++ cache.joinAll (urls.map (cache.liveEntry t)) := by
    unfold cache.genBilibiliLiveM3U8ListFile
    rw [cache.foldl_writeLiveStream]
    rfl
  refine ⟨e, fun v => rfl, ?_⟩
  intro hb hfit
  rw [e]
  unfold cache.specLiveM3U8
  congr 2
  apply List.map_congr_left
  intro v hv
  unfold cache.liveEntry cache.specLiveEntry
  rw [IntType.wrap_of_holds t _ hb (hfit v hv)]

/-- Witness for C23 (amended): with a `uint32` quality and the quality numbers
400 and 80 the playlist has the integer products. -/
theorem cache.genBilibiliLiveM3U8ListFile_spec_witness :
    (0 < IntType.uint32.bits ∧
      ∀ v, v ∈ Scenario.liveStreamsLow → IntType.uint32.holds (1920 * 1080 * v.Quality)) ∧
    cache.genBilibiliLiveM3U8ListFile IntType.uint32 Scenario.liveStreamsLow =
      cache.specLiveM3U8 Scenario.liveStreamsLow :=
  ⟨⟨by decide, by decide⟩,
   (cache.genBilibiliLiveM3U8ListFile_spec IntType.uint32 Scenario.liveStreamsLow).2.2
     (by decide) (by decide)⟩

/-- Counterexample to C23 as stated: for each of the integer types `uint32`,
`int32`, `uint64` and `int64` there is a quality of that type for which the
bandwidth written is not the integer product; with a `uint32` quality (the
type of the upstream message) the quality number 10000 is written as
3556130816, not 20736000000. -/
theorem cache.genBilibiliLiveM3U8ListFile_wraps :
    (∀ t, t ∈ [IntType.uint32, IntType.int32, IntType.uint64, IntType.int64] →
      ∃ q, t.holds q ∧ 0 ≤ q ∧
        cache.genBilibiliLiveM3U8ListFile t [{ Quality := q, Urls := ["u"], Desc := "d" }] ≠
          cache.specLiveM3U8 [{ Quality := q, Urls := ["u"], Desc := "d" }]) ∧
    cache.genBilibiliLiveM3U8ListFile IntType.uint32 Scenario.liveStreams =
      "#EXTM3U\n#EXT-X-VERSION:3\n" ++
      "#EXT-X-STREAM-INF:BANDWIDTH=3556130816,NAME=\"原画\"\nhttps://l/10000.m3u8\n" ++
      "#EXT-X-STREAM-INF:BANDWIDTH=829440000,NAME=\"蓝光\"\nhttps://l/400.m3u8\n" ∧
    cache.specLiveM3U8 Scenario.liveStreams =
      "#EXTM3U\n#EXT-X-VERSION:3\n" ++
      "#EXT-X-STREAM-INF:BANDWIDTH=20736000000,NAME=\"原画\"\nhttps://l/10000.m3u8\n" ++
      "#EXT-X-STREAM-INF:BANDWIDTH=829440000,NAME=\"蓝光\"\nhttps://l/400.m3u8\n" := by
  refine ⟨?_, by decide, by decide⟩
  intro t ht
  simp only [List.mem_cons, List.mem_singleton, List.not_mem_nil, or_false] at ht
  rcases ht with rfl | rfl | rfl | rfl
  · exact ⟨10000, by decide, by decide, by decide⟩
  · exact ⟨10000, by decide, by decide, by decide⟩
  · exact ⟨10000000000000, by decide, by decide, by decide⟩
  · exact ⟨10000000000000, by decide, by decide, by decide⟩

/-! ## float64 arithmetic -/

theorem float64.roundEven_intCast (n : Int) : float64.roundEven (n : ℚ) = n := by
  simp [float64.roundEven]

theorem float64.roundEven_near (q : ℚ) :
    (float64.roundEven q : ℚ) ≤ q + 1 / 2 ∧ q - 1 / 2 ≤ (float64.roundEven q : ℚ) := by
  have h1 : (⌊q⌋ : ℚ) ≤ q := Int.floor_le q
  have h2 : q < (⌊q⌋ : ℚ) + 1 := Int.lt_floor_add_one q
  unfold float64.roundEven
  split_ifs with a b c
  · constructor <;> linarith
  · push_cast
    constructor <;> linarith
  · constructor <;> linarith
  · push_cast
    constructor <;> linarith

theorem float64.round_zero : float64.round 0 = 0 := by
  simp [float64.round, float64.roundEven]

theorem float64.ulpExp_le (x : ℚ) (k : Int) (h0 : x ≠ 0) (hx : |x| < (2 : ℚ) ^ (k + 1))
    (hk : -1074 ≤ k - 52) : float64.ulpExp x ≤ k - 52 := by
  unfold float64.ulpExp
  apply max_le _ hk
  have hpos : 0 < |x| := abs_pos.2 h0
  have : Int.log 2 |x| < k + 1 := by
    rw [← Int.lt_zpow_iff_log_lt (by norm_num) hpos]
    exact_mod_cast hx
  omega

theorem float64.ulpExp_eq (x : ℚ) (k : Int) (hlo : (2 : ℚ) ^ k ≤ |x|)
    (hx : |x| < (2 : ℚ) ^ (k + 1)) (hk : -1074 ≤ k - 52) : float64.ulpExp x = k - 52 := by
  have hpos : 0 < |x| := lt_of_lt_of_le (by positivity) hlo
  have h1 : Int.log 2 |x| < k + 1 := by
    rw [← Int.lt_zpow_iff_log_lt (by norm_num) hpos]
    exact_mod_cast hx
  have h2 : k ≤ Int.log 2 |x| := by
    rw [← Int.zpow_le_iff_le_log (by norm_num) hpos]
    exact_mod_cast hlo
  unfold float64.ulpExp
  have : Int.log 2 |x| = k := by omega
  rw [this]
  exact max_eq_left hk

/-- A float64 value is left as it is by the rounding. -/
theorem float64.round_of_mantissa (m e : Int) (hm : |m| < 2 ^ 53) (he : -1074 ≤ e) :
    float64.round ((m : ℚ) * (2 : ℚ) ^ e) = (m : ℚ) * (2 : ℚ) ^ e := by
  by_cases h0 : (m : ℚ) * (2 : ℚ) ^ e = 0
  · rw [h0, float64.round_zero]
  · have hu : float64.ulpExp ((m : ℚ) * (2 : ℚ) ^ e) ≤ e := by
      have h := float64.ulpExp_le ((m : ℚ) * (2 : ℚ) ^ e) (e + 52) h0 ?_ (by omega)
      · omega
      · rw [abs_mul, abs_of_pos (by positivity : (0 : ℚ) < (2 : ℚ) ^ e)]
        have hmq : ((|m| : Int) : ℚ) < 2 ^ 53 := by exact_mod_cast hm
        have e1 : (2 : ℚ) ^ (e + 52 + 1) = 2 ^ 53 * (2 : ℚ) ^ e := by
          rw [show e + 52 + 1 = (53 : Int) + e by ring, zpow_add₀ (by norm_num)]
          norm_num
        rw [e1]
        have : (|(m : ℚ)| : ℚ) = ((|m| : Int) : ℚ) := by push_cast; rfl
        rw [this]
        exact mul_lt_mul_of_pos_right hmq (by positivity)
    unfold float64.round
    generalize float64.ulpExp ((m : ℚ) * (2 : ℚ) ^ e) = u at hu
    obtain ⟨n, hn⟩ := Int.eq_ofNat_of_zero_le (by omega : 0 ≤ e - u)
    have e2 : (m : ℚ) * (2 : ℚ) ^ e / (2 : ℚ) ^ u = ((m * 2 ^ n : Int) : ℚ) := by
      rw [mul_div_assoc, ← zpow_sub₀ (by norm_num), hn, zpow_natCast]
      push_cast
      rfl
    rw [e2, float64.roundEven_intCast]
    have e3 : e = (n : Int) + u := by omega
    rw [e3, zpow_add₀ (by norm_num)]
    push_cast
    rw [zpow_natCast]
    ring

theorem float64.round_of_IsFloat64 (x : ℚ) (h : float64.IsFloat64 x) : float64.round x = x := by
  obtain ⟨m, e, hm, he, _, rfl⟩ := h
  exact float64.round_of_mantissa m e hm he

theorem float64.IsFloat64_intCast (n : Int) (h : |n| < 2 ^ 53) : float64.IsFloat64 (n : ℚ) :=
  ⟨n, 0, h, by norm_num, by norm_num, by simp⟩

/-- The float64 values below 1 are at most `1 - 2^-53`. -/
theorem float64.le_pred_one (d : ℚ) (hd : float64.IsFloat64 d) (h1 : d < 1) :
    d ≤ 1 - 1 / 2 ^ 53 := by
  obtain ⟨m, e, hm, he, _, rfl⟩ := hd
  have hm1 : m ≤ 2 ^ 53 - 1 := by
    have := abs_lt.1 hm
    omega
  by_cases hc : e ≤ -53
  · by_cases hm0 : m ≤ 0
    · have : (m : ℚ) * (2 : ℚ) ^ e ≤ 0 :=
        mul_nonpos_of_nonpos_of_nonneg (by exact_mod_cast hm0) (by positivity)
      have h2 : (0 : ℚ) ≤ 1 - 1 / 2 ^ 53 := by norm_num
      linarith
    · have hmq : (m : ℚ) ≤ 2 ^ 53 - 1 := by exact_mod_cast hm1
      have hmpos : (0 : ℚ) ≤ (m : ℚ) := by
        have : 0 ≤ m := by omega
        exact_mod_cast this
      have hp : (2 : ℚ) ^ e ≤ (2 : ℚ) ^ (-53 : Int) := zpow_le_zpow_right₀ (by norm_num) hc
      have hp2 : (2 : ℚ) ^ (-53 : Int) = 1 / 2 ^ 53 := by
        rw [zpow_neg]
        norm_num
      calc (m : ℚ) * (2 : ℚ) ^ e ≤ (m : ℚ) * (2 : ℚ) ^ (-53 : Int) :=
            mul_le_mul_of_nonneg_left hp hmpos
        _ ≤ (2 ^ 53 - 1) * (2 : ℚ) ^ (-53 : Int) :=
            mul_le_mul_of_nonneg_right hmq (by positivity)
        _ = 1 - 1 / 2 ^ 53 := by rw [hp2]; norm_num
  · obtain ⟨n, hn⟩ := Int.eq_ofNat_of_zero_le (by omega : 0 ≤ e + 53)
    have e1 : (m : ℚ) * (2 : ℚ) ^ e * 2 ^ 53 = ((m * 2 ^ n : Int) : ℚ) := by
      have : e = (n : Int) + (-53) := by omega
      have c : (2 : ℚ) ^ (-53 : Int) = 1 / 2 ^ 53 := by
        rw [zpow_neg]
        norm_num
      rw [this, zpow_add₀ (by norm_num), zpow_natCast, c]
      push_cast
      field_simp
    have h2 : (m : ℚ) * (2 : ℚ) ^ e * 2 ^ 53 < 2 ^ 53 := by
      have : (0 : ℚ) < 2 ^ 53 := by positivity
      nlinarith
    rw [e1] at h2
    have h3 : m * 2 ^ n < 2 ^ 53 := by exact_mod_cast h2
    have h4 : m * 2 ^ n ≤ 2 ^ 53 - 1 := by omega
    have h5 : ((m * 2 ^ n : Int) : ℚ) ≤ 2 ^ 53 - 1 := by exact_mod_cast h4
    rw [← e1] at h5
    have h6 : (m : ℚ) * (2 : ℚ) ^ e = (m : ℚ) * (2 : ℚ) ^ e * 2 ^ 53 / 2 ^ 53 := by
      field_simp
    rw [h6]
    rw [div_le_iff₀ (by positivity)]
    calc (m : ℚ) * (2 : ℚ) ^ e * 2 ^ 53 ≤ 2 ^ 53 - 1 := h5
      _ = (1 - 1 / 2 ^ 53) * 2 ^ 53 := by norm_num

/-- The product of a fraction below 1 with 1000, rounded to float64, is below
1000 and not negative. -/
theorem float64.round_mul_1000 (d : ℚ) (h0 : 0 ≤ d) (h1 : d ≤ 1 - 1 / 2 ^ 53) :
    0 ≤ float64.round (d * 1000) ∧ float64.round (d * 1000) < 1000 := by
  by_cases hz : d * 1000 = 0
  · rw [hz, float64.round_zero]
    norm_num
  · have hy0 : 0 ≤ d * 1000 := by positivity
    have hy1 : d * 1000 ≤ 1000 - 1000 / 2 ^ 53 := by linarith
    have hu : float64.ulpExp (d * 1000) ≤ -43 := by
      have := float64.ulpExp_le (d * 1000) 9 hz ?_ (by norm_num)
      · omega
      · rw [abs_of_nonneg hy0]
        have : (2 : ℚ) ^ ((9 : Int) + 1) = 1024 := by norm_num
        rw [this]
        have : (0 : ℚ) < 1000 / 2 ^ 53 := by positivity
        linarith
    unfold float64.round
    generalize float64.ulpExp (d * 1000) = u at hu
    have hup : (0 : ℚ) < (2 : ℚ) ^ u := by positivity
    have hu2 : (2 : ℚ) ^ u ≤ 1 / 2 ^ 43 := by
      have := zpow_le_zpow_right₀ (by norm_num : (1 : ℚ) ≤ 2) hu
      rw [zpow_neg] at this
      calc (2 : ℚ) ^ u ≤ ((2 : ℚ) ^ (43 : Int))⁻¹ := this
        _ = 1 / 2 ^ 43 := by norm_num
    obtain ⟨a, b⟩ := float64.roundEven_near (d * 1000 / (2 : ℚ) ^ u)
    have hq : d * 1000 / (2 : ℚ) ^ u * (2 : ℚ) ^ u = d * 1000 := by field_simp
    constructor
    · have hq0 : 0 ≤ d * 1000 / (2 : ℚ) ^ u := by positivity
      have h2 : (-1 : ℚ) < (float64.roundEven (d * 1000 / (2 : ℚ) ^ u) : ℚ) := by linarith
      have h3 : (-1 : Int) < float64.roundEven (d * 1000 / (2 : ℚ) ^ u) := by exact_mod_cast h2
      have h4 : (0 : ℚ) ≤ (float64.roundEven (d * 1000 / (2 : ℚ) ^ u) : ℚ) := by
        have : (0 : Int) ≤ float64.roundEven (d * 1000 / (2 : ℚ) ^ u) := by omega
        exact_mod_cast this
      positivity
    · calc (float64.roundEven (d * 1000 / (2 : ℚ) ^ u) : ℚ) * (2 : ℚ) ^ u
          ≤ (d * 1000 / (2 : ℚ) ^ u + 1 / 2) * (2 : ℚ) ^ u :=
            mul_le_mul_of_nonneg_right a (le_of_lt hup)
        _ = d * 1000 + (2 : ℚ) ^ u / 2 := by rw [add_mul, hq]; ring
        _ ≤ 1000 - 1000 / 2 ^ 53 + 1 / 2 ^ 43 / 2 := by linarith
        _ < 1000 := by norm_num

/-- The fraction of a non-negative float64 value is a float64 value. -/
theorem float64.IsFloat64_fract (s : ℚ) (hs : 0 ≤ s) (h : float64.IsFloat64 s) :
    float64.IsFloat64 (s - (⌊s⌋ : ℚ)) := by
  obtain ⟨m, e, hm, he, he2, rfl⟩ := h
  by_cases hc : 0 ≤ e
  · obtain ⟨n, hn⟩ := Int.eq_ofNat_of_zero_le hc
    have e1 : (m : ℚ) * (2 : ℚ) ^ e = ((m * 2 ^ n : Int) : ℚ) := by
      rw [hn, zpow_natCast]
      push_cast
      rfl
    rw [e1, Int.floor_intCast, sub_self]
    exact ⟨0, 0, by norm_num, by norm_num, by norm_num, by simp⟩
  · obtain ⟨n, hn⟩ := Int.eq_ofNat_of_zero_le (by omega : 0 ≤ -e)
    have hen : e = -(n : Int) := by omega
    have hp : (0 : ℚ) < (2 : ℚ) ^ n := by positivity
    have e1 : (2 : ℚ) ^ e = 1 / (2 : ℚ) ^ n := by
      rw [hen, zpow_neg, zpow_natCast]
      simp
    have hf0 : (⌊(m : ℚ) * (2 : ℚ) ^ e⌋ : ℚ) ≤ (m : ℚ) * (2 : ℚ) ^ e := Int.floor_le _
    have hf1 : (m : ℚ) * (2 : ℚ) ^ e < (⌊(m : ℚ) * (2 : ℚ) ^ e⌋ : ℚ) + 1 :=
      Int.lt_floor_add_one _
    have hfl : 0 ≤ ⌊(m : ℚ) * (2 : ℚ) ^ e⌋ := Int.floor_nonneg.2 hs
    generalize ⌊(m : ℚ) * (2 : ℚ) ^ e⌋ = f at hf0 hf1 hfl ⊢
    have hflq : (0 : ℚ) ≤ (f : ℚ) := by exact_mod_cast hfl
    refine ⟨m - f * 2 ^ n, e, ?_, he, he2, ?_⟩
    · rw [e1] at hf0 hf1
      have h1 : (f : ℚ) * (2 : ℚ) ^ n ≤ (m : ℚ) := by
        have := mul_le_mul_of_nonneg_right hf0 (le_of_lt hp)
        rwa [mul_assoc, one_div, inv_mul_cancel₀ (ne_of_gt hp), mul_one] at this
      have h2 : (f * 2 ^ n : Int) ≤ m := by exact_mod_cast h1
      have h3 : 0 ≤ f * 2 ^ n := by positivity
      have := abs_lt.1 hm
      rw [abs_lt]
      constructor <;> omega
    · rw [e1]
      push_cast
      field_simp
      ring

theorem float64.roundEven_eq_of_near (q : ℚ) (n : Int) (h : |q - (n : ℚ)| < 1 / 2) :
    float64.roundEven q = n := by
  obtain ⟨a, b⟩ := float64.roundEven_near q
  obtain ⟨c, d⟩ := abs_lt.1 h
  have h1 : (float64.roundEven q : ℚ) < (n : ℚ) + 1 := by linarith
  have h2 : (n : ℚ) - 1 < (float64.roundEven q : ℚ) := by linarith
  have h3 : float64.roundEven q < n + 1 := by exact_mod_cast h1
  have h4 : n - 1 < float64.roundEven q := by exact_mod_cast h2
  omega

/-- The rounding of `x` with binary exponent `k`, when `n` is the multiple
of the last bit nearest to it (for positive `x`). -/
theorem float64.round_eq_of (x : ℚ) (k n : Int) (hlo : (2 : ℚ) ^ k ≤ x)
    (hhi : x < (2 : ℚ) ^ (k + 1)) (hk : -1074 ≤ k - 52)
    (hn : |x / (2 : ℚ) ^ (k - 52) - (n : ℚ)| < 1 / 2) :
    float64.round x = (n : ℚ) * (2 : ℚ) ^ (k - 52) := by
  have hpos : 0 < x := lt_of_lt_of_le (by positivity) hlo
  rw [← abs_of_pos hpos] at hlo hhi
  unfold float64.round
  rw [float64.ulpExp_eq x k hlo hhi hk, float64.roundEven_eq_of_near _ n hn]

theorem float64.round_intCast (n : Int) (h : |n| < 2 ^ 53) : float64.round (n : ℚ) = n :=
  float64.round_of_IsFloat64 _ (float64.IsFloat64_intCast n h)

/-- The `float64` values of the decimals 0.009, 2.3 and 1.001. -/
theorem float64.round_examples :
    float64.round (9 / 1000) = 5188146770730811 / 2 ^ 59 ∧
    float64.round (23 / 10) = 5179139571476070 / 2 ^ 51 ∧
    float64.round (1001 / 1000) = 4508103226997866 / 2 ^ 52 := by
  refine ⟨?_, ?_, ?_⟩
  · rw [float64.round_eq_of (9 / 1000) (-7) 5188146770730811 (by norm_num) (by norm_num)
      (by norm_num) (by norm_num [abs_lt])]
    norm_num
  · rw [float64.round_eq_of (23 / 10) 1 5179139571476070 (by norm_num) (by norm_num)
      (by norm_num) (by norm_num [abs_lt])]
    norm_num
  · rw [float64.round_eq_of (1001 / 1000) 0 4508103226997866 (by norm_num) (by norm_num)
      (by norm_num) (by norm_num [abs_lt])]
    norm_num

/-! ## Subtitles -/

theorem cache.padZero_two : ∀ k : Nat, k < 100 →
    cache.padZero 2 (k : Int) = cache.twoDigits (k : Int) := by
  decide

theorem cache.padZero_three : ∀ a : Nat, a < 10 → ∀ b : Nat, b < 10 → ∀ c : Nat, c < 10 →
    cache.padZero 3 ((100 * a + 10 * b + c : Nat) : Int) =
      cache.threeDigits ((100 * a + 10 * b + c : Nat) : Int) := by
  decide

theorem cache.padZero_two_int (k : Int) (h0 : 0 ≤ k) (h1 : k < 100) :
    cache.padZero 2 k = cache.twoDigits k := by
  have h := cache.padZero_two k.toNat (by omega)
  rwa [Int.toNat_of_nonneg h0] at h

theorem cache.padZero_three_int (k : Int) (h0 : 0 ≤ k) (h1 : k < 1000) :
    cache.padZero 3 k = cache.threeDigits k := by
  have h := cache.padZero_three (k.toNat / 100) (by omega) (k.toNat / 10 % 10) (by omega)
    (k.toNat % 10) (by omega)
  have e : 100 * (k.toNat / 100) + 10 * (k.toNat / 10 % 10) + k.toNat % 10 = k.toNat := by
    omega
  rw [e, Int.toNat_of_nonneg h0] at h
  exact h

theorem cache.trunc_of_nonneg (x : ℚ) (h : 0 ≤ x) : cache.trunc x = ⌊x⌋ := by
  simp [cache.trunc, h]

theorem cache.truncate_of_nonneg (x : ℚ) (h : 0 ≤ x) (h1 : x < 2 ^ 63) :
    cache.truncate x = ⌊x⌋ := by
  have h2 : 0 ≤ ⌊x⌋ := Int.floor_nonneg.2 h
  have h3 : ⌊x⌋ < 2 ^ 63 := by
    rw [Int.floor_lt]
    exact_mod_cast h1
  unfold cache.truncate
  rw [cache.trunc_of_nonneg x h, if_pos ⟨by omega, h3⟩]

theorem cache.floor_div_pos (x : ℚ) (d : Int) (hd : 0 < d) : ⌊x / (d : ℚ)⌋ = ⌊x⌋ / d := by
  have hdq : (0 : ℚ) < (d : ℚ) := by exact_mod_cast hd
  rw [Int.floor_eq_iff]
  have h1 : (⌊x⌋ : ℚ) ≤ x := Int.floor_le x
  have h2 : x < (⌊x⌋ : ℚ) + 1 := Int.lt_floor_add_one x
  have h3 : d * (⌊x⌋ / d) ≤ ⌊x⌋ := Int.mul_ediv_self_le (Int.ne_of_gt hd)
  have h4 : ⌊x⌋ < d * (⌊x⌋ / d) + d := Int.lt_mul_ediv_self_add hd
  have h3q : (d : ℚ) * ((⌊x⌋ / d : Int) : ℚ) ≤ (⌊x⌋ : ℚ) := by exact_mod_cast h3
  have h4q : (⌊x⌋ : ℚ) + 1 ≤ (d : ℚ) * ((⌊x⌋ / d : Int) : ℚ) + (d : ℚ) := by
    exact_mod_cast h4
  constructor
  · rw [le_div_iff₀ hdq]
    nlinarith
  · rw [div_lt_iff₀ hdq]
    nlinarith

theorem cache.mathMod_of_nonneg (x : ℚ) (d : Int) (hd : 0 < d) (hx : 0 ≤ x) :
    cache.mathMod x (d : ℚ) = x - ((d * (⌊x⌋ / d) : Int) : ℚ) ∧
      ⌊cache.mathMod x (d : ℚ)⌋ = ⌊x⌋ % d ∧ 0 ≤ cache.mathMod x (d : ℚ) ∧
      cache.mathMod x (d : ℚ) < (d : ℚ) := by
  have hdq : (0 : ℚ) < (d : ℚ) := by exact_mod_cast hd
  have e : cache.mathMod x (d : ℚ) = x - ((d * (⌊x⌋ / d) : Int) : ℚ) := by
    unfold cache.mathMod
    rw [cache.trunc_of_nonneg _ (div_nonneg hx (le_of_lt hdq)), cache.floor_div_pos x d hd]
    push_cast
    rfl
  have f : ⌊cache.mathMod x (d : ℚ)⌋ = ⌊x⌋ % d := by
    rw [e, Int.floor_sub_int, Int.emod_def]
  have h0 : 0 ≤ ⌊x⌋ % d := Int.emod_nonneg _ (Int.ne_of_gt hd)
  have h0b : ⌊x⌋ % d < d := Int.emod_lt_of_pos _ hd
  have h1 : ((⌊cache.mathMod x (d : ℚ)⌋ : Int) : ℚ) ≤ cache.mathMod x (d : ℚ) := Int.floor_le _
  have h1b : cache.mathMod x (d : ℚ) < ((⌊cache.mathMod x (d : ℚ)⌋ : Int) : ℚ) + 1 :=
    Int.lt_floor_add_one _
  rw [f] at h1 h1b
  have h2 : (0 : ℚ) ≤ ((⌊x⌋ % d : Int) : ℚ) := by exact_mod_cast h0
  have h3 : ((⌊x⌋ % d : Int) : ℚ) + 1 ≤ (d : ℚ) := by exact_mod_cast h0b
  exact ⟨e, f, by linarith, by linarith⟩

/-- The parts of a time: the hours are not negative, the minutes and the
seconds are below 60, the milliseconds below 1000. -/
theorem cache.srtTime_parts (s : ℚ) (hs : cache.SrtTimeOk s) :
    0 ≤ ⌊s⌋ / 3600 ∧ 0 ≤ ⌊s⌋ % 3600 / 60 ∧ ⌊s⌋ % 3600 / 60 < 60 ∧
      0 ≤ ⌊s⌋ % 60 ∧ ⌊s⌋ % 60 < 60 ∧
      0 ≤ cache.srtMillis s ∧ cache.srtMillis s < 1000 ∧
      ⌊s⌋ = 3600 * (⌊s⌋ / 3600) + 60 * (⌊s⌋ % 3600 / 60) + ⌊s⌋ % 60 := by
  obtain ⟨hf, h0, _⟩ := hs
  have hn : 0 ≤ ⌊s⌋ := Int.floor_nonneg.2 h0
  have hd0 : (0 : ℚ) ≤ s - (⌊s⌋ : ℚ) := sub_nonneg.2 (Int.floor_le s)
  have hd1 : s - (⌊s⌋ : ℚ) < 1 := by
    have := Int.lt_floor_add_one s
    linarith
  have hd := float64.le_pred_one _ (float64.IsFloat64_fract s h0 hf) hd1
  obtain ⟨r0, r1⟩ := float64.round_mul_1000 _ hd0 hd
  refine ⟨by omega, by omega, by omega, by omega, by omega, Int.floor_nonneg.2 r0, ?_, by omega⟩
  unfold cache.srtMillis
  rw [Int.floor_lt]
  exact_mod_cast r1

theorem cache.padZero_two_hours (h : Int) (h0 : 0 ≤ h) :
    2 ≤ (cache.padZero 2 h).length ∧ (h < 100 → cache.padZero 2 h = cache.twoDigits h) := by
  refine ⟨?_, fun h1 => cache.padZero_two_int h h0 h1⟩
  unfold cache.padZero
  rw [if_neg (by omega)]
  rw [String.length_append]
  simp only [String.length, List.length_replicate]
  omega

/-- The parts of a time together with the form of the hours: at least two
characters, and the two digits when the hours are below 100. -/
theorem cache.srtTime_fields (s : ℚ) (hs : cache.SrtTimeOk s) :
    0 ≤ ⌊s⌋ / 3600 ∧ 0 ≤ ⌊s⌋ % 3600 / 60 ∧ ⌊s⌋ % 3600 / 60 < 60 ∧
      0 ≤ ⌊s⌋ % 60 ∧ ⌊s⌋ % 60 < 60 ∧
      0 ≤ cache.srtMillis s ∧ cache.srtMillis s < 1000 ∧
      ⌊s⌋ = 3600 * (⌊s⌋ / 3600) + 60 * (⌊s⌋ % 3600 / 60) + ⌊s⌋ % 60 ∧
      2 ≤ (cache.padZero 2 (⌊s⌋ / 3600)).length ∧
      (⌊s⌋ / 3600 < 100 → cache.padZero 2 (⌊s⌋ / 3600) = cache.twoDigits (⌊s⌋ / 3600)) := by
  obtain ⟨p1, p2, p3, p4, p5, p6, p7, p8⟩ := cache.srtTime_parts s hs
  obtain ⟨q1, q2⟩ := cache.padZero_two_hours (⌊s⌋ / 3600) p1
  exact ⟨p1, p2, p3, p4, p5, p6, p7, p8, q1, q2⟩

theorem cache.formatTime_of_float (s : ℚ) (hs : cache.SrtTimeOk s) :
    cache.formatTime s = cache.srtTime s := by
  obtain ⟨p1, p2, p3, p4, p5, p6, p7, p8⟩ := cache.srtTime_parts s hs
  obtain ⟨hf, h0, hlt⟩ := hs
  have hn : 0 ≤ ⌊s⌋ := Int.floor_nonneg.2 h0
  obtain ⟨a1, a2, a3, a4⟩ := cache.mathMod_of_nonneg s 3600 (by norm_num) h0
  obtain ⟨b1, b2, b3, b4⟩ := cache.mathMod_of_nonneg (cache.mathMod s ((3600 : Int) : ℚ)) 60
    (by norm_num) a3
  have hsec : ⌊s⌋ % 3600 % 60 = ⌊s⌋ % 60 := by omega
  have hfrac : cache.mathMod (cache.mathMod s ((3600 : Int) : ℚ)) ((60 : Int) : ℚ) -
      ((⌊s⌋ % 60 : Int) : ℚ) = s - (⌊s⌋ : ℚ) := by
    rw [b1, a2, a1]
    have hq : (⌊s⌋ : ℚ) = ((3600 * (⌊s⌋ / 3600) + 60 * (⌊s⌋ % 3600 / 60) + ⌊s⌋ % 60 : Int) : ℚ) :=
      congrArg _ p8
    rw [hq]
    push_cast
    ring
  have c3600 : ((3600 : Int) : ℚ) = 3600 := by norm_num
  have c60 : ((60 : Int) : ℚ) = 60 := by norm_num
  rw [c3600] at a2 a3 a4 b1 b2 b3 b4 hfrac
  rw [c60] at b1 b2 b3 b4 hfrac
  have t1 : cache.truncate (cache.mathMod s 3600) = ⌊s⌋ % 3600 := by
    rw [cache.truncate_of_nonneg _ a3 (by linarith), a2]
  have t2 : cache.truncate (cache.mathMod (cache.mathMod s 3600) 60) = ⌊s⌋ % 60 := by
    rw [cache.truncate_of_nonneg _ b3 (by linarith), b2, a2, hsec]
  have r1 : float64.round ((⌊s⌋ % 60 : Int) : ℚ) = ((⌊s⌋ % 60 : Int) : ℚ) :=
    float64.round_of_IsFloat64 _ (float64.IsFloat64_intCast _ (by rw [abs_lt]; omega))
  have r2 : float64.round (s - (⌊s⌋ : ℚ)) = s - (⌊s⌋ : ℚ) :=
    float64.round_of_IsFloat64 _ (float64.IsFloat64_fract s h0 hf)
  have hd0 : (0 : ℚ) ≤ s - (⌊s⌋ : ℚ) := sub_nonneg.2 (Int.floor_le s)
  have hd1 : s - (⌊s⌋ : ℚ) < 1 := by
    have := Int.lt_floor_add_one s
    linarith
  obtain ⟨r3, r4⟩ := float64.round_mul_1000 _ hd0
    (float64.le_pred_one _ (float64.IsFloat64_fract s h0 hf) hd1)
  have t3 : cache.truncate (float64.round ((s - (⌊s⌋ : ℚ)) * 1000)) = cache.srtMillis s :=
    cache.truncate_of_nonneg _ r3 (by linarith)
  unfold cache.formatTime cache.srtTime
  simp only
  rw [cache.truncate_of_nonneg s h0 hlt, t1, t2, r1, hfrac, r2, t3,
    Int.tdiv_eq_ediv hn (by norm_num), Int.tdiv_eq_ediv (by omega) (by norm_num),
    cache.padZero_two_int _ p2 (by omega), cache.padZero_two_int _ p4 (by omega),
    cache.padZero_three_int _ p6 p7]

theorem cache.srtTime_eval (s : ℚ) (f ms : Int) (hf : ⌊s⌋ = f) (hms : cache.srtMillis s = ms) :
    cache.srtTime s =
      cache.padZero 2 (f / 3600) ++ ":" ++ cache.twoDigits (f % 3600 / 60) ++ ":" ++
        cache.twoDigits (f % 60) ++ "," ++ cache.threeDigits ms := by
  unfold cache.srtTime
  rw [hf, hms]

/-- The milliseconds of a time whose fraction times 1000 is the integer
`ms`. -/
theorem cache.srtMillis_of_exact (s : ℚ) (ms : Int) (h : (s - (⌊s⌋ : ℚ)) * 1000 = (ms : ℚ))
    (hms : |ms| < 2 ^ 53) : cache.srtMillis s = ms := by
  unfold cache.srtMillis
  rw [h, float64.round_intCast ms hms, Int.floor_intCast]

/-- A non-negative time below `2 ^ 63` that is given by a mantissa and an
exponent. -/
theorem cache.SrtTimeOk.of_mantissa (s : ℚ) (m e : Int) (hm : |m| < 2 ^ 53) (he : -1074 ≤ e)
    (he2 : e ≤ 971) (h : s = (m : ℚ) * (2 : ℚ) ^ e) (h0 : 0 ≤ s) (h1 : s < 2 ^ 63) :
    cache.SrtTimeOk s :=
  ⟨⟨m, e, hm, he, he2, h⟩, h0, h1⟩

/-- The times of the example subtitle are `float64` values, not negative and
below `2 ^ 63`. -/
theorem Scenario.subtitle_times :
    ∀ c, c ∈ Scenario.subtitle.Body → cache.SrtTimeOk c.From ∧ cache.SrtTimeOk c.To := by
  intro c hc
  simp only [Scenario.subtitle, List.mem_cons, List.mem_singleton, List.not_mem_nil,
    or_false] at hc
  rcases hc with rfl | rfl
  · exact ⟨cache.SrtTimeOk.of_mantissa _ 0 0 (by norm_num) (by norm_num) (by norm_num)
        (by norm_num) (by norm_num) (by norm_num),
      cache.SrtTimeOk.of_mantissa _ 3 (-1) (by norm_num) (by norm_num) (by norm_num)
        (by norm_num) (by norm_num) (by norm_num)⟩
  · exact ⟨cache.SrtTimeOk.of_mantissa _ 7325 (-1) (by norm_num) (by norm_num) (by norm_num)
        (by norm_num) (by norm_num) (by norm_num),
      cache.SrtTimeOk.of_mantissa _ 3723 0 (by norm_num) (by norm_num) (by norm_num)
        (by norm_num) (by norm_num) (by norm_num)⟩

/-- The times of the example subtitle as `formatTime` prints them. -/
theorem cache.formatTime_subtitle :
    cache.formatTime 0 = "00:00:00,000" ∧ cache.formatTime (3 / 2) = "00:00:01,500" ∧
    cache.formatTime (7325 / 2) = "01:01:02,500" ∧ cache.formatTime 3723 = "01:02:03,000" := by
  refine ⟨?_, ?_, ?_, ?_⟩
  · rw [cache.formatTime_of_float 0 (cache.SrtTimeOk.of_mantissa _ 0 0 (by norm_num)
        (by norm_num) (by norm_num) (by norm_num) (by norm_num) (by norm_num)),
      cache.srtTime_eval 0 0 0 (by norm_num)
        (cache.srtMillis_of_exact 0 0 (by norm_num) (by norm_num))]
    decide
  · rw [cache.formatTime_of_float (3 / 2) (cache.SrtTimeOk.of_mantissa _ 3 (-1) (by norm_num)
        (by norm_num) (by norm_num) (by norm_num) (by norm_num) (by norm_num)),
      cache.srtTime_eval (3 / 2) 1 500 (by norm_num)
        (cache.srtMillis_of_exact (3 / 2) 500 (by norm_num) (by norm_num))]
    decide
  · rw [cache.formatTime_of_float (7325 / 2) (cache.SrtTimeOk.of_mantissa _ 7325 (-1)
        (by norm_num) (by norm_num) (by norm_num) (by norm_num) (by norm_num) (by norm_num)),
      cache.srtTime_eval (7325 / 2) 3662 500 (by norm_num)
        (cache.srtMillis_of_exact (7325 / 2) 500 (by norm_num) (by norm_num))]
    decide
  · rw [cache.formatTime_of_float 3723 (cache.SrtTimeOk.of_mantissa _ 3723 0 (by norm_num)
        (by norm_num) (by norm_num) (by norm_num) (by norm_num) (by norm_num)),
      cache.srtTime_eval 3723 3723 0 (by norm_num)
        (cache.srtMillis_of_exact 3723 0 (by norm_num) (by norm_num))]
    decide

/-- The milliseconds of a time whose fraction times 1000 has the binary
exponent `k` and rounds to `n` last bits. -/
theorem cache.srtMillis_of_round (s : ℚ) (f k n ms : Int) (hf : ⌊s⌋ = f)
    (hlo : (2 : ℚ) ^ k ≤ (s - (f : ℚ)) * 1000) (hhi : (s - (f : ℚ)) * 1000 < (2 : ℚ) ^ (k + 1))
    (hk : -1074 ≤ k - 52)
    (hn : |(s - (f : ℚ)) * 1000 / (2 : ℚ) ^ (k - 52) - (n : ℚ)| < 1 / 2)
    (hms : ⌊(n : ℚ) * (2 : ℚ) ^ (k - 52)⌋ = ms) : cache.srtMillis s = ms := by
  unfold cache.srtMillis
  rw [hf, float64.round_eq_of _ k n hlo hhi hk hn, hms]

/-- The times 0.009, 2.3 and 1.001 of a subtitle, which the decoder rounds
to `float64`, as `formatTime` prints them: the milliseconds are 009, 299 and
000. -/
theorem cache.formatTime_examples :
    cache.formatTime (float64.round (9 / 1000)) = "00:00:00,009" ∧
    cache.formatTime (float64.round (23 / 10)) = "00:00:02,299" ∧
    cache.formatTime (float64.round (1001 / 1000)) = "00:00:01,000" := by
  obtain ⟨e1, e2, e3⟩ := float64.round_examples
  rw [e1, e2, e3]
  refine ⟨?_, ?_, ?_⟩
  · rw [cache.formatTime_of_float _ (cache.SrtTimeOk.of_mantissa _ 5188146770730811 (-59)
        (by norm_num) (by norm_num) (by norm_num) (by norm_num) (by norm_num) (by norm_num)),
      cache.srtTime_eval _ 0 9 (by norm_num [Int.floor_eq_iff])
        (cache.srtMillis_of_round _ 0 3 5066549580791808 9 (by norm_num [Int.floor_eq_iff])
          (by norm_num) (by norm_num) (by norm_num) (by norm_num [abs_lt])
          (by norm_num [Int.floor_eq_iff]))]
    decide
  · rw [cache.formatTime_of_float _ (cache.SrtTimeOk.of_mantissa _ 5179139571476070 (-51)
        (by norm_num) (by norm_num) (by norm_num) (by norm_num) (by norm_num) (by norm_num)),
      cache.srtTime_eval _ 2 299 (by norm_num [Int.floor_eq_iff])
        (cache.srtMillis_of_round _ 2 8 5277655813324797 299 (by norm_num [Int.floor_eq_iff])
          (by norm_num) (by norm_num) (by norm_num) (by norm_num [abs_lt])
          (by norm_num [Int.floor_eq_iff]))]
    decide
  · rw [cache.formatTime_of_float _ (cache.SrtTimeOk.of_mantissa _ 4508103226997866 (-52)
        (by norm_num) (by norm_num) (by norm_num) (by norm_num) (by norm_num) (by norm_num)),
      cache.srtTime_eval _ 1 0 (by norm_num [Int.floor_eq_iff])
        (cache.srtMillis_of_round _ 1 (-1) 9007199254740000 0 (by norm_num [Int.floor_eq_iff])
          (by norm_num) (by norm_num) (by norm_num) (by norm_num [abs_lt])
          (by norm_num [Int.floor_eq_iff]))]
    decide

/-- A time of `2 ^ 63` seconds: `int(seconds)` is out of range, and the
hours are printed negative. -/
theorem cache.formatTime_out_of_range :
    cache.formatTime (2 ^ 63) = "-2562047788015215:30:08,000" := by
  have r8 : float64.round 8 = 8 := by simpa using float64.round_intCast 8 (by norm_num)
  have r0 : float64.round 0 = 0 := float64.round_zero
  norm_num [cache.formatTime, cache.truncate, cache.trunc, cache.mathMod, r8, r0]
  decide

theorem cache.foldl_writeCue :
    ∀ (body : List cache.bilibiliSubtitleCue) (buf : String) (k : Nat),
      (body.foldl cache.writeCue (buf, k)).1 = buf ++ cache.joinAll (cache.srtBlocks k body) := by
  intro body
  induction body with
  | nil => intro buf k; simp [cache.srtBlocks, cache.joinAll]
  | cons c body ih =>
    intro buf k
    rw [List.foldl_cons,
      show cache.writeCue (buf, k) c = (buf ++ cache.srtBlock k c, k + 1) from rfl, ih]
    simp [cache.srtBlocks, cache.joinAll, String.append_assoc]

theorem cache.srtBlocks_length :
    ∀ (body : List cache.bilibiliSubtitleCue) (k : Nat),
      (cache.srtBlocks k body).length = body.length := by
  intro body
  induction body with
  | nil => intro k; rfl
  | cons c body ih => intro k; simp [cache.srtBlocks, ih]

theorem cache.srtBlocks_getElem? :
    ∀ (body : List cache.bilibiliSubtitleCue) (k i : Nat) (c : cache.bilibiliSubtitleCue),
      body[i]? = some c → (cache.srtBlocks k body)[i]? = some (cache.srtBlock (k + i) c) := by
  intro body
  induction body with
  | nil => intro k i c h; simp at h
  | cons c0 body ih =>
    intro k i c h
    cases i with
    | zero =>
      simp only [List.getElem?_cons_zero, Option.some.injEq] at h
      simp [cache.srtBlocks, h]
    | succ i =>
      simp only [List.getElem?_cons_succ] at h
      have := ih (k + 1) i c h
      simp only [cache.srtBlocks, List.getElem?_cons_succ]
      rw [this]
      congr 2
      omega

/-- C24 (amended): for a subtitle body of n cues whose times are `float64`
values that are not negative and below `2 ^ 63` seconds, `convertToSRT`
produces exactly n blocks in input order; the block of the cue at position i
(counted from 0, that is, the (i+1)-th block) is the sequence number i, a line
`<from> --> <to>` whose timestamps are hours (at least two digits), two digits
of minutes, two of seconds and three of milliseconds, then the cue's content
and a blank line. Hours, minutes (below 60) and seconds (below 60) are those
of the whole seconds of the time; the milliseconds (below 1000) are the
integer part of the `float64` product of the fraction of the second with
1000; the hours have two digits when they are below 100. -/
theorem cache.convertToSRT_spec (subtitles : cache.bilibiliSubtitleResp)
    (h : ∀ c, c ∈ subtitles.Body → cache.SrtTimeOk c.From ∧ cache.SrtTimeOk c.To) :
    cache.convertToSRT subtitles = cache.joinAll (cache.srtBlocks 0 subtitles.Body) ∧
    (cache.srtBlocks 0 subtitles.Body).length = subtitles.Body.length ∧
    (∀ (i : Nat) (c : cache.bilibiliSubtitleCue), subtitles.Body[i]? = some c →
      (cache.srtBlocks 0 subtitles.Body)[i]? =
        some (toString i ++ "\n" ++ cache.srtTime c.From ++ " --> " ++ cache.srtTime c.To ++
          "\n" ++ c.Content ++ "\n\n")) ∧
    (∀ (c : cache.bilibiliSubtitleCue) (t : ℚ), c ∈ subtitles.Body → t = c.From ∨ t = c.To →
      0 ≤ ⌊t⌋ / 3600 ∧ 0 ≤ ⌊t⌋ % 3600 / 60 ∧ ⌊t⌋ % 3600 / 60 < 60 ∧
      0 ≤ ⌊t⌋ % 60 ∧ ⌊t⌋ % 60 < 60 ∧
      0 ≤ cache.srtMillis t ∧ cache.srtMillis t < 1000 ∧
      ⌊t⌋ = 3600 * (⌊t⌋ / 3600) + 60 * (⌊t⌋ % 3600 / 60) + ⌊t⌋ % 60 ∧
      2 ≤ (cache.padZero 2 (⌊t⌋ / 3600)).length ∧
      (⌊t⌋ / 3600 < 100 → cache.padZero 2 (⌊t⌋ / 3600) = cache.twoDigits (⌊t⌋ / 3600))) := by
  refine ⟨?_, cache.srtBlocks_length _ _, ?_, ?_⟩
  · unfold cache.convertToSRT
    rw [cache.foldl_writeCue]
    simp
  · intro i c hc
    obtain ⟨hf, ht⟩ := h c (List.mem_iff_getElem?.2 ⟨i, hc⟩)
    rw [cache.srtBlocks_getElem? _ 0 i c hc, Nat.zero_add]
    unfold cache.srtBlock
    rw [cache.formatTime_of_float _ hf, cache.formatTime_of_float _ ht]
  · intro c t hc ht
    obtain ⟨hf, hto⟩ := h c hc
    rcases ht with rfl | rfl
    · exact cache.srtTime_fields _ hf
    · exact cache.srtTime_fields _ hto

/-- Witness for C24 (amended): the subtitle of two cues; its second block has
the sequence number 1. -/
theorem cache.convertToSRT_spec_witness :
    (∀ c, c ∈ Scenario.subtitle.Body → cache.SrtTimeOk c.From ∧ cache.SrtTimeOk c.To) ∧
    (cache.convertToSRT Scenario.subtitle =
      cache.joinAll (cache.srtBlocks 0 Scenario.subtitle.Body) ∧
    (cache.srtBlocks 0 Scenario.subtitle.Body).length = Scenario.subtitle.Body.length ∧
    (∀ (i : Nat) (c : cache.bilibiliSubtitleCue), Scenario.subtitle.Body[i]? = some c →
      (cache.srtBlocks 0 Scenario.subtitle.Body)[i]? =
        some (toString i ++ "\n" ++ cache.srtTime c.From ++ " --> " ++ cache.srtTime c.To ++
          "\n" ++ c.Content ++ "\n\n")) ∧
    (∀ (c : cache.bilibiliSubtitleCue) (t : ℚ), c ∈ Scenario.subtitle.Body →
      t = c.From ∨ t = c.To →
      0 ≤ ⌊t⌋ / 3600 ∧ 0 ≤ ⌊t⌋ % 3600 / 60 ∧ ⌊t⌋ % 3600 / 60 < 60 ∧
      0 ≤ ⌊t⌋ % 60 ∧ ⌊t⌋ % 60 < 60 ∧
      0 ≤ cache.srtMillis t ∧ cache.srtMillis t < 1000 ∧
      ⌊t⌋ = 3600 * (⌊t⌋ / 3600) + 60 * (⌊t⌋ % 3600 / 60) + ⌊t⌋ % 60 ∧
      2 ≤ (cache.padZero 2 (⌊t⌋ / 3600)).length ∧
      (⌊t⌋ / 3600 < 100 → cache.padZero 2 (⌊t⌋ / 3600) = cache.twoDigits (⌊t⌋ / 3600)))) :=
  ⟨Scenario.subtitle_times, cache.convertToSRT_spec Scenario.subtitle Scenario.subtitle_times⟩

/-- Counterexample to C24 as stated: the first block of the output has the
sequence number 0, not 1, and the second the number 1. And a non-negative
time of `2 ^ 63` seconds, for which `int(seconds)` is out of range (the
smallest `int64` on amd64), is printed with negative hours. -/
theorem cache.convertToSRT_counts_from_zero :
    cache.convertToSRT Scenario.subtitle =
      "0\n00:00:00,000 --> 00:00:01,500\n你好\n\n1\n01:01:02,500 --> 01:02:03,000\n再见\n\n" ∧
    cache.specSRT Scenario.subtitle =
      "1\n00:00:00,000 --> 00:00:01,500\n你好\n\n2\n01:01:02,500 --> 01:02:03,000\n再见\n\n" ∧
    cache.convertToSRT Scenario.subtitle ≠ cache.specSRT Scenario.subtitle ∧
    cache.formatTime (2 ^ 63) = "-2562047788015215:30:08,000" := by
  obtain ⟨f1, f2, f3, f4⟩ := cache.formatTime_subtitle
  have e1 : cache.convertToSRT Scenario.subtitle =
      "0\n00:00:00,000 --> 00:00:01,500\n你好\n\n1\n01:01:02,500 --> 01:02:03,000\n再见\n\n" := by
    simp only [cache.convertToSRT, Scenario.subtitle, List.foldl_cons, List.foldl_nil,
      cache.writeCue, f1, f2, f3, f4]
    decide
  have e2 : cache.specSRT Scenario.subtitle =
      "1\n00:00:00,000 --> 00:00:01,500\n你好\n\n2\n01:01:02,500 --> 01:02:03,000\n再见\n\n" := by
    simp only [cache.specSRT, Scenario.subtitle, cache.srtBlocks, cache.srtBlock,
      cache.joinAll, List.foldl_cons, List.foldl_nil, f1, f2, f3, f4]
    decide
  refine ⟨e1, e2, ?_, cache.formatTime_out_of_range⟩
  rw [e1, e2]
  decide

/-! ## Emby proxy handlers -/

theorem strconv.Atoi_examples :
    (strconv.Atoi "-1").toOption = some (-1) ∧ (strconv.Atoi "0").toOption = some 0 ∧
    (strconv.Atoi "12").toOption = some 12 ∧ (strconv.Atoi "+7").toOption = some 7 ∧
    (strconv.Atoi "").toOption = none ∧ (strconv.Atoi "-").toOption = none ∧
    (strconv.Atoi "1x").toOption = none ∧ (strconv.Atoi "9223372036854775808").toOption = none ∧
    (strconv.Atoi "-9223372036854775808").toOption = some (-9223372036854775808) := by
  decide

/-- C25: the failing input. With one source in the list, `source=-1` passes
the check `source >= len(embyC.Sources)` of both handlers and the list is
indexed at -1, which panics; so does `id=-1` on the subtitle list. The values
`source=1` and `source=x` are rejected with 400 (an error from
`handleSubtitle`), and `source=0` is served. -/
theorem vendoremby.negative_index_panics :
    vendoremby.handleProxyMovie true none (.ok Scenario.embyData) "-1" Scenario.embyCacheKey =
      vendoremby.ProxyOutcome.panic ∧
    vendoremby.handleSubtitle none (.ok Scenario.embyData) "-1" "0" =
      vendoremby.SubtitleOutcome.panic ∧
    vendoremby.handleSubtitle none (.ok Scenario.embyData) "0" "-1" =
      vendoremby.SubtitleOutcome.panic ∧
    vendoremby.handleProxyMovie true none (.ok Scenario.embyData) "1" Scenario.embyCacheKey =
      vendoremby.ProxyOutcome.abort 400 "source out of range" ∧
    vendoremby.handleProxyMovie true none (.ok Scenario.embyData) "x" Scenario.embyCacheKey =
      vendoremby.ProxyOutcome.abort 400 "strconv.Atoi: parsing \"x\": invalid syntax" ∧
    vendoremby.handleSubtitle none (.ok Scenario.embyData) "1" "0" =
      vendoremby.SubtitleOutcome.error (GoError.New "source out of range") ∧
    vendoremby.handleSubtitle none (.ok Scenario.embyData) "0" "1" =
      vendoremby.SubtitleOutcome.error (GoError.New "id out of range") ∧
    vendoremby.handleProxyMovie true none (.ok Scenario.embyData) "0" Scenario.embyCacheKey =
      vendoremby.ProxyOutcome.proxied "https://emby/Videos/1/stream.mp4?DeviceId=d"
        "https://emby/Videos/1/stream.mp4?DeviceId=d" ∧
    vendoremby.handleSubtitle none (.ok Scenario.embyData) "0" "0" =
      vendoremby.SubtitleOutcome.served "chi.srt" "1\n" := by
  decide

theorem vendoremby.index_eq_none {α : Type} (l : List α) (i : Int) (h : i < l.length) :
    vendoremby.index l i = none ↔ i < 0 := by
  unfold vendoremby.index
  by_cases hi : i < 0
  · simp [hi]
  · have : i.toNat < l.length := by omega
    simp [hi, List.getElem?_eq_getElem this]

/-- The only requests `handleProxyMovie` panics on are those with a negative
`source`; every non-numeric value and every value not below the number of
sources is rejected with 400. -/
theorem vendoremby.handleProxyMovie_panic_iff (movieProxy : Bool) (loadUser : Option GoError)
    (embyC : vendoremby.EmbyMovieCacheData) (sourceQuery : String)
    (cacheKey : String → Except GoError String) :
    (vendoremby.handleProxyMovie movieProxy loadUser (.ok embyC) sourceQuery cacheKey =
        vendoremby.ProxyOutcome.panic ↔
      movieProxy = true ∧ loadUser = none ∧ embyC.Sources.length ≠ 0 ∧
        ∃ source, strconv.Atoi sourceQuery = .ok source ∧ source < 0) ∧
    (∀ err, strconv.Atoi sourceQuery = .error err →
      ∃ message, vendoremby.handleProxyMovie movieProxy loadUser (.ok embyC) sourceQuery
        cacheKey = vendoremby.ProxyOutcome.abort 400 message) ∧
    (∀ source, strconv.Atoi sourceQuery = .ok source → (embyC.Sources.length : Int) ≤ source →
      ∃ message, vendoremby.handleProxyMovie movieProxy loadUser (.ok embyC) sourceQuery
        cacheKey = vendoremby.ProxyOutcome.abort 400 message) := by
  refine ⟨?_, ?_, ?_⟩
  · unfold vendoremby.handleProxyMovie
    cases movieProxy with
    | false => simp
    | true =>
      cases loadUser with
      | some err => simp
      | none =>
        by_cases hl : embyC.Sources.length = 0
        · simp [hl]
        · cases ha : strconv.Atoi sourceQuery with
          | error err => simp [hl]
          | ok source =>
            by_cases hs : source ≥ (embyC.Sources.length : Int)
            · simp only [hl, hs]
              simp
              omega
            · have hlt : source < (embyC.Sources.length : Int) := by omega
              have hidx := vendoremby.index_eq_none embyC.Sources source hlt
              cases hi : vendoremby.index embyC.Sources source with
              | none =>
                simp only [hl, hs, hi]
                simp
                exact ⟨fun h => hl (by simp [h]), hidx.1 hi⟩
              | some src =>
                have hn : ¬ source < 0 := fun h => by
                  rw [hidx.2 h] at hi
                  cases hi
                simp only [hl, hs, hi]
                cases src.IsTranscode <;> cases cacheKey src.URL <;> simp [hn]
  · intro err ha
    unfold vendoremby.handleProxyMovie
    cases movieProxy with
    | false => exact ⟨_, rfl⟩
    | true =>
      cases loadUser with
      | some e => exact ⟨_, rfl⟩
      | none =>
        by_cases hl : embyC.Sources.length = 0
        · exact ⟨"no source", by simp [hl]⟩
        · exact ⟨vendoremby.errorText err, by simp [hl, ha]⟩
  · intro source ha hs
    unfold vendoremby.handleProxyMovie
    cases movieProxy with
    | false => exact ⟨_, rfl⟩
    | true =>
      cases loadUser with
      | some e => exact ⟨_, rfl⟩
      | none =>
        by_cases hl : embyC.Sources.length = 0
        · exact ⟨"no source", by simp [hl]⟩
        · exact ⟨"source out of range", by simp [hl, ha, hs]⟩

/-! ## Paging -/

/-- C27: for every list and every page >= 1 and page size >= 1,
`GetPageItems` returns the items at the positions
`(page-1)*pageSize .. min(page*pageSize, len(items))` (the upper bound
excluded) in their order, and the empty list when
`(page-1)*pageSize >= len(items)`; the handler returns the same page for the
page and size of the request. -/
theorem utils.GetPageItems_spec {T : Type} (items : List T) (page pageSize : Nat)
    (hp : 1 ≤ page) (hs : 1 ≤ pageSize) :
    utils.GetPageItems items page pageSize =
      (items.drop ((page - 1) * pageSize)).take
        (min (page * pageSize) items.length - (page - 1) * pageSize) ∧
    (utils.GetPageItems items page pageSize).length =
      min (page * pageSize) items.length - (page - 1) * pageSize ∧
    (∀ i, i < min (page * pageSize) items.length - (page - 1) * pageSize →
      (utils.GetPageItems items page pageSize)[i]? = items[(page - 1) * pageSize + i]?) ∧
    (items.length ≤ (page - 1) * pageSize → utils.GetPageItems items page pageSize = []) ∧
    handlers.GetPageItems (.ok ((page : Int), (pageSize : Int))) items =
      .ok (utils.GetPageItems items page pageSize) := by
  have hcond : ¬ ((pageSize : Int) ≤ 0 ∨ (page : Int) ≤ 0) := by omega
  have hstart : ((page : Int) - 1) * (pageSize : Int) = (((page - 1) * pageSize : Nat) : Int) := by
    push_cast [Nat.cast_sub hp]
    ring
  have hstop : (page : Int) * (pageSize : Int) = ((page * pageSize : Nat) : Int) := by
    push_cast
    ring
  have hle : (page - 1) * pageSize ≤ page * pageSize :=
    Nat.mul_le_mul_right _ (Nat.sub_le _ _)
  have e : utils.GetPageItems items page pageSize =
      (items.drop ((page - 1) * pageSize)).take
        (min (page * pageSize) items.length - (page - 1) * pageSize) := by
    unfold utils.GetPageItems
    rw [if_neg hcond, hstart, hstop]
    simp only
    by_cases h : (page - 1) * pageSize ≤ items.length
    · have h1 : min (((page - 1) * pageSize : Nat) : Int) (items.length : Int) =
          (((page - 1) * pageSize : Nat) : Int) := by omega
      rw [h1]
      congr 1
      omega
    · have hlen : items.length ≤ (page - 1) * pageSize := by omega
      have h1 : min (((page - 1) * pageSize : Nat) : Int) (items.length : Int) =
          (items.length : Int) := by omega
      rw [h1, Int.toNat_ofNat, List.drop_of_length_le (Nat.le_refl _),
        List.drop_of_length_le hlen]
      simp
  refine ⟨e, ?_, ?_, ?_, rfl⟩
  · rw [e, List.length_take, List.length_drop]
    omega
  · intro i hi
    rw [e, List.getElem?_take_of_lt hi, List.getElem?_drop]
  · intro h
    rw [e, List.drop_of_length_le h]
    simp

/-- Witness for C27, the cases of `TestGetPageItems`: 10 items, page size 5;
page 2 gives the items 6..10. -/
theorem utils.GetPageItems_spec_witness :
    (1 ≤ 2 ∧ 1 ≤ 5) ∧
    utils.GetPageItems [1, 2, 3, 4, 5, 6, 7, 8, 9, 10] ((2 : Nat) : Int) ((5 : Nat) : Int) =
      ([1, 2, 3, 4, 5, 6, 7, 8, 9, 10].drop ((2 - 1) * 5)).take
        (min (2 * 5) [1, 2, 3, 4, 5, 6, 7, 8, 9, 10].length - (2 - 1) * 5) :=
  ⟨by decide,
   (utils.GetPageItems_spec [1, 2, 3, 4, 5, 6, 7, 8, 9, 10] 2 5 (by decide) (by decide)).1⟩

/-- The three cases of `TestGetPageItems`. -/
theorem utils.GetPageItems_test :
    utils.GetPageItems [1, 2, 3, 4, 5, 6, 7, 8, 9, 10] 1 5 = [1, 2, 3, 4, 5] ∧
    utils.GetPageItems [1, 2, 3, 4, 5, 6, 7, 8, 9, 10] 2 5 = [6, 7, 8, 9, 10] ∧
    utils.GetPageItems [1, 2, 3, 4, 5, 6, 7, 8, 9, 10] 3 5 = [] := by
  decide

/-! ## Parent path -/

theorem handlers.getParentMoviePathLoop_chain
    (GetMovieByID : String → Except GoError model.Movie) {id : String}
    {chain : List model.Movie} (h : handlers.ParentChain GetMovieByID id chain) :
    ∀ (fuel : Nat) (paths : List model.MoviePath), chain.length < fuel →
      handlers.getParentMoviePathLoop GetMovieByID fuel id paths =
        some (.ok (paths ++ chain.map handlers.pathOf)) := by
  induction h with
  | home =>
    intro fuel paths hf
    cases fuel with
    | zero => omega
    | succ fuel => simp [handlers.getParentMoviePathLoop]
  | @folder id p chain hne hget _ ih =>
    intro fuel paths hf
    cases fuel with
    | zero => omega
    | succ fuel =>
      simp only [List.length_cons] at hf
      simp only [handlers.getParentMoviePathLoop, hne, if_false, hget]
      rw [ih fuel _ (by omega)]
      simp [handlers.pathOf]

theorem handlers.getParentMoviePathLoop_fails
    (GetMovieByID : String → Except GoError model.Movie) {err : GoError} {id : String}
    {n : Nat} (h : handlers.LookupFails GetMovieByID err id n) :
    ∀ (fuel : Nat) (paths : List model.MoviePath), n < fuel →
      handlers.getParentMoviePathLoop GetMovieByID fuel id paths =
        some (.error (GoError.New ("get movie by id error: " ++ vendoremby.errorText err))) := by
  induction h with
  | here hne hget =>
    intro fuel paths hf
    cases fuel with
    | zero => omega
    | succ fuel => simp only [handlers.getParentMoviePathLoop, hne, if_false, hget]
  | @above id p n hne hget _ ih =>
    intro fuel paths hf
    cases fuel with
    | zero => omega
    | succ fuel =>
      simp only [handlers.getParentMoviePathLoop, hne, if_false, hget]
      exact ih fuel _ (by omega)

theorem handlers.ParentChain_nil (GetMovieByID : String → Except GoError model.Movie)
    {id : String} {chain : List model.Movie}
    (h : handlers.ParentChain GetMovieByID id chain) : chain = [] → id = "" := by
  induction h with
  | home => intro _; rfl
  | folder _ _ _ _ => intro hc; cases hc

theorem handlers.ParentChain_links (GetMovieByID : String → Except GoError model.Movie)
    (hID : ∀ id p, GetMovieByID id = .ok p → p.ID = id) {id : String}
    {chain : List model.Movie} (h : handlers.ParentChain GetMovieByID id chain) :
    (∀ p, chain.head? = some p → p.ID = id) ∧
      List.Chain' (fun (child parent : model.Movie) => child.ParentID = parent.ID) chain ∧
      (∀ p, chain.getLast? = some p → p.ParentID = "") := by
  induction h with
  | home => simp
  | @folder id p chain hne hget hch ih =>
    refine ⟨?_, ?_, ?_⟩
    · intro q hq
      simp only [List.head?_cons, Option.some.injEq] at hq
      rw [← hq]
      exact hID id p hget
    · rw [List.chain'_cons']
      refine ⟨?_, ih.2.1⟩
      intro q hq
      exact (ih.1 q hq).symm
    · intro q hq
      cases chain with
      | nil =>
        simp only [List.getLast?_singleton, Option.some.injEq] at hq
        rw [← hq]
        exact handlers.ParentChain_nil GetMovieByID hch rfl
      | cons q1 rest =>
        rw [List.getLast?_cons_cons] at hq
        exact ih.2.2 q hq

/-- C30: for a folder whose parent chain `chain` (the folder, its parent, up
to the top-level ancestor) is finite with every ancestor found in the room,
`getParentMoviePath` returns once the loop has run `chain.length + 1` times,
and returns the root-first path: `Home` with the empty ID, then the ancestors
from the top-level one down, then the folder; consecutive folders are parent
and child, the last one is the folder asked for, and for the empty ID the
path is just `Home`. When a lookup on the chain fails, an error and no path is
returned. -/
theorem handlers.getParentMoviePath_spec
    (GetMovieByID : String → Except GoError model.Movie)
    (hID : ∀ id p, GetMovieByID id = .ok p → p.ID = id) (id : String) :
    (∀ chain, handlers.ParentChain GetMovieByID id chain →
      (∀ fuel, chain.length < fuel →
        handlers.getParentMoviePath GetMovieByID fuel id =
          some (.ok ({ Name := "Home", ID := "" } :: (chain.map handlers.pathOf).reverse))) ∧
      (∀ p, chain.head? = some p → p.ID = id ∧
        ((chain.map handlers.pathOf).reverse).getLast? = some (handlers.pathOf p)) ∧
      List.Chain' (fun (parent child : model.Movie) => child.ParentID = parent.ID)
        chain.reverse ∧
      (∀ p, chain.reverse.head? = some p → p.ParentID = "")) ∧
    (∀ fuel, 0 < fuel → handlers.getParentMoviePath GetMovieByID fuel "" =
      some (.ok [{ Name := "Home", ID := "" }])) ∧
    (∀ err n, handlers.LookupFails GetMovieByID err id n → ∀ fuel, n < fuel →
      handlers.getParentMoviePath GetMovieByID fuel id =
        some (.error (GoError.New ("get movie by id error: " ++ vendoremby.errorText err)))) := by
  refine ⟨?_, ?_, ?_⟩
  · intro chain hch
    obtain ⟨l1, l2, l3⟩ := handlers.ParentChain_links GetMovieByID hID hch
    refine ⟨?_, ?_, ?_, ?_⟩
    · intro fuel hf
      unfold handlers.getParentMoviePath
      rw [handlers.getParentMoviePathLoop_chain GetMovieByID hch fuel [] hf]
      simp
    · intro p hp
      refine ⟨l1 p hp, ?_⟩
      cases chain with
      | nil => simp at hp
      | cons q chain =>
        simp only [List.head?_cons, Option.some.injEq] at hp
        simp [hp]
    · rw [List.chain'_reverse]
      exact l2
    · intro p hp
      rw [List.head?_reverse] at hp
      exact l3 p hp
  · intro fuel hf
    cases fuel with
    | zero => omega
    | succ fuel => simp [handlers.getParentMoviePath, handlers.getParentMoviePathLoop]
  · intro err n hfail fuel hf
    unfold handlers.getParentMoviePath
    rw [handlers.getParentMoviePathLoop_fails GetMovieByID hfail fuel [] hf]

theorem Scenario.getFolder_ID : ∀ id p, Scenario.getFolder id = .ok p → p.ID = id := by
  intro id p h
  unfold Scenario.getFolder at h
  split_ifs at h with h1 h2 h3 h4 h5 h6 <;> cases h <;> simp [Scenario.folder, *]

theorem Scenario.getFolder_chain :
    handlers.ParentChain Scenario.getFolder "f3"
      [Scenario.folder "f3" "Extras" "f2", Scenario.folder "f2" "Season 1" "f1",
        Scenario.folder "f1" "Series" ""] :=
  handlers.ParentChain.folder (by decide) (by rfl)
    (handlers.ParentChain.folder (by decide) (by rfl)
      (handlers.ParentChain.folder (by decide) (by rfl) handlers.ParentChain.home))

/-- Witness for C30: the folder `f3` in `f2` in `f1`; its path is Home,
Series, Season 1, Extras. -/
theorem handlers.getParentMoviePath_spec_witness :
    (∀ id p, Scenario.getFolder id = .ok p → p.ID = id) ∧
    handlers.ParentChain Scenario.getFolder "f3"
      [Scenario.folder "f3" "Extras" "f2", Scenario.folder "f2" "Season 1" "f1",
        Scenario.folder "f1" "Series" ""] ∧
    handlers.getParentMoviePath Scenario.getFolder 4 "f3" =
      some (.ok [{ Name := "Home", ID := "" }, { Name := "Series", ID := "f1" },
        { Name := "Season 1", ID := "f2" }, { Name := "Extras", ID := "f3" }]) :=
  ⟨Scenario.getFolder_ID, Scenario.getFolder_chain,
   ((handlers.getParentMoviePath_spec Scenario.getFolder Scenario.getFolder_ID "f3").1 _
      Scenario.getFolder_chain).1 4 (by decide)⟩

/-- An ancestor that is missing: the parent `f4` of `f5` is not in the room,
and the call returns the error of the lookup. On the folders `c1` and `c2`,
each the parent of the other, the loop has not ended after 1000 iterations. -/
theorem handlers.getParentMoviePath_examples :
    handlers.getParentMoviePath Scenario.getFolder 3 "f5" =
      some (.error (GoError.New "get movie by id error: movie not found")) ∧
    (handlers.getParentMoviePath Scenario.getFolder 1000 "c1").isNone = true := by
  constructor
  · rfl
  · decide

/-! ## Movie listing -/

theorem handlers.listEntry_stored (userID : String) (GetUserName : String → String)
    (v : model.Movie) : (handlers.listEntry userID GetUserName v).2 = v := by
  unfold handlers.listEntry
  split_ifs <;> rfl

theorem handlers.moviesFolder_ne_ok {R : Type} (id : String) (page _max : Int)
    (GetMovieByID : String → Except GoError model.Movie)
    (IsFolder IsDynamicFolder : model.Movie → Bool)
    (listVendorDynamicMovie : model.Movie → Int → Int → Except GoError R) (total : Int)
    (movies : List servermodel.Movie) (paths : List model.MoviePath) :
    handlers.moviesFolder id page _max GetMovieByID IsFolder IsDynamicFolder
      listVendorDynamicMovie ≠ some (handlers.MoviesResult.ok total movies paths) := by
  unfold handlers.moviesFolder
  intro h
  split_ifs at h with h1
  cases hg : GetMovieByID id with
  | error err => rw [hg] at h; simp at h
  | ok mv =>
    rw [hg] at h
    simp only at h
    split_ifs at h with h5 h6
    · simp at h
    · cases hl : listVendorDynamicMovie mv page _max with
      | error err => rw [hl] at h; simp at h
      | ok resp => rw [hl] at h; simp at h

theorem handlers.Movies_ok {R : Type} (hasPermission : Bool) (userID id : String)
    (pageAndMax : Except GoError (Int × Int))
    (GetMovieByID : String → Except GoError model.Movie)
    (IsFolder IsDynamicFolder : model.Movie → Bool)
    (listVendorDynamicMovie : model.Movie → Int → Int → Except GoError R)
    (GetRoomMoviesWithPage : Int → Int → String → Except GoError (List model.Movie × Int))
    (GetUserName : String → String) (fuel : Nat) (total : Int)
    (movies : List servermodel.Movie) (paths : List model.MoviePath)
    (stored : Option (List model.Movie))
    (h : handlers.Movies hasPermission userID id pageAndMax GetMovieByID IsFolder
      IsDynamicFolder listVendorDynamicMovie GetRoomMoviesWithPage GetUserName fuel =
        some (handlers.MoviesResult.ok total movies paths, stored)) :
    ∃ page _max m, pageAndMax = .ok (page, _max) ∧
      GetRoomMoviesWithPage page _max id = .ok (m, total) ∧
      movies = m.map (fun v => (handlers.listEntry userID GetUserName v).1) ∧
      stored = some m := by
  unfold handlers.Movies at h
  split_ifs at h with h1 h2
  · simp at h
  · simp at h
  · cases hp : pageAndMax with
      | error err => rw [hp] at h; simp at h
      | ok pm =>
        obtain ⟨page, _max⟩ := pm
        rw [hp] at h
        simp only at h
        cases hf : handlers.moviesFolder id page _max GetMovieByID IsFolder IsDynamicFolder
            listVendorDynamicMovie with
        | some res =>
          rw [hf] at h
          simp only [Option.some.injEq, Prod.mk.injEq] at h
          rw [h.1] at hf
          exact absurd hf (handlers.moviesFolder_ne_ok _ _ _ _ _ _ _ _ _ _)
        | none =>
          rw [hf] at h
          simp only at h
          cases hm : GetRoomMoviesWithPage page _max id with
          | error err => rw [hm] at h; simp at h
          | ok mt =>
            obtain ⟨m, t⟩ := mt
            rw [hm] at h
            simp only at h
            cases hpath : handlers.getParentMoviePath GetMovieByID fuel id with
            | none => rw [hpath] at h; simp at h
            | some r =>
              cases r with
              | error err => rw [hpath] at h; simp at h
              | ok ps =>
                rw [hpath] at h
                simp only [Option.some.injEq, Prod.mk.injEq, handlers.MoviesResult.ok.injEq] at h
                obtain ⟨⟨ht, hmv, _⟩, hst⟩ := h
                refine ⟨page, _max, m, rfl, ?_, hmv.symm, ?_⟩
                · rw [← ht]; exact hm
                · rw [← hst]
                  simp [handlers.listEntry_stored]

/-- C29: in the listing of `Movies`, the entry of a movie with Proxy = true
that the requesting user did not create has an empty URL and no headers, and
is otherwise the stored movie's entry, so two stored movies that differ only
in URL and headers give the same entry; the entry of a movie that is not
proxied, or that the user created, carries the stored URL and headers
unchanged; the stored movies are as they were. -/
theorem handlers.Movies_hides_proxied {R : Type} (hasPermission : Bool) (userID id : String)
    (pageAndMax : Except GoError (Int × Int))
    (GetMovieByID : String → Except GoError model.Movie)
    (IsFolder IsDynamicFolder : model.Movie → Bool)
    (listVendorDynamicMovie : model.Movie → Int → Int → Except GoError R)
    (GetRoomMoviesWithPage : Int → Int → String → Except GoError (List model.Movie × Int))
    (GetUserName : String → String) (fuel : Nat) (total : Int)
    (movies : List servermodel.Movie) (paths : List model.MoviePath)
    (stored : Option (List model.Movie))
    (h : handlers.Movies hasPermission userID id pageAndMax GetMovieByID IsFolder
      IsDynamicFolder listVendorDynamicMovie GetRoomMoviesWithPage GetUserName fuel =
        some (handlers.MoviesResult.ok total movies paths, stored)) :
    ∃ page _max m, pageAndMax = .ok (page, _max) ∧
      GetRoomMoviesWithPage page _max id = .ok (m, total) ∧
      stored = some m ∧
      movies = m.map (fun v => (handlers.listEntry userID GetUserName v).1) ∧
      (∀ v, userID ≠ v.CreatorID → v.Proxy = true →
        (handlers.listEntry userID GetUserName v).1 =
          { ID := v.ID, CreatedAt := v.CreatedAt,
            Base := { v.MovieBase with URL := "", Headers := [] },
            Creator := GetUserName v.CreatorID, CreatorID := v.CreatorID }) ∧
      (∀ v url headers, userID ≠ v.CreatorID → v.Proxy = true →
        (handlers.listEntry userID GetUserName { v with URL := url, Headers := headers }).1 =
          (handlers.listEntry userID GetUserName v).1) ∧
      (∀ v, (userID = v.CreatorID ∨ v.Proxy = false) →
        (handlers.listEntry userID GetUserName v).1 =
          { ID := v.ID, CreatedAt := v.CreatedAt, Base := v.MovieBase,
            Creator := GetUserName v.CreatorID, CreatorID := v.CreatorID }) := by
  obtain ⟨page, _max, m, e1, e2, e3, e4⟩ := handlers.Movies_ok hasPermission userID id
    pageAndMax GetMovieByID IsFolder IsDynamicFolder listVendorDynamicMovie
    GetRoomMoviesWithPage GetUserName fuel total movies paths stored h
  refine ⟨page, _max, m, e1, e2, e4, e3, ?_, ?_, ?_⟩
  · intro v hu hp
    simp [handlers.listEntry, hu, hp]
  · intro v url headers hu hp
    simp [handlers.listEntry, hu, hp, model.Movie.MovieBase]
  · intro v hv
    unfold handlers.listEntry
    rcases hv with hv | hv
    · simp [hv]
    · simp [hv]

/-- Witness for C29: user `ub` lists the room's movies, the proxied movie `M`
of user `ua` and a movie that is not proxied; the entry of `M` has no URL and
no headers, that of the other movie has both. -/
theorem handlers.Movies_hides_proxied_witness :
    handlers.Movies (R := Unit) true "ub" "" (.ok (1, 10)) Scenario.getFolder
        (fun _ => true) (fun _ => false) (fun _ _ _ => .ok ()) Scenario.roomMovies
        (fun id => "name of " ++ id) 1 =
      some (handlers.MoviesResult.ok 2
        [{ ID := "M", CreatedAt := 0,
           Base := { Scenario.movieProxied.MovieBase with URL := "", Headers := [] },
           Creator := "name of ua", CreatorID := "ua" },
         { ID := "D", CreatedAt := 0, Base := Scenario.movieDirect.MovieBase,
           Creator := "name of ua", CreatorID := "ua" }]
        [{ Name := "Home", ID := "" }],
        some [Scenario.movieProxied, Scenario.movieDirect]) ∧
    ∃ page _max m, (Except.ok (1, 10) : Except GoError (Int × Int)) = .ok (page, _max) ∧
      Scenario.roomMovies page _max "" = .ok (m, 2) ∧
      some [Scenario.movieProxied, Scenario.movieDirect] = some m ∧
      [{ ID := "M", CreatedAt := 0,
           Base := { Scenario.movieProxied.MovieBase with URL := "", Headers := [] },
           Creator := "name of ua", CreatorID := "ua" },
         { ID := "D", CreatedAt := 0, Base := Scenario.movieDirect.MovieBase,
           Creator := "name of ua", CreatorID := "ua" }] =
        m.map (fun v => (handlers.listEntry "ub" (fun id => "name of " ++ id) v).1) ∧
      (∀ v, "ub" ≠ v.CreatorID → v.Proxy = true →
        (handlers.listEntry "ub" (fun id => "name of " ++ id) v).1 =
          { ID := v.ID, CreatedAt := v.CreatedAt,
            Base := { v.MovieBase with URL := "", Headers := [] },
            Creator := "name of " ++ v.CreatorID, CreatorID := v.CreatorID }) ∧
      (∀ v url headers, "ub" ≠ v.CreatorID → v.Proxy = true →
        (handlers.listEntry "ub" (fun id => "name of " ++ id)
            { v with URL := url, Headers := headers }).1 =
          (handlers.listEntry "ub" (fun id => "name of " ++ id) v).1) ∧
      (∀ v, ("ub" = v.CreatorID ∨ v.Proxy = false) →
        (handlers.listEntry "ub" (fun id => "name of " ++ id) v).1 =
          { ID := v.ID, CreatedAt := v.CreatedAt, Base := v.MovieBase,
            Creator := "name of " ++ v.CreatorID, CreatorID := v.CreatorID }) :=
  ⟨by rfl,
   handlers.Movies_hides_proxied (R := Unit) true "ub" "" (.ok (1, 10)) Scenario.getFolder
     (fun _ => true) (fun _ => false) (fun _ _ _ => .ok ()) Scenario.roomMovies
     (fun id => "name of " ++ id) 1 2 _ _ _ (by rfl)⟩

/-- Two stored movies that differ only in URL and headers: user `ub` sees the
same entry for both, the creator `ua` sees the URL and the headers of each. -/
theorem handlers.listEntry_examples :
    (handlers.listEntry "ub" id Scenario.movieProxied).1 =
      (handlers.listEntry "ub" id Scenario.movieProxiedOther).1 ∧
    (handlers.listEntry "ua" id Scenario.movieProxiedOther).1.Base.URL =
      "https://other.example/secret.mp4" ∧
    (handlers.listEntry "ua" id Scenario.movieProxiedOther).1.Base.Headers =
      [("Authorization", "Bearer s3cr3t")] ∧
    (handlers.listEntry "ub" id Scenario.movieProxiedOther).2 = Scenario.movieProxiedOther := by
  decide

/-! ## Enabling and disabling vendor backends -/

theorem vendor.set_same {α : Type} (l : List α) (i : Nat) (a : α) (h : l[i]? = some a) :
    l.set i a = l := by
  apply List.ext_getElem?
  intro j
  by_cases hj : i = j
  · subst hj
    have hi : i < l.length := by
      by_contra hc
      rw [List.getElem?_eq_none (Nat.le_of_not_lt hc)] at h
      cases h
    rw [List.getElem?_set_self hi, h]
  · rw [List.getElem?_set_ne hj]

theorem vendor.lt_length_of_getElem? {α : Type} {l : List α} {i : Nat} {a : α} (h : l[i]? = some a) :
    i < l.length := by
  by_contra hc
  rw [List.getElem?_eq_none (Nat.le_of_not_lt hc)] at h
  cases h

theorem vendor.Memory.setEnabled_restore (s : vendor.Memory) (p : Nat) (b : Bool)
    (info : model.VendorBackend) (h : s.infos[p]? = some info)
    (hb : info.UsedBy.Enabled = !b) : (s.setEnabled p b).setEnabled p (!b) = s := by
  have hlt : p < s.infos.length := vendor.lt_length_of_getElem? h
  have e1 : s.setEnabled p b =
      { s with infos := s.infos.set p { info with UsedBy := { info.UsedBy with Enabled := b } } } := by
    simp only [vendor.Memory.setEnabled, h]
  rw [e1]
  simp only [vendor.Memory.setEnabled, List.getElem?_set_self hlt, List.set_set]
  have e2 : ({ info with UsedBy := { info.UsedBy with Enabled := !b } } : model.VendorBackend) =
      info := by
    cases info with
    | mk bk ub =>
      cases ub
      simp only at hb
      simp [hb]
  rw [e2, vendor.set_same _ _ _ h]

/-- The flag of a call that returns an error: `switchVendorBackend` leaves the
memory as it was. -/
theorem vendor.switchVendorBackend_error (enable : Bool) (env : vendor.Env)
    (dbErr : Option GoError) (endpoint : String) (s : vendor.Memory) (err : GoError)
    (h : (vendor.switchVendorBackend enable env dbErr endpoint s).1 = vendor.Outcome.error err) :
    (vendor.switchVendorBackend enable env dbErr endpoint s).2 = s := by
  unfold vendor.switchVendorBackend at h ⊢
  by_cases hl : s.locked = true
  · simp [hl]
  · simp only [hl, if_false] at h ⊢
    cases hm : s.maps[s.backends.conns]? with
    | none => simp
    | some raw =>
      simp only [hm] at h ⊢
      cases hv : gomap.Load raw endpoint with
      | none => simp
      | some v =>
        simp only [hv] at h ⊢
        cases hi : s.infos[v.Info]? with
        | none => simp
        | some info =>
          simp only [hi] at h ⊢
          by_cases he : info.UsedBy.Enabled = enable
          · simp [he]
          · have hb : info.UsedBy.Enabled = !enable := by
              cases hx : info.UsedBy.Enabled <;> cases enable <;> simp_all
            simp only [he, if_false] at h ⊢
            cases hc : vendor.newVendorClients env (s.setEnabled v.Info enable) raw with
            | none => rw [hc] at h; simp at h
            | some r =>
              cases r with
              | error e =>
                simp only
                exact vendor.Memory.setEnabled_restore s v.Info enable info hi hb
              | ok vc =>
                rw [hc] at h
                simp only at h ⊢
                cases dbErr with
                | none => simp at h
                | some e =>
                  simp only
                  exact vendor.Memory.setEnabled_restore s v.Info enable info hi hb

theorem vendor.switchVendorBackend_same (enable : Bool) (env : vendor.Env)
    (dbErr : Option GoError) (endpoint : String) (s : vendor.Memory)
    (raw : gomap.Map vendor.BackendConn) (v : vendor.BackendConn) (info : model.VendorBackend)
    (hl : s.locked = false) (hm : s.maps[s.backends.conns]? = some raw)
    (hv : gomap.Load raw endpoint = some v) (hi : s.infos[v.Info]? = some info)
    (he : info.UsedBy.Enabled = enable) :
    vendor.switchVendorBackend enable env dbErr endpoint s = (vendor.Outcome.ok, s) := by
  simp [vendor.switchVendorBackend, hl, hm, hv, hi, he]

theorem vendor.withEnabled_withEnabled (b c : Bool) (info : model.VendorBackend) :
    vendor.withEnabled c (vendor.withEnabled b info) = vendor.withEnabled c info := rfl

theorem vendor.withEnabled_self (b : Bool) (info : model.VendorBackend)
    (h : info.UsedBy.Enabled = b) : vendor.withEnabled b info = info := by
  cases info with
  | mk bk ub =>
    cases ub
    simp only at h
    simp [vendor.withEnabled, h]

theorem vendor.Memory.setEnabled_infos (s : vendor.Memory) (p : Nat) (b : Bool) (i : Nat) :
    (s.setEnabled p b).infos[i]? =
      if i = p then (s.infos[i]?).map (vendor.withEnabled b) else s.infos[i]? := by
  unfold vendor.Memory.setEnabled
  cases h : s.infos[p]? with
  | none =>
    simp only
    split_ifs with hi
    · rw [hi, h]; rfl
    · rfl
  | some info =>
    simp only
    split_ifs with hi
    · subst hi
      rw [List.getElem?_set_self (vendor.lt_length_of_getElem? h), h]
      rfl
    · rw [List.getElem?_set_ne (fun e => hi e.symm)]

theorem vendor.Memory.setEnabled_fields (s : vendor.Memory) (p : Nat) (b : Bool) :
    (s.setEnabled p b).maps = s.maps ∧ (s.setEnabled p b).closed = s.closed ∧
      (s.setEnabled p b).backends = s.backends ∧ (s.setEnabled p b).locked = s.locked := by
  unfold vendor.Memory.setEnabled
  cases s.infos[p]? <;> simp

theorem vendor.setEnabledAll_fields (raw : gomap.Map vendor.BackendConn) (b : Bool) :
    ∀ (need : List String) (s : vendor.Memory),
      (vendor.setEnabledAll raw b need s).maps = s.maps ∧
      (vendor.setEnabledAll raw b need s).closed = s.closed ∧
      (vendor.setEnabledAll raw b need s).backends = s.backends ∧
      (vendor.setEnabledAll raw b need s).locked = s.locked := by
  intro need
  induction need with
  | nil => intro s; simp [vendor.setEnabledAll]
  | cons e need ih =>
    intro s
    unfold vendor.setEnabledAll
    cases hv : gomap.Load raw e with
    | none => exact ih s
    | some v =>
      simp only
      obtain ⟨a1, a2, a3, a4⟩ := ih (s.setEnabled v.Info b)
      obtain ⟨b1, b2, b3, b4⟩ := vendor.Memory.setEnabled_fields s v.Info b
      exact ⟨a1.trans b1, a2.trans b2, a3.trans b3, a4.trans b4⟩

theorem vendor.setEnabledAll_infos (raw : gomap.Map vendor.BackendConn) (b : Bool) :
    ∀ (need : List String) (s : vendor.Memory) (i : Nat),
      (vendor.setEnabledAll raw b need s).infos[i]? =
        if i ∈ vendor.infoAddrs raw need then (s.infos[i]?).map (vendor.withEnabled b)
        else s.infos[i]? := by
  intro need
  induction need with
  | nil => intro s i; simp [vendor.setEnabledAll, vendor.infoAddrs]
  | cons e need ih =>
    intro s i
    unfold vendor.setEnabledAll
    cases hv : gomap.Load raw e with
    | none =>
      simp only
      rw [ih s i]
      simp [vendor.infoAddrs, hv]
    | some v =>
      simp only
      rw [ih (s.setEnabled v.Info b) i, vendor.Memory.setEnabled_infos]
      have hA : vendor.infoAddrs raw (e :: need) = v.Info :: vendor.infoAddrs raw need := by
        simp [vendor.infoAddrs, hv]
      rw [hA]
      by_cases h1 : i = v.Info <;> by_cases h2 : i ∈ vendor.infoAddrs raw need
      · subst h1
        simp [h2, Option.map_map, Function.comp_def, vendor.withEnabled_withEnabled]
      · subst h1
        simp [h2]
      · simp [h1, h2]
      · simp [h1, h2]

theorem vendor.Memory.ext_infos (s s1 : vendor.Memory) (h1 : s1.infos = s.infos)
    (h2 : s1.maps = s.maps) (h3 : s1.closed = s.closed) (h4 : s1.backends = s.backends)
    (h5 : s1.locked = s.locked) : s1 = s := by
  cases s
  cases s1
  simp only at h1 h2 h3 h4 h5
  simp [h1, h2, h3, h4, h5]

theorem vendor.setEnabledAll_restore (raw : gomap.Map vendor.BackendConn) (b : Bool)
    (need : List String) (s : vendor.Memory)
    (hneed : ∀ i, i ∈ vendor.infoAddrs raw need →
      ∀ info, s.infos[i]? = some info → info.UsedBy.Enabled = !b) :
    vendor.setEnabledAll raw (!b) need (vendor.setEnabledAll raw b need s) = s := by
  obtain ⟨a1, a2, a3, a4⟩ := vendor.setEnabledAll_fields raw b need s
  obtain ⟨b1, b2, b3, b4⟩ := vendor.setEnabledAll_fields raw (!b) need
    (vendor.setEnabledAll raw b need s)
  refine vendor.Memory.ext_infos _ _ ?_ (b1.trans a1) (b2.trans a2) (b3.trans a3)
    (b4.trans a4)
  apply List.ext_getElem?
  intro i
  rw [vendor.setEnabledAll_infos, vendor.setEnabledAll_infos]
  by_cases hi : i ∈ vendor.infoAddrs raw need
  · simp only [hi, if_true, Option.map_map]
    cases hx : s.infos[i]? with
    | none => rfl
    | some info =>
      simp only [Option.map_some', Function.comp_apply, vendor.withEnabled_withEnabled]
      rw [vendor.withEnabled_self _ _ (hneed i hi info hx)]
  · simp [hi]

theorem vendor.needChangeEndpoints_spec (enable : Bool) (infos : List model.VendorBackend)
    (raw : gomap.Map vendor.BackendConn) :
    ∀ (endpoints need0 need : List String),
      vendor.needChangeEndpoints enable infos raw endpoints need0 = .ok need →
      (∀ i, i ∈ vendor.infoAddrs raw need0 →
        ∀ info, infos[i]? = some info → info.UsedBy.Enabled = !enable) →
      ∀ i, i ∈ vendor.infoAddrs raw need →
        ∀ info, infos[i]? = some info → info.UsedBy.Enabled = !enable := by
  intro endpoints
  induction endpoints with
  | nil =>
    intro need0 need h h0
    simp only [vendor.needChangeEndpoints, Except.ok.injEq] at h
    rw [← h]
    exact h0
  | cons e endpoints ih =>
    intro need0 need h h0
    unfold vendor.needChangeEndpoints at h
    cases hv : gomap.Load raw e with
    | none => rw [hv] at h; simp at h
    | some v =>
      rw [hv] at h
      simp only at h
      cases hi : infos[v.Info]? with
      | none => rw [hi] at h; simp at h
      | some info =>
        rw [hi] at h
        simp only at h
        by_cases he : info.UsedBy.Enabled = enable
        · rw [if_pos he] at h
          exact ih need0 need h h0
        · rw [if_neg he] at h
          refine ih (need0 ++ [e]) need h ?_
          intro i hmem info1 hinfo1
          have hA : vendor.infoAddrs raw (need0 ++ [e]) =
              vendor.infoAddrs raw need0 ++ [v.Info] := by
            simp [vendor.infoAddrs, hv, List.filterMap_append]
          rw [hA, List.mem_append, List.mem_singleton] at hmem
          rcases hmem with hmem | hmem
          · exact h0 i hmem info1 hinfo1
          · subst hmem
            rw [hi] at hinfo1
            cases hinfo1
            cases hx : info.UsedBy.Enabled <;> cases enable <;> simp_all

theorem vendor.needChangeEndpoints_nil (enable : Bool) (infos : List model.VendorBackend)
    (raw : gomap.Map vendor.BackendConn) :
    ∀ (endpoints need0 : List String),
      (∀ e, e ∈ endpoints → ∃ v info, gomap.Load raw e = some v ∧
        infos[v.Info]? = some info ∧ info.UsedBy.Enabled = enable) →
      vendor.needChangeEndpoints enable infos raw endpoints need0 = .ok need0 := by
  intro endpoints
  induction endpoints with
  | nil => intro need0 _; rfl
  | cons e endpoints ih =>
    intro need0 h
    obtain ⟨v, info, hv, hi, he⟩ := h e (List.mem_cons_self _ _)
    unfold vendor.needChangeEndpoints
    simp only [hv, hi, he, if_true]
    exact ih need0 (fun e1 h1 => h e1 (List.mem_cons_of_mem _ h1))

theorem vendor.switchVendorBackends_error (enable : Bool) (env : vendor.Env)
    (dbErr : Option GoError) (endpoints : List String) (s : vendor.Memory) (err : GoError)
    (h : (vendor.switchVendorBackends enable env dbErr endpoints s).1 =
      vendor.Outcome.error err) :
    (vendor.switchVendorBackends enable env dbErr endpoints s).2 = s := by
  unfold vendor.switchVendorBackends at h ⊢
  by_cases hl : s.locked = true
  · simp [hl]
  · simp only [hl, if_false] at h ⊢
    cases hm : s.maps[s.backends.conns]? with
    | none => simp
    | some raw =>
      simp only [hm] at h ⊢
      cases hn : vendor.needChangeEndpoints enable s.infos raw endpoints [] with
      | error out => simp
      | ok need =>
        have hneed := vendor.needChangeEndpoints_spec enable s.infos raw endpoints [] need hn
          (by intro i hi; simp [vendor.infoAddrs] at hi)
        have hrestore := vendor.setEnabledAll_restore raw enable need s hneed
        simp only [hn] at h ⊢
        cases hc : vendor.newVendorClients env (vendor.setEnabledAll raw enable need s) raw with
        | none => rw [hc] at h; simp at h
        | some r =>
          cases r with
          | error e => simp only; exact hrestore
          | ok vc =>
            rw [hc] at h
            simp only at h ⊢
            cases dbErr with
            | none => simp at h
            | some e => simp only; exact hrestore

theorem vendor.switchVendorBackends_infos (enable : Bool) (env : vendor.Env)
    (dbErr : Option GoError) (endpoints : List String) (s : vendor.Memory)
    (raw : gomap.Map vendor.BackendConn) (hm : s.maps[s.backends.conns]? = some raw)
    (hall : ∀ e, e ∈ endpoints → ∃ v info, gomap.Load raw e = some v ∧
      s.infos[v.Info]? = some info ∧ info.UsedBy.Enabled = enable) :
    (vendor.switchVendorBackends enable env dbErr endpoints s).2.infos = s.infos ∧
      (vendor.switchVendorBackends enable env dbErr endpoints s).2.maps = s.maps := by
  unfold vendor.switchVendorBackends
  by_cases hl : s.locked = true
  · simp [hl]
  · simp only [hl, if_false, hm,
      vendor.needChangeEndpoints_nil enable s.infos raw endpoints [] hall, vendor.setEnabledAll]
    cases vendor.newVendorClients env s raw with
    | none => simp
    | some r =>
      cases r with
      | error e => simp
      | ok vc => cases dbErr <;> simp [vendor.Memory.storeBackends]

theorem vendor.needChangeEndpoints_error (enable : Bool) (infos : List model.VendorBackend)
    (raw : gomap.Map vendor.BackendConn) :
    ∀ (endpoints need0 : List String) (out : vendor.Outcome),
      vendor.needChangeEndpoints enable infos raw endpoints need0 = .error out →
      out ≠ vendor.Outcome.ok := by
  intro endpoints
  induction endpoints with
  | nil => intro need0 out h; simp [vendor.needChangeEndpoints] at h
  | cons e endpoints ih =>
    intro need0 out h
    unfold vendor.needChangeEndpoints at h
    cases hv : gomap.Load raw e with
    | none =>
      rw [hv] at h
      simp only [Except.error.injEq] at h
      rw [← h]
      simp
    | some v =>
      rw [hv] at h
      simp only at h
      cases hi : infos[v.Info]? with
      | none =>
        rw [hi] at h
        simp only [Except.error.injEq] at h
        rw [← h]
        simp
      | some info =>
        rw [hi] at h
        simp only at h
        by_cases he : info.UsedBy.Enabled = enable
        · rw [if_pos he] at h
          exact ih need0 out h
        · rw [if_neg he] at h
          exact ih (need0 ++ [e]) out h

theorem vendor.Memory.setEnabled_length (s : vendor.Memory) (p : Nat) (b : Bool) :
    (s.setEnabled p b).infos.length = s.infos.length := by
  unfold vendor.Memory.setEnabled
  cases s.infos[p]? <;> simp

theorem vendor.setEnabledAll_length (raw : gomap.Map vendor.BackendConn) (b : Bool) :
    ∀ (need : List String) (s : vendor.Memory),
      (vendor.setEnabledAll raw b need s).infos.length = s.infos.length := by
  intro need
  induction need with
  | nil => intro s; rfl
  | cons e need ih =>
    intro s
    unfold vendor.setEnabledAll
    cases hv : gomap.Load raw e with
    | none => exact ih s
    | some v =>
      simp only
      rw [ih, vendor.Memory.setEnabled_length]

theorem vendor.switchVendorBackends_republish (enable : Bool) (env : vendor.Env)
    (dbErr : Option GoError) (endpoints : List String) (s : vendor.Memory)
    (raw : gomap.Map vendor.BackendConn) (hl : s.locked = false)
    (hm : s.maps[s.backends.conns]? = some raw)
    (hall : ∀ e, e ∈ endpoints → ∃ v info, gomap.Load raw e = some v ∧
      s.infos[v.Info]? = some info ∧ info.UsedBy.Enabled = enable) :
    vendor.switchVendorBackends enable env dbErr endpoints s =
      vendor.republish env dbErr raw s := by
  unfold vendor.switchVendorBackends vendor.republish
  simp only [hl, Bool.false_eq_true, if_false, hm,
    vendor.needChangeEndpoints_nil enable s.infos raw endpoints [] hall, vendor.setEnabledAll]

theorem vendor.needChangeEndpoints_mem (enable : Bool) (infos : List model.VendorBackend)
    (raw : gomap.Map vendor.BackendConn) :
    ∀ (endpoints need0 need : List String),
      vendor.needChangeEndpoints enable infos raw endpoints need0 = .ok need →
      (∀ e, e ∈ endpoints → ∃ v info, gomap.Load raw e = some v ∧ infos[v.Info]? = some info ∧
        (info.UsedBy.Enabled ≠ enable → e ∈ need)) ∧
      (∀ e, e ∈ need → e ∈ need0 ∨ e ∈ endpoints) ∧
      (∀ e, e ∈ need0 → e ∈ need) := by
  intro endpoints
  induction endpoints with
  | nil =>
    intro need0 need h
    simp only [vendor.needChangeEndpoints, Except.ok.injEq] at h
    subst h
    exact ⟨fun e he => absurd he (List.not_mem_nil e), fun e he => Or.inl he, fun e he => he⟩
  | cons e endpoints ih =>
    intro need0 need h
    unfold vendor.needChangeEndpoints at h
    cases hv : gomap.Load raw e with
    | none => rw [hv] at h; simp at h
    | some v =>
      rw [hv] at h
      simp only at h
      cases hi : infos[v.Info]? with
      | none => rw [hi] at h; simp at h
      | some info =>
        rw [hi] at h
        simp only at h
        by_cases he : info.UsedBy.Enabled = enable
        · rw [if_pos he] at h
          obtain ⟨a1, a2, a3⟩ := ih need0 need h
          refine ⟨?_, ?_, a3⟩
          · intro e1 he1
            rcases List.mem_cons.1 he1 with h1 | h1
            · subst h1
              exact ⟨v, info, hv, hi, fun hne => absurd he hne⟩
            · exact a1 e1 h1
          · intro e1 he1
            rcases a2 e1 he1 with h1 | h1
            · exact Or.inl h1
            · exact Or.inr (List.mem_cons_of_mem _ h1)
        · rw [if_neg he] at h
          obtain ⟨a1, a2, a3⟩ := ih (need0 ++ [e]) need h
          refine ⟨?_, ?_, fun e1 he1 => a3 e1 (List.mem_append_left _ he1)⟩
          · intro e1 he1
            rcases List.mem_cons.1 he1 with h1 | h1
            · subst h1
              exact ⟨v, info, hv, hi, fun _ => a3 e1 (List.mem_append_right _ (List.mem_singleton_self _))⟩
            · exact a1 e1 h1
          · intro e1 he1
            rcases a2 e1 he1 with h1 | h1
            · rcases List.mem_append.1 h1 with h2 | h2
              · exact Or.inl h2
              · rw [List.mem_singleton] at h2
                subst h2
                exact Or.inr (List.mem_cons_self _ _)
            · exact Or.inr (List.mem_cons_of_mem _ h1)

theorem vendor.mem_infoAddrs (raw : gomap.Map vendor.BackendConn) (l : List String) (i : Nat) :
    i ∈ vendor.infoAddrs raw l ↔ ∃ e v, e ∈ l ∧ gomap.Load raw e = some v ∧ v.Info = i := by
  unfold vendor.infoAddrs
  rw [List.mem_filterMap]
  constructor
  · rintro ⟨e, he, h⟩
    cases hv : gomap.Load raw e with
    | none => rw [hv] at h; simp at h
    | some v =>
      rw [hv] at h
      simp only [Option.map_some', Option.some.injEq] at h
      exact ⟨e, v, he, hv, h⟩
  · rintro ⟨e, v, he, hv, h⟩
    exact ⟨e, he, by rw [hv]; simp [h]⟩

theorem vendor.switchVendorBackends_publishes (enable : Bool) (env : vendor.Env)
    (dbErr : Option GoError) (endpoints : List String) (s : vendor.Memory) :
    (vendor.switchVendorBackends enable env dbErr endpoints s).1 = vendor.Outcome.ok →
    vendor.SwitchedAllAndPublished env enable endpoints s
      (vendor.switchVendorBackends enable env dbErr endpoints s) := by
  intro hok
  unfold vendor.switchVendorBackends at hok ⊢
  by_cases hl : s.locked = true
  · rw [if_pos hl] at hok; simp at hok
  · rw [if_neg hl] at hok ⊢
    cases hm : s.maps[s.backends.conns]? with
    | none => rw [hm] at hok; simp at hok
    | some raw =>
      rw [hm] at hok
      simp only at hok ⊢
      cases hn : vendor.needChangeEndpoints enable s.infos raw endpoints [] with
      | error out =>
        rw [hn] at hok
        simp only at hok
        exact absurd hok (vendor.needChangeEndpoints_error enable s.infos raw endpoints [] out hn)
      | ok need =>
        rw [hn] at hok
        simp only at hok ⊢
        obtain ⟨a1, a2, a3⟩ := vendor.needChangeEndpoints_mem enable s.infos raw endpoints [] need hn
        have hf := vendor.setEnabledAll_fields raw enable need s
        have hi := vendor.setEnabledAll_infos raw enable need s
        cases hc : vendor.newVendorClients env (vendor.setEnabledAll raw enable need s) raw with
        | none => rw [hc] at hok; simp at hok
        | some r =>
          rw [hc] at hok
          cases r with
          | error e => simp at hok
          | ok vc =>
            simp only at hok ⊢
            cases dbErr with
            | some e => simp at hok
            | none =>
              simp only [vendor.Memory.storeBackends]
              refine ⟨raw, hm, ?_, ?_, ?_, hf.1, hf.2.1, rfl, raw, ?_, hc⟩
              · intro e he
                obtain ⟨v, info, hv, hinfo, hin⟩ := a1 e he
                refine ⟨v, info, hv, hinfo, ?_⟩
                rw [hi v.Info]
                by_cases hmem : v.Info ∈ vendor.infoAddrs raw need
                · rw [if_pos hmem, hinfo]; rfl
                · rw [if_neg hmem, hinfo]
                  by_cases hen : info.UsedBy.Enabled = enable
                  · rw [vendor.withEnabled_self enable info hen]
                  · exact absurd ((vendor.mem_infoAddrs raw need v.Info).2 ⟨e, v, hin hen, hv, rfl⟩) hmem
              · intro i hni
                rw [hi i]
                have : i ∉ vendor.infoAddrs raw need := by
                  intro hmem
                  obtain ⟨e, v, he, hv, hvi⟩ := (vendor.mem_infoAddrs raw need i).1 hmem
                  rcases a2 e he with h1 | h1
                  · exact absurd h1 (List.not_mem_nil e)
                  · exact hni ((vendor.mem_infoAddrs raw endpoints i).2 ⟨e, v, h1, hv, hvi⟩)
                rw [if_neg this]
              · exact vendor.setEnabledAll_length raw enable need s
              · simp only [hf.1]
                exact hm

theorem vendor.republish_spec (env : vendor.Env) (dbErr : Option GoError)
    (raw : gomap.Map vendor.BackendConn) (s : vendor.Memory) :
    (vendor.republish env dbErr raw s).2.infos = s.infos ∧
      (vendor.republish env dbErr raw s).2.maps = s.maps ∧
      (vendor.republish env dbErr raw s).2.backends.conns = s.backends.conns ∧
      ((vendor.republish env dbErr raw s).1 ≠ vendor.Outcome.ok →
        (vendor.republish env dbErr raw s).2 = s) ∧
      ((vendor.republish env dbErr raw s).1 = vendor.Outcome.ok →
        dbErr = none ∧
        vendor.newVendorClients env s raw =
          some (.ok (vendor.republish env dbErr raw s).2.backends.clients)) := by
  unfold vendor.republish
  cases hc : vendor.newVendorClients env s raw with
  | none => simp
  | some r =>
    cases r with
    | error e => simp
    | ok vc => cases dbErr <;> simp [vendor.Memory.storeBackends]

/-- C28 (as amended): when `EnableVendorBackend`, `EnableVendorBackends`,
`DisableVendorBackend` or `DisableVendorBackends` returns an error (the lock
is held, an endpoint is unknown, the rebuilding of the clients fails, or the
persistence fails), the memory is the same as before the call: the Enabled
flag of every backend, the published map and the published clients.
`EnableVendorBackend` on an endpoint that is enabled, and
`DisableVendorBackend` on one that is disabled, returns nil and changes
nothing. The batch functions have no such return: when every listed endpoint
has the flag already they do what `republish` does, which writes no flag,
rebuilds the clients and takes the result of the persistence layer, returns
the error of either with the memory as before the call, and otherwise
publishes the same map again with the rebuilt clients and returns nil. -/
theorem vendor.enable_disable_atomic (env : vendor.Env) (dbErr : Option GoError)
    (endpoint : String) (endpoints : List String) (s : vendor.Memory) :
    (∀ err, (vendor.EnableVendorBackend env dbErr endpoint s).1 = vendor.Outcome.error err →
      (vendor.EnableVendorBackend env dbErr endpoint s).2 = s) ∧
    (∀ err, (vendor.EnableVendorBackends env dbErr endpoints s).1 = vendor.Outcome.error err →
      (vendor.EnableVendorBackends env dbErr endpoints s).2 = s) ∧
    (∀ err, (vendor.DisableVendorBackend env dbErr endpoint s).1 = vendor.Outcome.error err →
      (vendor.DisableVendorBackend env dbErr endpoint s).2 = s) ∧
    (∀ err, (vendor.DisableVendorBackends env dbErr endpoints s).1 = vendor.Outcome.error err →
      (vendor.DisableVendorBackends env dbErr endpoints s).2 = s) ∧
    (∀ raw v info, s.locked = false → s.maps[s.backends.conns]? = some raw →
      gomap.Load raw endpoint = some v → s.infos[v.Info]? = some info →
      (info.UsedBy.Enabled = true →
        vendor.EnableVendorBackend env dbErr endpoint s = (vendor.Outcome.ok, s)) ∧
      (info.UsedBy.Enabled = false →
        vendor.DisableVendorBackend env dbErr endpoint s = (vendor.Outcome.ok, s))) ∧
    (∀ raw, s.locked = false → s.maps[s.backends.conns]? = some raw →
      ((∀ e, e ∈ endpoints → ∃ v info, gomap.Load raw e = some v ∧
          s.infos[v.Info]? = some info ∧ info.UsedBy.Enabled = true) →
        vendor.EnableVendorBackends env dbErr endpoints s = vendor.republish env dbErr raw s) ∧
      ((∀ e, e ∈ endpoints → ∃ v info, gomap.Load raw e = some v ∧
          s.infos[v.Info]? = some info ∧ info.UsedBy.Enabled = false) →
        vendor.DisableVendorBackends env dbErr endpoints s =
          vendor.republish env dbErr raw s)) ∧
    (∀ raw, (vendor.republish env dbErr raw s).2.infos = s.infos ∧
      (vendor.republish env dbErr raw s).2.maps = s.maps ∧
      (vendor.republish env dbErr raw s).2.backends.conns = s.backends.conns ∧
      ((vendor.republish env dbErr raw s).1 ≠ vendor.Outcome.ok →
        (vendor.republish env dbErr raw s).2 = s) ∧
      ((vendor.republish env dbErr raw s).1 = vendor.Outcome.ok →
        dbErr = none ∧
        vendor.newVendorClients env s raw =
          some (.ok (vendor.republish env dbErr raw s).2.backends.clients))) := by
  refine ⟨?_, ?_, ?_, ?_, ?_, ?_, ?_⟩
  · intro err h
    exact vendor.switchVendorBackend_error true env dbErr endpoint s err h
  · intro err h
    exact vendor.switchVendorBackends_error true env dbErr endpoints s err h
  · intro err h
    exact vendor.switchVendorBackend_error false env dbErr endpoint s err h
  · intro err h
    exact vendor.switchVendorBackends_error false env dbErr endpoints s err h
  · intro raw v info hl hm hv hi
    exact ⟨fun he => vendor.switchVendorBackend_same true env dbErr endpoint s raw v info hl hm
        hv hi he,
      fun he => vendor.switchVendorBackend_same false env dbErr endpoint s raw v info hl hm hv
        hi he⟩
  · intro raw hl hm
    exact ⟨fun hall => vendor.switchVendorBackends_republish true env dbErr endpoints s raw hl hm
        hall,
      fun hall => vendor.switchVendorBackends_republish false env dbErr endpoints s raw hl hm
        hall⟩
  · intro raw
    exact vendor.republish_spec env dbErr raw s

/-- Witness for C28: both backends have the name `main`, so enabling `b2:80`
fails on the duplicate name when the clients are rebuilt; the memory is as
before the call. -/
theorem vendor.enable_disable_atomic_witness :
    (vendor.EnableVendorBackend Scenario.vendorEnv none "b2:80" Scenario.vendorMemoryClash).1 =
      vendor.Outcome.error (GoError.New "duplicate bilibili backend name: main") ∧
    (vendor.EnableVendorBackend Scenario.vendorEnv none "b2:80" Scenario.vendorMemoryClash).2 =
      Scenario.vendorMemoryClash :=
  ⟨by decide,
   (vendor.enable_disable_atomic Scenario.vendorEnv none "b2:80" [] Scenario.vendorMemoryClash).1
     (GoError.New "duplicate bilibili backend name: main") (by decide)⟩

/-- Counterexample to C28 as stated: `b1:80` is enabled and `b2:80` is
disabled, and the persistence layer fails. `EnableVendorBackends` on `b1:80`
and `DisableVendorBackends` on `b2:80` return the persistence error, not nil,
where the single-endpoint functions return nil on the same input. -/
theorem vendor.batch_switch_has_no_early_return :
    vendor.EnableVendorBackends Scenario.vendorEnv (some (GoError.New "db down")) ["b1:80"]
        Scenario.vendorMemory =
      (vendor.Outcome.error (GoError.New "db down"), Scenario.vendorMemory) ∧
    vendor.DisableVendorBackends Scenario.vendorEnv (some (GoError.New "db down")) ["b2:80"]
        Scenario.vendorMemory =
      (vendor.Outcome.error (GoError.New "db down"), Scenario.vendorMemory) ∧
    (vendor.EnableVendorBackends Scenario.vendorEnv (some (GoError.New "db down")) ["b1:80"]
        Scenario.vendorMemory).1 ≠ vendor.Outcome.ok ∧
    vendor.EnableVendorBackend Scenario.vendorEnv (some (GoError.New "db down")) "b1:80"
        Scenario.vendorMemory = (vendor.Outcome.ok, Scenario.vendorMemory) ∧
    vendor.DisableVendorBackend Scenario.vendorEnv (some (GoError.New "db down")) "b2:80"
        Scenario.vendorMemory = (vendor.Outcome.ok, Scenario.vendorMemory) := by
  refine ⟨by decide, by decide, by decide, by decide, by decide⟩

/-- The error cases of enabling and disabling on concrete memories: an
unknown endpoint, a failing persistence (single and batch), a held lock; and
the calls that have nothing to do. -/
theorem vendor.enable_disable_examples :
    vendor.EnableVendorBackend Scenario.vendorEnv none "b9:80" Scenario.vendorMemory =
      (vendor.Outcome.error (GoError.New "endpoint not found: b9:80"), Scenario.vendorMemory) ∧
    vendor.EnableVendorBackend Scenario.vendorEnv (some (GoError.New "db down")) "b2:80"
        Scenario.vendorMemory =
      (vendor.Outcome.error (GoError.New "db down"), Scenario.vendorMemory) ∧
    vendor.DisableVendorBackends Scenario.vendorEnv (some (GoError.New "db down"))
        ["b1:80", "b2:80"] Scenario.vendorMemory =
      (vendor.Outcome.error (GoError.New "db down"), Scenario.vendorMemory) ∧
    vendor.EnableVendorBackends Scenario.vendorEnv none ["b2:80", "b1:80"]
        Scenario.vendorMemoryClash =
      (vendor.Outcome.error (GoError.New "duplicate bilibili backend name: main"),
        Scenario.vendorMemoryClash) ∧
    vendor.DisableVendorBackend Scenario.vendorEnv none "b1:80"
        { Scenario.vendorMemory with locked := true } =
      (vendor.Outcome.error (GoError.New "vendor backend is updating"),
        { Scenario.vendorMemory with locked := true }) ∧
    vendor.EnableVendorBackend Scenario.vendorEnv none "b1:80" Scenario.vendorMemory =
      (vendor.Outcome.ok, Scenario.vendorMemory) ∧
    vendor.DisableVendorBackend Scenario.vendorEnv none "b2:80" Scenario.vendorMemory =
      (vendor.Outcome.ok, Scenario.vendorMemory) := by
  decide

/-! ## Publishing the vendor backends -/

theorem vendor.Memory.Preserved.of_append (s s1 : vendor.Memory)
    (x : List (gomap.Map vendor.BackendConn)) (y : List model.VendorBackend)
    (h1 : s1.maps = s.maps ++ x) (h2 : s1.infos = s.infos ++ y) :
    vendor.Memory.Preserved s s1 := by
  constructor
  · intro a m h
    rw [h1, List.getElem?_append_left (vendor.lt_length_of_getElem? h)]
    exact h
  · intro a info h
    rw [h2, List.getElem?_append_left (vendor.lt_length_of_getElem? h)]
    exact h

theorem vendor.Memory.Preserved.preserved_refl (s : vendor.Memory) : vendor.Memory.Preserved s s :=
  ⟨fun _ _ h => h, fun _ _ h => h⟩

theorem vendor.foldl_close_fields :
    ∀ (before : List Nat) (s : vendor.Memory),
      (before.foldl vendor.Memory.close s).maps = s.maps ∧
      (before.foldl vendor.Memory.close s).infos = s.infos ∧
      (before.foldl vendor.Memory.close s).backends = s.backends := by
  intro before
  induction before with
  | nil => intro s; simp
  | cons c before ih =>
    intro s
    rw [List.foldl_cons]
    obtain ⟨a1, a2, a3⟩ := ih (s.close c)
    exact ⟨a1, a2, a3⟩

theorem vendor.ClonesAndPublishes.same (s : vendor.Memory) (out : vendor.Outcome)
    (h : out ≠ vendor.Outcome.ok) : vendor.ClonesAndPublishes s (out, s) :=
  ⟨vendor.Memory.Preserved.preserved_refl s, fun e => absurd e h, fun _ => rfl⟩

theorem vendor.ClonesAndPublishes.failed (s s1 : vendor.Memory) (out : vendor.Outcome)
    (x : List (gomap.Map vendor.BackendConn)) (y : List model.VendorBackend)
    (h : out ≠ vendor.Outcome.ok) (h1 : s1.maps = s.maps ++ x) (h2 : s1.infos = s.infos ++ y)
    (h3 : s1.backends = s.backends) : vendor.ClonesAndPublishes s (out, s1) :=
  ⟨vendor.Memory.Preserved.of_append s s1 x y h1 h2, fun e => absurd e h, fun _ => h3⟩

theorem vendor.ClonesAndPublishes.published (s s1 : vendor.Memory)
    (m : gomap.Map vendor.BackendConn) (y : List model.VendorBackend)
    (h1 : s1.maps = s.maps ++ [m]) (h2 : s1.infos = s.infos ++ y)
    (h3 : s1.backends.conns = s.maps.length) :
    vendor.ClonesAndPublishes s (vendor.Outcome.ok, s1) := by
  refine ⟨vendor.Memory.Preserved.of_append s s1 [m] y h1 h2, fun _ => ⟨?_, m, ?_⟩,
    fun e => absurd rfl e⟩
  · simp only
    rw [h3]
    exact List.getElem?_eq_none (Nat.le_refl _)
  · simp only
    rw [h3, h1]
    simp

theorem vendor.AddVendorBackend_clones (env : vendor.Env) (dbErr : Option GoError)
    (backend : model.VendorBackend) (s : vendor.Memory) :
    vendor.ClonesAndPublishes s (vendor.AddVendorBackend env dbErr backend s) := by
  unfold vendor.AddVendorBackend
  by_cases hl : s.locked = true
  · rw [if_pos hl]
    exact vendor.ClonesAndPublishes.same s _ (by simp)
  · rw [if_neg hl]
    cases hm : s.maps[s.backends.conns]? with
    | none => exact vendor.ClonesAndPublishes.same s _ (by simp)
    | some raw =>
      simp only
      cases hv : gomap.Load raw backend.Backend.Endpoint with
      | some v => exact vendor.ClonesAndPublishes.same s _ (by simp)
      | none =>
        simp only
        cases hg : env.NewGrpcConn backend.Backend with
        | error err => exact vendor.ClonesAndPublishes.same s _ (by simp)
        | ok r =>
          obtain ⟨cc, conf⟩ := r
          simp only
          split
          · exact vendor.ClonesAndPublishes.failed s _ _ [_] [_] (by simp) rfl rfl rfl
          · exact vendor.ClonesAndPublishes.failed s _ _ [_] [_] (by simp) rfl rfl rfl
          · cases dbErr with
            | some err =>
              exact vendor.ClonesAndPublishes.failed s _ _ [_] [_] (by simp) rfl rfl rfl
            | none => exact vendor.ClonesAndPublishes.published s _ _ [_] rfl rfl rfl

theorem vendor.DeleteVendorBackend_clones (env : vendor.Env) (dbErr : Option GoError)
    (endpoint : String) (s : vendor.Memory) :
    vendor.ClonesAndPublishes s (vendor.DeleteVendorBackend env dbErr endpoint s) := by
  unfold vendor.DeleteVendorBackend
  by_cases hl : s.locked = true
  · rw [if_pos hl]
    exact vendor.ClonesAndPublishes.same s _ (by simp)
  · rw [if_neg hl]
    cases hm : s.maps[s.backends.conns]? with
    | none => exact vendor.ClonesAndPublishes.same s _ (by simp)
    | some raw =>
      simp only
      cases hv : gomap.Load raw endpoint with
      | none => exact vendor.ClonesAndPublishes.same s _ (by simp)
      | some before =>
        simp only
        split
        · exact vendor.ClonesAndPublishes.failed s _ _ [_] [] (by simp) rfl (by simp) rfl
        · exact vendor.ClonesAndPublishes.failed s _ _ [_] [] (by simp) rfl (by simp) rfl
        · cases dbErr with
          | some err =>
            exact vendor.ClonesAndPublishes.failed s _ _ [_] [] (by simp) rfl (by simp) rfl
          | none =>
            exact vendor.ClonesAndPublishes.published s _ _ [] rfl
              (by simp [vendor.Memory.close, vendor.Memory.storeBackends]) rfl

theorem vendor.DeleteVendorBackends_clones (env : vendor.Env) (dbErr : Option GoError)
    (endpoints : List String) (s : vendor.Memory) :
    vendor.ClonesAndPublishes s (vendor.DeleteVendorBackends env dbErr endpoints s) := by
  unfold vendor.DeleteVendorBackends
  by_cases hl : s.locked = true
  · rw [if_pos hl]
    exact vendor.ClonesAndPublishes.same s _ (by simp)
  · rw [if_neg hl]
    cases hm : s.maps[s.backends.conns]? with
    | none => exact vendor.ClonesAndPublishes.same s _ (by simp)
    | some raw =>
      simp only
      cases hd : vendor.deleteAll endpoints raw [] with
      | error r =>
        obtain ⟨err, m1⟩ := r
        exact vendor.ClonesAndPublishes.failed s _ _ [_] [] (by simp) rfl (by simp) rfl
      | ok r =>
        obtain ⟨m1, before⟩ := r
        simp only
        split
        · exact vendor.ClonesAndPublishes.failed s _ _ [_] [] (by simp) rfl (by simp) rfl
        · exact vendor.ClonesAndPublishes.failed s _ _ [_] [] (by simp) rfl (by simp) rfl
        · cases dbErr with
          | some err =>
            exact vendor.ClonesAndPublishes.failed s _ _ [_] [] (by simp) rfl (by simp) rfl
          | none =>
            obtain ⟨a1, a2, a3⟩ := vendor.foldl_close_fields before
              (vendor.Memory.storeBackends { s with maps := s.maps ++ [m1] } s.maps.length _)
            exact vendor.ClonesAndPublishes.published s _ m1 [] (by rw [a1]; rfl)
              (by rw [a2]; simp [vendor.Memory.storeBackends]) (by rw [a3]; rfl)

theorem vendor.UpdateVendorBackend_clones (env : vendor.Env) (dbErr : Option GoError)
    (backend : model.VendorBackend) (s : vendor.Memory) :
    vendor.ClonesAndPublishes s (vendor.UpdateVendorBackend env dbErr backend s) := by
  unfold vendor.UpdateVendorBackend
  by_cases hl : s.locked = true
  · rw [if_pos hl]
    exact vendor.ClonesAndPublishes.same s _ (by simp)
  · rw [if_neg hl]
    cases hm : s.maps[s.backends.conns]? with
    | none => exact vendor.ClonesAndPublishes.same s _ (by simp)
    | some raw =>
      simp only
      cases hv : gomap.Load raw backend.Backend.Endpoint with
      | none => exact vendor.ClonesAndPublishes.same s _ (by simp)
      | some v =>
        simp only
        cases hg : env.NewGrpcConn backend.Backend with
        | error err => exact vendor.ClonesAndPublishes.same s _ (by simp)
        | ok r =>
          obtain ⟨cc, conf⟩ := r
          simp only
          cases hb : gomap.Load raw conf.Endpoint with
          | none => exact vendor.ClonesAndPublishes.failed s _ _ [_] [_] (by simp) rfl rfl rfl
          | some before =>
            simp only
            split
            · exact vendor.ClonesAndPublishes.failed s _ _ [_] [_] (by simp) rfl rfl rfl
            · exact vendor.ClonesAndPublishes.failed s _ _ [_] [_] (by simp) rfl rfl rfl
            · cases dbErr with
              | some err =>
                exact vendor.ClonesAndPublishes.failed s _ _ [_] [_] (by simp) rfl rfl rfl
              | none => exact vendor.ClonesAndPublishes.published s _ _ [_] rfl rfl rfl

theorem vendor.switchVendorBackend_shape (enable : Bool) (env : vendor.Env)
    (dbErr : Option GoError) (endpoint : String) (s : vendor.Memory) :
    ∃ p, (vendor.switchVendorBackend enable env dbErr endpoint s).2 = s ∨
      (vendor.switchVendorBackend enable env dbErr endpoint s).2 = s.setEnabled p enable ∨
      ∃ vc, (vendor.switchVendorBackend enable env dbErr endpoint s).2 =
        (s.setEnabled p enable).storeBackends s.backends.conns vc := by
  unfold vendor.switchVendorBackend
  by_cases hl : s.locked = true
  · rw [if_pos hl]
    exact ⟨0, Or.inl rfl⟩
  · rw [if_neg hl]
    cases hm : s.maps[s.backends.conns]? with
    | none => exact ⟨0, Or.inl rfl⟩
    | some raw =>
      simp only
      cases hv : gomap.Load raw endpoint with
      | none => exact ⟨0, Or.inl rfl⟩
      | some v =>
        simp only
        cases hi : s.infos[v.Info]? with
        | none => exact ⟨0, Or.inl rfl⟩
        | some info =>
          simp only
          by_cases he : info.UsedBy.Enabled = enable
          · rw [if_pos he]
            exact ⟨0, Or.inl rfl⟩
          · rw [if_neg he]
            have hb : info.UsedBy.Enabled = !enable := by
              cases hx : info.UsedBy.Enabled <;> cases enable <;> simp_all
            have hr := vendor.Memory.setEnabled_restore s v.Info enable info hi hb
            refine ⟨v.Info, ?_⟩
            split
            · exact Or.inr (Or.inl rfl)
            · exact Or.inl hr
            · cases dbErr with
              | some err => exact Or.inl hr
              | none => exact Or.inr (Or.inr ⟨_, rfl⟩)

theorem vendor.switchVendorBackends_shape (enable : Bool) (env : vendor.Env)
    (dbErr : Option GoError) (endpoints : List String) (s : vendor.Memory) :
    ∃ raw need, (vendor.switchVendorBackends enable env dbErr endpoints s).2 = s ∨
      (vendor.switchVendorBackends enable env dbErr endpoints s).2 =
        vendor.setEnabledAll raw enable need s ∨
      ∃ vc, (vendor.switchVendorBackends enable env dbErr endpoints s).2 =
        (vendor.setEnabledAll raw enable need s).storeBackends s.backends.conns vc := by
  unfold vendor.switchVendorBackends
  by_cases hl : s.locked = true
  · rw [if_pos hl]
    exact ⟨[], [], Or.inl rfl⟩
  · rw [if_neg hl]
    cases hm : s.maps[s.backends.conns]? with
    | none => exact ⟨[], [], Or.inl rfl⟩
    | some raw =>
      simp only
      cases hn : vendor.needChangeEndpoints enable s.infos raw endpoints [] with
      | error out => exact ⟨[], [], Or.inl rfl⟩
      | ok need =>
        have hneed := vendor.needChangeEndpoints_spec enable s.infos raw endpoints [] need hn
          (by intro i hi; simp [vendor.infoAddrs] at hi)
        have hr := vendor.setEnabledAll_restore raw enable need s hneed
        refine ⟨raw, need, ?_⟩
        simp only
        split
        · exact Or.inr (Or.inl rfl)
        · exact Or.inl hr
        · cases dbErr with
          | some err => exact Or.inl hr
          | none => exact Or.inr (Or.inr ⟨_, rfl⟩)

theorem vendor.switchVendorBackend_inplace (enable : Bool) (env : vendor.Env)
    (dbErr : Option GoError) (endpoint : String) (s : vendor.Memory) :
    vendor.SwitchesInPlace s (vendor.switchVendorBackend enable env dbErr endpoint s) := by
  obtain ⟨p, h⟩ := vendor.switchVendorBackend_shape enable env dbErr endpoint s
  have hf := vendor.Memory.setEnabled_fields s p enable
  have hi := vendor.Memory.setEnabled_infos s p enable
  refine ⟨?_, ?_, ?_, fun err he => vendor.switchVendorBackend_error enable env dbErr endpoint s
    err he⟩
  · rcases h with h | h | ⟨vc, h⟩ <;> rw [h]
    · exact hf.1
    · exact hf.1
  · rcases h with h | h | ⟨vc, h⟩ <;> rw [h]
    · rw [hf.2.2.1]
    · rfl
  · intro i
    have hcase : (s.setEnabled p enable).infos[i]? = s.infos[i]? ∨
        ∃ b, (s.setEnabled p enable).infos[i]? = (s.infos[i]?).map (vendor.withEnabled b) := by
      rw [hi i]
      split_ifs
      · exact Or.inr ⟨enable, rfl⟩
      · exact Or.inl rfl
    rcases h with h | h | ⟨vc, h⟩ <;> rw [h]
    · exact Or.inl rfl
    · exact hcase
    · exact hcase

theorem vendor.switchVendorBackends_inplace (enable : Bool) (env : vendor.Env)
    (dbErr : Option GoError) (endpoints : List String) (s : vendor.Memory) :
    vendor.SwitchesInPlace s (vendor.switchVendorBackends enable env dbErr endpoints s) := by
  obtain ⟨raw, need, h⟩ := vendor.switchVendorBackends_shape enable env dbErr endpoints s
  have hf := vendor.setEnabledAll_fields raw enable need s
  have hi := vendor.setEnabledAll_infos raw enable need s
  refine ⟨?_, ?_, ?_, fun err he => vendor.switchVendorBackends_error enable env dbErr
    endpoints s err he⟩
  · rcases h with h | h | ⟨vc, h⟩ <;> rw [h]
    · exact hf.1
    · exact hf.1
  · rcases h with h | h | ⟨vc, h⟩ <;> rw [h]
    · rw [hf.2.2.1]
    · rfl
  · intro i
    have hcase : (vendor.setEnabledAll raw enable need s).infos[i]? = s.infos[i]? ∨
        ∃ b, (vendor.setEnabledAll raw enable need s).infos[i]? =
          (s.infos[i]?).map (vendor.withEnabled b) := by
      rw [hi i]
      split_ifs
      · exact Or.inr ⟨enable, rfl⟩
      · exact Or.inl rfl
    rcases h with h | h | ⟨vc, h⟩ <;> rw [h]
    · exact Or.inl rfl
    · exact hcase
    · exact hcase

theorem vendor.switchVendorBackend_publishes (enable : Bool) (env : vendor.Env)
    (dbErr : Option GoError) (endpoint : String) (s : vendor.Memory) :
    (vendor.switchVendorBackend enable env dbErr endpoint s).1 = vendor.Outcome.ok →
    vendor.SwitchedAndPublished env enable endpoint s
      (vendor.switchVendorBackend enable env dbErr endpoint s) := by
  intro hok
  unfold vendor.switchVendorBackend at hok ⊢
  by_cases hl : s.locked = true
  · rw [if_pos hl] at hok; simp at hok
  · rw [if_neg hl] at hok ⊢
    cases hm : s.maps[s.backends.conns]? with
    | none => rw [hm] at hok; simp at hok
    | some raw =>
      rw [hm] at hok
      simp only at hok ⊢
      cases hv : gomap.Load raw endpoint with
      | none => rw [hv] at hok; simp at hok
      | some v =>
        rw [hv] at hok
        simp only at hok ⊢
        cases hi : s.infos[v.Info]? with
        | none => rw [hi] at hok; simp at hok
        | some info =>
          rw [hi] at hok
          simp only at hok ⊢
          refine ⟨raw, v, info, hm, hv, hi, ?_, ?_⟩
          · intro he
            rw [if_pos he]
          · intro he
            rw [if_neg he] at hok ⊢
            have e1 : s.setEnabled v.Info enable =
                { s with infos := s.infos.set v.Info (vendor.withEnabled enable info) } := by
              simp only [vendor.Memory.setEnabled, hi]
              rfl
            cases hc : vendor.newVendorClients env (s.setEnabled v.Info enable) raw with
            | none => rw [hc] at hok; simp at hok
            | some r =>
              rw [hc] at hok
              cases r with
              | error e => simp at hok
              | ok vc =>
                simp only at hok ⊢
                cases dbErr with
                | some e => simp at hok
                | none =>
                  simp only [vendor.Memory.storeBackends]
                  have hf := vendor.Memory.setEnabled_fields s v.Info enable
                  refine ⟨by rw [e1], hf.1, hf.2.1, trivial, raw, ?_, hc⟩
                  simp only [hf.1]
                  exact hm

theorem vendor.AddVendorBackend_publishes (env : vendor.Env) (dbErr : Option GoError)
    (backend : model.VendorBackend) (s : vendor.Memory) :
    (vendor.AddVendorBackend env dbErr backend s).1 = vendor.Outcome.ok →
    vendor.StoredAndPublished env backend s
      (vendor.AddVendorBackend env dbErr backend s) := by
  intro hok
  unfold vendor.AddVendorBackend at hok ⊢
  by_cases hl : s.locked = true
  · rw [if_pos hl] at hok; simp at hok
  · rw [if_neg hl] at hok ⊢
    cases hm : s.maps[s.backends.conns]? with
    | none => rw [hm] at hok; simp at hok
    | some raw =>
      rw [hm] at hok
      simp only at hok ⊢
      cases hv : gomap.Load raw backend.Backend.Endpoint with
      | some v => rw [hv] at hok; simp at hok
      | none =>
        rw [hv] at hok
        simp only at hok ⊢
        cases hg : env.NewGrpcConn backend.Backend with
        | error err => rw [hg] at hok; simp at hok
        | ok r =>
          obtain ⟨cc, conf⟩ := r
          rw [hg] at hok
          simp only at hok ⊢
          split at hok
          · simp at hok
          · simp at hok
          · next vc hc =>
            cases dbErr with
            | some e => simp at hok
            | none =>
              refine ⟨raw, cc, conf, hm, hg, rfl, rfl, rfl, _, ?_, hc⟩
              simp [vendor.Memory.storeBackends]

theorem vendor.UpdateVendorBackend_publishes (env : vendor.Env) (dbErr : Option GoError)
    (backend : model.VendorBackend) (s : vendor.Memory) :
    (vendor.UpdateVendorBackend env dbErr backend s).1 = vendor.Outcome.ok →
    vendor.StoredAndPublished env backend s
      (vendor.UpdateVendorBackend env dbErr backend s) := by
  intro hok
  unfold vendor.UpdateVendorBackend at hok ⊢
  by_cases hl : s.locked = true
  · rw [if_pos hl] at hok; simp at hok
  · rw [if_neg hl] at hok ⊢
    cases hm : s.maps[s.backends.conns]? with
    | none => rw [hm] at hok; simp at hok
    | some raw =>
      rw [hm] at hok
      simp only at hok ⊢
      cases hv : gomap.Load raw backend.Backend.Endpoint with
      | none => rw [hv] at hok; simp at hok
      | some v =>
        rw [hv] at hok
        simp only at hok ⊢
        cases hg : env.NewGrpcConn backend.Backend with
        | error err => rw [hg] at hok; simp at hok
        | ok r =>
          obtain ⟨cc, conf⟩ := r
          rw [hg] at hok
          simp only at hok ⊢
          cases hb : gomap.Load raw conf.Endpoint with
          | none => rw [hb] at hok; simp at hok
          | some before =>
            rw [hb] at hok
            simp only at hok ⊢
            split at hok
            · simp at hok
            · simp at hok
            · next vc hc =>
              cases dbErr with
              | some e => simp at hok
              | none =>
                refine ⟨raw, cc, conf, hm, hg, rfl, rfl, rfl, _, ?_, hc⟩
                simp [vendor.Memory.storeBackends, vendor.Memory.close]

theorem vendor.DeleteVendorBackend_publishes (env : vendor.Env) (dbErr : Option GoError)
    (endpoint : String) (s : vendor.Memory) :
    (vendor.DeleteVendorBackend env dbErr endpoint s).1 = vendor.Outcome.ok →
    vendor.DeletedAndPublished env [endpoint] s
      (vendor.DeleteVendorBackend env dbErr endpoint s) := by
  intro hok
  unfold vendor.DeleteVendorBackend at hok ⊢
  by_cases hl : s.locked = true
  · rw [if_pos hl] at hok; simp at hok
  · rw [if_neg hl] at hok ⊢
    cases hm : s.maps[s.backends.conns]? with
    | none => rw [hm] at hok; simp at hok
    | some raw =>
      rw [hm] at hok
      simp only at hok ⊢
      cases hv : gomap.Load raw endpoint with
      | none => rw [hv] at hok; simp at hok
      | some before =>
        rw [hv] at hok
        simp only at hok ⊢
        split at hok
        · simp at hok
        · simp at hok
        · next vc hc =>
          cases dbErr with
          | some e => simp at hok
          | none =>
            refine ⟨raw, hm, rfl, rfl, rfl, _, ?_, hc⟩
            simp [vendor.Memory.storeBackends, vendor.Memory.close]

theorem vendor.deleteAll_ok :
    ∀ (endpoints : List String) (m : gomap.Map vendor.BackendConn) (before : List Nat)
      (m1 : gomap.Map vendor.BackendConn) (before1 : List Nat),
      vendor.deleteAll endpoints m before = .ok (m1, before1) →
      m1 = endpoints.foldl gomap.Delete m := by
  intro endpoints
  induction endpoints with
  | nil =>
    intro m before m1 before1 h
    simp only [vendor.deleteAll, Except.ok.injEq, Prod.mk.injEq] at h
    rw [← h.1]
    rfl
  | cons e endpoints ih =>
    intro m before m1 before1 h
    unfold vendor.deleteAll at h
    cases hv : gomap.Load m e with
    | none => rw [hv] at h; simp at h
    | some conn =>
      rw [hv] at h
      simp only at h
      rw [List.foldl_cons]
      exact ih _ _ _ _ h

theorem vendor.foldl_close_backends (env : vendor.Env) :
    ∀ (before : List Nat) (s : vendor.Memory),
      vendor.Memory.ClientsBuilt env s →
      vendor.Memory.ClientsBuilt env (before.foldl vendor.Memory.close s) := by
  intro before
  induction before with
  | nil => intro s h; exact h
  | cons c before ih =>
    intro s h
    rw [List.foldl_cons]
    exact ih (s.close c) h

theorem vendor.DeleteVendorBackends_publishes (env : vendor.Env) (dbErr : Option GoError)
    (endpoints : List String) (s : vendor.Memory) :
    (vendor.DeleteVendorBackends env dbErr endpoints s).1 = vendor.Outcome.ok →
    vendor.DeletedAndPublished env endpoints s
      (vendor.DeleteVendorBackends env dbErr endpoints s) := by
  intro hok
  unfold vendor.DeleteVendorBackends at hok ⊢
  by_cases hl : s.locked = true
  · rw [if_pos hl] at hok; simp at hok
  · rw [if_neg hl] at hok ⊢
    cases hm : s.maps[s.backends.conns]? with
    | none => rw [hm] at hok; simp at hok
    | some raw =>
      rw [hm] at hok
      simp only at hok ⊢
      cases hd : vendor.deleteAll endpoints raw [] with
      | error r => rw [hd] at hok; simp at hok
      | ok r =>
        obtain ⟨m1, before⟩ := r
        rw [hd] at hok
        simp only at hok ⊢
        have hm1 := vendor.deleteAll_ok endpoints raw [] m1 before hd
        split at hok
        · simp at hok
        · simp at hok
        · next vc hc =>
          cases dbErr with
          | some e => simp at hok
          | none =>
            simp only
            obtain ⟨a1, a2, a3⟩ := vendor.foldl_close_fields before
              (vendor.Memory.storeBackends { s with maps := s.maps ++ [m1] } s.maps.length vc)
            refine ⟨raw, hm, a2, ?_, ?_, ?_⟩
            · rw [a1, ← hm1]; rfl
            · rw [a3]; rfl
            · apply vendor.foldl_close_backends
              exact ⟨m1, by simp [vendor.Memory.storeBackends], hc⟩

/-- C26 (amended): `AddVendorBackend`, `DeleteVendorBackend`,
`DeleteVendorBackends` and `UpdateVendorBackend` leave every map object and
every backend info of the old memory unchanged, whether they succeed or fail;
when they succeed, the published map is a new map object, which holds the map
published before with the new connection stored under its endpoint (add,
update) or with the endpoints deleted (delete), and the published clients are
the ones `newVendorClients` builds from it; when they do not succeed the
published value is the old one. `EnableVendorBackend(s)` and
`DisableVendorBackend(s)` make no new map: the published map is the map object
published before, a backend info differs from the old one at most in its flag
`Enabled`, and after an error the memory is the old one; when they succeed,
the backend info of every endpoint of the call has the flag as wanted, written
at its address, every other backend info is as before, and the same map is
published with the clients `newVendorClients` builds from it (the
single-endpoint functions leave the memory as it is when the flag is as wanted
already). -/
theorem vendor.publish_spec (env : vendor.Env) (dbErr : Option GoError)
    (backend : model.VendorBackend) (endpoint : String) (endpoints : List String)
    (s : vendor.Memory) :
    vendor.ClonesAndPublishes s (vendor.AddVendorBackend env dbErr backend s) ∧
    vendor.ClonesAndPublishes s (vendor.DeleteVendorBackend env dbErr endpoint s) ∧
    vendor.ClonesAndPublishes s (vendor.DeleteVendorBackends env dbErr endpoints s) ∧
    vendor.ClonesAndPublishes s (vendor.UpdateVendorBackend env dbErr backend s) ∧
    vendor.SwitchesInPlace s (vendor.EnableVendorBackend env dbErr endpoint s) ∧
    vendor.SwitchesInPlace s (vendor.EnableVendorBackends env dbErr endpoints s) ∧
    vendor.SwitchesInPlace s (vendor.DisableVendorBackend env dbErr endpoint s) ∧
    vendor.SwitchesInPlace s (vendor.DisableVendorBackends env dbErr endpoints s) ∧
    ((vendor.AddVendorBackend env dbErr backend s).1 = vendor.Outcome.ok →
      vendor.StoredAndPublished env backend s
        (vendor.AddVendorBackend env dbErr backend s)) ∧
    ((vendor.DeleteVendorBackend env dbErr endpoint s).1 = vendor.Outcome.ok →
      vendor.DeletedAndPublished env [endpoint] s
        (vendor.DeleteVendorBackend env dbErr endpoint s)) ∧
    ((vendor.DeleteVendorBackends env dbErr endpoints s).1 = vendor.Outcome.ok →
      vendor.DeletedAndPublished env endpoints s
        (vendor.DeleteVendorBackends env dbErr endpoints s)) ∧
    ((vendor.UpdateVendorBackend env dbErr backend s).1 = vendor.Outcome.ok →
      vendor.StoredAndPublished env backend s
        (vendor.UpdateVendorBackend env dbErr backend s)) ∧
    ((vendor.EnableVendorBackend env dbErr endpoint s).1 = vendor.Outcome.ok →
      vendor.SwitchedAndPublished env true endpoint s
        (vendor.EnableVendorBackend env dbErr endpoint s)) ∧
    ((vendor.EnableVendorBackends env dbErr endpoints s).1 = vendor.Outcome.ok →
      vendor.SwitchedAllAndPublished env true endpoints s
        (vendor.EnableVendorBackends env dbErr endpoints s)) ∧
    ((vendor.DisableVendorBackend env dbErr endpoint s).1 = vendor.Outcome.ok →
      vendor.SwitchedAndPublished env false endpoint s
        (vendor.DisableVendorBackend env dbErr endpoint s)) ∧
    ((vendor.DisableVendorBackends env dbErr endpoints s).1 = vendor.Outcome.ok →
      vendor.SwitchedAllAndPublished env false endpoints s
        (vendor.DisableVendorBackends env dbErr endpoints s)) :=
  ⟨vendor.AddVendorBackend_clones env dbErr backend s,
   vendor.DeleteVendorBackend_clones env dbErr endpoint s,
   vendor.DeleteVendorBackends_clones env dbErr endpoints s,
   vendor.UpdateVendorBackend_clones env dbErr backend s,
   vendor.switchVendorBackend_inplace true env dbErr endpoint s,
   vendor.switchVendorBackends_inplace true env dbErr endpoints s,
   vendor.switchVendorBackend_inplace false env dbErr endpoint s,
   vendor.switchVendorBackends_inplace false env dbErr endpoints s,
   vendor.AddVendorBackend_publishes env dbErr backend s,
   vendor.DeleteVendorBackend_publishes env dbErr endpoint s,
   vendor.DeleteVendorBackends_publishes env dbErr endpoints s,
   vendor.UpdateVendorBackend_publishes env dbErr backend s,
   vendor.switchVendorBackend_publishes true env dbErr endpoint s,
   vendor.switchVendorBackends_publishes true env dbErr endpoints s,
   vendor.switchVendorBackend_publishes false env dbErr endpoint s,
   vendor.switchVendorBackends_publishes false env dbErr endpoints s⟩

/-- Witness for C26: on the example memory enabling `b2:80` and adding
`b3:80` succeed, and so have left what the theorem says of a successful
call. -/
theorem vendor.publish_spec_witness :
    vendor.SwitchedAndPublished Scenario.vendorEnv true "b2:80" Scenario.vendorMemory
      (vendor.EnableVendorBackend Scenario.vendorEnv none "b2:80" Scenario.vendorMemory) ∧
    vendor.StoredAndPublished Scenario.vendorEnv (Scenario.bilibiliBackend "b3:80" "third" true)
      Scenario.vendorMemory
      (vendor.AddVendorBackend Scenario.vendorEnv none
        (Scenario.bilibiliBackend "b3:80" "third" true) Scenario.vendorMemory) :=
  ⟨(vendor.publish_spec Scenario.vendorEnv none (Scenario.bilibiliBackend "b3:80" "third" true)
     "b2:80" [] Scenario.vendorMemory).2.2.2.2.2.2.2.2.2.2.2.2.1 (by decide),
   (vendor.publish_spec Scenario.vendorEnv none (Scenario.bilibiliBackend "b3:80" "third" true)
     "b2:80" [] Scenario.vendorMemory).2.2.2.2.2.2.2.2.1 (by decide)⟩

/-- Counterexample to C26 as stated: enabling the disabled backend `b2:80`
succeeds, publishes the map object that was published before (no new map),
and the snapshot published before the call now shows `b2:80` enabled: its
backend info was written in place. Disabling `b1:80` does the same with the
flag of `b1:80`. -/
theorem vendor.enable_writes_snapshot :
    (vendor.EnableVendorBackend Scenario.vendorEnv none "b2:80" Scenario.vendorMemory).1 =
      vendor.Outcome.ok ∧
    (vendor.EnableVendorBackend Scenario.vendorEnv none "b2:80"
      Scenario.vendorMemory).2.backends.conns = Scenario.vendorMemory.backends.conns ∧
    (vendor.EnableVendorBackend Scenario.vendorEnv none "b2:80" Scenario.vendorMemory).2.maps =
      Scenario.vendorMemory.maps ∧
    Scenario.vendorMemory.snapshot 0 =
      some [("b1:80", 1, some (Scenario.bilibiliBackend "b1:80" "main" true)),
        ("b2:80", 2, some (Scenario.bilibiliBackend "b2:80" "spare" false))] ∧
    (vendor.EnableVendorBackend Scenario.vendorEnv none "b2:80"
      Scenario.vendorMemory).2.snapshot 0 =
      some [("b1:80", 1, some (Scenario.bilibiliBackend "b1:80" "main" true)),
        ("b2:80", 2, some (Scenario.bilibiliBackend "b2:80" "spare" true))] ∧
    ¬ vendor.Memory.Preserved Scenario.vendorMemory
      (vendor.EnableVendorBackend Scenario.vendorEnv none "b2:80" Scenario.vendorMemory).2 ∧
    (vendor.DisableVendorBackend Scenario.vendorEnv none "b1:80"
      Scenario.vendorMemory).2.snapshot 0 =
      some [("b1:80", 1, some (Scenario.bilibiliBackend "b1:80" "main" false)),
        ("b2:80", 2, some (Scenario.bilibiliBackend "b2:80" "spare" false))] := by
  refine ⟨by decide, by decide, by decide, by decide, by decide, ?_, by decide⟩
  intro h
  have h1 := h.2 1 (Scenario.bilibiliBackend "b2:80" "spare" false) (by decide)
  revert h1
  decide

/-- Adding, updating and deleting on the example memory: the snapshot
published before the call is unchanged and the published map is a new
object. -/
theorem vendor.clone_examples :
    (vendor.AddVendorBackend Scenario.vendorEnv none
      (Scenario.bilibiliBackend "b3:80" "third" true) Scenario.vendorMemory).2.snapshot 0 =
      Scenario.vendorMemory.snapshot 0 ∧
    (vendor.AddVendorBackend Scenario.vendorEnv none
      (Scenario.bilibiliBackend "b3:80" "third" true) Scenario.vendorMemory).2.backends.conns =
      1 ∧
    (vendor.UpdateVendorBackend Scenario.vendorEnv none
      (Scenario.bilibiliBackend "b2:80" "spare" true) Scenario.vendorMemory).2.snapshot 0 =
      Scenario.vendorMemory.snapshot 0 ∧
    (vendor.UpdateVendorBackend Scenario.vendorEnv none
      (Scenario.bilibiliBackend "b2:80" "spare" true) Scenario.vendorMemory).2.snapshot 1 =
      some [("b1:80", 1, some (Scenario.bilibiliBackend "b1:80" "main" true)),
        ("b2:80", 7, some (Scenario.bilibiliBackend "b2:80" "spare" true))] ∧
    (vendor.DeleteVendorBackends Scenario.vendorEnv none ["b2:80", "b1:80"]
      Scenario.vendorMemory).2.snapshot 0 = Scenario.vendorMemory.snapshot 0 ∧
    (vendor.DeleteVendorBackends Scenario.vendorEnv none ["b2:80", "b1:80"]
      Scenario.vendorMemory).2.snapshot 1 =
      some ([] : List (String × Nat × Option model.VendorBackend)) := by
  refine ⟨by decide, by decide, by decide, by decide, by decide, by decide⟩

/-- The successful calls on the example memory: enabling `b2:80` writes its
flag and publishes the same map with the clients of both backends; disabling
`b1:80` leaves no client; adding `b3:80` publishes a new map with the three
entries and the clients of the two enabled backends; deleting `b1:80`
publishes a new map without it and closes its connection. -/
theorem vendor.publish_examples :
    vendor.EnableVendorBackend Scenario.vendorEnv none "b2:80" Scenario.vendorMemory =
      (vendor.Outcome.ok,
       { infos := [Scenario.bilibiliBackend "b1:80" "main" true,
                   Scenario.bilibiliBackend "b2:80" "spare" true]
         maps := [[("b1:80", { Conn := 1, Info := 0 }), ("b2:80", { Conn := 2, Info := 1 })]]
         closed := []
         backends := { conns := 0,
                       clients := { bilibili := [("main", 1), ("spare", 2)], alist := [],
                                    emby := [] } }
         locked := false }) ∧
    (vendor.DisableVendorBackends Scenario.vendorEnv none ["b1:80", "b2:80"]
        Scenario.vendorMemory).2.backends =
      { conns := 0, clients := { bilibili := [], alist := [], emby := [] } } ∧
    vendor.AddVendorBackend Scenario.vendorEnv none
        (Scenario.bilibiliBackend "b3:80" "third" true) Scenario.vendorMemory =
      (vendor.Outcome.ok,
       { infos := [Scenario.bilibiliBackend "b1:80" "main" true,
                   Scenario.bilibiliBackend "b2:80" "spare" false,
                   Scenario.bilibiliBackend "b3:80" "third" true]
         maps := [[("b1:80", { Conn := 1, Info := 0 }), ("b2:80", { Conn := 2, Info := 1 })],
                  [("b1:80", { Conn := 1, Info := 0 }), ("b2:80", { Conn := 2, Info := 1 }),
                   ("b3:80", { Conn := 7, Info := 2 })]]
         closed := []
         backends := { conns := 1,
                       clients := { bilibili := [("main", 1), ("third", 7)], alist := [],
                                    emby := [] } }
         locked := false }) ∧
    vendor.DeleteVendorBackend Scenario.vendorEnv none "b1:80" Scenario.vendorMemory =
      (vendor.Outcome.ok,
       { infos := [Scenario.bilibiliBackend "b1:80" "main" true,
                   Scenario.bilibiliBackend "b2:80" "spare" false]
         maps := [[("b1:80", { Conn := 1, Info := 0 }), ("b2:80", { Conn := 2, Info := 1 })],
                  [("b2:80", { Conn := 2, Info := 1 })]]
         closed := [1]
         backends := { conns := 1, clients := { bilibili := [], alist := [], emby := [] } }
         locked := false }) := by
  refine ⟨by decide, by decide, by decide, by decide⟩
